import Mathlib

/-!
PCGExtendedToolkit: ConnectPoints, BreakClustersToPaths, WriteEdgeProperties and
SampleNearestSurface.

A shallow embedding of `PCGExConnectPoints.cpp`, `PCGExBreakClustersToPaths.cpp`,
`PCGExWriteEdgeProperties.cpp` and `PCGExSampleNearestSurface.cpp`.

Conventions of the embedding:

* `int32`, `uint32`, `uint64` are `Int`/`Nat`; no arithmetic on them can overflow in the
  embedded code (indices and packed keys are only compared and stored).
* `double` and `float` are idealised as an exact fixed-point number: the integer `n` stands
  for `n / 100` (so the constant `0.05` is `5` and the weight `1` is `100`); squared lengths
  count squared hundredths.  Rounding of floating-point arithmetic is not modelled.
* Stateful code is written in state-passing style.  Calls made to collaborators whose code
  is not part of the translated sources (probes, the octree, `Algo::Sort`) are recorded in a
  call log next to the state they return.
* Parallel loops are run one scope after the other, in scope order.  Scopes write to
  disjoint array entries and to their own edge set, so the order does not change the result.
-/

namespace PCGEx

abbrev int32 := Int
abbrev uint32 := Nat
abbrev uint64 := Nat
abbrev double := Int

/-! ## Engine containers -/

/-- Engine container `TSet<T>`: a collection without repeated elements, listed in insertion
order. -/
structure TSet (α : Type) [DecidableEq α] where
  Elements : List α
  nodup : Elements.Nodup

namespace TSet

variable {α : Type} [DecidableEq α]

instance : DecidableEq (TSet α) := fun a b =>
  decidable_of_iff (a.Elements = b.Elements)
    ⟨fun h => by cases a; cases b; cases h; rfl, fun h => by rw [h]⟩

/-- The set `TSet<T>()` holds nothing. -/
def Empty : TSet α := ⟨[], List.nodup_nil⟩

/-- The member test `Contains(x)`. -/
def Contains (s : TSet α) (x : α) : Bool := decide (x ∈ s.Elements)

/-- The insertion `Add(x)`: no effect when `x` is already an element. -/
def Add (s : TSet α) (x : α) : TSet α :=
  if h : x ∈ s.Elements then s
  else ⟨s.Elements ++ [x], List.Nodup.append s.nodup (List.nodup_singleton x)
    (by
      intro a ha hb
      rw [List.mem_singleton] at hb
      exact h (hb ▸ ha))⟩

/-- The element count `Num()`. -/
def Num (s : TSet α) : Nat := s.Elements.length

end TSet

/-- A scheduler scope `PCGExMT::FScope`: the index range `[Start, End)` handled by one work
item, and the position `LoopIndex` of that work item. -/
structure FScope where
  Start : Nat
  Count : Nat
  LoopIndex : Nat
deriving DecidableEq, Repr

/-- The end `FScope::End` of the range, exclusive. -/
def FScope.End (s : FScope) : Nat := s.Start + s.Count

/-- Modelled from the spec: `PCGExMT::TScopedSet<T>` is declared in a header that is not among
the translated sources.  Section 4.4: "One instance per scheduler scope ... each scope owns its
own set".  The constructor receives the scopes and creates one empty set for each. -/
structure TScopedSet (α : Type) [DecidableEq α] where
  Sets : List (TSet α)

namespace TScopedSet

variable {α : Type} [DecidableEq α]

/-- The constructor `TScopedSet(Loops, Reserve)`: one empty set per scope. -/
def Make (Loops : List FScope) : TScopedSet α := ⟨Loops.map (fun _ => TSet.Empty)⟩

/-- The accessor `Get(Scope)`: the set owned by the scope. -/
def Get (s : TScopedSet α) (Scope : FScope) : TSet α := s.Sets.getD Scope.LoopIndex TSet.Empty

/-- Stores back the set owned by the scope (the source mutates it through a pointer). -/
def Put (s : TScopedSet α) (Scope : FScope) (v : TSet α) : TScopedSet α :=
  ⟨s.Sets.set Scope.LoopIndex v⟩

/-- The traversal `ForEach(Func)`, as a left fold over the sets in scope order. -/
def ForEach {σ : Type} (s : TScopedSet α) (Func : σ → TSet α → σ) (init : σ) : σ :=
  s.Sets.foldl Func init

end TScopedSet

/-! ## Graph -/

/-- The high half `PCGEx::H64A` of a packed 64-bit key. -/
def H64A (Hash : uint64) : uint32 := Hash / 2 ^ 32

/-- The low half `PCGEx::H64B` of a packed 64-bit key. -/
def H64B (Hash : uint64) : uint32 := Hash % 2 ^ 32

/-- The packing `PCGEx::H64`: packs two 32-bit values, `A` in the high half. -/
def H64 (A B : uint32) : uint64 := A * 2 ^ 32 + B

/-- An edge of the graph under construction. -/
structure FEdge where
  Index : Nat
  Start : uint32
  End : uint32
  IOIndex : int32
deriving DecidableEq, Repr

/-- The packed key an edge was created from. -/
def FEdge.Key (e : FEdge) : uint64 := H64 e.Start e.End

/-- Modelled from the spec: `PCGExGraph::FGraph` lives in `Graph/PCGExGraph.h`, which is not
among the translated sources.  Section 3: the graph is "mutable during probing (append-only
edge keys via scoped accumulators)" and its "edge keys are unique"; it keeps the keys it has
seen next to the edge array. -/
structure FGraph where
  Edges : List FEdge
  UniqueEdges : TSet uint64

/-- The graph a new `FGraphBuilder` starts from. -/
def FGraph.New : FGraph := ⟨[], TSet.Empty⟩

/-- Modelled from the spec: `FGraph::InsertEdges_Unsafe(InEdges, InIOIndex)` is not among the
translated sources.  Section 4.4 and the dedup property of section 8: the keys of one scope
set are merged into the graph, a key the graph already holds creating no second edge. -/
def FGraph.InsertEdges_Unsafe (G : FGraph) (InEdges : TSet uint64) (InIOIndex : int32) : FGraph :=
  InEdges.Elements.foldl
    (fun g E =>
      if g.UniqueEdges.Contains E then g
      else ⟨g.Edges ++ [⟨g.Edges.length, H64A E, H64B E, InIOIndex⟩], g.UniqueEdges.Add E⟩)
    G

/-- The builder `PCGExGraph::FGraphBuilder`, reduced to the members the translated code touches. -/
structure FGraphBuilder where
  Graph : FGraph
  bCompiledSuccessfully : Bool

/-- The merge of `FProcessor::CompleteWork` (PCGExConnectPoints.cpp, line 330):
`ScopedEdges->ForEach([this](const TSet<uint64>& Edges) { Graph->InsertEdges_Unsafe(Edges, -1); })`. -/
def MergeScopedEdges (ScopedEdges : TScopedSet uint64) (Graph : FGraph) : FGraph :=
  ScopedEdges.ForEach (fun g Edges => g.InsertEdges_Unsafe Edges (-1)) Graph

/-! ## Geometry -/

/-- Engine vector `FVector`. -/
structure FVector where
  X : double
  Y : double
  Z : double
deriving DecidableEq, Repr

/-- The constructor `FVector(double)`: the same value on the three axes. -/
def FVector.Splat (d : double) : FVector := ⟨d, d, d⟩

/-- Component-wise difference `A - B`. -/
def FVector.sub (A B : FVector) : FVector := ⟨A.X - B.X, A.Y - B.Y, A.Z - B.Z⟩

/-- Component-wise opposite `-A`. -/
def FVector.neg (A : FVector) : FVector := ⟨-A.X, -A.Y, -A.Z⟩

/-- Dot product `FVector::DotProduct`. -/
def FVector.DotProduct (A B : FVector) : double := A.X * B.X + A.Y * B.Y + A.Z * B.Z

/-- Squared distance `FVector::DistSquared(V1, V2)`. -/
def FVector.DistSquared (V1 V2 : FVector) : double :=
  (V2.X - V1.X) * (V2.X - V1.X) + (V2.Y - V1.Y) * (V2.Y - V1.Y) + (V2.Z - V1.Z) * (V2.Z - V1.Z)

/-- Engine integer vector `FInt32Vector`. -/
structure FInt32Vector where
  X : int32
  Y : int32
  Z : int32
deriving DecidableEq, Repr

/-- The constant `FInt32Vector::ZeroValue`. -/
def FInt32Vector.ZeroValue : FInt32Vector := ⟨0, 0, 0⟩

/-- Engine quaternion `FQuat`. -/
structure FQuat where
  X : double
  Y : double
  Z : double
  W : double
deriving DecidableEq, Repr

/-- Engine transform `FTransform`. -/
structure FTransform where
  Rotation : FQuat
  Translation : FVector
  Scale3D : FVector
deriving DecidableEq, Repr

/-- The accessor `FTransform::GetLocation`. -/
def FTransform.GetLocation (T : FTransform) : FVector := T.Translation

/-- Engine point `FPCGPoint`, reduced to its transform and two scalar members. -/
structure FPCGPoint where
  Transform : FTransform
  Seed : int32
  MetadataEntry : Int
deriving DecidableEq, Repr

/-- Engine box `FBoxCenterAndExtent`. -/
structure FBoxCenterAndExtent where
  Center : FVector
  Extent : FVector
deriving DecidableEq, Repr

/-- Engine bounds `FBoxSphereBounds`. -/
structure FBoxSphereBounds where
  Origin : FVector
  BoxExtent : FVector
  SphereRadius : double
deriving DecidableEq, Repr

/-- An octree element `PCGEx::FIndexedItem`: a point index and the bounds it is stored under. -/
structure FIndexedItem where
  Index : Nat
  Bounds : FBoxSphereBounds
deriving DecidableEq, Repr

/-- Modelled from the spec: the box-overlap test of the spatial index (section 4.2, "using a
box-overlap test (not an exact sphere test)"); the octree is an engine type whose code is not
among the translated sources.  Two boxes overlap when on every axis the centres are no further
apart than the sum of the half-extents. -/
def Intersect (A : FBoxCenterAndExtent) (B : FBoxSphereBounds) : Bool :=
  decide (|A.Center.X - B.Origin.X| ≤ A.Extent.X + B.BoxExtent.X)
  && decide (|A.Center.Y - B.Origin.Y| ≤ A.Extent.Y + B.BoxExtent.Y)
  && decide (|A.Center.Z - B.Origin.Z| ≤ A.Extent.Z + B.BoxExtent.Z)

/-- Modelled from the spec: the spatial index `PCGEx::FIndexedItemOctree` (section 4.2), an
engine octree whose code is not among the translated sources.  It is the list of the elements
added so far; a query visits, in stored order, the elements whose bounds overlap the query
box. -/
structure FIndexedItemOctree where
  Elements : List FIndexedItem
deriving DecidableEq, Repr

/-- The operation `AddElement`. -/
def FIndexedItemOctree.AddElement (O : FIndexedItemOctree) (Item : FIndexedItem) :
    FIndexedItemOctree := ⟨O.Elements ++ [Item]⟩

/-- The query `FindElementsWithBoundsTest`: the elements the callback is invoked on, in order. -/
def FIndexedItemOctree.FindElementsWithBoundsTest (O : FIndexedItemOctree)
    (Box : FBoxCenterAndExtent) : List FIndexedItem :=
  O.Elements.filter (fun Item => Intersect Box Item.Bounds)

/-! ## Probes -/

/-- The record `PCGExProbing::FCandidate`, with the members in the order in which
`ProcessSinglePoint` passes them to `Emplace`. -/
structure FCandidate where
  PointIndex : Nat
  Direction : FVector
  Distance : double
  GH : FInt32Vector
deriving DecidableEq, Repr

/-- The accumulator `PCGExProbing::FBestCandidate` of a chained probe. -/
structure FBestCandidate where
  BestIndex : int32
  BestPrimaryValue : double
  BestSecondaryValue : double
deriving DecidableEq, Repr

/-- A default-constructed accumulator, as left by `BestCandidates.SetNum`. -/
def FBestCandidate.Default : FBestCandidate := ⟨-1, 0, 0⟩

/-- What a probe call leaves in the rejection set it was given and in the edge set of the
scope.  The first component is not used when the probe was given no rejection set. -/
abbrev FProbeEffect := TSet FInt32Vector × TSet uint64

/-- A probe `FPCGExProbeOperation`.  The class is virtual and its implementations are not among
the translated sources, so every member function is a field: the capability tests, the search
radius, and for each processing entry point the effect of the call on the data it may write
(the accumulator for the chained entry points, the rejection set and the edge set of the scope
for the others).  Candidates are not modified by a probe. -/
structure FPCGExProbeOperation where
  PrepareForPoints : Bool
  RequiresOctree : Bool
  RequiresChainProcessing : Bool
  SearchRadiusIsConstant : Bool
  SearchRadiusConstant : double
  GetSearchRadius : Nat → double
  PrepareBestCandidate : Nat → FPCGPoint → FBestCandidate → FBestCandidate
  ProcessCandidateChained : Nat → FPCGPoint → Nat → FCandidate → FBestCandidate → FBestCandidate
  ProcessBestCandidate : Nat → FPCGPoint → FBestCandidate → List FCandidate →
    Option (TSet FInt32Vector) → FVector → TSet uint64 → FProbeEffect
  ProcessCandidates : Nat → FPCGPoint → List FCandidate →
    Option (TSet FInt32Vector) → FVector → TSet uint64 → FProbeEffect
  ProcessNode : Nat → FPCGPoint → Option (TSet FInt32Vector) → FVector → TSet uint64 →
    List (Option Bool) → FProbeEffect

/-- A call made by `ProcessSinglePoint` to a collaborator.  `Op` is the position of the probe in
the list it is taken from (`ChainProbeOperations`, `SharedProbeOperations`, `DirectProbes`);
`Coincidence` is the content of the rejection set handed over, `none` for a null pointer, and
`Left` its content when the call returns. -/
inductive FCall where
  | PrepareBestCandidate (Op : Nat) (Index : Nat) (Point : FPCGPoint)
  | ProcessCandidateChained (Op : Nat) (Point : FPCGPoint) (CandidateIndex : Nat)
      (Candidate : FCandidate)
  | ProcessBestCandidate (Op : Nat) (Index : Nat) (Point : FPCGPoint)
      (Candidates : List FCandidate) (Coincidence Left : Option (TSet FInt32Vector))
  | ProcessCandidates (Op : Nat) (Index : Nat) (Point : FPCGPoint)
      (Candidates : List FCandidate) (Coincidence Left : Option (TSet FInt32Vector))
  | ProcessNode (Op : Nat) (Index : Nat) (Point : FPCGPoint)
      (Coincidence Left : Option (TSet FInt32Vector))
  | FindElementsWithBoundsTest (Box : FBoxCenterAndExtent)
  | AlgoSort (Candidates : List FCandidate)
deriving DecidableEq

/-- The rejection set a probe call was handed and the one it left; `none` for the calls that
are handed no rejection set pointer at all. -/
def FCall.Sets : FCall → Option (Option (TSet FInt32Vector) × Option (TSet FInt32Vector))
  | .ProcessBestCandidate _ _ _ _ c l => some (c, l)
  | .ProcessCandidates _ _ _ _ c l => some (c, l)
  | .ProcessNode _ _ _ c l => some (c, l)
  | _ => none

/-- The call with the content of the rejection set left out. -/
def FCall.EraseSets : FCall → FCall
  | .ProcessBestCandidate o i p cs _ _ => .ProcessBestCandidate o i p cs none none
  | .ProcessCandidates o i p cs _ _ => .ProcessCandidates o i p cs none none
  | .ProcessNode o i p _ _ => .ProcessNode o i p none none
  | c => c

/-- The chained probe a call is made to, for the three entry points of chained probes. -/
def FCall.ChainedOp : FCall → Option Nat
  | .PrepareBestCandidate o _ _ => some o
  | .ProcessCandidateChained o _ _ _ => some o
  | .ProcessBestCandidate o _ _ _ _ _ => some o
  | _ => none

/-- The shared probe a call of `ProcessCandidates` is made to. -/
def FCall.SharedOp : FCall → Option Nat
  | .ProcessCandidates o _ _ _ _ _ => some o
  | _ => none

/-- The direct probe a call of `ProcessNode` is made to. -/
def FCall.DirectOp : FCall → Option Nat
  | .ProcessNode o _ _ _ _ => some o
  | _ => none

/-- Whether the call is the call of `Algo::Sort`. -/
def FCall.IsSort : FCall → Bool
  | .AlgoSort _ => true
  | _ => false

/-- Whether the call is a query of the octree. -/
def FCall.IsFind : FCall → Bool
  | .FindElementsWithBoundsTest _ => true
  | _ => false

/-- The candidate list of a call of `ProcessBestCandidate` or `ProcessCandidates`, as indices
and squared distances. -/
def FCall.CandidateList : FCall → Option (List (Nat × double))
  | .ProcessBestCandidate _ _ _ Cs _ _ => some (Cs.map (fun c => (c.PointIndex, c.Distance)))
  | .ProcessCandidates _ _ _ Cs _ _ => some (Cs.map (fun c => (c.PointIndex, c.Distance)))
  | _ => none

/-- The candidate record of a call of `ProcessCandidateChained`. -/
def FCall.Candidate : FCall → Option FCandidate
  | .ProcessCandidateChained _ _ _ C => some C
  | _ => none

/-- A sequence of (handed, left) rejection sets is threaded from `c` when the first call is
handed `c` and every later call is handed what the call before it left. -/
def Threaded : Option (TSet FInt32Vector) →
    List (Option (TSet FInt32Vector) × Option (TSet FInt32Vector)) → Prop
  | _, [] => True
  | c, x :: rest => x.1 = c ∧ Threaded x.2 rest

/-- Engine and toolkit functions the translated code calls and whose code is not among the
translated sources. -/
structure FEngine where
  /-- The normalisation `FVector::GetSafeNormal`. -/
  GetSafeNormal : FVector → FVector
  /-- The quantisation `PCGEx::I323(Seed, Tolerance)` of a vector into an integer voxel. -/
  I323 : FVector → FVector → FInt32Vector
  /-- The sort `Algo::Sort(Range, Predicate)`. -/
  AlgoSort : (FCandidate → FCandidate → Bool) → List FCandidate → List FCandidate
  /-- The projection `ProjectionDetails.ProjectFlat(Transform, Index)`. -/
  ProjectFlat : FTransform → Nat → FTransform
  /-- What a read of a flag that was never assigned yields. -/
  UninitializedFlag : Bool
  /-- What a read of a transform that was never assigned yields. -/
  UninitializedTransform : FTransform

/-- A point filter manager `PCGExPointFilter::FManager`: the result of `Init` and the test. -/
structure FManager where
  Init : Bool
  Test : Nat → Bool

/-! ## ConnectPoints: the processor -/

/-- The settings `UPCGExConnectPointsSettings` read by the processor. -/
structure UPCGExConnectPointsSettings where
  bPreventCoincidence : Bool
  bProjectPoints : Bool

/-- The context `FPCGExConnectPointsContext` after `Boot`.  A probe factory is given by the
operation its `CreateOperation` returns; a list of filter factories is given by the manager
built from it, `none` standing for the empty list. -/
structure FPCGExConnectPointsContext where
  ProbeFactories : List FPCGExProbeOperation
  GeneratorsFiltersFactories : Option FManager
  ConnectablesFiltersFactories : Option FManager
  CWCoincidenceTolerance : FVector

/-- What the collaborators of `FProcessor::Process` answer: the base class `Process`, the
initialisation of the point output, the creation of the task group, the chunk size of the
global settings, and the input points of the facade. -/
structure FPointDataFacade where
  InPoints : List FPCGPoint
  BaseProcess : Bool
  InitializeOutput : Bool
  AsyncGroup : Bool
  PointsBatchChunkSize : Nat

/-- The members of `PCGExConnectPoints::FProcessor`.  Arrays created with
`SetNumUninitialized` hold `none` in the entries not assigned yet.  `NumChainedOps` is not a
field: it is assigned once, from `ChainProbeOperations.Num()` (line 146).  A null `ScopedEdges`
is the family of no sets. -/
structure FProcessor where
  CWCoincidenceTolerance : FVector
  bPreventCoincidence : Bool
  bUseProjection : Bool
  bUseVariableRadius : Bool
  SharedSearchRadius : double
  SearchProbes : List FPCGExProbeOperation
  DirectProbes : List FPCGExProbeOperation
  ChainProbeOperations : List FPCGExProbeOperation
  SharedProbeOperations : List FPCGExProbeOperation
  CanGenerate : List (Option Bool)
  AcceptConnections : List (Option Bool)
  CachedTransforms : List (Option FTransform)
  GeneratorsFilter : Option FManager
  ConnectableFilter : Option FManager
  InPoints : List FPCGPoint
  Octree : Option FIndexedItemOctree
  GraphBuilder : Option FGraphBuilder
  ScopedEdges : TScopedSet uint64
  bOutputInitialized : Bool
  bPrepTaskStarted : Bool

/-- A processor as constructed, before `Process`. -/
def FProcessor.New : FProcessor :=
  { CWCoincidenceTolerance := ⟨0, 0, 0⟩, bPreventCoincidence := false, bUseProjection := false,
    bUseVariableRadius := false, SharedSearchRadius := 0, SearchProbes := [],
    DirectProbes := [], ChainProbeOperations := [], SharedProbeOperations := [],
    CanGenerate := [], AcceptConnections := [], CachedTransforms := [],
    GeneratorsFilter := none, ConnectableFilter := none, InPoints := [], Octree := none,
    GraphBuilder := none, ScopedEdges := ⟨[]⟩, bOutputInitialized := false,
    bPrepTaskStarted := false }

/-- The member `NumChainedOps`. -/
def FProcessor.NumChainedOps (P : FProcessor) : Nat := P.ChainProbeOperations.length

/-- Reads entry `i` of a flag array. -/
def ReadFlag (E : FEngine) (A : List (Option Bool)) (i : Nat) : Bool :=
  match A[i]? with
  | some (some b) => b
  | _ => E.UninitializedFlag

/-- Reads entry `i` of a transform array. -/
def ReadTransform (E : FEngine) (A : List (Option FTransform)) (i : Nat) : FTransform :=
  match A[i]? with
  | some (some T) => T
  | _ => E.UninitializedTransform

/-- One round of the probe loop of `FProcessor::Process` (lines 123-144). -/
def FProcessor.AddProbe (P : FProcessor) (NewOperation : FPCGExProbeOperation) : FProcessor :=
  if !NewOperation.PrepareForPoints then P
  else if !NewOperation.RequiresOctree then
    { P with DirectProbes := P.DirectProbes ++ [NewOperation] }
  else
    let P1 := if !NewOperation.SearchRadiusIsConstant then { P with bUseVariableRadius := true }
      else P
    let P2 := { P1 with
      SharedSearchRadius := max P1.SharedSearchRadius NewOperation.SearchRadiusConstant }
    let P3 := if NewOperation.RequiresChainProcessing then
        { P2 with ChainProbeOperations := P2.ChainProbeOperations ++ [NewOperation] }
      else { P2 with SharedProbeOperations := P2.SharedProbeOperations ++ [NewOperation] }
    { P3 with SearchProbes := P3.SearchProbes ++ [NewOperation] }

/-- The member function `FProcessor::Process` (lines 103-205), up to its return: the value
returned and the members at that moment.  The sub-loops it starts run afterwards. -/
def FProcessor.Process (Settings : UPCGExConnectPointsSettings)
    (Context : FPCGExConnectPointsContext) (Facade : FPointDataFacade) : Bool × FProcessor :=
  if !Facade.BaseProcess then (false, FProcessor.New)
  else
    let NumPoints := Facade.InPoints.length
    let P1 := { FProcessor.New with
      CWCoincidenceTolerance := Context.CWCoincidenceTolerance
      bPreventCoincidence := Settings.bPreventCoincidence }
    let P2 := Context.ProbeFactories.foldl FProcessor.AddProbe P1
    if P2.SearchProbes.isEmpty && P2.DirectProbes.isEmpty then (false, P2)
    else if !Facade.InitializeOutput then (false, P2)
    else
      let P3 := { P2 with
        bOutputInitialized := true
        GraphBuilder := some ⟨FGraph.New, false⟩
        CanGenerate := List.replicate NumPoints none
        AcceptConnections := List.replicate NumPoints none
        CachedTransforms := List.replicate NumPoints none }
      let P4 := { P3 with GeneratorsFilter := Context.GeneratorsFiltersFactories }
      if (match Context.GeneratorsFiltersFactories with
          | some F => !F.Init
          | none => false) then (false, P4)
      else
        let P5 := { P4 with ConnectableFilter := Context.ConnectablesFiltersFactories }
        if (match Context.ConnectablesFiltersFactories with
            | some F => !F.Init
            | none => false) then (false, P5)
        else
          let P6 := { P5 with
            bUseProjection := Settings.bProjectPoints
            InPoints := Facade.InPoints }
          let P7 := if !P6.SearchProbes.isEmpty then { P6 with Octree := some ⟨[]⟩ } else P6
          if !Facade.AsyncGroup then (false, P7)
          else (true, { P7 with bPrepTaskStarted := true })

/-- Modelled from the spec: the scopes of `StartSubLoops(Count, ChunkSize)`; the scheduler is
not among the translated sources.  Section 4.1: it "partitions `[0,count)` into contiguous,
non-overlapping ranges (scopes) of size at most `chunkSize`". -/
def SubLoopScopes (Count ChunkSize : Nat) : List FScope :=
  (List.range ((Count + max ChunkSize 1 - 1) / max ChunkSize 1)).map
    (fun i => ⟨i * max ChunkSize 1, min (max ChunkSize 1) (Count - i * max ChunkSize 1), i⟩)

/-- The body of the loop of `PrepTask->OnSubLoopStartCallback` (lines 197-198). -/
def FProcessor.PrepPoint (P : FProcessor) (i : Nat) : FProcessor :=
  { P with
    CanGenerate := P.CanGenerate.set i (some (match P.GeneratorsFilter with
      | some F => F.Test i
      | none => true))
    AcceptConnections := P.AcceptConnections.set i (some (match P.ConnectableFilter with
      | some F => F.Test i
      | none => true)) }

/-- The callback `PrepTask->OnSubLoopStartCallback` on one scope (lines 190-200). -/
def FProcessor.PrepSubLoop (P : FProcessor) (Scope : FScope) : FProcessor :=
  (List.range' Scope.Start Scope.Count).foldl FProcessor.PrepPoint P

/-- All sub-loops started by `PrepTask->StartSubLoops(NumPoints, ChunkSize)` (line 202). -/
def FProcessor.RunPrepTask (P : FProcessor) (ChunkSize : Nat) : FProcessor :=
  (SubLoopScopes P.InPoints.length ChunkSize).foldl FProcessor.PrepSubLoop P

/-- The constant `PPRefRadius = 0.05` of `OnPreparationComplete`. -/
def PPRefRadius : double := 5

/-- The constant `PPRefExtents = FVector(PPRefRadius)`. -/
def PPRefExtents : FVector := FVector.Splat PPRefRadius

/-- The body of the loops of `OnPreparationComplete` (lines 221-223 and 230-232); `T` is the
transform to cache, projected or not. -/
def FProcessor.CachePoint (E : FEngine) (P : FProcessor) (i : Nat) (T : FTransform) :
    FProcessor :=
  let P1 := { P with CachedTransforms := P.CachedTransforms.set i (some T) }
  if !ReadFlag E P1.AcceptConnections i then P1
  else
    { P1 with Octree := P1.Octree.map (fun O =>
        O.AddElement ⟨i, ⟨(ReadTransform E P1.CachedTransforms i).GetLocation, PPRefExtents,
          PPRefRadius⟩⟩) }

/-- The member function `FProcessor::OnPreparationComplete` (lines 207-241), up to the start of
the parallel loop over the points. -/
def FProcessor.OnPreparationComplete (E : FEngine) (P : FProcessor) : FProcessor :=
  let P1 :=
    if !P.SearchProbes.isEmpty then
      if P.bUseProjection then
        P.InPoints.enum.foldl
          (fun Q ip => Q.CachePoint E ip.1 (E.ProjectFlat ip.2.Transform ip.1)) P
      else
        P.InPoints.enum.foldl (fun Q ip => Q.CachePoint E ip.1 ip.2.Transform) P
    else P
  { P1 with GeneratorsFilter := none, ConnectableFilter := none }

/-- The member function `FProcessor::PrepareLoopScopesForPoints` (lines 243-247). -/
def FProcessor.PrepareLoopScopesForPoints (P : FProcessor) (Loops : List FScope) : FProcessor :=
  { P with ScopedEdges := TScopedSet.Make Loops }

/-! ## ConnectPoints: processing one point -/

/-- The data the probes of one point write to, and the calls made so far: the content of
`LocalCoincidence` (`none` for a null pointer), the edge set of the scope, the call log. -/
structure FProbeState where
  Coincidence : Option (TSet FInt32Vector)
  UniqueEdges : TSet uint64
  Calls : List FCall

/-- Records a probe call and what it wrote.  A probe that was handed a null rejection set has
nothing to write to, so the pointer stays null. -/
def FProbeState.Apply (S : FProbeState)
    (Call : Option (TSet FInt32Vector) → Option (TSet FInt32Vector) → FCall)
    (Effect : FProbeEffect) : FProbeState :=
  ⟨S.Coincidence.map (fun _ => Effect.1), Effect.2,
    S.Calls ++ [Call S.Coincidence (S.Coincidence.map (fun _ => Effect.1))]⟩

/-- The locals the query callback of `ProcessSinglePoint` writes to. -/
structure FQueryState where
  Candidates : List FCandidate
  BestCandidates : List FBestCandidate
  Calls : List FCall

/-- The candidate record built at lines 299-305 for the neighbour `OtherPointIndex`. -/
def FProcessor.MakeCandidate (E : FEngine) (P : FProcessor) (Origin : FVector)
    (OtherPointIndex : Nat) : FCandidate :=
  let Position := (ReadTransform E P.CachedTransforms OtherPointIndex).GetLocation
  let Dir := E.GetSafeNormal (Origin.sub Position)
  ⟨OtherPointIndex, Dir, FVector.DistSquared Position Origin,
    if P.bPreventCoincidence then E.I323 Dir P.CWCoincidenceTolerance
    else FInt32Vector.ZeroValue⟩

/-- The lambda `ProcessPoint` of `ProcessSinglePoint` (lines 294-308), called by the octree on
each element found. -/
def FProcessor.ProcessPoint (E : FEngine) (P : FProcessor) (Index : Nat) (PointCopy : FPCGPoint)
    (Origin : FVector) (S : FQueryState) (InPositionRef : FIndexedItem) : FQueryState :=
  let OtherPointIndex := InPositionRef.Index
  if OtherPointIndex = Index then S
  else
    let Candidate := P.MakeCandidate E Origin OtherPointIndex
    let EmplaceIndex := S.Candidates.length
    if P.NumChainedOps > 0 then
      ⟨S.Candidates ++ [Candidate],
        P.ChainProbeOperations.enum.map (fun x =>
          x.2.ProcessCandidateChained x.1 PointCopy EmplaceIndex Candidate
            (S.BestCandidates.getD x.1 FBestCandidate.Default)),
        S.Calls ++ P.ChainProbeOperations.enum.map (fun x =>
          FCall.ProcessCandidateChained x.1 PointCopy EmplaceIndex Candidate)⟩
    else ⟨S.Candidates ++ [Candidate], S.BestCandidates, S.Calls⟩

/-- The radius `MaxRadius` of the query box (lines 283-288). -/
def FProcessor.MaxRadius (P : FProcessor) (Index : Nat) : double :=
  if !P.bUseVariableRadius then P.SharedSearchRadius
  else P.SearchProbes.foldl (fun M Op => max M (Op.GetSearchRadius Index)) 0

/-- The predicate handed to `Algo::Sort` (line 316). -/
def ByDistance (A B : FCandidate) : Bool := decide (A.Distance < B.Distance)

/-- The calls of `ProcessCandidates` on the shared probes (lines 317 and 321). -/
def FProcessor.RunSharedProbes (P : FProcessor) (Index : Nat) (PointCopy : FPCGPoint)
    (Candidates : List FCandidate) (S : FProbeState) : FProbeState :=
  P.SharedProbeOperations.enum.foldl
    (fun S x => S.Apply (FCall.ProcessCandidates x.1 Index PointCopy Candidates)
      (x.2.ProcessCandidates Index PointCopy Candidates S.Coincidence P.CWCoincidenceTolerance
        S.UniqueEdges))
    S

/-- The block of `ProcessSinglePoint` guarded by `!SearchProbes.IsEmpty()` (lines 281-323).  A
null octree, which `Process` rules out when there are search probes, finds nothing. -/
def FProcessor.SearchPass (E : FEngine) (P : FProcessor) (Index : Nat) (PointCopy : FPCGPoint)
    (BestCandidates : List FBestCandidate) (S0 : FProbeState) : FProbeState :=
  let MaxRadius := P.MaxRadius Index
  let Origin := (ReadTransform E P.CachedTransforms Index).GetLocation
  let Box : FBoxCenterAndExtent := ⟨Origin, FVector.Splat MaxRadius⟩
  let Found := match P.Octree with
    | some O => O.FindElementsWithBoundsTest Box
    | none => []
  let Q := Found.foldl (P.ProcessPoint E Index PointCopy Origin)
    ⟨[], BestCandidates, S0.Calls ++ [FCall.FindElementsWithBoundsTest Box]⟩
  let S1 : FProbeState := ⟨S0.Coincidence, S0.UniqueEdges, Q.Calls⟩
  let S2 :=
    if P.NumChainedOps > 0 then
      P.ChainProbeOperations.enum.foldl
        (fun S x =>
          S.Apply (FCall.ProcessBestCandidate x.1 Index PointCopy Q.Candidates)
            (x.2.ProcessBestCandidate Index PointCopy
              (Q.BestCandidates.getD x.1 FBestCandidate.Default) Q.Candidates S.Coincidence
              P.CWCoincidenceTolerance S.UniqueEdges))
        S1
    else S1
  if !Q.Candidates.isEmpty then
    P.RunSharedProbes Index PointCopy
      (E.AlgoSort ByDistance Q.Candidates)
      { S2 with Calls := S2.Calls ++ [FCall.AlgoSort Q.Candidates] }
  else P.RunSharedProbes Index PointCopy Q.Candidates S2

/-- The local `PointCopy` of `ProcessSinglePoint` (lines 265-271). -/
def FProcessor.PointCopy (E : FEngine) (P : FProcessor) (Index : Nat) (Point : FPCGPoint) :
    FPCGPoint :=
  if P.bUseProjection then { Point with Transform := ReadTransform E P.CachedTransforms Index }
  else Point

/-- The member function `FProcessor::ProcessSinglePoint` (lines 255-326): the processor
afterwards (only the edge set of `Scope` can differ) and the calls made, in order. -/
def FProcessor.ProcessSinglePoint (E : FEngine) (P : FProcessor) (Index : Nat)
    (Point : FPCGPoint) (Scope : FScope) : FProcessor × List FCall :=
  if !ReadFlag E P.CanGenerate Index then (P, [])
  else
    let UniqueEdges := P.ScopedEdges.Get Scope
    let LocalCoincidence : Option (TSet FInt32Vector) :=
      if P.bPreventCoincidence then some TSet.Empty else none
    let PointCopy : FPCGPoint := P.PointCopy E Index Point
    let BestCandidates : List FBestCandidate :=
      if P.NumChainedOps > 0 then
        P.ChainProbeOperations.enum.map (fun x =>
          x.2.PrepareBestCandidate Index PointCopy FBestCandidate.Default)
      else []
    let S0 : FProbeState := ⟨LocalCoincidence, UniqueEdges,
      if P.NumChainedOps > 0 then
        P.ChainProbeOperations.enum.map (fun x => FCall.PrepareBestCandidate x.1 Index PointCopy)
      else []⟩
    let S1 := if !P.SearchProbes.isEmpty then P.SearchPass E Index PointCopy BestCandidates S0
      else S0
    let S2 := P.DirectProbes.enum.foldl
      (fun S x => S.Apply (FCall.ProcessNode x.1 Index PointCopy)
        (x.2.ProcessNode Index PointCopy S.Coincidence P.CWCoincidenceTolerance S.UniqueEdges
          P.AcceptConnections))
      S1
    ({ P with ScopedEdges := P.ScopedEdges.Put Scope S2.UniqueEdges }, S2.Calls)

/-- The candidates the query callback collects for the source `Index`, in discovery order. -/
def FProcessor.Discovered (E : FEngine) (P : FProcessor) (Index : Nat) : List FCandidate :=
  let Origin := (ReadTransform E P.CachedTransforms Index).GetLocation
  let Found := match P.Octree with
    | some O => O.FindElementsWithBoundsTest ⟨Origin, FVector.Splat (P.MaxRadius Index)⟩
    | none => []
  (Found.filter (fun Item => decide (Item.Index ≠ Index))).map
    (fun Item => P.MakeCandidate E Origin Item.Index)

/-- The array `Candidates` of `ProcessSinglePoint` when the octree query of line 310 returns:
the callback `ProcessPoint` has run on every element found, starting from an empty array. -/
def FProcessor.Collected (E : FEngine) (P : FProcessor) (Index : Nat) (PointCopy : FPCGPoint)
    (BestCandidates : List FBestCandidate) (Calls : List FCall) : List FCandidate :=
  ((match P.Octree with
    | some O => O.FindElementsWithBoundsTest
        ⟨(ReadTransform E P.CachedTransforms Index).GetLocation,
          FVector.Splat (P.MaxRadius Index)⟩
    | none => []).foldl
    (P.ProcessPoint E Index PointCopy (ReadTransform E P.CachedTransforms Index).GetLocation)
    ⟨[], BestCandidates, Calls⟩).Candidates

/-- The calls of `ProcessCandidateChained` made while the candidates `Cands` are discovered,
the first of them being emplaced at position `Start`: for each candidate in turn, one call
per chained probe. -/
def FProcessor.ChainedCalls (P : FProcessor) (PointCopy : FPCGPoint) (Start : Nat)
    (Cands : List FCandidate) : List FCall :=
  ((Cands.enumFrom Start).map (fun kc => P.ChainProbeOperations.enum.map (fun x =>
    FCall.ProcessCandidateChained x.1 PointCopy kc.1 kc.2))).flatten

/-- The candidate list handed to the shared probes for the source `Index` (lines 314-322). -/
def FProcessor.SharedCandidates (E : FEngine) (P : FProcessor) (Index : Nat) : List FCandidate :=
  if (P.Discovered E Index).isEmpty then P.Discovered E Index
  else E.AlgoSort ByDistance (P.Discovered E Index)

/-- The calls `ProcessSinglePoint` makes for a generator point, in order, with the content of
the rejection sets left out. -/
def FProcessor.ExpectedCalls (E : FEngine) (P : FProcessor) (Index : Nat) (Point : FPCGPoint) :
    List FCall :=
  P.ChainProbeOperations.enum.map
      (fun x => FCall.PrepareBestCandidate x.1 Index (P.PointCopy E Index Point))
  ++ (if P.SearchProbes.isEmpty then []
      else
        [FCall.FindElementsWithBoundsTest
          ⟨(ReadTransform E P.CachedTransforms Index).GetLocation,
            FVector.Splat (P.MaxRadius Index)⟩]
        ++ P.ChainedCalls (P.PointCopy E Index Point) 0 (P.Discovered E Index)
        ++ P.ChainProbeOperations.enum.map (fun x =>
            FCall.ProcessBestCandidate x.1 Index (P.PointCopy E Index Point)
              (P.Discovered E Index) none none)
        ++ (if (P.Discovered E Index).isEmpty then [] else [FCall.AlgoSort (P.Discovered E Index)])
        ++ P.SharedProbeOperations.enum.map (fun x =>
            FCall.ProcessCandidates x.1 Index (P.PointCopy E Index Point)
              (P.SharedCandidates E Index) none none))
  ++ P.DirectProbes.enum.map
      (fun x => FCall.ProcessNode x.1 Index (P.PointCopy E Index Point) none none)

/-- The member function `FProcessor::CompleteWork` (lines 328-334), without the compilation it
starts at the end. -/
def FProcessor.CompleteWork (P : FProcessor) : FProcessor :=
  { P with
    GraphBuilder := P.GraphBuilder.map (fun B =>
      { B with Graph := MergeScopedEdges P.ScopedEdges B.Graph })
    ScopedEdges := ⟨[]⟩ }

/-- The processor when the parallel loop over the points starts: `Process` has returned true,
the preparation sub-loops have run, `OnPreparationComplete` has run and the scoped edge sets
have been created for the scopes of the loop.  It is `none` when `Process` returns false. -/
def FProcessor.Prepared (E : FEngine) (Settings : UPCGExConnectPointsSettings)
    (Context : FPCGExConnectPointsContext) (Facade : FPointDataFacade) : Option FProcessor :=
  let R := FProcessor.Process Settings Context Facade
  if R.1 then
    let P := (R.2.RunPrepTask Facade.PointsBatchChunkSize).OnPreparationComplete E
    some (P.PrepareLoopScopesForPoints
      (SubLoopScopes P.InPoints.length Facade.PointsBatchChunkSize))
  else none

/-- The generator test of a point: the generator filter when one is supplied, true otherwise
(line 197). -/
def FPCGExConnectPointsContext.IsGenerator (Context : FPCGExConnectPointsContext) (i : Nat) :
    Bool :=
  match Context.GeneratorsFiltersFactories with
  | some F => F.Test i
  | none => true

/-- The connectable test of a point: the connectable filter when one is supplied, true
otherwise (line 198). -/
def FPCGExConnectPointsContext.IsConnectable (Context : FPCGExConnectPointsContext) (i : Nat) :
    Bool :=
  match Context.ConnectablesFiltersFactories with
  | some F => F.Test i
  | none => true

/-- The transform `OnPreparationComplete` caches for the point `Point` of index `i`: projected
when the settings ask for it (line 221), as it is otherwise (line 230). -/
def CachedTransformOf (E : FEngine) (Settings : UPCGExConnectPointsSettings) (i : Nat)
    (Point : FPCGPoint) : FTransform :=
  if Settings.bProjectPoints then E.ProjectFlat Point.Transform i else Point.Transform

/-- The probes of the context that pass `PrepareForPoints` and the given capability test. -/
def FPCGExConnectPointsContext.Probes (Context : FPCGExConnectPointsContext)
    (Test : FPCGExProbeOperation → Bool) : List FPCGExProbeOperation :=
  Context.ProbeFactories.filter (fun o => o.PrepareForPoints && Test o)

/-! ## Probes that follow the coincidence protocol -/

/-- Modelled from the spec: the canonical key `PCGEx::H64U(A, B)` of the unordered pair, whose
code is not among the translated sources.  Section 9: "a canonical `(minIndex, maxIndex)` tuple
key"; the smaller index goes in the high half. -/
def H64U (A B : uint32) : uint64 := H64 (min A B) (max A B)

/-- Modelled from the spec: the way a probe emits the edge towards a candidate; the probe
implementations are not among the translated sources.  Sections 4.3 and 8: a probe "may consult
a local coincidence-rejection set" that holds the quantized directions already used from the
source point, "to suppress near-duplicate directions from the same source point".  Handed a
rejection set, the probe skips a candidate whose bucket is in it, and otherwise records the
bucket and adds the edge; handed none, it adds the edge.  The Boolean tells whether the edge
was added. -/
def TryConnect (Index : Nat) (C : FCandidate) (Coincidence : Option (TSet FInt32Vector))
    (OutEdges : TSet uint64) : FProbeEffect × Bool :=
  match Coincidence with
  | some s =>
    if s.Contains C.GH then ((s, OutEdges), false)
    else ((s.Add C.GH, OutEdges.Add (H64U Index C.PointIndex)), true)
  | none => ((TSet.Empty, OutEdges.Add (H64U Index C.PointIndex)), true)

/-- Modelled from the spec: what a probe does in one call, as far as the rejection set and the
edge set are concerned: it tries candidates one after the other, and which one it tries next
(or whether it stops) may depend on whether the earlier tries added an edge. -/
inductive FProbeProgram where
  | Done
  | Try (C : FCandidate) (Next : Bool → FProbeProgram)

/-- Runs a probe program from the rejection set and edge set handed over: what it leaves, and
the candidates whose edge was added, in order. -/
def FProbeProgram.Run (Index : Nat) :
    FProbeProgram → Option (TSet FInt32Vector) → TSet uint64 → FProbeEffect × List FCandidate
  | .Done, c, e => ((c.getD TSet.Empty, e), [])
  | .Try C Next, c, e =>
    let r := TryConnect Index C c e
    let rest := (Next r.2).Run Index (c.map (fun _ => r.1.1)) r.1.2
    (rest.1, if r.2 then C :: rest.2 else rest.2)

/-- Runs the programs of several probe calls one after the other on the same rejection set and
edge set, the way `ProcessSinglePoint` hands its `LocalCoincidence` and `UniqueEdges` from one
probe to the next. -/
def FProbeProgram.RunAll (Index : Nat) :
    List FProbeProgram → Option (TSet FInt32Vector) → TSet uint64 →
      (Option (TSet FInt32Vector) × TSet uint64) × List FCandidate
  | [], c, e => ((c, e), [])
  | p :: ps, c, e =>
    let r := p.Run Index c e
    let rest := FProbeProgram.RunAll Index ps (c.map (fun _ => r.1.1)) r.1.2
    (rest.1, r.2 ++ rest.2)

/-- The program that tries every candidate of a list, in order. -/
def FProbeProgram.TryAll : List FCandidate → FProbeProgram
  | [] => .Done
  | C :: Cs => .Try C (fun _ => FProbeProgram.TryAll Cs)

/-! ## A small scene, used to exercise the statements -/

/-- A normalisation that is exact on vectors along one axis (unit length is `100`); the scene
below has no other direction.  Other vectors are returned as they are. -/
def AxisSafeNormal (V : FVector) : FVector :=
  if (V.X = 0 ∧ V.Y = 0) ∨ (V.X = 0 ∧ V.Z = 0) ∨ (V.Y = 0 ∧ V.Z = 0) then
    ⟨100 * Int.sign V.X, 100 * Int.sign V.Y, 100 * Int.sign V.Z⟩
  else V

/-- A sort that meets the contract of `Algo::Sort` and is stable: insertion sort. -/
def StableSort (lt : FCandidate → FCandidate → Bool) (l : List FCandidate) : List FCandidate :=
  l.insertionSort (fun a b => lt b a = false)

/-- The squared distance of the candidate at position `i` of a list (0 outside the list). -/
def DistanceAt (l : List FCandidate) (i : Nat) : double :=
  match l[i]? with
  | some c => c.Distance
  | none => 0

/-- The scan of a selection round: the position of the first greatest element among the
first `Last + 1` elements. -/
def FirstMax (lt : FCandidate → FCandidate → Bool) (l : List FCandidate) (Last : Nat) : Nat :=
  (List.range' 1 Last).foldl
    (fun Max Item =>
      match l[Max]?, l[Item]? with
      | some m, some i => if lt m i then Item else Max
      | _, _ => Max)
    0

/-- Exchanges the elements at positions `i` and `j`. -/
def SwapAt (l : List FCandidate) (i j : Nat) : List FCandidate :=
  match l[i]?, l[j]? with
  | some a, some b => (l.set i b).set j a
  | _, _ => l

/-- The rounds of a selection sort on the first `Count` elements: each round exchanges the
first greatest element of the range with its last element and then shortens the range by
one. -/
def SelectionRounds (lt : FCandidate → FCandidate → Bool) :
    Nat → List FCandidate → List FCandidate
  | 0, l => l
  | Last + 1, l => SelectionRounds lt Last (SwapAt l (FirstMax lt l Last) Last)

/-- A sort that meets the contract of `Algo::Sort` and is not stable: selection sort (the way
the engine's introsort finishes short ranges). -/
def SelectionSort (lt : FCandidate → FCandidate → Bool) (l : List FCandidate) :
    List FCandidate :=
  SelectionRounds lt l.length l

/-- An engine for the scene: exact normalisation along the axes, buckets by scaling,
projection onto the plane `Z = 0`. -/
def SceneEngine (AlgoSort : (FCandidate → FCandidate → Bool) → List FCandidate → List FCandidate) :
    FEngine :=
  { GetSafeNormal := AxisSafeNormal
    I323 := fun V T => ⟨V.X * T.X, V.Y * T.Y, V.Z * T.Z⟩
    AlgoSort := AlgoSort
    ProjectFlat := fun T _ => { T with Translation := ⟨T.Translation.X, T.Translation.Y, 0⟩ }
    UninitializedFlag := false
    UninitializedTransform := ⟨⟨0, 0, 0, 100⟩, ⟨0, 0, 0⟩, ⟨100, 100, 100⟩⟩ }

/-- A point of the scene at the given location. -/
def ScenePoint (X Y Z : double) : FPCGPoint :=
  ⟨⟨⟨0, 0, 0, 100⟩, ⟨X, Y, Z⟩, ⟨100, 100, 100⟩⟩, 0, 0⟩

/-- A shared probe with a constant radius of 3 units that tries to connect every candidate. -/
def SceneSharedProbe : FPCGExProbeOperation :=
  { PrepareForPoints := true
    RequiresOctree := true
    RequiresChainProcessing := false
    SearchRadiusIsConstant := true
    SearchRadiusConstant := 300
    GetSearchRadius := fun _ => 300
    PrepareBestCandidate := fun _ _ b => b
    ProcessCandidateChained := fun _ _ _ _ b => b
    ProcessBestCandidate := fun _ _ _ _ c _ e => (c.getD TSet.Empty, e)
    ProcessCandidates := fun Index _ Cs c _ e => ((FProbeProgram.TryAll Cs).Run Index c e).1
    ProcessNode := fun _ _ c _ e _ => (c.getD TSet.Empty, e) }

/-- A chained probe that keeps the closest candidate seen and tries to connect it. -/
def SceneChainedProbe : FPCGExProbeOperation :=
  { PrepareForPoints := true
    RequiresOctree := true
    RequiresChainProcessing := true
    SearchRadiusIsConstant := true
    SearchRadiusConstant := 300
    GetSearchRadius := fun _ => 300
    PrepareBestCandidate := fun _ _ _ => FBestCandidate.Default
    ProcessCandidateChained := fun _ _ k C b =>
      if b.BestIndex < 0 ∨ C.Distance < b.BestPrimaryValue then ⟨k, C.Distance, 0⟩ else b
    ProcessBestCandidate := fun Index _ b Cs c _ e =>
      match Cs[b.BestIndex.toNat]? with
      | some C => if b.BestIndex < 0 then (c.getD TSet.Empty, e) else (TryConnect Index C c e).1
      | none => (c.getD TSet.Empty, e)
    ProcessCandidates := fun _ _ _ c _ e => (c.getD TSet.Empty, e)
    ProcessNode := fun _ _ c _ e _ => (c.getD TSet.Empty, e) }

/-- A direct probe that connects each point to the point of the next index. -/
def SceneDirectProbe : FPCGExProbeOperation :=
  { PrepareForPoints := true
    RequiresOctree := false
    RequiresChainProcessing := false
    SearchRadiusIsConstant := true
    SearchRadiusConstant := 0
    GetSearchRadius := fun _ => 0
    PrepareBestCandidate := fun _ _ b => b
    ProcessCandidateChained := fun _ _ _ _ b => b
    ProcessBestCandidate := fun _ _ _ _ c _ e => (c.getD TSet.Empty, e)
    ProcessCandidates := fun _ _ _ c _ e => (c.getD TSet.Empty, e)
    ProcessNode := fun Index _ c _ e _ => (c.getD TSet.Empty, e.Add (H64U Index (Index + 1))) }

/-- The points of the scene: the origin, two points two units away along `X` and `Y`, and one
point one unit away along `X`. -/
def ScenePoints : List FPCGPoint :=
  [ScenePoint 0 0 0, ScenePoint 200 0 0, ScenePoint 0 200 0, ScenePoint 100 0 0]

/-- The location of the point of the scene with the given index. -/
def SceneLocation (n : Nat) : FVector :=
  ((ScenePoints.getD n (ScenePoint 0 0 0)).Transform).GetLocation

/-- The facade of the scene: every collaborator of `Process` succeeds; scopes of two points. -/
def SceneFacade : FPointDataFacade := ⟨ScenePoints, true, true, true, 2⟩

/-- A context with the three probes and no filter. -/
def SceneContext : FPCGExConnectPointsContext :=
  ⟨[SceneSharedProbe, SceneChainedProbe, SceneDirectProbe], none, none, ⟨1, 1, 1⟩⟩

/-- A context with the three probes, where point 1 is no generator and point 3 is not
connectable. -/
def SceneContextFiltered : FPCGExConnectPointsContext :=
  ⟨[SceneSharedProbe, SceneChainedProbe, SceneDirectProbe],
    some ⟨true, fun i => decide (i ≠ 1)⟩, some ⟨true, fun i => decide (i ≠ 3)⟩, ⟨1, 1, 1⟩⟩

/-- A context with the direct probe only. -/
def SceneContextDirect : FPCGExConnectPointsContext :=
  ⟨[SceneDirectProbe], none, none, ⟨1, 1, 1⟩⟩

/-! ## BreakClustersToPaths: clusters and chains -/

/-- A link `PCGExGraph::FLink`: a node and the edge that leads to it; `Edge` is `-1` when there
is no edge. -/
structure FLink where
  Node : Nat
  Edge : Int
deriving DecidableEq, Repr

/-- Modelled from the spec: the compiled cluster `PCGExCluster::FCluster` (sections 3 and 4.5),
whose code is not among the translated sources: the nodes, each wrapping one point index, and
the edges, each joining two nodes given by their positions in the node array.  Adjacency is
derived from the edge array. -/
structure FCluster where
  NodePointIndex : List Nat
  Edges : List (Nat × Nat)
deriving DecidableEq, Repr

/-- The point index `Cluster->GetNode(Node)->PointIndex`. -/
def FCluster.PointIndex (C : FCluster) (Node : Nat) : Nat := C.NodePointIndex.getD Node 0

/-- The adjacency list of a node: for each edge incident to it, in edge order, the node at the
other end and the index of the edge. -/
def FCluster.Links (C : FCluster) (Node : Nat) : List FLink :=
  C.Edges.enum.filterMap (fun ie =>
    if ie.2.1 = Node then some ⟨ie.2.2, ie.1⟩
    else if ie.2.2 = Node then some ⟨ie.2.1, ie.1⟩
    else none)

/-- Every edge joins two nodes of the cluster. -/
def FCluster.Valid (C : FCluster) : Prop :=
  ∀ e ∈ C.Edges, e.1 < C.NodePointIndex.length ∧ e.2 < C.NodePointIndex.length

instance (C : FCluster) : Decidable C.Valid := by
  unfold FCluster.Valid
  infer_instance

/-- Modelled from the spec: section 4.6, a node at which a chain starts and ends: an endpoint
(degree 1), a branch (degree above 2) or a breakpoint, "forced cut points ... that behaves
like a branch regardless of degree". -/
def FCluster.IsCut (C : FCluster) (Breakpoints : Nat → Bool) (Node : Nat) : Bool :=
  decide ((C.Links Node).length ≠ 2) || Breakpoints Node

/-- Modelled from the spec: a chain `PCGExCluster::FNodeChain` (section 3), "ordered sequence
of node links from a seed node to a terminal node, with flags `closedLoop` and `leaf`".  The
class is not among the translated sources.  `Links` holds one link per node after the seed;
when the walk returns to the seed the seed is not repeated, and the edge that closes the loop
is kept in `ClosingEdge`. -/
structure FNodeChain where
  Seed : FLink
  Links : List FLink
  bIsClosedLoop : Bool
  bIsLeaf : Bool
  ClosingEdge : Option Int
deriving DecidableEq, Repr

/-- The edges a chain runs through, in order. -/
def FNodeChain.Edges (Chain : FNodeChain) : List Int :=
  Chain.Links.map (fun l => l.Edge) ++ Chain.ClosingEdge.toList

/-- Modelled from the spec: the walk of section 4.6, from the node reached last: the chain is
"extended through consecutive degree-2, non-breakpoint nodes until it reaches another
endpoint/branch/breakpoint node or returns to its own seed (closed loop)"; every edge is
claimed before it is walked, and the walk stops at an edge that is claimed already.  The
result is the links walked, the edge that closed the loop if the walk returned to the seed,
and the claimed edges.  `Fuel` bounds the number of steps. -/
def FNodeChain.Extend (C : FCluster) (Breakpoints : Nat → Bool) (Seed : Nat) :
    Nat → FLink → List Int → List FLink → List FLink × Option Int × List Int
  | 0, _, Claimed, Links => (Links, none, Claimed)
  | Fuel + 1, Last, Claimed, Links =>
    if C.IsCut Breakpoints Last.Node then (Links, none, Claimed)
    else
      match (C.Links Last.Node).find? (fun l => decide (l.Edge ≠ Last.Edge)) with
      | none => (Links, none, Claimed)
      | some Next =>
        if Next.Edge ∈ Claimed then (Links, none, Claimed)
        else if Next.Node = Seed then (Links, some Next.Edge, Claimed ++ [Next.Edge])
        else
          FNodeChain.Extend C Breakpoints Seed Fuel Next (Claimed ++ [Next.Edge])
            (Links ++ [Next])

/-- Modelled from the spec: the chain that starts at the node `Seed` along the link `First`,
whose edge is claimed first, and the claimed edges afterwards. -/
def FNodeChain.BuildChain (C : FCluster) (Breakpoints : Nat → Bool) (Seed : Nat) (First : FLink)
    (Claimed : List Int) : FNodeChain × List Int :=
  if First.Node = Seed then
    (⟨⟨Seed, First.Edge⟩, [], true, false, some First.Edge⟩, Claimed ++ [First.Edge])
  else
    let r := FNodeChain.Extend C Breakpoints Seed C.Edges.length First
      (Claimed ++ [First.Edge]) [First]
    (⟨⟨Seed, First.Edge⟩, r.1, r.2.1.isSome, false, r.2.1⟩, r.2.2)

/-- The chains built so far and the edges claimed so far. -/
structure FNodeChainBuilder where
  Chains : List (Option FNodeChain)
  Claimed : List Int

/-- Starts a chain along every link of the node whose edge is not claimed yet. -/
def FNodeChainBuilder.SeedAt (C : FCluster) (Breakpoints : Nat → Bool)
    (B : FNodeChainBuilder) (Node : Nat) : FNodeChainBuilder :=
  (C.Links Node).foldl
    (fun B First =>
      if First.Edge ∈ B.Claimed then B
      else
        let r := FNodeChain.BuildChain C Breakpoints Node First B.Claimed
        ⟨B.Chains ++ [some r.1], r.2⟩)
    B

/-- Modelled from the spec: the chain builder `FNodeChainBuilder::Compile` (section 4.6), whose
code is not among the translated sources.  "Isolated nodes produce degenerate single-node
chains flagged `leaf=true`"; "a chain is seeded at every endpoint, branch, or breakpoint node";
the nodes that are left, which lie on loops without any such node, seed the closed loop they
are on (scenario 1 of section 8).  The Boolean is false when no chain was built. -/
def FNodeChainBuilder.Compile (C : FCluster) (Breakpoints : Nat → Bool) :
    Bool × List (Option FNodeChain) :=
  let Nodes := List.range C.NodePointIndex.length
  let Isolated := (Nodes.filter (fun n => (C.Links n).isEmpty)).map
    (fun n => some (⟨⟨n, -1⟩, [], false, true, none⟩ : FNodeChain))
  let Seeds := Nodes.filter (fun n => C.IsCut Breakpoints n)
  let Others := Nodes.filter (fun n => !C.IsCut Breakpoints n)
  let B := (Seeds ++ Others).foldl (FNodeChainBuilder.SeedAt C Breakpoints) ⟨Isolated, []⟩
  (!B.Chains.isEmpty, B.Chains)

/-- Modelled from the spec: the builder `FNodeChainBuilder::CompileLeavesOnly`, whose code is
not among the translated sources and which the spec does not describe beyond the flag `leaf`
of a chain: it builds the chains flagged `leaf` and no other. -/
def FNodeChainBuilder.CompileLeavesOnly (C : FCluster) (Breakpoints : Nat → Bool) :
    Bool × List (Option FNodeChain) :=
  let Chains := (FNodeChainBuilder.Compile C Breakpoints).2.filter (fun c =>
    match c with
    | some Chain => Chain.bIsLeaf
    | none => false)
  (!Chains.isEmpty, Chains)

/-- The edges claimed are edges of the cluster, each claimed once, and they are the edges of
the chains built, in the order in which they were claimed; no entry of the chain array is
null. -/
def FNodeChainBuilder.Inv (C : FCluster) (B : FNodeChainBuilder) : Prop :=
  ((B.Chains.filterMap id).map FNodeChain.Edges).flatten = B.Claimed
  ∧ B.Claimed.Nodup
  ∧ (∀ e ∈ B.Claimed, ∃ i, i < C.Edges.length ∧ e = (i : Int))
  ∧ ∀ c ∈ B.Chains, c ≠ none

/-! ## BreakClustersToPaths: the processor -/

/-- The setting `EPCGExBreakClusterLeavesHandling`. -/
inductive EPCGExBreakClusterLeavesHandling where
  | Include
  | Exclude
  | Only
deriving DecidableEq, Repr

/-- The setting `EPCGExWindingMutation`. -/
inductive EPCGExWindingMutation where
  | Unchanged
  | Clockwise
  | CounterClockwise
deriving DecidableEq, Repr

/-- The settings `UPCGExBreakClustersToPathsSettings` read in Paths mode. -/
structure UPCGExBreakClustersToPathsSettings where
  LeavesHandling : EPCGExBreakClusterLeavesHandling
  MinPointCount : Int
  bOmitAbovePointCount : Bool
  MaxPointCount : Int
  Winding : EPCGExWindingMutation
  bWindOnlyClosedLoops : Bool
  bTagIfOpenPath : Bool
  IsOpenPathTag : String
  bTagIfClosedLoop : Bool
  IsClosedLoopTag : String

/-- Engine vector `FVector2D`. -/
structure FVector2D where
  X : double
  Y : double
deriving DecidableEq, Repr

/-- The collaborators of `ProcessSingleRangeIteration` whose code is not among the translated
sources. -/
structure FPathsEngine where
  /-- The answer of `DirectionSettings.SortExtrapolation(Cluster, Edge, StartNode, EndNode)`. -/
  SortExtrapolation : Int → Nat → Nat → Bool
  /-- Whether `Context->Paths->Emplace_GetRef` returns an output for the chain. -/
  PathCreated : FNodeChain → Bool
  /-- The test `PCGExGeo::IsWinded(Winding, bIsInputClockwise)`. -/
  IsWinded : EPCGExWindingMutation → Bool → Bool
  /-- The area `UE::Geometry::CurveUtil::SignedArea2` of a polygon. -/
  SignedArea2 : List FVector2D → double

/-- A path output: the indices of the input points copied into it, in order, and its tags. -/
structure FPathOutput where
  Points : List Nat
  Tags : List String
deriving DecidableEq, Repr

/-- What one call of `ProcessSingleRangeIteration` does: it returns without an output, or
evaluates `Links.Last()` on an empty array (undefined), or leaves a path output. -/
inductive FIterationResult where
  | Skipped
  | Undefined
  | Emitted (Path : FPathOutput)
deriving DecidableEq, Repr

/-- The member function `FProcessor::BuildChains` (PCGExBreakClustersToPaths.cpp, lines
112-126): the value returned and the chains of the builder. -/
def BuildChains (Settings : UPCGExBreakClustersToPathsSettings) (Cluster : FCluster)
    (VtxFilterCache : Nat → Bool) : Bool × List (Option FNodeChain) :=
  if Settings.LeavesHandling = EPCGExBreakClusterLeavesHandling.Only then
    FNodeChainBuilder.CompileLeavesOnly Cluster VtxFilterCache
  else FNodeChainBuilder.Compile Cluster VtxFilterCache

/-- The points of a chain in chain order (lines 164 and 174-188): the point of the seed node,
then the point of the node of each link. -/
def ChainPoints (Cluster : FCluster) (Chain : FNodeChain) : List Nat :=
  Cluster.PointIndex Chain.Seed.Node :: Chain.Links.map (fun l => Cluster.PointIndex l.Node)

/-- The member function `FProcessor::ProcessSingleRangeIteration`
(PCGExBreakClustersToPaths.cpp, lines 143-195) on the entry `Chain` of the chain array. -/
def ProcessSingleRangeIteration (E : FPathsEngine)
    (Settings : UPCGExBreakClustersToPathsSettings) (Cluster : FCluster)
    (ProjectedPositions : Option (List FVector2D)) (Chain : Option FNodeChain) :
    FIterationResult :=
  match Chain with
  | none => .Skipped
  | some Chain =>
    if Settings.LeavesHandling = EPCGExBreakClusterLeavesHandling.Exclude && Chain.bIsLeaf then
      .Skipped
    else
      let ChainSize : Int := Chain.Links.length + 1
      if ChainSize < Settings.MinPointCount then .Skipped
      else if Settings.bOmitAbovePointCount && decide (ChainSize > Settings.MaxPointCount) then
        .Skipped
      else
        match Chain.Links.getLast? with
        | none => .Undefined
        | some Last =>
          let bReverse := E.SortExtrapolation Chain.Seed.Edge Chain.Seed.Node Last.Node
          if !E.PathCreated Chain then .Skipped
          else
            let MutablePoints := ChainPoints Cluster Chain
            let bDoReverse :=
              match ProjectedPositions with
              | some PP =>
                if !Settings.bWindOnlyClosedLoops || Chain.bIsClosedLoop then
                  let ProjectedPoints := MutablePoints.map (fun PtIndex => PP.getD PtIndex ⟨0, 0⟩)
                  if !E.IsWinded Settings.Winding (decide (E.SignedArea2 ProjectedPoints < 0))
                  then true
                  else bReverse
                else bReverse
              | none => bReverse
            .Emitted
              ⟨if bDoReverse then MutablePoints.reverse else MutablePoints,
                if !Chain.bIsClosedLoop then
                  (if Settings.bTagIfOpenPath then [Settings.IsOpenPathTag] else [])
                else (if Settings.bTagIfClosedLoop then [Settings.IsClosedLoopTag] else [])⟩

/-- The path outputs of the loop started by `CompleteWork` over the chain array (lines
129-141), in chain order. -/
def EmittedPaths (E : FPathsEngine) (Settings : UPCGExBreakClustersToPathsSettings)
    (Cluster : FCluster) (ProjectedPositions : Option (List FVector2D))
    (Chains : List (Option FNodeChain)) : List FPathOutput :=
  Chains.filterMap (fun Chain =>
    match ProcessSingleRangeIteration E Settings Cluster ProjectedPositions Chain with
    | .Emitted Path => some Path
    | _ => none)

/-- The path graph 0-1-2-3-4 of scenario 3, node `i` wrapping point `i`. -/
def PathGraph5 : FCluster := ⟨[0, 1, 2, 3, 4], [(0, 1), (1, 2), (2, 3), (3, 4)]⟩

/-- The 4-cycle of scenario 1, node `i` wrapping point `i`. -/
def Cycle4 : FCluster := ⟨[0, 1, 2, 3], [(0, 1), (1, 2), (2, 3), (3, 0)]⟩

/-- Settings that keep every chain of two points or more and tag both kinds of path. -/
def PathsSettings (LeavesHandling : EPCGExBreakClusterLeavesHandling) :
    UPCGExBreakClustersToPathsSettings :=
  ⟨LeavesHandling, 2, false, 500, EPCGExWindingMutation.Unchanged, true, true, "OpenPath", true,
    "ClosedLoop"⟩

/-- An engine that creates every output, keeps the order of every chain and takes every
polygon as winded as requested. -/
def PathsEngine (bReverse : Bool) : FPathsEngine :=
  ⟨fun _ _ _ => bReverse, fun _ => true, fun _ _ => true, fun _ => 0⟩

/-- The probe state `R` is reached from `S` by calls which, with the rejection sets left out,
are `Erased`, and which thread the rejection set of `S` through the probes among them. -/
def FProbeState.Extends (S R : FProbeState) (Erased : List FCall) : Prop :=
  R.Calls.map FCall.EraseSets = S.Calls.map FCall.EraseSets ++ Erased
  ∧ R.Coincidence.isSome = S.Coincidence.isSome
  ∧ ∃ T, R.Calls.filterMap FCall.Sets = S.Calls.filterMap FCall.Sets ++ T
      ∧ Threaded S.Coincidence T
      ∧ (∀ c ∈ T, c.1.isSome = S.Coincidence.isSome)
      ∧ R.Coincidence = (T.getLast?.map Prod.snd).getD S.Coincidence

/-- The edge array and the key set of a graph describe the same keys, in the same order. -/
def FGraph.Consistent (G : FGraph) : Prop := G.Edges.map FEdge.Key = G.UniqueEdges.Elements

/-- The nodes of a chain in chain order: the seed node, then the node of each link. -/
def FNodeChain.Nodes (Chain : FNodeChain) : List Nat :=
  Chain.Seed.Node :: Chain.Links.map (fun l => l.Node)

/-! ## WriteEdgeProperties -/

/-- Engine function `FMath::Clamp(X, Min, Max)`. -/
def Clamp (X Min Max : double) : double := max (min X Max) Min

/-- The setting `EPCGExMinimalAxis`. -/
inductive EPCGExMinimalAxis where
  | None
  | X
  | Y
  | Z
deriving DecidableEq, Repr

/-- The settings `UPCGExWriteEdgePropertiesSettings` read by the processor when it sets up and
when it blends the endpoints of an edge. -/
structure UPCGExWriteEdgePropertiesSettings where
  SolidificationAxis : EPCGExMinimalAxis
  bWriteRadiusX : Bool
  bWriteRadiusY : Bool
  bWriteRadiusZ : Bool
  bEndpointsBlending : Bool
  EndpointsWeights : double
  bWriteEdgePosition : Bool
  EdgePositionLerp : double

/-- The edge `PCGExGraph::FEdge` as `PCGExWriteEdgeProperties::FProcessor` reads it: the point
indices of its endpoints and the index `PointIndex` of the point that stands for the edge in
the edge data. -/
structure WriteEdgeProperties.FEdge where
  Start : Nat
  End : Nat
  PointIndex : Nat
deriving DecidableEq, Repr

/-- What the collaborators of `PCGExWriteEdgeProperties::FProcessor` answer: the base class
`Process`, `DirectionSettings.InitFromParent`, the `Init` of the radius values that are
created and of `SolidificationLerp`, the values `SolidificationLerp->Read` returns, and what
`DirectionSettings.SortEndpoints` makes of an edge. -/
structure WriteEdgeProperties.FCollaborators where
  BaseProcess : Bool
  InitFromParent : Bool
  SolidificationRadXInit : Bool
  SolidificationRadYInit : Bool
  SolidificationRadZInit : Bool
  SolidificationLerpInit : Bool
  SolidificationLerpRead : Nat → double
  SortEndpoints : WriteEdgeProperties.FEdge → WriteEdgeProperties.FEdge

/-- The members of `PCGExWriteEdgeProperties::FProcessor` that blending depends on;
`MetadataBlender` tells whether the pointer is set. -/
structure WriteEdgeProperties.FProcessor where
  bSolidify : Bool
  MetadataBlender : Bool
  StartWeight : double
  EndWeight : double
  bEdgeLoopStarted : Bool
deriving DecidableEq, Repr

/-- A processor as constructed, before `Process`. -/
def WriteEdgeProperties.FProcessor.New : WriteEdgeProperties.FProcessor :=
  ⟨false, false, 0, 0, false⟩

/-- The member function `PCGExWriteEdgeProperties::FProcessor::Process`
(PCGExWriteEdgeProperties.cpp, lines 68-112): the value returned and the members at that
moment.  The creation of the output buffers (lines 81-84) and the preparation of the blender
(line 103) cannot make it return and touch none of the members kept here.  The double `1` is
`100` hundredths. -/
def WriteEdgeProperties.FProcessor.Process (K : WriteEdgeProperties.FCollaborators)
    (Settings : UPCGExWriteEdgePropertiesSettings) : Bool × WriteEdgeProperties.FProcessor :=
  if !K.BaseProcess then (false, WriteEdgeProperties.FProcessor.New)
  else if !K.InitFromParent then (false, WriteEdgeProperties.FProcessor.New)
  else
    let P1 := { WriteEdgeProperties.FProcessor.New with
      bSolidify := decide (Settings.SolidificationAxis ≠ EPCGExMinimalAxis.None) }
    if P1.bSolidify && Settings.bWriteRadiusX && !K.SolidificationRadXInit then (false, P1)
    else if P1.bSolidify && Settings.bWriteRadiusY && !K.SolidificationRadYInit then (false, P1)
    else if P1.bSolidify && Settings.bWriteRadiusZ && !K.SolidificationRadZInit then (false, P1)
    else if P1.bSolidify && !K.SolidificationLerpInit then (false, P1)
    else
      let P2 := if Settings.bEndpointsBlending then { P1 with MetadataBlender := true } else P1
      let P3 := { P2 with StartWeight := Clamp Settings.EndpointsWeights 0 100 }
      let P4 := { P3 with EndWeight := 100 - P3.StartWeight }
      (true, { P4 with bEdgeLoopStarted := true })

/-- A point reference `PCGExData::FPointRef`: the point of the given index in the output of the
edge data, or in the input of the vertex data. -/
inductive FPointRef where
  | EdgeOut (Index : Nat)
  | VtxIn (Index : Nat)
deriving DecidableEq, Repr

/-- A call made to the metadata blender `PCGExDataBlending::FMetadataBlender`, with its
arguments in the order of the source. -/
inductive FBlendCall where
  | PrepareForBlending (Target : FPointRef)
  | Blend (A B Target : FPointRef) (Weight : double)
  | CompleteBlending (Target : FPointRef) (Count : int32) (TotalWeight : double)
deriving DecidableEq, Repr

/-- Whether the call is a call of `Blend`. -/
def FBlendCall.IsBlend : FBlendCall → Bool
  | .Blend _ _ _ _ => true
  | _ => false

/-- The lambda `MetadataBlend` of `ProcessSingleEdge` (lines 164-171), for the values the
captured locals `BlendWeightStart` and `BlendWeightEnd` have when it is called. -/
def WriteEdgeProperties.MetadataBlend (Edge : WriteEdgeProperties.FEdge)
    (BlendWeightStart BlendWeightEnd : double) : List FBlendCall :=
  let Target := FPointRef.EdgeOut Edge.PointIndex
  [FBlendCall.PrepareForBlending Target,
    FBlendCall.Blend Target (FPointRef.VtxIn Edge.Start) Target BlendWeightStart,
    FBlendCall.Blend Target (FPointRef.VtxIn Edge.End) Target BlendWeightEnd,
    FBlendCall.CompleteBlending Target 2 (BlendWeightStart + BlendWeightEnd)]

/-- The member function `PCGExWriteEdgeProperties::FProcessor::ProcessSingleEdge` (lines
120-235), reduced to the calls it makes to the metadata blender, in order.  The values it
writes to the output buffers and to the point of the edge do not go through the blender and
are left out. -/
def WriteEdgeProperties.FProcessor.ProcessSingleEdge (K : WriteEdgeProperties.FCollaborators)
    (Settings : UPCGExWriteEdgePropertiesSettings) (P : WriteEdgeProperties.FProcessor)
    (InEdge : WriteEdgeProperties.FEdge) : List FBlendCall :=
  let Edge := K.SortEndpoints InEdge
  if P.bSolidify then
    let BlendWeightStart := Clamp (K.SolidificationLerpRead Edge.PointIndex) 0 100
    let BlendWeightEnd := 100 - BlendWeightStart
    if P.MetadataBlender then WriteEdgeProperties.MetadataBlend Edge BlendWeightStart BlendWeightEnd
    else []
  else if Settings.bWriteEdgePosition then
    let BlendWeightStart := Settings.EdgePositionLerp
    let BlendWeightEnd := 100 - Settings.EdgePositionLerp
    if P.MetadataBlender then WriteEdgeProperties.MetadataBlend Edge BlendWeightStart BlendWeightEnd
    else []
  else
    if P.MetadataBlender then WriteEdgeProperties.MetadataBlend Edge P.StartWeight P.EndWeight
    else []

/-- The weight given to the start endpoint of an edge (lines 127, 183 and 224). -/
def WriteEdgeProperties.BlendWeightStart (K : WriteEdgeProperties.FCollaborators)
    (Settings : UPCGExWriteEdgePropertiesSettings) (Edge : WriteEdgeProperties.FEdge) : double :=
  if Settings.SolidificationAxis ≠ EPCGExMinimalAxis.None then
    Clamp (K.SolidificationLerpRead Edge.PointIndex) 0 100
  else if Settings.bWriteEdgePosition then Settings.EdgePositionLerp
  else Clamp Settings.EndpointsWeights 0 100

/-- Collaborators that always succeed, read a solidification lerp of a quarter and put the
endpoint of smaller index first. -/
def SceneEdgeCollaborators : WriteEdgeProperties.FCollaborators :=
  { BaseProcess := true
    InitFromParent := true
    SolidificationRadXInit := true
    SolidificationRadYInit := true
    SolidificationRadZInit := true
    SolidificationLerpInit := true
    SolidificationLerpRead := fun _ => 25
    SortEndpoints := fun E => if E.End < E.Start then ⟨E.End, E.Start, E.PointIndex⟩ else E }

/-- Settings with endpoint blending, endpoint weights of 0.3, and the given solidification
axis and edge position flag (lerp 0.75). -/
def SceneEdgeSettings (Axis : EPCGExMinimalAxis) (bWriteEdgePosition : Bool) :
    UPCGExWriteEdgePropertiesSettings :=
  { SolidificationAxis := Axis
    bWriteRadiusX := false
    bWriteRadiusY := false
    bWriteRadiusZ := false
    bEndpointsBlending := true
    EndpointsWeights := 30
    bWriteEdgePosition := bWriteEdgePosition
    EdgePositionLerp := 75 }

/-! ## ConnectPoints: the element -/

/-- The validator `ExecuteInternal` hands to `StartBatchProcessingPoints`
(PCGExConnectPoints.cpp, lines 72-80), called on a collection of `EntryNum` points: the value
returned, and the flag `bHasInvalidInputs`, which the lambda captures by reference. -/
def FPCGExConnectPointsElement.ValidateEntry (bHasInvalidInputs : Bool) (EntryNum : Nat) :
    Bool × Bool :=
  if EntryNum < 2 then (false, true) else (true, bHasInvalidInputs)

/-- Modelled from the spec: `StartBatchProcessingPoints(ValidateEntry, InitBatch)`, whose code
is not among the translated sources.  Section 7: an input that fails validation "is skipped,
siblings proceed"; section 4.1: when no input is valid "the call reports zero work scheduled".
The collections of the main input are given by their numbers of points.  The validator is
called on each of them in order, with the flag it captures as the call before left it; the
batch is made of the positions of the collections it accepted.  The result is the value
returned, the batch and the flag. -/
def StartBatchProcessingPoints (MainPoints : List Nat)
    (ValidateEntry : Bool → Nat → Bool × Bool) (Flag : Bool) : Bool × List Nat × Bool :=
  let r := MainPoints.enum.foldl
    (fun (s : List Nat × Bool) ie =>
      (if (ValidateEntry s.2 ie.2).1 then s.1 ++ [ie.1] else s.1, (ValidateEntry s.2 ie.2).2))
    ([], Flag)
  (!r.1.isEmpty, r.1, r.2)

/-- What the initial execution of `ExecuteInternal` leaves: whether the execution was
cancelled, the collections of the batch, the flag `bRequiresWriteStep` of the batch, and the
flag `bHasInvalidInputs`, which makes the element log that some inputs have less than 2 points
and will be ignored. -/
structure FExecution where
  bCancelled : Bool
  Batch : List Nat
  bRequiresWriteStep : Bool
  bHasInvalidInputs : Bool
deriving DecidableEq, Repr

/-- The initial execution of `FPCGExConnectPointsElement::ExecuteInternal` (lines 68-88). -/
def FPCGExConnectPointsElement.ExecuteInternal (MainPoints : List Nat) : FExecution :=
  let r := StartBatchProcessingPoints MainPoints FPCGExConnectPointsElement.ValidateEntry false
  if !r.1 then ⟨true, r.2.1, false, r.2.2⟩
  else ⟨false, r.2.1, true, r.2.2⟩

/-- A call made by `FProcessor::Write`: the clearing of the point output of the unit
(`PCGEX_CLEAR_IO_VOID(PointDataFacade->Source)`), the writing of the points
(`PointDataFacade->Write`), the staging of the edge outputs
(`GraphBuilder->StageEdgesOutputs`). -/
inductive FWriteCall where
  | ClearPointOutput
  | WritePoints
  | StageEdgesOutputs
deriving DecidableEq, Repr

/-- The member function `FProcessor::Write` (PCGExConnectPoints.cpp, lines 336-346): the calls
it makes, in order.  It is `none` when the graph builder, which the function dereferences, is
null. -/
def FProcessor.Write (P : FProcessor) : Option (List FWriteCall) :=
  match P.GraphBuilder with
  | none => none
  | some GraphBuilder =>
    if !GraphBuilder.bCompiledSuccessfully then some [FWriteCall.ClearPointOutput]
    else some [FWriteCall.WritePoints, FWriteCall.StageEdgesOutputs]

/-- The processor after the calls of `ProcessSinglePoint` of a parallel pass over the points,
taken one after the other in the order given; each call comes with the index of the point, the
point and the scope the scheduler hands over. -/
def FProcessor.ProcessPoints (E : FEngine) (P : FProcessor)
    (Steps : List (Nat × FPCGPoint × FScope)) : FProcessor :=
  Steps.foldl (fun Q Step => (Q.ProcessSinglePoint E Step.1 Step.2.1 Step.2.2).1) P

/-- A context with the three probes and a generator filter that fails to initialise. -/
def SceneContextFilterFails : FPCGExConnectPointsContext :=
  ⟨[SceneSharedProbe, SceneChainedProbe, SceneDirectProbe], some ⟨false, fun _ => true⟩, none,
    ⟨1, 1, 1⟩⟩

/-! ## SampleNearestSurface -/

/-- The constant `MAX_FLT`, the largest finite `float`, in hundredths. -/
def MAX_FLT : double := 340282346638528859811704183484516925440 * 100

/-- The constant `FVector::UpVector`. -/
def FVector.UpVector : FVector := ⟨0, 0, 100⟩

/-- Component-wise sum `A + B`. -/
def FVector.add (A B : FVector) : FVector := ⟨A.X + B.X, A.Y + B.Y, A.Z + B.Z⟩

/-- The setting `EPCGExSurfaceSource`. -/
inductive EPCGExSurfaceSource where
  | All
  | ActorReferences
deriving DecidableEq, Repr

/-- The setting `EPCGExCollisionFilterType`; `Other` stands for a value that is none of the
three enumerators, which the `switch` of `ProcessSinglePoint` sends to its `default` label. -/
inductive EPCGExCollisionFilterType where
  | Channel
  | ObjectType
  | Profile
  | Other
deriving DecidableEq, Repr

/-- The settings `UPCGExSampleNearestSurfaceSettings` read by the element and the processor. -/
structure UPCGExSampleNearestSurfaceSettings where
  SurfaceSource : EPCGExSurfaceSource
  MaxDistance : double
  bUseLocalMaxDistance : Bool
  bProcessFilteredOutAsFails : Bool
  bOutputNormalizedDistance : Bool
  bOutputOneMinusDistance : Bool
  DistanceScale : double
  bPruneFailedSamples : Bool
  bTagIfHasSuccesses : Bool
  HasSuccessesTag : String
  bTagIfHasNoSuccesses : Bool
  HasNoSuccessesTag : String

/-- The context `FPCGExSampleNearestSurfaceContext` after `Boot`.  Actors, primitives and
components are given by numbers; `IncludedActors` is the map from actors to indices;
`CollisionType` and `bTraceComplex` are the members of `CollisionSettings` the processor
reads; `ActorReferenceDataFacade` tells whether the pointer is set. -/
structure FPCGExSampleNearestSurfaceContext where
  bUseInclude : Bool
  IncludedActors : List (Nat × int32)
  IncludedPrimitives : List Nat
  CollisionType : EPCGExCollisionFilterType
  bTraceComplex : Bool
  ActorReferenceDataFacade : Bool

/-- An overlap `FOverlapResult`: the actor and the component that overlap the query shape. -/
structure FOverlapResult where
  Actor : Nat
  Component : Nat
deriving DecidableEq, Repr

/-- A hit `FHitResult`, reduced to the members the processor reads; the path names of the
actor and of the physical material are `none` for a null pointer. -/
structure FHitResult where
  ImpactNormal : FVector
  Location : FVector
  Actor : Option String
  PhysMaterial : Option String
deriving DecidableEq, Repr

/-- The engine functions `ProcessSinglePoint` calls, whose code is not among the translated
sources: the validity test of a primitive, the overlap queries (the value returned and the
overlaps found, for a sphere of the given radius at the given place), the closest point of a
component to a place (the distance returned and the closest point), the line trace against a
component, the physical material and owner of a component, the normalisation of a vector, and
what a read of a vector that was never assigned yields. -/
structure FWorld where
  IsValid : Nat → Bool
  OverlapComponentWithResult : Nat → FVector → double → Bool × List FOverlapResult
  OverlapMultiByChannel : FVector → double → Bool × List FOverlapResult
  OverlapMultiByObjectType : FVector → double → Bool × List FOverlapResult
  OverlapMultiByProfile : FVector → double → Bool × List FOverlapResult
  GetClosestPointOnCollision : Nat → FVector → double × FVector
  LineTraceComponent : Nat → FVector → FVector → Bool → Option FHitResult
  GetSimplePhysicalMaterial : Nat → Option String
  GetOwnerPathName : Nat → String
  GetSafeNormal : FVector → FVector
  UninitializedVector : FVector

/-- The output buffers of the processor (`LocationWriter`, `LookAtWriter` and so on): for each
output, whether its buffer was created. -/
structure FOutputWriters where
  SuccessWriter : Bool
  LocationWriter : Bool
  LookAtWriter : Bool
  NormalWriter : Bool
  DistanceWriter : Bool
  IsInsideWriter : Bool
  ActorReferenceWriter : Bool
  PhysMatWriter : Bool
deriving DecidableEq, Repr

/-- What the collaborators of `PCGExSampleNearestSurface::FProcessor` answer: the number of
points and the input points of the facade, the base class `Process`, the initialisation of the
point output (`PCGEX_INIT_IO`), whether `TryGetHandler` returns a handler, the buffers
`PCGEX_OUTPUT_INIT` creates, the broadcaster of the local max distance (`none` when the
attribute is missing), and the result of the point filters. -/
structure SampleNearestSurface.FPointDataFacade where
  GetNum : Nat
  GetInPoint : Nat → FPCGPoint
  BaseProcess : Bool
  InitializeOutput : Bool
  TryGetHandler : Bool
  Writers : FOutputWriters
  LocalMaxDistance : Option (Nat → double)
  PointFilterCache : Nat → Bool

/-- An output of `ProcessSinglePoint`: a use of `PCGEX_OUTPUT_VALUE(Name, Index, Value)`, which
stores the value at the index in the buffer of the output when that buffer was created, or a
call of `SurfacesForward->Forward(HitIndex, Index)`. -/
inductive FSampleOutput where
  | Success (Index : Nat) (Value : Bool)
  | Location (Index : Nat) (Value : FVector)
  | LookAt (Index : Nat) (Value : FVector)
  | Normal (Index : Nat) (Value : FVector)
  | Distance (Index : Nat) (Value : double)
  | IsInside (Index : Nat) (Value : Bool)
  | ActorReference (Index : Nat) (Value : String)
  | PhysMat (Index : Nat) (Value : String)
  | Forward (HitIndex : int32) (Index : Nat)
deriving DecidableEq, Repr

/-- Modelled from the spec: `PCGExMT::TScopedNumericValue<double>`, declared in a header that
is not among the translated sources; like the scoped set of section 4.4 it holds one value per
scheduler scope, each starting from the default value the constructor is given. -/
structure TScopedNumericValue where
  Values : List double
deriving DecidableEq, Repr

/-- The constructor `TScopedNumericValue(Loops, Default)`. -/
def TScopedNumericValue.Make (Loops : List FScope) (Default : double) : TScopedNumericValue :=
  ⟨Loops.map (fun _ => Default)⟩

/-- The accessor `Get(Scope)`. -/
def TScopedNumericValue.Get (V : TScopedNumericValue) (Scope : FScope) : double :=
  V.Values.getD Scope.LoopIndex 0

/-- The assignment `Set(Scope, Value)`. -/
def TScopedNumericValue.Set (V : TScopedNumericValue) (Scope : FScope) (Value : double) :
    TScopedNumericValue :=
  ⟨V.Values.set Scope.LoopIndex Value⟩

/-- The members of `PCGExSampleNearestSurface::FProcessor`.  `SampleState` holds `none` in the
entries not assigned yet; `SurfacesForward` tells whether the pointer is set; `Errors` holds
the errors logged, `Outputs` the outputs made so far. -/
structure SampleNearestSurface.FProcessor where
  bOutputInitialized : Bool
  SurfacesForward : Bool
  SampleState : List (Option Bool)
  Writers : FOutputWriters
  MaxDistanceGetter : Option (Nat → double)
  MaxDistanceValue : TScopedNumericValue
  MaxSampledDistance : double
  bAnySuccess : Bool
  bPointLoopStarted : Bool
  Errors : List String
  Outputs : List FSampleOutput

/-- A processor as constructed, before `Process`. -/
def SampleNearestSurface.FProcessor.New : SampleNearestSurface.FProcessor :=
  { bOutputInitialized := false
    SurfacesForward := false
    SampleState := []
    Writers := ⟨false, false, false, false, false, false, false, false⟩
    MaxDistanceGetter := none
    MaxDistanceValue := ⟨[]⟩
    MaxSampledDistance := 0
    bAnySuccess := false
    bPointLoopStarted := false
    Errors := []
    Outputs := [] }

/-- The member function `PCGExSampleNearestSurface::FProcessor::Process`
(PCGExSampleNearestSurface.cpp, lines 102-136): the value returned and the members at that
moment.  The loop over the points it starts runs afterwards. -/
def SampleNearestSurface.FProcessor.Process (Settings : UPCGExSampleNearestSurfaceSettings)
    (Context : FPCGExSampleNearestSurfaceContext)
    (Facade : SampleNearestSurface.FPointDataFacade) : Bool × SampleNearestSurface.FProcessor :=
  if !Facade.BaseProcess then (false, SampleNearestSurface.FProcessor.New)
  else if !Facade.InitializeOutput then (false, SampleNearestSurface.FProcessor.New)
  else
    let P1 := { SampleNearestSurface.FProcessor.New with
      bOutputInitialized := true
      SurfacesForward := if Context.ActorReferenceDataFacade then Facade.TryGetHandler else false
      SampleState := List.replicate Facade.GetNum none
      Writers := Facade.Writers }
    if Settings.bUseLocalMaxDistance then
      match Facade.LocalMaxDistance with
      | none => (false, { P1 with Errors := P1.Errors ++ ["LocalMaxDistance missing"] })
      | some Getter =>
        (true, { P1 with MaxDistanceGetter := some Getter, bPointLoopStarted := true })
    else (true, { P1 with bPointLoopStarted := true })

/-- The member function `FProcessor::PrepareLoopScopesForPoints` (lines 138-142). -/
def SampleNearestSurface.FProcessor.PrepareLoopScopesForPoints
    (P : SampleNearestSurface.FProcessor) (Loops : List FScope) :
    SampleNearestSurface.FProcessor :=
  { P with MaxDistanceValue := TScopedNumericValue.Make Loops 0 }

/-- The local `MaxDistance` of `ProcessSinglePoint` (line 152). -/
def SampleNearestSurface.FProcessor.MaxDistance (P : SampleNearestSurface.FProcessor)
    (Settings : UPCGExSampleNearestSurfaceSettings) (Index : Nat) : double :=
  match P.MaxDistanceGetter with
  | some Getter => Getter Index
  | none => Settings.MaxDistance

/-- The lambda `SamplingFailed` of `ProcessSinglePoint` (lines 154-167). -/
def SampleNearestSurface.FProcessor.SamplingFailed (P : SampleNearestSurface.FProcessor)
    (Index : Nat) (Point : FPCGPoint) (MaxDistance : double) : SampleNearestSurface.FProcessor :=
  { P with
    SampleState := P.SampleState.set Index (some false)
    Outputs := P.Outputs ++
      [FSampleOutput.Location Index Point.Transform.GetLocation,
        FSampleOutput.Normal Index FVector.UpVector.neg,
        FSampleOutput.LookAt Index FVector.UpVector,
        FSampleOutput.Distance Index MaxDistance] }

/-- The locals the loop of `ProcessOverlapResults` writes to (lines 182-190). -/
structure FOverlapScan where
  MinDist : double
  HitIndex : Option int32
  HitLocation : FVector
  bSuccess : Bool
  HitComp : Option Nat
deriving DecidableEq, Repr

/-- The body of the loop of `ProcessOverlapResults` (lines 193-208). -/
def SampleNearestSurface.ScanOverlap (W : FWorld) (Context : FPCGExSampleNearestSurfaceContext)
    (Origin : FVector) (S : FOverlapScan) (Overlap : FOverlapResult) : FOverlapScan :=
  if Context.bUseInclude && !(Context.IncludedActors.lookup Overlap.Actor).isSome then S
  else
    let r := W.GetClosestPointOnCollision Overlap.Component Origin
    let Distance := r.1
    let OutClosestLocation := r.2
    if Distance < 0 then S
    else if Distance < S.MinDist then
      ⟨Distance, Context.IncludedActors.lookup Overlap.Actor, OutClosestLocation, true,
        some Overlap.Component⟩
    else S

/-- The loop of `ProcessOverlapResults` (lines 189-209) over the overlaps found. -/
def SampleNearestSurface.ScanOverlaps (W : FWorld) (Context : FPCGExSampleNearestSurfaceContext)
    (Origin : FVector) (OutOverlaps : List FOverlapResult) : FOverlapScan :=
  OutOverlaps.foldl (SampleNearestSurface.ScanOverlap W Context Origin)
    ⟨MAX_FLT, none, W.UninitializedVector, false, none⟩

/-- The locals `HitNormal`, `HitLocation` and `bIsInside` of the successful branch of
`ProcessOverlapResults`, and the outputs made while they are computed (lines 217-258). -/
def SampleNearestSurface.FProcessor.TraceHit (W : FWorld)
    (Context : FPCGExSampleNearestSurfaceContext) (P : SampleNearestSurface.FProcessor)
    (Index : Nat) (S : FOverlapScan) (Direction : FVector) :
    (FVector × FVector × Bool) × List FSampleOutput :=
  match S.HitComp with
  | some HitComp =>
    if Context.bTraceComplex then
      match W.LineTraceComponent HitComp (S.HitLocation.sub Direction)
          (S.HitLocation.add Direction) P.Writers.PhysMatWriter with
      | some HitResult =>
        ((HitResult.ImpactNormal, HitResult.Location,
            if P.Writers.IsInsideWriter then
              decide (FVector.DotProduct Direction HitResult.ImpactNormal > 0)
            else false),
          (match HitResult.Actor with
            | some HitActor => [FSampleOutput.ActorReference Index HitActor]
            | none => [])
          ++ (match HitResult.PhysMaterial with
            | some PhysMat => [FSampleOutput.PhysMat Index PhysMat]
            | none => []))
      | none => ((Direction.neg, S.HitLocation, decide (S.MinDist = 0)), [])
    else
      ((Direction.neg, S.HitLocation, decide (S.MinDist = 0)),
        [FSampleOutput.ActorReference Index (W.GetOwnerPathName HitComp)]
        ++ (match W.GetSimplePhysicalMaterial HitComp with
          | some PhysMat => [FSampleOutput.PhysMat Index PhysMat]
          | none => []))
  | none => ((Direction.neg, S.HitLocation, decide (S.MinDist = 0)), [])

/-- The lambda `ProcessOverlapResults` of `ProcessSinglePoint` (lines 187-275), called on the
overlaps found. -/
def SampleNearestSurface.FProcessor.ProcessOverlapResults (W : FWorld)
    (Context : FPCGExSampleNearestSurfaceContext) (P : SampleNearestSurface.FProcessor)
    (Index : Nat) (Point : FPCGPoint) (Scope : FScope) (MaxDistance : double) (Origin : FVector)
    (OutOverlaps : List FOverlapResult) : SampleNearestSurface.FProcessor :=
  let S := SampleNearestSurface.ScanOverlaps W Context Origin OutOverlaps
  if S.bSuccess then
    let Direction := W.GetSafeNormal (S.HitLocation.sub Origin)
    let Forwarded :=
      if P.SurfacesForward then
        match S.HitIndex with
        | some HitIndex => [FSampleOutput.Forward HitIndex Index]
        | none => []
      else []
    let T := P.TraceHit W Context Index S Direction
    { P with
      Outputs := P.Outputs ++ [FSampleOutput.LookAt Index Direction] ++ Forwarded ++ T.2 ++
        [FSampleOutput.Location Index T.1.2.1,
          FSampleOutput.Normal Index T.1.1,
          FSampleOutput.IsInside Index T.1.2.2,
          FSampleOutput.Distance Index S.MinDist,
          FSampleOutput.Success Index true]
      SampleState := P.SampleState.set Index (some true)
      MaxDistanceValue :=
        P.MaxDistanceValue.Set Scope (max (P.MaxDistanceValue.Get Scope) S.MinDist)
      bAnySuccess := true }
  else P.SamplingFailed Index Point MaxDistance

/-- The overlaps `ProcessSinglePoint` hands to `ProcessOverlapResults` (lines 278-323); `none`
on the paths that call `SamplingFailed` instead: no overlap with an included primitive, a
world query that returns false, a collision type that is none of the three enumerators. -/
def SampleNearestSurface.OutOverlaps (W : FWorld)
    (Settings : UPCGExSampleNearestSurfaceSettings)
    (Context : FPCGExSampleNearestSurfaceContext) (Origin : FVector) (MaxDistance : double) :
    Option (List FOverlapResult) :=
  if Settings.SurfaceSource = EPCGExSurfaceSource.ActorReferences then
    let OutOverlaps := Context.IncludedPrimitives.foldl
      (fun Out Primitive =>
        if !W.IsValid Primitive then Out
        else if (W.OverlapComponentWithResult Primitive Origin MaxDistance).1 then
          Out ++ (W.OverlapComponentWithResult Primitive Origin MaxDistance).2
        else Out)
      []
    if OutOverlaps.isEmpty then none else some OutOverlaps
  else
    match Context.CollisionType with
    | .Channel =>
      if (W.OverlapMultiByChannel Origin MaxDistance).1 then
        some (W.OverlapMultiByChannel Origin MaxDistance).2
      else none
    | .ObjectType =>
      if (W.OverlapMultiByObjectType Origin MaxDistance).1 then
        some (W.OverlapMultiByObjectType Origin MaxDistance).2
      else none
    | .Profile =>
      if (W.OverlapMultiByProfile Origin MaxDistance).1 then
        some (W.OverlapMultiByProfile Origin MaxDistance).2
      else none
    | .Other => none

/-- The member function `PCGExSampleNearestSurface::FProcessor::ProcessSinglePoint` (lines
150-324). -/
def SampleNearestSurface.FProcessor.ProcessSinglePoint (W : FWorld)
    (Settings : UPCGExSampleNearestSurfaceSettings)
    (Context : FPCGExSampleNearestSurfaceContext)
    (Facade : SampleNearestSurface.FPointDataFacade) (P : SampleNearestSurface.FProcessor)
    (Index : Nat) (Point : FPCGPoint) (Scope : FScope) : SampleNearestSurface.FProcessor :=
  let MaxDistance := P.MaxDistance Settings Index
  if !Facade.PointFilterCache Index then
    if Settings.bProcessFilteredOutAsFails then P.SamplingFailed Index Point MaxDistance else P
  else
    let Origin := (Facade.GetInPoint Index).Transform.GetLocation
    match SampleNearestSurface.OutOverlaps W Settings Context Origin MaxDistance with
    | some OutOverlaps =>
      P.ProcessOverlapResults W Context Index Point Scope MaxDistance Origin OutOverlaps
    | none => P.SamplingFailed Index Point MaxDistance

/-- Whether the sampling of the point of index `Index` finds a surface: the overlap query
hands overlaps to `ProcessOverlapResults`, and its loop leaves `bSuccess` set. -/
def SampleNearestSurface.FProcessor.SurfaceFound (W : FWorld)
    (Settings : UPCGExSampleNearestSurfaceSettings)
    (Context : FPCGExSampleNearestSurfaceContext)
    (Facade : SampleNearestSurface.FPointDataFacade) (P : SampleNearestSurface.FProcessor)
    (Index : Nat) : Bool :=
  match SampleNearestSurface.OutOverlaps W Settings Context
      (Facade.GetInPoint Index).Transform.GetLocation (P.MaxDistance Settings Index) with
  | some OutOverlaps =>
    (SampleNearestSurface.ScanOverlaps W Context
      (Facade.GetInPoint Index).Transform.GetLocation OutOverlaps).bSuccess
  | none => false

/-- A world with two components: component 10 of actor 1, whose closest point to any place
is 2.5 units away at (250, 0, 0), and component 20 of actor 2, whose closest point is 1 unit
away at (0, 100, 0).  The channel query finds both within a radius of 3 units or more, the
first alone within a radius of 2.5 units or more, and fails below; the other queries fail. -/
def SceneWorld : FWorld :=
  { IsValid := fun _ => true
    OverlapComponentWithResult := fun _ _ _ => (false, [])
    OverlapMultiByChannel := fun _ Radius =>
      if 300 ≤ Radius then (true, [⟨1, 10⟩, ⟨2, 20⟩])
      else if 250 ≤ Radius then (true, [⟨1, 10⟩])
      else (false, [])
    OverlapMultiByObjectType := fun _ _ => (false, [])
    OverlapMultiByProfile := fun _ _ => (false, [])
    GetClosestPointOnCollision := fun Component _ =>
      if Component = 10 then (250, ⟨250, 0, 0⟩) else (100, ⟨0, 100, 0⟩)
    LineTraceComponent := fun _ _ _ _ => none
    GetSimplePhysicalMaterial := fun _ => none
    GetOwnerPathName := fun Component => if Component = 10 then "Wall" else "Floor"
    GetSafeNormal := AxisSafeNormal
    UninitializedVector := ⟨0, 0, 0⟩ }

/-- Settings that sample any surface within the given distance, with or without a local max
distance. -/
def SceneSamplingSettings (MaxDistance : double) (bUseLocalMaxDistance : Bool) :
    UPCGExSampleNearestSurfaceSettings :=
  { SurfaceSource := EPCGExSurfaceSource.All
    MaxDistance := MaxDistance
    bUseLocalMaxDistance := bUseLocalMaxDistance
    bProcessFilteredOutAsFails := false
    bOutputNormalizedDistance := true
    bOutputOneMinusDistance := false
    DistanceScale := 100
    bPruneFailedSamples := true
    bTagIfHasSuccesses := false
    HasSuccessesTag := "HasSuccesses"
    bTagIfHasNoSuccesses := false
    HasNoSuccessesTag := "HasNoSuccesses" }

/-- A context that queries the world by channel, without included actors. -/
def SceneSamplingContext : FPCGExSampleNearestSurfaceContext :=
  { bUseInclude := false
    IncludedActors := []
    IncludedPrimitives := []
    CollisionType := EPCGExCollisionFilterType.Channel
    bTraceComplex := false
    ActorReferenceDataFacade := false }

/-- A facade over the points of the scene: every collaborator of `Process` succeeds, every
output buffer is created, every point passes the filters, and the attribute of the local max
distance is missing. -/
def SceneSamplingFacade : SampleNearestSurface.FPointDataFacade :=
  { GetNum := ScenePoints.length
    GetInPoint := fun Index => ScenePoints.getD Index (ScenePoint 0 0 0)
    BaseProcess := true
    InitializeOutput := true
    TryGetHandler := false
    Writers := ⟨true, true, true, true, true, true, true, true⟩
    LocalMaxDistance := none
    PointFilterCache := fun _ => true }

/-- Whether the loop of `ProcessOverlapResults` can keep an overlap as the hit (lines 194-201):
its actor is in the include list when an include list is used, and the distance from the
origin to its closest point is not negative and is less than `MAX_FLT`. -/
def SampleNearestSurface.Eligible (W : FWorld) (Context : FPCGExSampleNearestSurfaceContext)
    (Origin : FVector) (Overlap : FOverlapResult) : Bool :=
  (!Context.bUseInclude || (Context.IncludedActors.lookup Overlap.Actor).isSome)
  && decide (0 ≤ (W.GetClosestPointOnCollision Overlap.Component Origin).1)
  && decide ((W.GetClosestPointOnCollision Overlap.Component Origin).1 < MAX_FLT)

/-- A shared probe whose radius varies with the point: `Index + 1` units at the point `Index`;
its constant radius, which it does not use, is half a unit. -/
def SceneVariableProbe : FPCGExProbeOperation :=
  { SceneSharedProbe with
    SearchRadiusIsConstant := false
    SearchRadiusConstant := 50
    GetSearchRadius := fun Index => 100 * (Index + 1) }

/-- A context with the shared probe of constant radius and the probe of variable radius. -/
def SceneContextVariable : FPCGExConnectPointsContext :=
  ⟨[SceneSharedProbe, SceneVariableProbe], none, none, ⟨1, 1, 1⟩⟩

/-- The area of a polygon by the shoelace formula, as `SignedArea2` computes it: half the sum
of the cross products of consecutive vertices, the last one being followed by the first. -/
def ShoelaceArea2 (Vertices : List FVector2D) : double :=
  ((Vertices.zip (Vertices.rotate 1)).foldl
    (fun Area V => Area + (V.1.X * V.2.Y - V.1.Y * V.2.X) / 100) 0) / 2

/-- An engine that creates every output, answers the extrapolated sort with `bReverse`, takes
a polygon as winded when its orientation is the requested one, and measures areas by the
shoelace formula. -/
def WindingEngine (bReverse : Bool) : FPathsEngine :=
  ⟨fun _ _ _ => bReverse, fun _ => true,
    fun Winding bIsInputClockwise =>
      match Winding with
      | .Unchanged => true
      | .Clockwise => bIsInputClockwise
      | .CounterClockwise => !bIsInputClockwise,
    ShoelaceArea2⟩

/-- Settings that keep every chain of two points or more and ask for the given winding on
every chain. -/
def WindingSettings (Winding : EPCGExWindingMutation) : UPCGExBreakClustersToPathsSettings :=
  { PathsSettings EPCGExBreakClusterLeavesHandling.Include with
    Winding := Winding
    bWindOnlyClosedLoops := false }

/-- The projected positions of the four points of scenario 1: the corners of the unit square
in counter-clockwise order. -/
def SquarePositions : List FVector2D := [⟨0, 0⟩, ⟨100, 0⟩, ⟨100, 100⟩, ⟨0, 100⟩]

/-- A cluster with one edge between the nodes 0 and 1 and an isolated node 2. -/
def IsolatedNodeCluster : FCluster := ⟨[0, 1, 2], [(0, 1)]⟩

/-- Settings that keep every chain of one point or more, leaves included. -/
def SinglePointSettings (LeavesHandling : EPCGExBreakClusterLeavesHandling) :
    UPCGExBreakClustersToPathsSettings :=
  { PathsSettings LeavesHandling with MinPointCount := 1 }

/-- An engine whose output collection creates no output. -/
def NoOutputEngine : FPathsEngine :=
  ⟨fun _ _ _ => false, fun _ => false, fun _ _ => true, fun _ => 0⟩

/-- The locals of the loop of `ProcessOverlapResults` right after it has kept the overlap
`Hit` (lines 203-207): its distance, the index of its actor in the include list, its closest
point, the success flag and its component. -/
def SampleNearestSurface.KeptHit (W : FWorld) (Context : FPCGExSampleNearestSurfaceContext)
    (Origin : FVector) (Hit : FOverlapResult) : FOverlapScan :=
  ⟨(W.GetClosestPointOnCollision Hit.Component Origin).1,
    Context.IncludedActors.lookup Hit.Actor,
    (W.GetClosestPointOnCollision Hit.Component Origin).2, true, some Hit.Component⟩

/-- Modelled from the spec: the accessor `Max()` of `PCGExMT::TScopedNumericValue<double>`,
declared in a header that is not among the translated sources: the largest of the values of
the scopes. -/
def TScopedNumericValue.Max (V : TScopedNumericValue) : double :=
  V.Values.foldl max (V.Values.headD 0)

/-- The calls of `ProcessSinglePoint` of a parallel pass over the points, taken one after the
other in the order given; each call comes with the index of the point and the scope the
scheduler hands over.  The point handed over is the output point of that index, which
`PCGEX_INIT_IO` (line 112) duplicated from the input point. -/
def SampleNearestSurface.FProcessor.ProcessPoints (W : FWorld)
    (Settings : UPCGExSampleNearestSurfaceSettings)
    (Context : FPCGExSampleNearestSurfaceContext)
    (Facade : SampleNearestSurface.FPointDataFacade) (P : SampleNearestSurface.FProcessor)
    (Steps : List (Nat × FScope)) : SampleNearestSurface.FProcessor :=
  Steps.foldl
    (fun Q Step =>
      Q.ProcessSinglePoint W Settings Context Facade Step.1 (Facade.GetInPoint Step.1) Step.2)
    P

/-- Modelled from the spec: the calls a parallel loop over the scopes `Loops` makes (section
4.1), scope after scope: every index of a scope, with that scope. -/
def PointLoopSteps (Loops : List FScope) : List (Nat × FScope) :=
  (Loops.map (fun Scope =>
    (List.range' Scope.Start Scope.Count).map (fun Index => (Index, Scope)))).flatten

/-- The loop over the points that `StartParallelLoopForPoints` starts (line 133), with chunks
of `ChunkSize` points: `PrepareLoopScopesForPoints` on the scopes of the loop, then
`ProcessSinglePoint` on every point of `[0, GetNum)`. -/
def SampleNearestSurface.FProcessor.RunPointLoop (W : FWorld)
    (Settings : UPCGExSampleNearestSurfaceSettings)
    (Context : FPCGExSampleNearestSurfaceContext)
    (Facade : SampleNearestSurface.FPointDataFacade) (P : SampleNearestSurface.FProcessor)
    (ChunkSize : Nat) : SampleNearestSurface.FProcessor :=
  (P.PrepareLoopScopesForPoints (SubLoopScopes Facade.GetNum ChunkSize)).ProcessPoints W Settings
    Context Facade (PointLoopSteps (SubLoopScopes Facade.GetNum ChunkSize))

/-- The processor when the loop over the points has run: `Process` has returned true and
every point has been processed.  It is `none` when `Process` returns false. -/
def SampleNearestSurface.FProcessor.Sampled (W : FWorld)
    (Settings : UPCGExSampleNearestSurfaceSettings)
    (Context : FPCGExSampleNearestSurfaceContext)
    (Facade : SampleNearestSurface.FPointDataFacade) (ChunkSize : Nat) :
    Option SampleNearestSurface.FProcessor :=
  let R := SampleNearestSurface.FProcessor.Process Settings Context Facade
  if R.1 then some (R.2.RunPointLoop W Settings Context Facade ChunkSize) else none

/-- The member function `FProcessor::OnPointsProcessingComplete` (lines 326-331): whether the
loop over the range `[0, GetNum)` is started, and the processor at that moment. -/
def SampleNearestSurface.FProcessor.OnPointsProcessingComplete
    (Settings : UPCGExSampleNearestSurfaceSettings) (P : SampleNearestSurface.FProcessor) :
    Bool × SampleNearestSurface.FProcessor :=
  if !Settings.bOutputNormalizedDistance || !P.Writers.DistanceWriter then (false, P)
  else (true, { P with MaxSampledDistance := P.MaxDistanceValue.Max })

/-- The member function `FProcessor::ProcessSingleRangeIteration`
(PCGExSampleNearestSurface.cpp, lines 333-339) on the value `D` the distance buffer holds at
the iteration: the value it holds afterwards, `none` when the division of line 336 is a
division by zero. -/
def SampleNearestSurface.FProcessor.ProcessSingleRangeIteration
    (Settings : UPCGExSampleNearestSurfaceSettings) (P : SampleNearestSurface.FProcessor)
    (D : double) : Option double :=
  if P.MaxSampledDistance = 0 then none
  else
    let D1 := D * 100 / P.MaxSampledDistance
    let D2 := if Settings.bOutputOneMinusDistance then 100 - D1 else D1
    some (D2 * Settings.DistanceScale / 100)

/-- The value the buffer of the output `Distance` holds at an index once the outputs made have
been stored: the value stored last at that index, `Default` when none was stored. -/
def SampleNearestSurface.DistanceValue (Outputs : List FSampleOutput) (Default : double)
    (Iteration : Nat) : double :=
  Outputs.foldl
    (fun D Output =>
      match Output with
      | .Distance Index Value => if Index = Iteration then Value else D
      | _ => D)
    Default

/-- The member function `FProcessor::Write` (PCGExSampleNearestSurface.cpp, lines 349-352):
the sample states it hands to `PCGExSampling::PruneFailedSamples`, whose code is not among the
translated sources and which gets the whole array.  It is `none` when some entry of the array
was never assigned: what is handed over is then indeterminate. -/
def SampleNearestSurface.FProcessor.Write (P : SampleNearestSurface.FProcessor) :
    Option (List Bool) :=
  if P.SampleState.all (fun State => State.isSome) then
    some (P.SampleState.map (fun State => State.getD false))
  else none

/-- A facade over the points of the scene like `SceneSamplingFacade`, where the point of index
1 does not pass the point filters. -/
def SceneSamplingFacadeFiltered : SampleNearestSurface.FPointDataFacade :=
  { SceneSamplingFacade with PointFilterCache := fun Index => decide (Index ≠ 1) }

/-- A world like `SceneWorld` in which every place lies on the component it is closest to: the
closest point is the place itself, at distance 0. -/
def SceneWorldInside : FWorld :=
  { SceneWorld with GetClosestPointOnCollision := fun _ Origin => (0, Origin) }

/-- The distance a successful sample of the point of index `Index` records (`MinDist`, lines
265-267); `none` when the point is filtered out or the sampling fails. -/
def SampleNearestSurface.FProcessor.SampledDistance (W : FWorld)
    (Settings : UPCGExSampleNearestSurfaceSettings)
    (Context : FPCGExSampleNearestSurfaceContext)
    (Facade : SampleNearestSurface.FPointDataFacade) (P : SampleNearestSurface.FProcessor)
    (Index : Nat) : Option double :=
  if !Facade.PointFilterCache Index then none
  else
    match SampleNearestSurface.OutOverlaps W Settings Context
        (Facade.GetInPoint Index).Transform.GetLocation (P.MaxDistance Settings Index) with
    | some OutOverlaps =>
      if (SampleNearestSurface.ScanOverlaps W Context
          (Facade.GetInPoint Index).Transform.GetLocation OutOverlaps).bSuccess then
        some (SampleNearestSurface.ScanOverlaps W Context
          (Facade.GetInPoint Index).Transform.GetLocation OutOverlaps).MinDist
      else none
    | none => none

/-- Every candidate a probe program may try is one of `Cs`. -/
def FProbeProgram.Within (Cs : List FCandidate) : FProbeProgram → Prop
  | .Done => True
  | .Try C Next => C ∈ Cs ∧ ∀ b, (Next b).Within Cs

/-- Modelled from the spec: a probe follows the coincidence protocol (sections 4.3 and 8) when
each of its calls acts on the rejection set and the edge set it is handed as the run of a
probe program; the program of a call that is handed candidates tries none but these. -/
def FPCGExProbeOperation.FollowsProtocol (Op : FPCGExProbeOperation) : Prop :=
  (∀ Index PointCopy Best Cands Tol, ∃ prog : FProbeProgram, prog.Within Cands ∧
    ∀ c e, Op.ProcessBestCandidate Index PointCopy Best Cands c Tol e = (prog.Run Index c e).1)
  ∧ (∀ Index PointCopy Cands Tol, ∃ prog : FProbeProgram, prog.Within Cands ∧
    ∀ c e, Op.ProcessCandidates Index PointCopy Cands c Tol e = (prog.Run Index c e).1)
  ∧ (∀ Index PointCopy Tol Accept, ∃ prog : FProbeProgram,
    ∀ c e, Op.ProcessNode Index PointCopy c Tol e Accept = (prog.Run Index c e).1)

/-- The rejection set `c'` and the edge set `e'` are what probe calls leave of the rejection
set `c` and the edge set `e` of the source `Index` when the candidates whose edge they add
are `Added`, in order: the pointer stays null or set; a rejection set holds, after what it
held, the buckets of these candidates; the edge set holds what it held and their edges. -/
def ProbeAdds (Index : Nat) (c : Option (TSet FInt32Vector)) (e : TSet uint64)
    (c' : Option (TSet FInt32Vector)) (e' : TSet uint64) (Added : List FCandidate) : Prop :=
  c'.isSome = c.isSome
  ∧ (∀ s, c = some s →
      ∃ t, c' = some t ∧ t.Elements = s.Elements ++ Added.map (fun C => C.GH))
  ∧ ∀ k, k ∈ e'.Elements ↔ k ∈ e.Elements ∨ ∃ C ∈ Added, k = H64U Index C.PointIndex

/-- A context with the shared probe and the chained probe, and no filter. -/
def SceneContextSearch : FPCGExConnectPointsContext :=
  ⟨[SceneSharedProbe, SceneChainedProbe], none, none, ⟨1, 1, 1⟩⟩

/-! ## Theorems -/

theorem H64_H64A_H64B (E : uint64) : H64 (H64A E) (H64B E) = E := by
  unfold H64 H64A H64B
  exact Nat.div_add_mod' E (2 ^ 32)

theorem TSet.mem_Add {α : Type} [DecidableEq α] (s : TSet α) (x y : α) :
    y ∈ (s.Add x).Elements ↔ y ∈ s.Elements ∨ y = x := by
  unfold TSet.Add
  split
  · constructor
    · exact fun h => Or.inl h
    · rintro (h | h)
      · exact h
      · subst h; assumption
  · simp

theorem TSet.Add_Add {α : Type} [DecidableEq α] (s : TSet α) (x : α) :
    (s.Add x).Add x = s.Add x := by
  have h : x ∈ (s.Add x).Elements := (TSet.mem_Add s x x).2 (Or.inr rfl)
  generalize s.Add x = t at h ⊢
  unfold TSet.Add
  rw [dif_pos h]

theorem TSet.Contains_iff {α : Type} [DecidableEq α] (s : TSet α) (x : α) :
    s.Contains x = true ↔ x ∈ s.Elements := by
  simp [TSet.Contains]

theorem FGraph.InsertEdges_Unsafe_list (l : List uint64) (io : int32) (G : FGraph)
    (hG : G.Consistent) :
    (l.foldl
      (fun g E =>
        if g.UniqueEdges.Contains E then g
        else ⟨g.Edges ++ [⟨g.Edges.length, H64A E, H64B E, io⟩], g.UniqueEdges.Add E⟩) G).Consistent
    ∧ ∀ k, k ∈ (l.foldl
      (fun g E =>
        if g.UniqueEdges.Contains E then g
        else ⟨g.Edges ++ [⟨g.Edges.length, H64A E, H64B E, io⟩], g.UniqueEdges.Add E⟩)
        G).UniqueEdges.Elements ↔ k ∈ G.UniqueEdges.Elements ∨ k ∈ l := by
  induction l generalizing G with
  | nil => simp [hG]
  | cons E l ih =>
    simp only [List.foldl_cons]
    by_cases hE : G.UniqueEdges.Contains E = true
    · rw [if_pos hE]
      refine ⟨(ih G hG).1, fun k => ?_⟩
      rw [(ih G hG).2 k, List.mem_cons]
      have hE2 := (TSet.Contains_iff _ _).1 hE
      constructor
      · rintro (h | h)
        · exact Or.inl h
        · exact Or.inr (Or.inr h)
      · rintro (h | h | h)
        · exact Or.inl h
        · subst h; exact Or.inl hE2
        · exact Or.inr h
    · rw [if_neg hE]
      have hE2 : E ∉ G.UniqueEdges.Elements := fun h => hE ((TSet.Contains_iff _ _).2 h)
      have hC : FGraph.Consistent
          ⟨G.Edges ++ [⟨G.Edges.length, H64A E, H64B E, io⟩], G.UniqueEdges.Add E⟩ := by
        unfold FGraph.Consistent at hG ⊢
        simp only [List.map_append, List.map_cons, List.map_nil, hG]
        unfold TSet.Add
        rw [dif_neg hE2]
        simp [FEdge.Key, H64_H64A_H64B]
      refine ⟨(ih _ hC).1, fun k => ?_⟩
      rw [(ih _ hC).2 k, List.mem_cons]
      simp only [TSet.mem_Add]
      tauto

theorem FGraph.InsertEdges_Unsafe_spec (G : FGraph) (S : TSet uint64) (io : int32)
    (hG : G.Consistent) :
    (G.InsertEdges_Unsafe S io).Consistent
    ∧ ∀ k, k ∈ (G.InsertEdges_Unsafe S io).UniqueEdges.Elements ↔
        k ∈ G.UniqueEdges.Elements ∨ k ∈ S.Elements :=
  FGraph.InsertEdges_Unsafe_list S.Elements io G hG

theorem MergeScopedEdges_spec (Sets : List (TSet uint64)) (G : FGraph) (hG : G.Consistent) :
    (MergeScopedEdges ⟨Sets⟩ G).Consistent
    ∧ ∀ k, k ∈ (MergeScopedEdges ⟨Sets⟩ G).UniqueEdges.Elements ↔
        k ∈ G.UniqueEdges.Elements ∨ ∃ S ∈ Sets, k ∈ S.Elements := by
  unfold MergeScopedEdges TScopedSet.ForEach
  induction Sets generalizing G with
  | nil => simp [hG]
  | cons S Sets ih =>
    simp only [List.foldl_cons]
    have h1 := FGraph.InsertEdges_Unsafe_spec G S (-1) hG
    refine ⟨(ih _ h1.1).1, fun k => ?_⟩
    rw [(ih _ h1.1).2 k, h1.2 k]
    simp only [List.mem_cons, exists_eq_or_imp]
    tauto

/-- C1. When `CompleteWork` runs on a processor whose builder holds a new graph, for every
family of per-scope key sets: the scoped sets are released and the graph of the builder is the
merge of the family, in which every key held by some scope set is the key of exactly one edge,
a key held by no scope set is the key of no edge, and the key set is the union of the scope
sets; adding a key to a scope set a second time leaves the set as it was, with the key in it
once. -/
theorem ConnectPoints_CompleteWork_dedup (P : FProcessor) (Sets : List (TSet uint64)) :
    (∃ B, ({ P with ScopedEdges := ⟨Sets⟩, GraphBuilder := some ⟨FGraph.New, false⟩ }
          : FProcessor).CompleteWork.GraphBuilder = some B
      ∧ ({ P with ScopedEdges := ⟨Sets⟩, GraphBuilder := some ⟨FGraph.New, false⟩ }
          : FProcessor).CompleteWork.ScopedEdges = ⟨[]⟩
      ∧ B.Graph = MergeScopedEdges ⟨Sets⟩ FGraph.New
      ∧ (∀ k, (∃ S ∈ Sets, k ∈ S.Elements) →
          (B.Graph.Edges.filter (fun e => e.Key = k)).length = 1)
      ∧ (∀ k, (¬ ∃ S ∈ Sets, k ∈ S.Elements) →
          (B.Graph.Edges.filter (fun e => e.Key = k)).length = 0)
      ∧ (∀ k, k ∈ B.Graph.UniqueEdges.Elements ↔ ∃ S ∈ Sets, k ∈ S.Elements))
    ∧ (∀ (S : TSet uint64) (k : uint64),
        (S.Add k).Add k = S.Add k ∧ (S.Add k).Elements.count k = 1) := by
  have hNew : FGraph.New.Consistent := rfl
  obtain ⟨hC, hM⟩ := MergeScopedEdges_spec Sets FGraph.New hNew
  have hM2 : ∀ k, k ∈ (MergeScopedEdges ⟨Sets⟩ FGraph.New).UniqueEdges.Elements ↔
      ∃ S ∈ Sets, k ∈ S.Elements := by
    intro k
    rw [hM k]
    simp [FGraph.New, TSet.Empty]
  have hcount : ∀ k, ((MergeScopedEdges ⟨Sets⟩ FGraph.New).Edges.filter
      (fun e => e.Key = k)).length =
      (MergeScopedEdges ⟨Sets⟩ FGraph.New).UniqueEdges.Elements.count k := by
    intro k
    rw [← hC, List.count, List.countP_map, List.countP_eq_length_filter]
    rfl
  refine ⟨⟨⟨MergeScopedEdges ⟨Sets⟩ FGraph.New, false⟩, rfl, rfl, rfl, fun k hk => ?_,
    fun k hk => ?_, hM2⟩, fun S k => ⟨TSet.Add_Add S k, ?_⟩⟩
  · rw [hcount k]
    exact List.count_eq_one_of_mem (MergeScopedEdges ⟨Sets⟩ FGraph.New).UniqueEdges.nodup
      ((hM2 k).2 hk)
  · rw [hcount k]
    exact List.count_eq_zero_of_not_mem (fun h => hk ((hM2 k).1 h))
  · exact List.count_eq_one_of_mem (S.Add k).nodup ((TSet.mem_Add S k k).2 (Or.inr rfl))

theorem ConnectPoints_CompleteWork_dedup_witness :
    ∃ B, ({ FProcessor.New with
            ScopedEdges := ⟨[(TSet.Empty.Add 7).Add 7, (TSet.Empty.Add 9).Add 7]⟩,
            GraphBuilder := some ⟨FGraph.New, false⟩ } : FProcessor).CompleteWork.GraphBuilder
        = some B
      ∧ (B.Graph.Edges.filter (fun e => e.Key = 7)).length = 1
      ∧ (B.Graph.Edges.filter (fun e => e.Key = 8)).length = 0 := by
  obtain ⟨⟨B, hB, -, -, h1, h0, -⟩, -⟩ := ConnectPoints_CompleteWork_dedup FProcessor.New
    [(TSet.Empty.Add 7).Add 7, (TSet.Empty.Add 9).Add 7]
  exact ⟨B, hB, h1 7 ⟨_, List.mem_cons_self _ _, by decide⟩, h0 8 (by decide)⟩

theorem FProcessor.AddProbe_fold (l : List FPCGExProbeOperation) (P : FProcessor) :
    (l.foldl FProcessor.AddProbe P).DirectProbes
        = P.DirectProbes ++ l.filter (fun o => o.PrepareForPoints && !o.RequiresOctree)
    ∧ (l.foldl FProcessor.AddProbe P).SearchProbes
        = P.SearchProbes ++ l.filter (fun o => o.PrepareForPoints && o.RequiresOctree)
    ∧ (l.foldl FProcessor.AddProbe P).ChainProbeOperations
        = P.ChainProbeOperations ++ l.filter (fun o =>
            o.PrepareForPoints && o.RequiresOctree && o.RequiresChainProcessing)
    ∧ (l.foldl FProcessor.AddProbe P).SharedProbeOperations
        = P.SharedProbeOperations ++ l.filter (fun o =>
            o.PrepareForPoints && o.RequiresOctree && !o.RequiresChainProcessing)
    ∧ (l.foldl FProcessor.AddProbe P).bPreventCoincidence = P.bPreventCoincidence
    ∧ (l.foldl FProcessor.AddProbe P).CWCoincidenceTolerance = P.CWCoincidenceTolerance
    ∧ (l.foldl FProcessor.AddProbe P).Octree = P.Octree
    ∧ (l.foldl FProcessor.AddProbe P).ScopedEdges = P.ScopedEdges := by
  induction l generalizing P with
  | nil => simp
  | cons o l ih =>
    simp only [List.foldl_cons]
    obtain ⟨h1, h2, h3, h4, h5, h6, h7, h8⟩ := ih (P.AddProbe o)
    rw [h1, h2, h3, h4, h5, h6, h7, h8]
    unfold FProcessor.AddProbe
    cases hp : o.PrepareForPoints <;> cases ho : o.RequiresOctree <;>
      cases hc : o.RequiresChainProcessing <;> cases hk : o.SearchRadiusIsConstant <;>
      simp [List.filter_cons, hp, ho, hc, hk]

theorem foldl_set_getElem? {α : Type} (f : Nat → α) (idxs : List Nat) (A : List α) (j : Nat) :
    (idxs.foldl (fun A i => A.set i (f i)) A)[j]?
      = if j ∈ idxs ∧ j < A.length then some (f j) else A[j]? := by
  induction idxs generalizing A with
  | nil => simp
  | cons i idxs ih =>
    simp only [List.foldl_cons, ih, List.length_set, List.mem_cons, List.getElem?_set]
    by_cases hj : j ∈ idxs
    · by_cases hl : j < A.length
      · simp [hj, hl]
      · simp [hj, hl]
        intro h
        subst h
        rw [if_neg hl]
        exact (List.getElem?_eq_none (by omega)).symm
    · by_cases hij : i = j
      · subst hij
        by_cases hl : i < A.length
        · simp [hj, hl]
        · simp [hj, hl]
          omega
      · have : ¬ j = i := fun h => hij h.symm
        simp [hj, hij, this]

theorem FProcessor.PrepPoint_fold (idxs : List Nat) (P : FProcessor) :
    idxs.foldl FProcessor.PrepPoint P =
      { P with
        CanGenerate := idxs.foldl (fun A i => A.set i (some (match P.GeneratorsFilter with
          | some F => F.Test i
          | none => true))) P.CanGenerate
        AcceptConnections := idxs.foldl (fun A i => A.set i (some (match P.ConnectableFilter with
          | some F => F.Test i
          | none => true))) P.AcceptConnections } := by
  induction idxs generalizing P with
  | nil => rfl
  | cons i idxs ih =>
    simp only [List.foldl_cons]
    rw [ih]
    simp [FProcessor.PrepPoint]

theorem SubLoopScopes_cover (Count ChunkSize j : Nat) (hj : j < Count) :
    j ∈ ((SubLoopScopes Count ChunkSize).map (fun s => List.range' s.Start s.Count)).flatten := by
  simp only [List.mem_flatten, List.mem_map, SubLoopScopes, List.mem_range]
  have hk : 0 < max ChunkSize 1 := by omega
  generalize max ChunkSize 1 = k at hk
  refine ⟨_, ⟨_, ⟨j / k, ?_, rfl⟩, rfl⟩, ?_⟩
  · apply Nat.div_lt_of_lt_mul
    have h1 := Nat.div_add_mod (Count + k - 1) k
    have h2 := Nat.mod_lt (Count + k - 1) hk
    generalize k * ((Count + k - 1) / k) = a at h1 ⊢
    omega
  · simp only [List.mem_range'_1]
    have h1 := Nat.div_add_mod j k
    have h2 := Nat.mod_lt j hk
    rw [Nat.mul_comm] at h1
    generalize j / k * k = a at h1 ⊢
    omega

theorem FProcessor.RunPrepTask_eq (P : FProcessor) (ChunkSize : Nat) :
    P.RunPrepTask ChunkSize =
      { P with
        CanGenerate :=
          (((SubLoopScopes P.InPoints.length ChunkSize).map
            (fun s => List.range' s.Start s.Count)).flatten).foldl
            (fun A i => A.set i (some (match P.GeneratorsFilter with
              | some F => F.Test i
              | none => true))) P.CanGenerate
        AcceptConnections :=
          (((SubLoopScopes P.InPoints.length ChunkSize).map
            (fun s => List.range' s.Start s.Count)).flatten).foldl
            (fun A i => A.set i (some (match P.ConnectableFilter with
              | some F => F.Test i
              | none => true))) P.AcceptConnections } := by
  rw [← FProcessor.PrepPoint_fold, List.foldl_flatten, List.foldl_map]
  rfl

theorem foldl_set_pairs_getElem? {α β : Type} (g : Nat × β → α) (l : List (Nat × β))
    (A : List α) (hnd : (l.map Prod.fst).Nodup) :
    (∀ ip ∈ l, ip.1 < A.length →
      (l.foldl (fun A ip => A.set ip.1 (g ip)) A)[ip.1]? = some (g ip))
    ∧ (∀ j, j ∉ l.map Prod.fst → (l.foldl (fun A ip => A.set ip.1 (g ip)) A)[j]? = A[j]?)
    ∧ (l.foldl (fun A ip => A.set ip.1 (g ip)) A).length = A.length := by
  induction l generalizing A with
  | nil => simp
  | cons a l ih =>
    simp only [List.map_cons, List.nodup_cons] at hnd
    obtain ⟨h1, h2, h3⟩ := ih (A.set a.1 (g a)) hnd.2
    simp only [List.foldl_cons]
    refine ⟨fun ip hip hlt => ?_, fun j hj => ?_, by simpa using h3⟩
    · rcases List.mem_cons.1 hip with rfl | hip
      · rw [h2 _ hnd.1, List.getElem?_set]
        simp [hlt]
      · exact h1 ip hip (by simpa using hlt)
    · simp only [List.map_cons, List.mem_cons, not_or] at hj
      rw [h2 j hj.2, List.getElem?_set]
      rw [if_neg (fun h => hj.1 (Eq.symm h))]

theorem ReadTransform_set (E : FEngine) (A : List (Option FTransform)) (i : Nat) (T : FTransform)
    (h : i < A.length) : ReadTransform E (A.set i (some T)) i = T := by
  simp [ReadTransform, List.getElem?_set, h]

theorem FProcessor.CachePoint_CachedTransforms (E : FEngine) (P : FProcessor) (i : Nat)
    (T : FTransform) : (P.CachePoint E i T).CachedTransforms = P.CachedTransforms.set i (some T) := by
  unfold FProcessor.CachePoint
  dsimp only
  split <;> rfl

theorem FProcessor.CachePoint_fold (E : FEngine) {β : Type} (T : Nat × β → FTransform)
    (l : List (Nat × β)) (P : FProcessor)
    (hl : ∀ ip ∈ l, ip.1 < P.CachedTransforms.length) :
    l.foldl (fun Q ip => Q.CachePoint E ip.1 (T ip)) P =
      { P with
        CachedTransforms := l.foldl (fun A ip => A.set ip.1 (some (T ip))) P.CachedTransforms
        Octree := P.Octree.map (fun O => ⟨O.Elements ++
          (l.filter (fun ip => ReadFlag E P.AcceptConnections ip.1)).map
            (fun ip => ⟨ip.1, ⟨(T ip).GetLocation, PPRefExtents, PPRefRadius⟩⟩)⟩) } := by
  induction l generalizing P with
  | nil =>
    cases P
    rename_i o _ _ _ _
    cases o <;> simp
  | cons a l ih =>
    simp only [List.foldl_cons]
    have ha : a.1 < P.CachedTransforms.length := hl a (List.mem_cons_self _ _)
    rw [ih]
    · unfold FProcessor.CachePoint
      by_cases hacc : ReadFlag E P.AcceptConnections a.1 = true
      · cases hO : P.Octree <;>
          simp [hacc, List.filter_cons, ReadTransform_set E _ _ _ ha, hO,
            FIndexedItemOctree.AddElement]
      · cases hO : P.Octree <;> simp [hacc, List.filter_cons, hO]
    · intro ip hip
      have := hl ip (List.mem_cons_of_mem _ hip)
      rw [FProcessor.CachePoint_CachedTransforms]
      simpa using this

theorem FProcessor.Process_true (Settings : UPCGExConnectPointsSettings)
    (Context : FPCGExConnectPointsContext) (Facade : FPointDataFacade)
    (h : (FProcessor.Process Settings Context Facade).1 = true) :
    (FProcessor.Process Settings Context Facade).2 =
      { Context.ProbeFactories.foldl FProcessor.AddProbe
          { FProcessor.New with
            CWCoincidenceTolerance := Context.CWCoincidenceTolerance
            bPreventCoincidence := Settings.bPreventCoincidence } with
        bOutputInitialized := true
        GraphBuilder := some ⟨FGraph.New, false⟩
        CanGenerate := List.replicate Facade.InPoints.length none
        AcceptConnections := List.replicate Facade.InPoints.length none
        CachedTransforms := List.replicate Facade.InPoints.length none
        GeneratorsFilter := Context.GeneratorsFiltersFactories
        ConnectableFilter := Context.ConnectablesFiltersFactories
        bUseProjection := Settings.bProjectPoints
        InPoints := Facade.InPoints
        Octree := if (Context.Probes (fun o => o.RequiresOctree)).isEmpty then none else some ⟨[]⟩
        bPrepTaskStarted := true } := by
  have hS := (FProcessor.AddProbe_fold Context.ProbeFactories
    { FProcessor.New with
      CWCoincidenceTolerance := Context.CWCoincidenceTolerance
      bPreventCoincidence := Settings.bPreventCoincidence }).2.1
  have hO := (FProcessor.AddProbe_fold Context.ProbeFactories
    { FProcessor.New with
      CWCoincidenceTolerance := Context.CWCoincidenceTolerance
      bPreventCoincidence := Settings.bPreventCoincidence }).2.2.2.2.2.2.1
  unfold FProcessor.Process at h ⊢
  dsimp only at h ⊢
  generalize List.foldl FProcessor.AddProbe _ Context.ProbeFactories = P2 at h hS hO ⊢
  simp only [FProcessor.New, List.nil_append] at hS hO
  simp only [FPCGExConnectPointsContext.Probes, ← hS]
  by_cases h1 : Facade.BaseProcess = true
  · by_cases h2 : (P2.SearchProbes.isEmpty && P2.DirectProbes.isEmpty) = true
    · simp [h1, h2] at h
    · by_cases h3 : Facade.InitializeOutput = true
      · by_cases h4 : (match Context.GeneratorsFiltersFactories with
            | some F => !F.Init
            | none => false) = true
        · simp [h1, h2, h3, h4] at h
        · by_cases h5 : (match Context.ConnectablesFiltersFactories with
              | some F => !F.Init
              | none => false) = true
          · simp [h1, h2, h3, h4, h5] at h
          · by_cases h6 : Facade.AsyncGroup = true
            · simp only [h1, h2, h3, h4, h5, h6, Bool.not_true, Bool.false_eq_true, if_false]
              cases hE : P2.SearchProbes.isEmpty <;> simp [hE, hO]
            · simp [h1, h2, h3, h4, h5, h6] at h
      · simp [h1, h2, h3] at h
  · simp [h1] at h

theorem FProcessor.OnPreparationComplete_eq (E : FEngine) (P : FProcessor)
    (hlen : P.CachedTransforms.length = P.InPoints.length) :
    P.OnPreparationComplete E =
      { P with
        CachedTransforms :=
          if P.SearchProbes.isEmpty then P.CachedTransforms
          else P.InPoints.enum.foldl (fun A ip => A.set ip.1 (some
            (if P.bUseProjection then E.ProjectFlat ip.2.Transform ip.1 else ip.2.Transform)))
            P.CachedTransforms
        Octree :=
          if P.SearchProbes.isEmpty then P.Octree
          else P.Octree.map (fun O => ⟨O.Elements ++
            (P.InPoints.enum.filter (fun ip => ReadFlag E P.AcceptConnections ip.1)).map
              (fun ip => ⟨ip.1, ⟨(if P.bUseProjection then E.ProjectFlat ip.2.Transform ip.1
                else ip.2.Transform).GetLocation, PPRefExtents, PPRefRadius⟩⟩)⟩)
        GeneratorsFilter := none
        ConnectableFilter := none } := by
  have hl : ∀ ip ∈ P.InPoints.enum, ip.1 < P.CachedTransforms.length := by
    intro ip hip
    rw [hlen]
    have := List.mem_map_of_mem Prod.fst hip
    rw [List.enum_map_fst] at this
    exact List.mem_range.1 this
  unfold FProcessor.OnPreparationComplete
  cases hS : P.SearchProbes.isEmpty
  · cases hp : P.bUseProjection
    · simp only [Bool.not_false, if_true, Bool.false_eq_true, if_false]
      rw [FProcessor.CachePoint_fold E (fun ip => ip.2.Transform) _ P hl]
      simp [hp]
    · simp only [Bool.not_false, if_true]
      rw [FProcessor.CachePoint_fold E (fun ip => E.ProjectFlat ip.2.Transform ip.1) _ P hl]
      simp [hp]
  · simp

theorem FProcessor.Prepared_spec (E : FEngine) (Settings : UPCGExConnectPointsSettings)
    (Context : FPCGExConnectPointsContext) (Facade : FPointDataFacade) (P : FProcessor)
    (h : FProcessor.Prepared E Settings Context Facade = some P) :
    P.DirectProbes = Context.Probes (fun o => !o.RequiresOctree)
    ∧ P.SearchProbes = Context.Probes (fun o => o.RequiresOctree)
    ∧ P.ChainProbeOperations
        = Context.Probes (fun o => o.RequiresOctree && o.RequiresChainProcessing)
    ∧ P.SharedProbeOperations
        = Context.Probes (fun o => o.RequiresOctree && !o.RequiresChainProcessing)
    ∧ P.bPreventCoincidence = Settings.bPreventCoincidence
    ∧ P.CWCoincidenceTolerance = Context.CWCoincidenceTolerance
    ∧ P.bUseProjection = Settings.bProjectPoints
    ∧ P.InPoints = Facade.InPoints
    ∧ (∀ i, i < Facade.InPoints.length →
        P.CanGenerate[i]? = some (some (Context.IsGenerator i)))
    ∧ (∀ i, i < Facade.InPoints.length →
        P.AcceptConnections[i]? = some (some (Context.IsConnectable i)))
    ∧ P.Octree =
        (if (Context.Probes (fun o => o.RequiresOctree)).isEmpty then none
         else some ⟨(Facade.InPoints.enum.filter (fun ip => Context.IsConnectable ip.1)).map
            (fun ip => ⟨ip.1, ⟨(CachedTransformOf E Settings ip.1 ip.2).GetLocation, PPRefExtents,
              PPRefRadius⟩⟩)⟩)
    ∧ ((Context.Probes (fun o => o.RequiresOctree)).isEmpty = false →
        ∀ i Point, Facade.InPoints[i]? = some Point →
          P.CachedTransforms[i]? = some (some (CachedTransformOf E Settings i Point)))
    ∧ P.ScopedEdges
        = TScopedSet.Make (SubLoopScopes Facade.InPoints.length Facade.PointsBatchChunkSize)
    ∧ P.GraphBuilder = some ⟨FGraph.New, false⟩ := by
  unfold FProcessor.Prepared at h
  dsimp only at h
  split at h
  swap
  · simp at h
  rename_i hR
  have hP := (Option.some.inj h).symm
  clear h
  have hProc := FProcessor.Process_true Settings Context Facade hR
  obtain ⟨f1, f2, f3, f4, f5, f6, -, -⟩ := FProcessor.AddProbe_fold Context.ProbeFactories
    { FProcessor.New with
      CWCoincidenceTolerance := Context.CWCoincidenceTolerance
      bPreventCoincidence := Settings.bPreventCoincidence }
  generalize List.foldl FProcessor.AddProbe _ Context.ProbeFactories = P2 at hProc f1 f2 f3 f4 f5 f6
  simp only [FProcessor.New, List.nil_append] at f1 f2 f3 f4 f5 f6
  generalize (FProcessor.Process Settings Context Facade).2 = Q at hProc hP
  subst hProc
  rw [FProcessor.RunPrepTask_eq, FProcessor.OnPreparationComplete_eq] at hP
  swap
  · simp
  subst hP
  have hgen : ∀ i, i < Facade.InPoints.length →
      ((List.map (fun s => List.range' s.Start s.Count)
        (SubLoopScopes Facade.InPoints.length Facade.PointsBatchChunkSize)).flatten.foldl
        (fun A i => A.set i (some (match Context.GeneratorsFiltersFactories with
          | some F => F.Test i
          | none => true)))
        (List.replicate Facade.InPoints.length none))[i]? = some (some (Context.IsGenerator i)) := by
    intro i hi
    rw [foldl_set_getElem?]
    simp [SubLoopScopes_cover _ _ _ hi, hi, FPCGExConnectPointsContext.IsGenerator]
  have hacc : ∀ i, i < Facade.InPoints.length →
      ((List.map (fun s => List.range' s.Start s.Count)
        (SubLoopScopes Facade.InPoints.length Facade.PointsBatchChunkSize)).flatten.foldl
        (fun A i => A.set i (some (match Context.ConnectablesFiltersFactories with
          | some F => F.Test i
          | none => true)))
        (List.replicate Facade.InPoints.length none))[i]?
        = some (some (Context.IsConnectable i)) := by
    intro i hi
    rw [foldl_set_getElem?]
    simp [SubLoopScopes_cover _ _ _ hi, hi, FPCGExConnectPointsContext.IsConnectable]
  have hmem : ∀ ip ∈ Facade.InPoints.enum, ip.1 < Facade.InPoints.length := by
    intro ip hip
    have := List.mem_map_of_mem Prod.fst hip
    rw [List.enum_map_fst] at this
    exact List.mem_range.1 this
  refine ⟨?_, ?_, ?_, ?_, ?_, ?_, ?_, ?_, ?_, ?_, ?_, ?_, ?_, ?_⟩
  · simp [FProcessor.PrepareLoopScopesForPoints, f1, FPCGExConnectPointsContext.Probes]
  · simp [FProcessor.PrepareLoopScopesForPoints, f2, FPCGExConnectPointsContext.Probes]
  · simp [FProcessor.PrepareLoopScopesForPoints, f3, FPCGExConnectPointsContext.Probes,
      Bool.and_assoc]
  · simp [FProcessor.PrepareLoopScopesForPoints, f4, FPCGExConnectPointsContext.Probes,
      Bool.and_assoc]
  · simp [FProcessor.PrepareLoopScopesForPoints, f5]
  · simp [FProcessor.PrepareLoopScopesForPoints, f6]
  · simp [FProcessor.PrepareLoopScopesForPoints]
  · simp [FProcessor.PrepareLoopScopesForPoints]
  · intro i hi
    simpa [FProcessor.PrepareLoopScopesForPoints] using hgen i hi
  · intro i hi
    simpa [FProcessor.PrepareLoopScopesForPoints] using hacc i hi
  · simp only [FProcessor.PrepareLoopScopesForPoints, f2, FPCGExConnectPointsContext.Probes]
    by_cases hE : (List.filter (fun o => o.PrepareForPoints && o.RequiresOctree)
      Context.ProbeFactories).isEmpty = true
    · simp [hE]
    · simp only [hE, Bool.false_eq_true, if_false, Option.map_some', List.nil_append]
      congr 2
      apply congrArg₂
      · funext ip
        simp [CachedTransformOf]
      · apply List.filter_congr
        intro ip hip
        simp [ReadFlag, hacc ip.1 (hmem ip hip)]
  · intro hE i Point hi
    simp only [FProcessor.PrepareLoopScopesForPoints, f2, FPCGExConnectPointsContext.Probes] at hE ⊢
    simp only [hE, Bool.false_eq_true, if_false]
    have hnd : (Facade.InPoints.enum.map Prod.fst).Nodup := by
      rw [List.enum_map_fst]
      exact List.nodup_range _
    have hin : (i, Point) ∈ Facade.InPoints.enum := by
      rw [List.mem_iff_getElem?]
      exact ⟨i, by simp [List.getElem?_enum, hi]⟩
    have := (foldl_set_pairs_getElem?
      (fun ip : Nat × FPCGPoint => some (if Settings.bProjectPoints
        then E.ProjectFlat ip.2.Transform ip.1 else ip.2.Transform))
      Facade.InPoints.enum (List.replicate Facade.InPoints.length none) hnd).1 (i, Point) hin
      (by simpa using hmem _ hin)
    simpa [CachedTransformOf] using this
  · simp [FProcessor.PrepareLoopScopesForPoints]
  · simp [FProcessor.PrepareLoopScopesForPoints]

theorem FProcessor.ProcessPoint_fold (E : FEngine) (P : FProcessor) (Index : Nat)
    (PointCopy : FPCGPoint) (Origin : FVector) (Found : List FIndexedItem) (S : FQueryState) :
    (Found.foldl (P.ProcessPoint E Index PointCopy Origin) S).Candidates
        = S.Candidates ++ (Found.filter (fun Item => decide (Item.Index ≠ Index))).map
            (fun Item => P.MakeCandidate E Origin Item.Index)
    ∧ (Found.foldl (P.ProcessPoint E Index PointCopy Origin) S).Calls
        = S.Calls ++ P.ChainedCalls PointCopy S.Candidates.length
            ((Found.filter (fun Item => decide (Item.Index ≠ Index))).map
              (fun Item => P.MakeCandidate E Origin Item.Index)) := by
  induction Found generalizing S with
  | nil => simp [FProcessor.ChainedCalls]
  | cons Item Found ih =>
    simp only [List.foldl_cons]
    obtain ⟨h1, h2⟩ := ih (P.ProcessPoint E Index PointCopy Origin S Item)
    rw [h1, h2]
    unfold FProcessor.ProcessPoint
    by_cases hI : Item.Index = Index
    · simp [hI, List.filter_cons]
    · by_cases hN : P.NumChainedOps > 0
      · simp [hI, hN, List.filter_cons, FProcessor.ChainedCalls, List.enumFrom_cons]
      · have hnil : P.ChainProbeOperations = [] := by
          cases hc : P.ChainProbeOperations with
          | nil => rfl
          | cons a l => simp [FProcessor.NumChainedOps, hc] at hN
        simp [hI, hN, List.filter_cons, FProcessor.ChainedCalls, List.enumFrom_cons, hnil]

theorem FProbeState.fold_Apply {χ : Type} (l : List χ)
    (mk : χ → Option (TSet FInt32Vector) → Option (TSet FInt32Vector) → FCall)
    (eff : χ → Option (TSet FInt32Vector) → TSet uint64 → FProbeEffect)
    (hmk : ∀ x a b, (mk x a b).EraseSets = (mk x none none).EraseSets)
    (hsets : ∀ x a b, (mk x a b).Sets = some (a, b)) (S : FProbeState) :
    (l.foldl (fun S x => S.Apply (mk x) (eff x S.Coincidence S.UniqueEdges)) S).Calls.map
        FCall.EraseSets
      = S.Calls.map FCall.EraseSets ++ l.map (fun x => (mk x none none).EraseSets)
    ∧ (l.foldl (fun S x => S.Apply (mk x) (eff x S.Coincidence S.UniqueEdges)) S).Coincidence.isSome
      = S.Coincidence.isSome
    ∧ ∃ T, (l.foldl (fun S x => S.Apply (mk x) (eff x S.Coincidence S.UniqueEdges))
          S).Calls.filterMap FCall.Sets = S.Calls.filterMap FCall.Sets ++ T
        ∧ Threaded S.Coincidence T
        ∧ (∀ c ∈ T, c.1.isSome = S.Coincidence.isSome)
        ∧ T.length = l.length
        ∧ (l.foldl (fun S x => S.Apply (mk x) (eff x S.Coincidence S.UniqueEdges)) S).Coincidence
            = (T.getLast?.map Prod.snd).getD S.Coincidence := by
  induction l generalizing S with
  | nil => exact ⟨by simp, rfl, [], by simp, trivial, by simp, rfl, rfl⟩
  | cons x l ih =>
    simp only [List.foldl_cons]
    obtain ⟨h1, h2, T, h3, h4, h5, h6, h7⟩ :=
      ih (S.Apply (mk x) (eff x S.Coincidence S.UniqueEdges))
    refine ⟨?_, ?_, (S.Coincidence, S.Coincidence.map
      (fun _ => (eff x S.Coincidence S.UniqueEdges).1)) :: T, ?_, ?_, ?_, ?_, ?_⟩
    · rw [h1]
      simp [FProbeState.Apply, hmk x S.Coincidence]
    · rw [h2]
      simp [FProbeState.Apply]
    · rw [h3]
      simp [FProbeState.Apply, List.filterMap_append, hsets]
    · exact ⟨rfl, h4⟩
    · intro c hc
      rcases List.mem_cons.1 hc with rfl | hc
      · rfl
      · rw [h5 c hc]
        simp [FProbeState.Apply]
    · simp [h6]
    · rw [h7]
      cases T with
      | nil => simp [FProbeState.Apply]
      | cons t T =>
        rw [List.getLast?_cons_cons, List.getLast?_eq_getLast (t :: T) (by simp)]
        rfl

theorem Threaded_append (c : Option (TSet FInt32Vector))
    (T1 T2 : List (Option (TSet FInt32Vector) × Option (TSet FInt32Vector)))
    (h1 : Threaded c T1) (h2 : Threaded ((T1.getLast?.map Prod.snd).getD c) T2) :
    Threaded c (T1 ++ T2) := by
  induction T1 generalizing c with
  | nil => simpa using h2
  | cons t T1 ih =>
    refine ⟨h1.1, ih t.2 h1.2 ?_⟩
    cases T1 with
    | nil => simpa using h2
    | cons u T1 =>
      rw [List.getLast?_cons_cons] at h2
      rw [List.getLast?_eq_getLast (u :: T1) (by simp)] at h2 ⊢
      exact h2

theorem FProbeState.Extends.refl (S : FProbeState) : S.Extends S [] :=
  ⟨by simp, rfl, [], by simp, trivial, by simp, rfl⟩

theorem FProbeState.Extends.trans {S R Q : FProbeState} {A B : List FCall}
    (h1 : S.Extends R A) (h2 : R.Extends Q B) : S.Extends Q (A ++ B) := by
  obtain ⟨a1, a2, T1, a3, a4, a5, a6⟩ := h1
  obtain ⟨b1, b2, T2, b3, b4, b5, b6⟩ := h2
  refine ⟨by rw [b1, a1, List.append_assoc], by rw [b2, a2], T1 ++ T2,
    by rw [b3, a3, List.append_assoc], ?_, ?_, ?_⟩
  · exact Threaded_append _ _ _ a4 (a6 ▸ b4)
  · intro c hc
    rcases List.mem_append.1 hc with hc | hc
    · exact a5 c hc
    · rw [b5 c hc, a2]
  · rw [b6, a6]
    cases T2 with
    | nil => simp
    | cons t T2 =>
      rw [List.getLast?_append_of_ne_nil _ (by simp)]
      rw [List.getLast?_eq_getLast (t :: T2) (by simp)]
      rfl

theorem FProbeState.Extends.calls (S : FProbeState) (cs : List FCall)
    (h1 : ∀ c ∈ cs, c.EraseSets = c) (h2 : ∀ c ∈ cs, c.Sets = none) :
    S.Extends { S with Calls := S.Calls ++ cs } cs := by
  refine ⟨?_, rfl, [], ?_, trivial, by simp, rfl⟩
  · simp only [List.map_append]
    congr 1
    exact (List.map_congr_left h1).trans (List.map_id _)
  · simp only [List.filterMap_append, List.append_nil]
    have : List.filterMap FCall.Sets cs = [] := by
      rw [List.filterMap_eq_nil_iff]
      exact h2
    rw [this, List.append_nil]

theorem FProbeState.Extends.fold {χ : Type} (l : List χ)
    (mk : χ → Option (TSet FInt32Vector) → Option (TSet FInt32Vector) → FCall)
    (eff : χ → Option (TSet FInt32Vector) → TSet uint64 → FProbeEffect)
    (hmk : ∀ x a b, (mk x a b).EraseSets = mk x none none)
    (hsets : ∀ x a b, (mk x a b).Sets = some (a, b)) (S : FProbeState) :
    S.Extends (l.foldl (fun S x => S.Apply (mk x) (eff x S.Coincidence S.UniqueEdges)) S)
      (l.map (fun x => mk x none none)) := by
  have hmk2 : ∀ x a b, (mk x a b).EraseSets = (mk x none none).EraseSets := by
    intro x a b
    rw [hmk x a b, hmk x none none]
  obtain ⟨h1, h2, T, h3, h4, h5, -, h7⟩ := FProbeState.fold_Apply l mk eff hmk2 hsets S
  refine ⟨?_, h2, T, h3, h4, h5, h7⟩
  rw [h1]
  congr 1
  apply List.map_congr_left
  intro x _
  exact hmk x none none

theorem FProcessor.ChainedCalls_plain (P : FProcessor) (PointCopy : FPCGPoint) (Start : Nat)
    (Cands : List FCandidate) :
    (∀ c ∈ P.ChainedCalls PointCopy Start Cands, c.EraseSets = c)
    ∧ (∀ c ∈ P.ChainedCalls PointCopy Start Cands, c.Sets = none) := by
  constructor <;>
  · intro c hc
    simp only [FProcessor.ChainedCalls, List.mem_flatten, List.mem_map] at hc
    obtain ⟨_, ⟨_, _, rfl⟩, hc⟩ := hc
    simp only [List.mem_map] at hc
    obtain ⟨_, _, rfl⟩ := hc
    rfl

theorem FProcessor.RunSharedProbes_Extends (P : FProcessor) (Index : Nat) (PointCopy : FPCGPoint)
    (Candidates : List FCandidate) (S : FProbeState) :
    S.Extends (P.RunSharedProbes Index PointCopy Candidates S)
      (P.SharedProbeOperations.enum.map (fun x =>
        FCall.ProcessCandidates x.1 Index PointCopy Candidates none none)) :=
  FProbeState.Extends.fold P.SharedProbeOperations.enum
    (fun x => FCall.ProcessCandidates x.1 Index PointCopy Candidates)
    (fun x c e => x.2.ProcessCandidates Index PointCopy Candidates c P.CWCoincidenceTolerance e)
    (fun _ _ _ => rfl) (fun _ _ _ => rfl) S

theorem FProcessor.SearchPass_Extends (E : FEngine) (P : FProcessor) (Index : Nat)
    (PointCopy : FPCGPoint) (BestCandidates : List FBestCandidate) (S0 : FProbeState) :
    S0.Extends (P.SearchPass E Index PointCopy BestCandidates S0)
      ([FCall.FindElementsWithBoundsTest
          ⟨(ReadTransform E P.CachedTransforms Index).GetLocation,
            FVector.Splat (P.MaxRadius Index)⟩]
        ++ P.ChainedCalls PointCopy 0 (P.Discovered E Index)
        ++ P.ChainProbeOperations.enum.map (fun x =>
            FCall.ProcessBestCandidate x.1 Index PointCopy (P.Discovered E Index) none none)
        ++ (if (P.Discovered E Index).isEmpty then [] else [FCall.AlgoSort (P.Discovered E Index)])
        ++ P.SharedProbeOperations.enum.map (fun x =>
            FCall.ProcessCandidates x.1 Index PointCopy (P.SharedCandidates E Index) none none)) := by
  unfold FProcessor.SearchPass
  dsimp only
  obtain ⟨hC, hL⟩ := FProcessor.ProcessPoint_fold E P Index PointCopy
    (ReadTransform E P.CachedTransforms Index).GetLocation
    (match P.Octree with
      | some O => O.FindElementsWithBoundsTest
          ⟨(ReadTransform E P.CachedTransforms Index).GetLocation,
            FVector.Splat (P.MaxRadius Index)⟩
      | none => [])
    ⟨[], BestCandidates, S0.Calls ++ [FCall.FindElementsWithBoundsTest
      ⟨(ReadTransform E P.CachedTransforms Index).GetLocation,
        FVector.Splat (P.MaxRadius Index)⟩]⟩
  simp only [List.nil_append, List.length_nil] at hC hL
  have hD : (List.filter (fun Item => decide (Item.Index ≠ Index))
      (match P.Octree with
        | some O => O.FindElementsWithBoundsTest
            ⟨(ReadTransform E P.CachedTransforms Index).GetLocation,
              FVector.Splat (P.MaxRadius Index)⟩
        | none => [])).map
      (fun Item => P.MakeCandidate E (ReadTransform E P.CachedTransforms Index).GetLocation
        Item.Index) = P.Discovered E Index := rfl
  rw [hD] at hC hL
  generalize List.foldl _ _ _ = Q at hC hL
  rw [hC, hL]
  have e1 : S0.Extends
      ⟨S0.Coincidence, S0.UniqueEdges, S0.Calls ++ [FCall.FindElementsWithBoundsTest
        ⟨(ReadTransform E P.CachedTransforms Index).GetLocation,
          FVector.Splat (P.MaxRadius Index)⟩]
        ++ P.ChainedCalls PointCopy 0 (P.Discovered E Index)⟩
      ([FCall.FindElementsWithBoundsTest
        ⟨(ReadTransform E P.CachedTransforms Index).GetLocation,
          FVector.Splat (P.MaxRadius Index)⟩]
        ++ P.ChainedCalls PointCopy 0 (P.Discovered E Index)) := by
    have := FProbeState.Extends.calls S0 ([FCall.FindElementsWithBoundsTest
        ⟨(ReadTransform E P.CachedTransforms Index).GetLocation,
          FVector.Splat (P.MaxRadius Index)⟩]
        ++ P.ChainedCalls PointCopy 0 (P.Discovered E Index))
      (by
        intro c hc
        rcases List.mem_append.1 hc with hc | hc
        · rw [List.mem_singleton.1 hc]; rfl
        · exact (FProcessor.ChainedCalls_plain P PointCopy 0 _).1 c hc)
      (by
        intro c hc
        rcases List.mem_append.1 hc with hc | hc
        · rw [List.mem_singleton.1 hc]; rfl
        · exact (FProcessor.ChainedCalls_plain P PointCopy 0 _).2 c hc)
    simpa [List.append_assoc] using this
  generalize (⟨S0.Coincidence, S0.UniqueEdges, S0.Calls ++ [FCall.FindElementsWithBoundsTest
        ⟨(ReadTransform E P.CachedTransforms Index).GetLocation,
          FVector.Splat (P.MaxRadius Index)⟩]
        ++ P.ChainedCalls PointCopy 0 (P.Discovered E Index)⟩ : FProbeState) = S1 at e1 ⊢
  have e2 : S1.Extends
      (if P.NumChainedOps > 0 then
        P.ChainProbeOperations.enum.foldl
          (fun S x =>
            S.Apply (FCall.ProcessBestCandidate x.1 Index PointCopy (P.Discovered E Index))
              (x.2.ProcessBestCandidate Index PointCopy
                (Q.BestCandidates.getD x.1 FBestCandidate.Default) (P.Discovered E Index)
                S.Coincidence P.CWCoincidenceTolerance S.UniqueEdges))
          S1
      else S1)
      (P.ChainProbeOperations.enum.map (fun x =>
        FCall.ProcessBestCandidate x.1 Index PointCopy (P.Discovered E Index) none none)) := by
    have hf := FProbeState.Extends.fold P.ChainProbeOperations.enum
      (fun x => FCall.ProcessBestCandidate x.1 Index PointCopy (P.Discovered E Index))
      (fun x c e => x.2.ProcessBestCandidate Index PointCopy
        (Q.BestCandidates.getD x.1 FBestCandidate.Default) (P.Discovered E Index) c
        P.CWCoincidenceTolerance e)
      (fun _ _ _ => rfl) (fun _ _ _ => rfl) S1
    by_cases hN : P.NumChainedOps > 0
    · rw [if_pos hN]
      exact hf
    · rw [if_neg hN]
      have hnil : P.ChainProbeOperations = [] := by
        cases hc : P.ChainProbeOperations with
        | nil => rfl
        | cons a l => simp [FProcessor.NumChainedOps, hc] at hN
      rw [hnil]
      exact FProbeState.Extends.refl S1
  generalize (if P.NumChainedOps > 0 then _ else S1) = S2 at e2 ⊢
  have e12 := e1.trans e2
  by_cases hE : (P.Discovered E Index).isEmpty = true
  · simp only [hE, Bool.not_true, Bool.false_eq_true, if_false, if_true, List.append_nil,
      FProcessor.SharedCandidates]
    exact e12.trans (FProcessor.RunSharedProbes_Extends P Index PointCopy _ S2)
  · simp only [hE, Bool.not_false, if_true, Bool.false_eq_true, if_false,
      FProcessor.SharedCandidates]
    have e3 := FProbeState.Extends.calls S2 [FCall.AlgoSort (P.Discovered E Index)]
      (by intro c hc; rw [List.mem_singleton.1 hc]; rfl)
      (by intro c hc; rw [List.mem_singleton.1 hc]; rfl)
    exact (e12.trans e3).trans (FProcessor.RunSharedProbes_Extends P Index PointCopy _ _)

theorem FProcessor.ProcessSinglePoint_generator (E : FEngine) (P : FProcessor) (Index : Nat)
    (Point : FPCGPoint) (Scope : FScope) (hgen : ReadFlag E P.CanGenerate Index = true) :
    ∃ R : FProbeState,
      P.ProcessSinglePoint E Index Point Scope
        = ({ P with ScopedEdges := P.ScopedEdges.Put Scope R.UniqueEdges }, R.Calls)
      ∧ FProbeState.Extends
          ⟨if P.bPreventCoincidence then some TSet.Empty else none, P.ScopedEdges.Get Scope, []⟩
          R (P.ExpectedCalls E Index Point) := by
  unfold FProcessor.ProcessSinglePoint
  simp only [hgen, Bool.not_true, Bool.false_eq_true, if_false]
  refine ⟨_, rfl, ?_⟩
  unfold FProcessor.ExpectedCalls
  generalize hPC : P.PointCopy E Index Point = PointCopy
  have hprep : (if P.NumChainedOps > 0 then
        P.ChainProbeOperations.enum.map (fun x => FCall.PrepareBestCandidate x.1 Index PointCopy)
      else []) =
      P.ChainProbeOperations.enum.map
        (fun x => FCall.PrepareBestCandidate x.1 Index PointCopy) := by
    by_cases hN : P.NumChainedOps > 0
    · rw [if_pos hN]
    · rw [if_neg hN]
      have hnil : P.ChainProbeOperations = [] := by
        cases hc : P.ChainProbeOperations with
        | nil => rfl
        | cons a l => simp [FProcessor.NumChainedOps, hc] at hN
      rw [hnil]
      rfl
  rw [hprep]
  have e0 := FProbeState.Extends.calls
    ⟨if P.bPreventCoincidence then some TSet.Empty else none, P.ScopedEdges.Get Scope, []⟩
    (P.ChainProbeOperations.enum.map (fun x => FCall.PrepareBestCandidate x.1 Index PointCopy))
    (by
      intro c hc
      obtain ⟨_, _, rfl⟩ := List.mem_map.1 hc
      rfl)
    (by
      intro c hc
      obtain ⟨_, _, rfl⟩ := List.mem_map.1 hc
      rfl)
  simp only [List.nil_append] at e0
  generalize (⟨if P.bPreventCoincidence then some TSet.Empty else none, P.ScopedEdges.Get Scope,
    P.ChainProbeOperations.enum.map (fun x => FCall.PrepareBestCandidate x.1 Index PointCopy)⟩ :
      FProbeState) = S0 at e0 ⊢
  generalize (if P.NumChainedOps > 0 then
      P.ChainProbeOperations.enum.map (fun x =>
        x.2.PrepareBestCandidate Index PointCopy FBestCandidate.Default)
    else []) = Best
  have e1 : S0.Extends
      (if (!P.SearchProbes.isEmpty) = true then P.SearchPass E Index PointCopy Best S0 else S0)
      (if P.SearchProbes.isEmpty then []
        else
          [FCall.FindElementsWithBoundsTest
            ⟨(ReadTransform E P.CachedTransforms Index).GetLocation,
              FVector.Splat (P.MaxRadius Index)⟩]
          ++ P.ChainedCalls PointCopy 0 (P.Discovered E Index)
          ++ P.ChainProbeOperations.enum.map (fun x =>
              FCall.ProcessBestCandidate x.1 Index PointCopy (P.Discovered E Index) none none)
          ++ (if (P.Discovered E Index).isEmpty then []
              else [FCall.AlgoSort (P.Discovered E Index)])
          ++ P.SharedProbeOperations.enum.map (fun x =>
              FCall.ProcessCandidates x.1 Index PointCopy (P.SharedCandidates E Index) none
                none)) := by
    by_cases hS : P.SearchProbes.isEmpty = true
    · simp only [hS, Bool.not_true, Bool.false_eq_true, if_false, if_true]
      exact FProbeState.Extends.refl S0
    · simp only [hS, Bool.not_false, if_true, Bool.false_eq_true, if_false]
      exact FProcessor.SearchPass_Extends E P Index PointCopy Best S0
  generalize (if (!P.SearchProbes.isEmpty) = true then P.SearchPass E Index PointCopy Best S0
    else S0) = S1 at e1 ⊢
  have e2 := FProbeState.Extends.fold P.DirectProbes.enum
    (fun x => FCall.ProcessNode x.1 Index PointCopy)
    (fun x c e => x.2.ProcessNode Index PointCopy c P.CWCoincidenceTolerance e
      P.AcceptConnections)
    (fun _ _ _ => rfl) (fun _ _ _ => rfl) S1
  exact (e0.trans e1).trans e2

theorem ReadFlag_of_getElem? (E : FEngine) (A : List (Option Bool)) (i : Nat) (b : Bool)
    (h : A[i]? = some (some b)) : ReadFlag E A i = b := by
  simp [ReadFlag, h]

/-- C3. In the processor as the point loop finds it: for a point whose generator flag
`CanGenerate[Index]` is false, `ProcessSinglePoint` makes no call at all (so no probe is
invoked) and returns the processor unchanged (so no key is added to any scope set); the flag
of every point is the result of the generator test, and it is true for every point when no
generator filter is supplied. -/
theorem ConnectPoints_non_generator_is_skipped (E : FEngine)
    (Settings : UPCGExConnectPointsSettings) (Context : FPCGExConnectPointsContext)
    (Facade : FPointDataFacade) (P : FProcessor)
    (h : FProcessor.Prepared E Settings Context Facade = some P) :
    (∀ Index Point Scope, ReadFlag E P.CanGenerate Index = false →
      P.ProcessSinglePoint E Index Point Scope = (P, []))
    ∧ (∀ i, i < Facade.InPoints.length → ReadFlag E P.CanGenerate i = Context.IsGenerator i)
    ∧ (Context.GeneratorsFiltersFactories = none →
        ∀ i, i < Facade.InPoints.length → ReadFlag E P.CanGenerate i = true) := by
  have hspec := FProcessor.Prepared_spec E Settings Context Facade P h
  have hgen := hspec.2.2.2.2.2.2.2.2.1
  refine ⟨fun Index Point Scope hf => ?_, fun i hi => ?_, fun hnone i hi => ?_⟩
  · unfold FProcessor.ProcessSinglePoint
    simp [hf]
  · exact ReadFlag_of_getElem? E _ i _ (hgen i hi)
  · rw [ReadFlag_of_getElem? E _ i _ (hgen i hi)]
    simp [FPCGExConnectPointsContext.IsGenerator, hnone]

theorem ConnectPoints_non_generator_is_skipped_witness :
    (∃ P, FProcessor.Prepared (SceneEngine StableSort) ⟨false, false⟩ SceneContextFiltered
        SceneFacade = some P
      ∧ ReadFlag (SceneEngine StableSort) P.CanGenerate 1 = false
      ∧ P.ProcessSinglePoint (SceneEngine StableSort) 1 (ScenePoint 200 0 0) ⟨0, 2, 0⟩ = (P, []))
    ∧ (∃ P, FProcessor.Prepared (SceneEngine StableSort) ⟨false, false⟩ SceneContext
        SceneFacade = some P
      ∧ ∀ i, i < SceneFacade.InPoints.length →
          ReadFlag (SceneEngine StableSort) P.CanGenerate i = true) := by
  have h1 : (FProcessor.Prepared (SceneEngine StableSort) ⟨false, false⟩ SceneContextFiltered
      SceneFacade).isSome = true := by decide
  have h2 : (FProcessor.Prepared (SceneEngine StableSort) ⟨false, false⟩ SceneContext
      SceneFacade).isSome = true := by decide
  obtain ⟨P1, hP1⟩ := Option.isSome_iff_exists.1 h1
  obtain ⟨P2, hP2⟩ := Option.isSome_iff_exists.1 h2
  have t1 := ConnectPoints_non_generator_is_skipped _ _ _ _ P1 hP1
  have t2 := ConnectPoints_non_generator_is_skipped _ _ _ _ P2 hP2
  have hf : ReadFlag (SceneEngine StableSort) P1.CanGenerate 1 = false := by
    rw [t1.2.1 1 (by decide)]
    decide
  exact ⟨⟨P1, hP1, hf, t1.1 1 _ _ hf⟩, ⟨P2, hP2, t2.2.2 rfl⟩⟩

theorem FCall.EraseSets_eq_Find (c : FCall) (Box : FBoxCenterAndExtent)
    (h : c.EraseSets = FCall.FindElementsWithBoundsTest Box) :
    c = FCall.FindElementsWithBoundsTest Box := by
  cases c <;> simp [FCall.EraseSets] at h ⊢
  exact h

theorem enum_filter_fst_map {α : Type} (l : List α) (p : Nat → Bool) :
    ((l.enum.filter (fun ip => p ip.1)).map Prod.fst) = (List.range l.length).filter p := by
  rw [← List.enum_map_fst l, List.filter_map]
  rfl

theorem FProcessor.Prepared_isSome_iff (E : FEngine) (Settings : UPCGExConnectPointsSettings)
    (Context : FPCGExConnectPointsContext) (Facade : FPointDataFacade) :
    (FProcessor.Prepared E Settings Context Facade).isSome
      = (FProcessor.Process Settings Context Facade).1 := by
  unfold FProcessor.Prepared
  dsimp only
  split <;> simp_all

/-- C2. With at least one search probe, in the processor as the point loop finds it: the octree
holds exactly the indices of the points whose connectable flag is true, each once; every
candidate the query callback collects for a source is a point other than the source whose
connectable flag is true; and a point whose connectable flag is false is not in the octree,
yet `ProcessSinglePoint` queries the octree around it when its generator flag is true. -/
theorem ConnectPoints_octree_holds_connectables (E : FEngine)
    (Settings : UPCGExConnectPointsSettings) (Context : FPCGExConnectPointsContext)
    (Facade : FPointDataFacade) (P : FProcessor)
    (h : FProcessor.Prepared E Settings Context Facade = some P)
    (hs : Context.Probes (fun o => o.RequiresOctree) ≠ []) :
    (∃ O, P.Octree = some O
      ∧ O.Elements.map (fun Item => Item.Index)
          = (List.range Facade.InPoints.length).filter (fun i => Context.IsConnectable i)
      ∧ (∀ i, i < Facade.InPoints.length →
          ReadFlag E P.AcceptConnections i = Context.IsConnectable i)
      ∧ (∀ Index PointCopy Origin Best Calls Box,
          ∀ c ∈ ((O.FindElementsWithBoundsTest Box).foldl
              (P.ProcessPoint E Index PointCopy Origin) ⟨[], Best, Calls⟩).Candidates,
            c.PointIndex ≠ Index ∧ c.PointIndex < Facade.InPoints.length
              ∧ ReadFlag E P.AcceptConnections c.PointIndex = true)
      ∧ (∀ i, i < Facade.InPoints.length → Context.IsConnectable i = false →
          Context.IsGenerator i = true → ∀ Point Scope,
            i ∉ O.Elements.map (fun Item => Item.Index)
            ∧ FCall.FindElementsWithBoundsTest
                ⟨(ReadTransform E P.CachedTransforms i).GetLocation,
                  FVector.Splat (P.MaxRadius i)⟩ ∈ (P.ProcessSinglePoint E i Point Scope).2)) := by
  obtain ⟨-, hS, -, -, -, -, -, -, hgen, hacc, hO, -, -, -⟩ :=
    FProcessor.Prepared_spec E Settings Context Facade P h
  have hne : (Context.Probes (fun o => o.RequiresOctree)).isEmpty = false := by
    cases hc : Context.Probes (fun o => o.RequiresOctree) with
    | nil => exact absurd hc hs
    | cons a l => rfl
  rw [hne] at hO
  simp only [Bool.false_eq_true, if_false] at hO
  have hIdx : ((Facade.InPoints.enum.filter (fun ip => Context.IsConnectable ip.1)).map
      (fun ip => (⟨ip.1, ⟨(CachedTransformOf E Settings ip.1 ip.2).GetLocation, PPRefExtents,
        PPRefRadius⟩⟩ : FIndexedItem))).map (fun Item => Item.Index)
      = (List.range Facade.InPoints.length).filter (fun i => Context.IsConnectable i) := by
    rw [List.map_map, ← enum_filter_fst_map]
    rfl
  have hflag : ∀ i, i < Facade.InPoints.length →
      ReadFlag E P.AcceptConnections i = Context.IsConnectable i :=
    fun i hi => ReadFlag_of_getElem? E _ i _ (hacc i hi)
  refine ⟨_, hO, hIdx, hflag, ?_, ?_⟩
  · intro Index PointCopy Origin Best Calls Box c hc
    rw [(FProcessor.ProcessPoint_fold E P Index PointCopy Origin _ _).1] at hc
    rw [List.nil_append] at hc
    obtain ⟨Item, hIt, rfl⟩ := List.mem_map.1 hc
    obtain ⟨hIt2, hne⟩ := List.mem_filter.1 hIt
    have hItem := (List.mem_filter.1 hIt2).1
    have hmem : Item.Index ∈ (List.range Facade.InPoints.length).filter
        (fun i => Context.IsConnectable i) := by
      rw [← hIdx]
      exact List.mem_map_of_mem (fun Item => Item.Index) hItem
    rw [List.mem_filter, List.mem_range] at hmem
    refine ⟨by simpa using hne, hmem.1, ?_⟩
    show ReadFlag E P.AcceptConnections Item.Index = true
    rw [hflag _ hmem.1]
    exact hmem.2
  · intro i hi hc hg Point Scope
    constructor
    · rw [hIdx, List.mem_filter]
      simp [hc]
    · have hgenflag : ReadFlag E P.CanGenerate i = true := by
        rw [ReadFlag_of_getElem? E _ i _ (hgen i hi)]
        exact hg
      obtain ⟨R, hR, hExt⟩ := FProcessor.ProcessSinglePoint_generator E P i Point Scope hgenflag
      rw [hR]
      have hcalls := hExt.1
      simp only [List.map_nil, List.nil_append] at hcalls
      have hSne : P.SearchProbes.isEmpty = false := by rw [hS]; exact hne
      have hin : FCall.FindElementsWithBoundsTest
          ⟨(ReadTransform E P.CachedTransforms i).GetLocation, FVector.Splat (P.MaxRadius i)⟩
          ∈ R.Calls.map FCall.EraseSets := by
        rw [hcalls]
        unfold FProcessor.ExpectedCalls
        simp [hSne]
      obtain ⟨c, hc1, hc2⟩ := List.mem_map.1 hin
      rw [FCall.EraseSets_eq_Find c _ hc2] at hc1
      exact hc1

theorem ConnectPoints_octree_holds_connectables_witness :
    ∃ P, FProcessor.Prepared (SceneEngine StableSort) ⟨false, false⟩ SceneContextFiltered
        SceneFacade = some P
      ∧ SceneContextFiltered.Probes (fun o => o.RequiresOctree) ≠ []
      ∧ SceneContextFiltered.IsConnectable 3 = false
      ∧ SceneContextFiltered.IsGenerator 3 = true
      ∧ ∃ O, P.Octree = some O
        ∧ O.Elements.map (fun Item => Item.Index) = [0, 1, 2]
        ∧ FCall.FindElementsWithBoundsTest
            ⟨(ReadTransform (SceneEngine StableSort) P.CachedTransforms 3).GetLocation,
              FVector.Splat (P.MaxRadius 3)⟩
            ∈ (P.ProcessSinglePoint (SceneEngine StableSort) 3 (ScenePoint 100 0 0)
                ⟨2, 2, 1⟩).2 := by
  have h1 : (FProcessor.Prepared (SceneEngine StableSort) ⟨false, false⟩ SceneContextFiltered
      SceneFacade).isSome = true := by decide
  obtain ⟨P, hP⟩ := Option.isSome_iff_exists.1 h1
  have hs : SceneContextFiltered.Probes (fun o => o.RequiresOctree) ≠ [] :=
    fun h => absurd (congrArg List.length h) (by decide)
  obtain ⟨O, hO, hIdx, -, -, hq⟩ :=
    ConnectPoints_octree_holds_connectables _ _ _ _ P hP hs
  exact ⟨P, hP, hs, by decide, by decide, O, hO, hIdx.trans (by decide),
    (hq 3 (by decide) (by decide) (by decide) _ _).2⟩

theorem range_filter_eq (n i : Nat) :
    (List.range n).filter (fun k => decide (k = i)) = if i < n then [i] else [] := by
  induction n with
  | zero => simp
  | succ n ih =>
    rw [List.range_succ, List.filter_append, ih]
    by_cases h1 : i < n
    · have : ¬ n = i := by omega
      simp [h1, this, Nat.lt_succ_of_lt h1]
    · by_cases h2 : n = i
      · subst h2
        simp
      · have : ¬ i < n + 1 := by omega
        simp [h1, h2, this]

theorem enum_map_filter_op {α : Type} (l : List α) (f : Nat → FCall) (g : FCall → Option Nat)
    (hg : ∀ k, g (f k) = some k) (i : Nat) :
    (l.enum.map (fun x => f x.1)).filter (fun c => decide (g c = some i))
      = if i < l.length then [f i] else [] := by
  have h1 : l.enum.map (fun x => f x.1) = (List.range l.length).map f := by
    rw [← List.enum_map_fst l, List.map_map]
    rfl
  rw [h1, List.filter_map]
  have h2 : (fun c => decide (g c = some i)) ∘ f = fun k => decide (k = i) := by
    funext k
    simp [hg k]
  rw [h2, range_filter_eq]
  split <;> rfl

theorem filter_eq_nil_of {α : Type} (l : List α) (p : α → Bool) (h : ∀ a ∈ l, p a = false) :
    l.filter p = [] := by
  rw [List.filter_eq_nil_iff]
  intro a ha
  simp [h a ha]

theorem FProcessor.Prepared_search_of_shared (E : FEngine)
    (Settings : UPCGExConnectPointsSettings) (Context : FPCGExConnectPointsContext)
    (Facade : FPointDataFacade) (P : FProcessor)
    (h : FProcessor.Prepared E Settings Context Facade = some P) :
    (P.SharedProbeOperations ≠ [] → P.SearchProbes.isEmpty = false)
    ∧ (P.ChainProbeOperations ≠ [] → P.SearchProbes.isEmpty = false) := by
  obtain ⟨-, hS, hC, hSh, -⟩ := FProcessor.Prepared_spec E Settings Context Facade P h
  rw [hS, hC, hSh]
  constructor
  · intro hne
    obtain ⟨o, ho⟩ := List.exists_mem_of_ne_nil _ hne
    have : o ∈ Context.Probes (fun o => o.RequiresOctree) := by
      simp only [FPCGExConnectPointsContext.Probes, List.mem_filter, Bool.and_eq_true] at ho ⊢
      exact ⟨ho.1, ho.2.1, ho.2.2.1⟩
    cases hc : Context.Probes (fun o => o.RequiresOctree) with
    | nil => rw [hc] at this; cases this
    | cons a l => rfl
  · intro hne
    obtain ⟨o, ho⟩ := List.exists_mem_of_ne_nil _ hne
    have : o ∈ Context.Probes (fun o => o.RequiresOctree) := by
      simp only [FPCGExConnectPointsContext.Probes, List.mem_filter, Bool.and_eq_true] at ho ⊢
      exact ⟨ho.1, ho.2.1, ho.2.2.1⟩
    cases hc : Context.Probes (fun o => o.RequiresOctree) with
    | nil => rw [hc] at this; cases this
    | cons a l => rfl

theorem FProcessor.ChainedCalls_mem (P : FProcessor) (PointCopy : FPCGPoint) (Start : Nat)
    (Cands : List FCandidate) (c : FCall) (hc : c ∈ P.ChainedCalls PointCopy Start Cands) :
    ∃ o k C, c = FCall.ProcessCandidateChained o PointCopy k C := by
  simp only [FProcessor.ChainedCalls, List.mem_flatten, List.mem_map] at hc
  obtain ⟨_, ⟨_, _, rfl⟩, hc⟩ := hc
  simp only [List.mem_map] at hc
  obtain ⟨x, _, rfl⟩ := hc
  exact ⟨_, _, _, rfl⟩

theorem FProcessor.ExpectedCalls_filter_shared (E : FEngine) (P : FProcessor) (Index : Nat)
    (Point : FPCGPoint) (j : Nat) (hj : j < P.SharedProbeOperations.length)
    (hS : P.SearchProbes.isEmpty = false) :
    (P.ExpectedCalls E Index Point).filter (fun c => decide (c.SharedOp = some j))
      = [FCall.ProcessCandidates j Index (P.PointCopy E Index Point)
          (P.SharedCandidates E Index) none none] := by
  unfold FProcessor.ExpectedCalls
  simp only [hS, Bool.false_eq_true, if_false, List.filter_append]
  rw [filter_eq_nil_of (P.ChainProbeOperations.enum.map _),
    filter_eq_nil_of [FCall.FindElementsWithBoundsTest _],
    filter_eq_nil_of (P.ChainedCalls _ _ _),
    filter_eq_nil_of (P.ChainProbeOperations.enum.map _),
    filter_eq_nil_of (if (P.Discovered E Index).isEmpty then [] else _),
    filter_eq_nil_of (P.DirectProbes.enum.map _)]
  · simp only [List.nil_append, List.append_nil]
    rw [enum_map_filter_op P.SharedProbeOperations
      (fun k => FCall.ProcessCandidates k Index (P.PointCopy E Index Point)
        (P.SharedCandidates E Index) none none) FCall.SharedOp (fun _ => rfl) j, if_pos hj]
  · intro a ha
    obtain ⟨_, _, rfl⟩ := List.mem_map.1 ha
    rfl
  · intro a ha
    split at ha
    · cases ha
    · rw [List.mem_singleton.1 ha]; rfl
  · intro a ha
    obtain ⟨_, _, rfl⟩ := List.mem_map.1 ha
    rfl
  · intro a ha
    obtain ⟨_, _, _, rfl⟩ := FProcessor.ChainedCalls_mem P _ _ _ a ha
    rfl
  · intro a ha
    rw [List.mem_singleton.1 ha]; rfl
  · intro a ha
    obtain ⟨_, _, rfl⟩ := List.mem_map.1 ha
    rfl

theorem FProcessor.Prepared_CanGenerate (E : FEngine) (Settings : UPCGExConnectPointsSettings)
    (Context : FPCGExConnectPointsContext) (Facade : FPointDataFacade) (P : FProcessor)
    (h : FProcessor.Prepared E Settings Context Facade = some P) (i : Nat)
    (hi : i < Facade.InPoints.length) :
    ReadFlag E P.CanGenerate i = Context.IsGenerator i :=
  ReadFlag_of_getElem? E _ i _
    ((FProcessor.Prepared_spec E Settings Context Facade P h).2.2.2.2.2.2.2.2.1 i hi)

theorem FProcessor.Collected_eq_Discovered (E : FEngine) (P : FProcessor) (Index : Nat)
    (PointCopy : FPCGPoint) (Best : List FBestCandidate) (Calls : List FCall) :
    P.Collected E Index PointCopy Best Calls = P.Discovered E Index := by
  unfold FProcessor.Collected
  rw [(FProcessor.ProcessPoint_fold E P Index _ _ _ _).1]
  rfl

theorem StableSort_contract (l : List FCandidate) :
    (StableSort ByDistance l).Perm l
    ∧ (StableSort ByDistance l).Pairwise (fun a b => a.Distance ≤ b.Distance) := by
  constructor
  · exact List.perm_insertionSort _ l
  · haveI : IsTotal FCandidate (fun a b => ByDistance b a = false) :=
      ⟨fun a b => by simp only [ByDistance, decide_eq_false_iff_not, not_lt]; exact le_total _ _⟩
    haveI : IsTrans FCandidate (fun a b => ByDistance b a = false) :=
      ⟨fun a b c hab hbc => by
        simp only [ByDistance, decide_eq_false_iff_not, not_lt] at hab hbc ⊢
        exact le_trans hab hbc⟩
    have := List.sorted_insertionSort (fun a b : FCandidate => ByDistance b a = false) l
    refine List.Pairwise.imp ?_ this
    intro a b hab
    simpa [ByDistance] using hab

theorem SwapAt_length (l : List FCandidate) (i j : Nat) : (SwapAt l i j).length = l.length := by
  unfold SwapAt
  split <;> simp

theorem SwapAt_getElem? (l : List FCandidate) (i j : Nat) (hi : i < l.length)
    (hj : j < l.length) (k : Nat) :
    (SwapAt l i j)[k]? = if k = j then l[i]? else if k = i then l[j]? else l[k]? := by
  unfold SwapAt
  rw [List.getElem?_eq_getElem hi, List.getElem?_eq_getElem hj]
  simp only [List.getElem?_set, List.length_set]
  by_cases h1 : j = k
  · subst h1
    simp [hj]
  · have h1' : ¬ k = j := fun h => h1 h.symm
    by_cases h2 : i = k
    · subst h2
      simp [h1, h1', hi]
    · have h2' : ¬ k = i := fun h => h2 h.symm
      simp [h1, h2, h1', h2']

theorem SwapAt_perm (l : List FCandidate) (i j : Nat) : (SwapAt l i j).Perm l := by
  unfold SwapAt
  cases hi : l[i]? with
  | none => exact List.Perm.refl _
  | some a =>
    cases hj : l[j]? with
    | none => exact List.Perm.refl _
    | some b =>
      have hil : i < l.length := (List.getElem?_eq_some_iff.1 hi).1
      have hjl : j < l.length := (List.getElem?_eq_some_iff.1 hj).1
      have hia : l[i] = a := (List.getElem?_eq_some_iff.1 hi).2
      have hjb : l[j] = b := (List.getElem?_eq_some_iff.1 hj).2
      dsimp only
      rw [List.perm_iff_count]
      intro c
      have hjl2 : j < (l.set i b).length := by simpa using hjl
      rw [List.count_set a c (l.set i b) j hjl2, List.count_set b c l i hil]
      have hget : (l.set i b)[j] = b := by
        rw [List.getElem_set]
        split
        · rfl
        · exact hjb
      rw [hget, hia]
      have hpos : (if (a == c) = true then 1 else 0) ≤ List.count c l := by
        split
        · rename_i hac
          have : a = c := by simpa using hac
          subst this
          exact List.count_pos_iff.2 (hia ▸ List.getElem_mem hil)
        · exact Nat.zero_le _
      omega

theorem DistanceAt_SwapAt (l : List FCandidate) (i j : Nat) (hi : i < l.length)
    (hj : j < l.length) (k : Nat) :
    DistanceAt (SwapAt l i j) k
      = if k = j then DistanceAt l i else if k = i then DistanceAt l j else DistanceAt l k := by
  unfold DistanceAt
  rw [SwapAt_getElem? l i j hi hj k]
  split_ifs <;> rfl

theorem FirstMax_scan (l : List FCandidate) (c s M : Nat) (hM : M < s)
    (hs : s + c ≤ l.length) (hmax : ∀ i, i < s → DistanceAt l i ≤ DistanceAt l M) :
    (List.range' s c).foldl
        (fun Max Item =>
          match l[Max]?, l[Item]? with
          | some m, some i => if ByDistance m i then Item else Max
          | _, _ => Max) M < s + c
    ∧ ∀ i, i < s + c → DistanceAt l i ≤ DistanceAt l ((List.range' s c).foldl
        (fun Max Item =>
          match l[Max]?, l[Item]? with
          | some m, some i => if ByDistance m i then Item else Max
          | _, _ => Max) M) := by
  induction c generalizing s M with
  | zero => exact ⟨by simpa using hM, fun i hi => hmax i (by simpa using hi)⟩
  | succ c ih =>
    rw [List.range'_succ, List.foldl_cons]
    have hMl : M < l.length := by omega
    have hsl : s < l.length := by omega
    rw [List.getElem?_eq_getElem hMl, List.getElem?_eq_getElem hsl]
    dsimp only
    have hDM : DistanceAt l M = l[M].Distance := by
      simp [DistanceAt, List.getElem?_eq_getElem hMl]
    have hDs : DistanceAt l s = l[s].Distance := by
      simp [DistanceAt, List.getElem?_eq_getElem hsl]
    by_cases hlt : ByDistance l[M] l[s] = true
    · rw [if_pos hlt]
      have hlt2 : l[M].Distance < l[s].Distance := by simpa [ByDistance] using hlt
      have := ih (s + 1) s (Nat.lt_succ_self s) (by omega) (fun i hi => by
        rcases Nat.lt_succ_iff_lt_or_eq.1 hi with h | h
        · have := hmax i h
          rw [hDM] at this
          rw [hDs]
          exact le_trans this (le_of_lt hlt2)
        · rw [h])
      refine ⟨by omega, fun i hi => this.2 i (by omega)⟩
    · rw [if_neg hlt]
      have hlt2 : ¬ l[M].Distance < l[s].Distance := by simpa [ByDistance] using hlt
      have := ih (s + 1) M (Nat.lt_succ_of_lt hM) (by omega) (fun i hi => by
        rcases Nat.lt_succ_iff_lt_or_eq.1 hi with h | h
        · exact hmax i h
        · rw [h, hDM, hDs]
          exact not_lt.1 hlt2)
      refine ⟨by omega, fun i hi => this.2 i (by omega)⟩

theorem FirstMax_spec (l : List FCandidate) (Last : Nat) (hL : Last < l.length) :
    FirstMax ByDistance l Last ≤ Last
    ∧ ∀ i, i ≤ Last → DistanceAt l i ≤ DistanceAt l (FirstMax ByDistance l Last) := by
  have := FirstMax_scan l Last 1 0 (by omega) (by omega) (fun i hi => by
    have : i = 0 := by omega
    rw [this])
  unfold FirstMax
  exact ⟨by omega, fun i hi => this.2 i (by omega)⟩

theorem SelectionRounds_spec (k : Nat) (l : List FCandidate) (hk : k ≤ l.length)
    (hI : ∀ i j, i ≤ j → k ≤ j → j < l.length → DistanceAt l i ≤ DistanceAt l j) :
    (SelectionRounds ByDistance k l).Perm l
    ∧ (SelectionRounds ByDistance k l).length = l.length
    ∧ ∀ i j, i ≤ j → j < l.length →
        DistanceAt (SelectionRounds ByDistance k l) i
          ≤ DistanceAt (SelectionRounds ByDistance k l) j := by
  induction k generalizing l with
  | zero => exact ⟨List.Perm.refl _, rfl, fun i j hij hj => hI i j hij (Nat.zero_le _) hj⟩
  | succ k ih =>
    unfold SelectionRounds
    have hkl : k < l.length := by omega
    obtain ⟨hm1, hm2⟩ := FirstMax_spec l k hkl
    have hml : FirstMax ByDistance l k < l.length := by omega
    have hlen := SwapAt_length l (FirstMax ByDistance l k) k
    have hD := DistanceAt_SwapAt l (FirstMax ByDistance l k) k hml hkl
    obtain ⟨h1, h2, h3⟩ := ih (SwapAt l (FirstMax ByDistance l k) k) (by omega) (by
      intro i j hij hkj hj
      rw [hlen] at hj
      rw [hD i, hD j]
      by_cases hjk : j = k
      · rw [if_pos hjk]
        split_ifs
        · exact le_refl _
        · exact hm2 k (le_refl _)
        · exact hm2 i (by omega)
      · have hjm : ¬ j = FirstMax ByDistance l k := by omega
        rw [if_neg hjk, if_neg hjm]
        split_ifs
        · exact hI _ j (by omega) (by omega) hj
        · exact hI _ j (by omega) (by omega) hj
        · exact hI i j hij (by omega) hj)
    refine ⟨h1.trans (SwapAt_perm _ _ _), by rw [h2, hlen], fun i j hij hj => ?_⟩
    exact h3 i j hij (by rw [hlen]; exact hj)

theorem SelectionSort_contract (l : List FCandidate) :
    (SelectionSort ByDistance l).Perm l
    ∧ (SelectionSort ByDistance l).Pairwise (fun a b => a.Distance ≤ b.Distance) := by
  obtain ⟨h1, h2, h3⟩ := SelectionRounds_spec l.length l (le_refl _)
    (fun i j _ hj hj2 => absurd hj2 (by omega))
  refine ⟨h1, ?_⟩
  unfold SelectionSort
  rw [List.pairwise_iff_getElem]
  intro i j hi hj hij
  have := h3 i j (Nat.le_of_lt hij) (by rw [← h2]; exact hj)
  simpa [DistanceAt, List.getElem?_eq_getElem hi, List.getElem?_eq_getElem hj] using this

/-- C4 (as amended). For a generator point, every shared probe receives exactly one call of
`ProcessCandidates`, and the list it is handed is the list of the candidates the query callback
collected, passed through `Algo::Sort` with the predicate `A.Distance < B.Distance` when it is
not empty.  For an `Algo::Sort` that returns its input reordered and ordered by the predicate,
that list is a permutation of the discovered candidates in ascending order of squared
distance.  Nothing is said of the order among candidates of equal squared distance. -/
theorem ConnectPoints_shared_candidates_sorted (E : FEngine)
    (Settings : UPCGExConnectPointsSettings) (Context : FPCGExConnectPointsContext)
    (Facade : FPointDataFacade) (P : FProcessor)
    (h : FProcessor.Prepared E Settings Context Facade = some P)
    (Index : Nat) (Point : FPCGPoint) (Scope : FScope)
    (hgen : ReadFlag E P.CanGenerate Index = true)
    (hSort : ∀ l, (E.AlgoSort ByDistance l).Perm l
      ∧ (E.AlgoSort ByDistance l).Pairwise (fun a b => a.Distance ≤ b.Distance)) :
    (∀ j, j < P.SharedProbeOperations.length →
      ((P.ProcessSinglePoint E Index Point Scope).2.map FCall.EraseSets).filter
          (fun c => decide (c.SharedOp = some j))
        = [FCall.ProcessCandidates j Index (P.PointCopy E Index Point)
            (P.SharedCandidates E Index) none none])
    ∧ (∀ Best Calls,
        P.Collected E Index (P.PointCopy E Index Point) Best Calls = P.Discovered E Index)
    ∧ (P.SharedCandidates E Index).Perm (P.Discovered E Index)
    ∧ (P.SharedCandidates E Index).Pairwise (fun a b => a.Distance ≤ b.Distance) := by
  obtain ⟨R, hR, hExt⟩ := FProcessor.ProcessSinglePoint_generator E P Index Point Scope hgen
  have hcalls := hExt.1
  simp only [List.map_nil, List.nil_append] at hcalls
  refine ⟨fun j hj => ?_, fun Best Calls => ?_, ?_, ?_⟩
  · rw [hR]
    show List.filter _ (R.Calls.map FCall.EraseSets) = _
    rw [hcalls]
    apply FProcessor.ExpectedCalls_filter_shared E P Index Point j hj
    apply (FProcessor.Prepared_search_of_shared E Settings Context Facade P h).1
    intro hnil
    rw [hnil] at hj
    exact Nat.not_lt_zero _ hj
  · exact FProcessor.Collected_eq_Discovered E P Index _ Best Calls
  · unfold FProcessor.SharedCandidates
    split
    · exact List.Perm.refl _
    · exact (hSort _).1
  · unfold FProcessor.SharedCandidates
    split
    · rename_i hE
      rw [List.isEmpty_iff.1 hE]
      exact List.Pairwise.nil
    · exact (hSort _).2

theorem ConnectPoints_shared_candidates_sorted_witness :
    ∃ P, FProcessor.Prepared (SceneEngine StableSort) ⟨false, false⟩ SceneContext
        SceneFacade = some P
      ∧ ReadFlag (SceneEngine StableSort) P.CanGenerate 0 = true
      ∧ ((P.ProcessSinglePoint (SceneEngine StableSort) 0 (ScenePoint 0 0 0)
            ⟨0, 2, 0⟩).2.map FCall.EraseSets).filter (fun c => decide (c.SharedOp = some 0))
          = [FCall.ProcessCandidates 0 0 (P.PointCopy (SceneEngine StableSort) 0 (ScenePoint 0 0 0))
              (P.SharedCandidates (SceneEngine StableSort) 0) none none]
      ∧ (P.SharedCandidates (SceneEngine StableSort) 0).Perm
          (P.Discovered (SceneEngine StableSort) 0) := by
  have h1 : (FProcessor.Prepared (SceneEngine StableSort) ⟨false, false⟩ SceneContext
      SceneFacade).isSome = true := by decide
  obtain ⟨P, hP⟩ := Option.isSome_iff_exists.1 h1
  have hg : ReadFlag (SceneEngine StableSort) P.CanGenerate 0 = true :=
    FProcessor.Prepared_CanGenerate _ _ _ _ P hP 0 (by decide)
  have hlen : 0 < P.SharedProbeOperations.length := by
    rw [(FProcessor.Prepared_spec _ _ _ _ P hP).2.2.2.1]
    decide
  have t := ConnectPoints_shared_candidates_sorted (SceneEngine StableSort) _ _ _ P hP 0
    (ScenePoint 0 0 0) ⟨0, 2, 0⟩ hg StableSort_contract
  exact ⟨P, hP, hg, t.1 0 hlen, t.2.2.1⟩

/-- C4, counterexample to the claim as stated.  The selection sort returns every list
reordered and in ascending order of squared distance, so it is a legitimate `Algo::Sort`.  In
the scene, with it as `Algo::Sort`, the chained probe of the source 0 is handed the candidates
in discovery order, points 1, 2, 3, where 1 and 2 are at the same squared distance; the shared
probe is handed them ordered by distance with point 2 before point 1. -/
theorem ConnectPoints_shared_candidates_stable_counterexample :
    (∀ l, (SelectionSort ByDistance l).Perm l
      ∧ (SelectionSort ByDistance l).Pairwise (fun a b => a.Distance ≤ b.Distance))
    ∧ (FProcessor.Prepared (SceneEngine SelectionSort) ⟨false, false⟩ SceneContext
        SceneFacade).map
      (fun P => (P.ProcessSinglePoint (SceneEngine SelectionSort) 0 (ScenePoint 0 0 0)
        ⟨0, 2, 0⟩).2.filterMap FCall.CandidateList)
      = some [[(1, 40000), (2, 40000), (3, 10000)], [(3, 10000), (2, 40000), (1, 40000)]] :=
  ⟨SelectionSort_contract, by decide⟩

theorem enum_map_filter_pred {α : Type} (l : List α) (f : Nat → FCall) (p : FCall → Bool)
    (i : Nat) (hp : ∀ k, p (f k) = decide (k = i)) :
    (l.enum.map (fun x => f x.1)).filter p = if i < l.length then [f i] else [] := by
  have h1 : l.enum.map (fun x => f x.1) = (List.range l.length).map f := by
    rw [← List.enum_map_fst l, List.map_map]
    rfl
  rw [h1, List.filter_map]
  have h2 : p ∘ f = fun k => decide (k = i) := by
    funext k
    exact hp k
  rw [h2, range_filter_eq]
  split <;> rfl

theorem FProcessor.ChainedCalls_filter (P : FProcessor) (PointCopy : FPCGPoint) (Start : Nat)
    (Cands : List FCandidate) (i : Nat) (hi : i < P.ChainProbeOperations.length) :
    (P.ChainedCalls PointCopy Start Cands).filter
        (fun c => decide (c.ChainedOp = some i) || c.IsSort)
      = (Cands.enumFrom Start).map
          (fun kc => FCall.ProcessCandidateChained i PointCopy kc.1 kc.2) := by
  induction Cands generalizing Start with
  | nil => rfl
  | cons C Cands ih =>
    have hstep : P.ChainedCalls PointCopy Start (C :: Cands)
        = P.ChainProbeOperations.enum.map
            (fun x => FCall.ProcessCandidateChained x.1 PointCopy Start C)
          ++ P.ChainedCalls PointCopy (Start + 1) Cands := by
      simp [FProcessor.ChainedCalls, List.enumFrom_cons]
    rw [hstep, List.filter_append, ih (Start + 1),
      enum_map_filter_pred P.ChainProbeOperations
        (fun k => FCall.ProcessCandidateChained k PointCopy Start C) _ i
        (fun k => by simp [FCall.ChainedOp, FCall.IsSort]),
      if_pos hi]
    simp [List.enumFrom_cons]

theorem FProcessor.ExpectedCalls_filter_chained (E : FEngine) (P : FProcessor) (Index : Nat)
    (Point : FPCGPoint) (i : Nat) (hi : i < P.ChainProbeOperations.length)
    (hS : P.SearchProbes.isEmpty = false) :
    (P.ExpectedCalls E Index Point).filter (fun c => decide (c.ChainedOp = some i) || c.IsSort)
      = [FCall.PrepareBestCandidate i Index (P.PointCopy E Index Point)]
        ++ (P.Discovered E Index).enum.map (fun kc =>
            FCall.ProcessCandidateChained i (P.PointCopy E Index Point) kc.1 kc.2)
        ++ [FCall.ProcessBestCandidate i Index (P.PointCopy E Index Point)
            (P.Discovered E Index) none none]
        ++ (if (P.Discovered E Index).isEmpty then []
            else [FCall.AlgoSort (P.Discovered E Index)]) := by
  unfold FProcessor.ExpectedCalls
  simp only [hS, Bool.false_eq_true, if_false, List.filter_append]
  rw [FProcessor.ChainedCalls_filter P _ 0 _ i hi,
    enum_map_filter_pred P.ChainProbeOperations
      (fun k => FCall.PrepareBestCandidate k Index (P.PointCopy E Index Point)) _ i
      (fun k => by simp [FCall.ChainedOp, FCall.IsSort]),
    enum_map_filter_pred P.ChainProbeOperations
      (fun k => FCall.ProcessBestCandidate k Index (P.PointCopy E Index Point)
        (P.Discovered E Index) none none) _ i
      (fun k => by simp [FCall.ChainedOp, FCall.IsSort]),
    filter_eq_nil_of [FCall.FindElementsWithBoundsTest _],
    filter_eq_nil_of (P.SharedProbeOperations.enum.map _),
    filter_eq_nil_of (P.DirectProbes.enum.map _)]
  · by_cases hE : (P.Discovered E Index).isEmpty = true <;>
      simp [hE, if_pos hi, List.enum, FCall.IsSort, FCall.ChainedOp]
  · intro a ha
    obtain ⟨_, _, rfl⟩ := List.mem_map.1 ha
    rfl
  · intro a ha
    obtain ⟨_, _, rfl⟩ := List.mem_map.1 ha
    rfl
  · intro a ha
    rw [List.mem_singleton.1 ha]; rfl

/-- C5. For a generator point and a chained probe (the probe at position `i` of
`ChainProbeOperations`), the calls `ProcessSinglePoint` makes to that probe and to
`Algo::Sort` are, in this order: `PrepareBestCandidate` once; `ProcessCandidateChained` once
for each candidate the query callback collects, in the order of collection, with the position
of the candidate in the list being collected; `ProcessBestCandidate` once, with the collected
list in the order of collection; and only then the call of `Algo::Sort`, if the list is not
empty. -/
theorem ConnectPoints_chained_probe_protocol (E : FEngine)
    (Settings : UPCGExConnectPointsSettings) (Context : FPCGExConnectPointsContext)
    (Facade : FPointDataFacade) (P : FProcessor)
    (h : FProcessor.Prepared E Settings Context Facade = some P)
    (Index : Nat) (Point : FPCGPoint) (Scope : FScope)
    (hgen : ReadFlag E P.CanGenerate Index = true)
    (i : Nat) (hi : i < P.ChainProbeOperations.length) :
    ((P.ProcessSinglePoint E Index Point Scope).2.map FCall.EraseSets).filter
        (fun c => decide (c.ChainedOp = some i) || c.IsSort)
      = [FCall.PrepareBestCandidate i Index (P.PointCopy E Index Point)]
        ++ (P.Discovered E Index).enum.map (fun kc =>
            FCall.ProcessCandidateChained i (P.PointCopy E Index Point) kc.1 kc.2)
        ++ [FCall.ProcessBestCandidate i Index (P.PointCopy E Index Point)
            (P.Discovered E Index) none none]
        ++ (if (P.Discovered E Index).isEmpty then []
            else [FCall.AlgoSort (P.Discovered E Index)])
    ∧ (∀ Best Calls,
        P.Collected E Index (P.PointCopy E Index Point) Best Calls = P.Discovered E Index) := by
  obtain ⟨R, hR, hExt⟩ := FProcessor.ProcessSinglePoint_generator E P Index Point Scope hgen
  have hcalls := hExt.1
  simp only [List.map_nil, List.nil_append] at hcalls
  refine ⟨?_, fun Best Calls => ?_⟩
  · rw [hR]
    show List.filter _ (R.Calls.map FCall.EraseSets) = _
    rw [hcalls]
    apply FProcessor.ExpectedCalls_filter_chained E P Index Point i hi
    apply (FProcessor.Prepared_search_of_shared E Settings Context Facade P h).2
    intro hnil
    rw [hnil] at hi
    exact Nat.not_lt_zero _ hi
  · exact FProcessor.Collected_eq_Discovered E P Index _ Best Calls

theorem ConnectPoints_chained_probe_protocol_witness :
    ∃ P, FProcessor.Prepared (SceneEngine StableSort) ⟨false, false⟩ SceneContext
        SceneFacade = some P
      ∧ ReadFlag (SceneEngine StableSort) P.CanGenerate 0 = true
      ∧ 0 < P.ChainProbeOperations.length
      ∧ (((P.ProcessSinglePoint (SceneEngine StableSort) 0 (ScenePoint 0 0 0)
            ⟨0, 2, 0⟩).2.map FCall.EraseSets).filter
            (fun c => decide (c.ChainedOp = some 0) || c.IsSort)).length = 6 := by
  have h1 : (FProcessor.Prepared (SceneEngine StableSort) ⟨false, false⟩ SceneContext
      SceneFacade).isSome = true := by decide
  obtain ⟨P, hP⟩ := Option.isSome_iff_exists.1 h1
  have hg : ReadFlag (SceneEngine StableSort) P.CanGenerate 0 = true :=
    FProcessor.Prepared_CanGenerate _ _ _ _ P hP 0 (by decide)
  have hlen : 0 < P.ChainProbeOperations.length := by
    rw [(FProcessor.Prepared_spec _ _ _ _ P hP).2.2.1]
    decide
  have t := (ConnectPoints_chained_probe_protocol (SceneEngine StableSort) _ _ _ P hP 0
    (ScenePoint 0 0 0) ⟨0, 2, 0⟩ hg 0 hlen).1
  refine ⟨P, hP, hg, hlen, ?_⟩
  rw [t]
  have hD : (P.Discovered (SceneEngine StableSort) 0).length = 3 := by
    have : (FProcessor.Prepared (SceneEngine StableSort) ⟨false, false⟩ SceneContext
      SceneFacade).map (fun P => (P.Discovered (SceneEngine StableSort) 0).length)
        = some 3 := by decide
    rw [hP] at this
    exact Option.some.inj this
  have hne : (P.Discovered (SceneEngine StableSort) 0).isEmpty = false := by
    cases hd : P.Discovered (SceneEngine StableSort) 0 with
    | nil => rw [hd] at hD; cases hD
    | cons a l => rfl
  simp [hD, hne]

theorem FProcessor.ExpectedCalls_filter_direct (E : FEngine) (P : FProcessor) (Index : Nat)
    (Point : FPCGPoint) (k : Nat) (hk : k < P.DirectProbes.length) :
    (P.ExpectedCalls E Index Point).filter (fun c => decide (c.DirectOp = some k))
      = [FCall.ProcessNode k Index (P.PointCopy E Index Point) none none] := by
  unfold FProcessor.ExpectedCalls
  simp only [List.filter_append]
  rw [enum_map_filter_op P.DirectProbes
      (fun k => FCall.ProcessNode k Index (P.PointCopy E Index Point) none none)
      FCall.DirectOp (fun _ => rfl) k, if_pos hk,
    filter_eq_nil_of (P.ChainProbeOperations.enum.map _),
    filter_eq_nil_of (if P.SearchProbes.isEmpty then [] else _)]
  · rfl
  · intro a ha
    split at ha
    · cases ha
    · simp only [List.mem_append, List.mem_singleton, List.mem_map] at ha
      rcases ha with (((rfl | ha) | ⟨_, _, rfl⟩) | ha) | ⟨_, _, rfl⟩
      · rfl
      · obtain ⟨_, _, _, rfl⟩ := FProcessor.ChainedCalls_mem P _ _ _ a ha
        rfl
      · rfl
      · split at ha
        · cases ha
        · rw [List.mem_singleton.1 ha]; rfl
      · rfl
  · intro a ha
    obtain ⟨_, _, rfl⟩ := List.mem_map.1 ha
    rfl

theorem FProcessor.ExpectedCalls_filter_find (E : FEngine) (P : FProcessor) (Index : Nat)
    (Point : FPCGPoint) :
    (P.ExpectedCalls E Index Point).filter FCall.IsFind
      = if P.SearchProbes.isEmpty then []
        else [FCall.FindElementsWithBoundsTest
          ⟨(ReadTransform E P.CachedTransforms Index).GetLocation,
            FVector.Splat (P.MaxRadius Index)⟩] := by
  unfold FProcessor.ExpectedCalls
  simp only [List.filter_append]
  rw [filter_eq_nil_of (P.ChainProbeOperations.enum.map _),
    filter_eq_nil_of (P.DirectProbes.enum.map _)]
  · by_cases hS : P.SearchProbes.isEmpty = true
    · simp [hS]
    · simp only [hS, Bool.false_eq_true, if_false, List.filter_append, List.nil_append,
        List.append_nil]
      rw [filter_eq_nil_of (P.ChainedCalls _ _ _),
        filter_eq_nil_of (P.ChainProbeOperations.enum.map _),
        filter_eq_nil_of (if (P.Discovered E Index).isEmpty then [] else _),
        filter_eq_nil_of (P.SharedProbeOperations.enum.map _)]
      · simp [FCall.IsFind]
      · intro a ha
        obtain ⟨_, _, rfl⟩ := List.mem_map.1 ha
        rfl
      · intro a ha
        split at ha
        · cases ha
        · rw [List.mem_singleton.1 ha]; rfl
      · intro a ha
        obtain ⟨_, _, rfl⟩ := List.mem_map.1 ha
        rfl
      · intro a ha
        obtain ⟨_, _, _, rfl⟩ := FProcessor.ChainedCalls_mem P _ _ _ a ha
        rfl
  · intro a ha
    obtain ⟨_, _, rfl⟩ := List.mem_map.1 ha
    rfl
  · intro a ha
    obtain ⟨_, _, rfl⟩ := List.mem_map.1 ha
    rfl

theorem FCall.IsFind_EraseSets (c : FCall) : c.EraseSets.IsFind = c.IsFind := by
  cases c <;> rfl

/-- C6. In the processor as the point loop finds it: the direct probes are the prepared probes
that do not require the octree; for a generator point each of them receives exactly one call
of `ProcessNode`; the octree is queried once when there is a search probe and not at all when
there is none, whatever the direct probes; and when no prepared probe requires the octree, no
octree exists and `ProcessSinglePoint` makes no octree query for any point. -/
theorem ConnectPoints_direct_probes_skip_octree (E : FEngine)
    (Settings : UPCGExConnectPointsSettings) (Context : FPCGExConnectPointsContext)
    (Facade : FPointDataFacade) (P : FProcessor)
    (h : FProcessor.Prepared E Settings Context Facade = some P) :
    P.DirectProbes = Context.Probes (fun o => !o.RequiresOctree)
    ∧ (∀ Index Point Scope, ReadFlag E P.CanGenerate Index = true →
        ∀ k, k < P.DirectProbes.length →
          ((P.ProcessSinglePoint E Index Point Scope).2.map FCall.EraseSets).filter
              (fun c => decide (c.DirectOp = some k))
            = [FCall.ProcessNode k Index (P.PointCopy E Index Point) none none])
    ∧ (∀ Index Point Scope, ReadFlag E P.CanGenerate Index = true →
        (((P.ProcessSinglePoint E Index Point Scope).2).filter FCall.IsFind).length
          = if (Context.Probes (fun o => o.RequiresOctree)).isEmpty then 0 else 1)
    ∧ (Context.Probes (fun o => o.RequiresOctree) = [] →
        P.Octree = none
        ∧ ∀ Index Point Scope, ∀ c ∈ (P.ProcessSinglePoint E Index Point Scope).2,
            c.IsFind = false) := by
  obtain ⟨hD, hS, -, -, -, -, -, -, -, -, hO, -, -, -⟩ :=
    FProcessor.Prepared_spec E Settings Context Facade P h
  have hfind : ∀ Index Point Scope, ReadFlag E P.CanGenerate Index = true →
      (((P.ProcessSinglePoint E Index Point Scope).2).filter FCall.IsFind).length
        = if (Context.Probes (fun o => o.RequiresOctree)).isEmpty then 0 else 1 := by
    intro Index Point Scope hgen
    obtain ⟨R, hR, hExt⟩ := FProcessor.ProcessSinglePoint_generator E P Index Point Scope hgen
    have hcalls := hExt.1
    simp only [List.map_nil, List.nil_append] at hcalls
    rw [hR]
    show (List.filter FCall.IsFind R.Calls).length = _
    have h1 : (List.filter FCall.IsFind (R.Calls.map FCall.EraseSets)).length
        = (List.filter FCall.IsFind R.Calls).length := by
      rw [List.filter_map, List.length_map]
      congr 2
      funext c
      exact FCall.IsFind_EraseSets c
    rw [← h1, hcalls, FProcessor.ExpectedCalls_filter_find, hS]
    split <;> rfl
  refine ⟨hD, ?_, hfind, ?_⟩
  · intro Index Point Scope hgen k hk
    obtain ⟨R, hR, hExt⟩ := FProcessor.ProcessSinglePoint_generator E P Index Point Scope hgen
    have hcalls := hExt.1
    simp only [List.map_nil, List.nil_append] at hcalls
    rw [hR]
    show List.filter _ (R.Calls.map FCall.EraseSets) = _
    rw [hcalls]
    exact FProcessor.ExpectedCalls_filter_direct E P Index Point k hk
  · intro hnil
    rw [hnil] at hO
    refine ⟨by simpa using hO, ?_⟩
    intro Index Point Scope c hc
    by_cases hgen : ReadFlag E P.CanGenerate Index = true
    · have := hfind Index Point Scope hgen
      rw [hnil] at this
      simp only [List.isEmpty_nil, if_true, List.length_eq_zero, List.filter_eq_nil_iff] at this
      simpa using this c hc
    · have hf : ReadFlag E P.CanGenerate Index = false := by simpa using hgen
      unfold FProcessor.ProcessSinglePoint at hc
      simp [hf] at hc

theorem ConnectPoints_direct_probes_skip_octree_witness :
    (∃ P, FProcessor.Prepared (SceneEngine StableSort) ⟨false, false⟩ SceneContextDirect
        SceneFacade = some P
      ∧ SceneContextDirect.Probes (fun o => o.RequiresOctree) = []
      ∧ ReadFlag (SceneEngine StableSort) P.CanGenerate 0 = true
      ∧ P.Octree = none
      ∧ 0 < P.DirectProbes.length
      ∧ ((P.ProcessSinglePoint (SceneEngine StableSort) 0 (ScenePoint 0 0 0)
            ⟨0, 2, 0⟩).2.map FCall.EraseSets).filter (fun c => decide (c.DirectOp = some 0))
          = [FCall.ProcessNode 0 0 (P.PointCopy (SceneEngine StableSort) 0 (ScenePoint 0 0 0))
              none none]) := by
  have h1 : (FProcessor.Prepared (SceneEngine StableSort) ⟨false, false⟩ SceneContextDirect
      SceneFacade).isSome = true := by decide
  obtain ⟨P, hP⟩ := Option.isSome_iff_exists.1 h1
  have hg : ReadFlag (SceneEngine StableSort) P.CanGenerate 0 = true :=
    FProcessor.Prepared_CanGenerate _ _ _ _ P hP 0 (by decide)
  have t := ConnectPoints_direct_probes_skip_octree (SceneEngine StableSort) _ _ _ P hP
  have hlen : 0 < P.DirectProbes.length := by
    rw [t.1]
    decide
  have hnil : SceneContextDirect.Probes (fun o => o.RequiresOctree) = [] :=
    List.eq_nil_of_length_eq_zero (by decide)
  exact ⟨P, hP, hnil, hg, (t.2.2.2 hnil).1, hlen, t.2.1 0 _ _ hg 0 hlen⟩

theorem ReadTransform_of_getElem? (E : FEngine) (A : List (Option FTransform)) (i : Nat)
    (T : FTransform) (h : A[i]? = some (some T)) : ReadTransform E A i = T := by
  simp [ReadTransform, h]

/-- C7 (as amended). With a search probe, for a source point of index `Index` whose cached
location is `O`, every candidate record the query callback collects holds the index `n` of a
neighbour whose cached location is `Pn`, the squared distance `|Pn - O|^2`, and as direction
the normalisation of `O - Pn`, the opposite of `Pn - O`: the direction stored is the one from
the neighbour towards the source. -/
theorem ConnectPoints_candidate_record (E : FEngine)
    (Settings : UPCGExConnectPointsSettings) (Context : FPCGExConnectPointsContext)
    (Facade : FPointDataFacade) (P : FProcessor)
    (h : FProcessor.Prepared E Settings Context Facade = some P)
    (hs : Context.Probes (fun o => o.RequiresOctree) ≠ [])
    (Index : Nat) (PointI : FPCGPoint) (hI : Facade.InPoints[Index]? = some PointI) :
    ∀ PointCopy Best Calls, ∀ c ∈ P.Collected E Index PointCopy Best Calls,
      ∃ PointN, Facade.InPoints[c.PointIndex]? = some PointN
        ∧ c.Direction = E.GetSafeNormal
            ((CachedTransformOf E Settings Index PointI).GetLocation.sub
              (CachedTransformOf E Settings c.PointIndex PointN).GetLocation)
        ∧ (CachedTransformOf E Settings Index PointI).GetLocation.sub
              (CachedTransformOf E Settings c.PointIndex PointN).GetLocation
            = ((CachedTransformOf E Settings c.PointIndex PointN).GetLocation.sub
                (CachedTransformOf E Settings Index PointI).GetLocation).neg
        ∧ c.Distance = FVector.DistSquared
            (CachedTransformOf E Settings c.PointIndex PointN).GetLocation
            (CachedTransformOf E Settings Index PointI).GetLocation
        ∧ c.Distance = FVector.DotProduct
            ((CachedTransformOf E Settings c.PointIndex PointN).GetLocation.sub
              (CachedTransformOf E Settings Index PointI).GetLocation)
            ((CachedTransformOf E Settings c.PointIndex PointN).GetLocation.sub
              (CachedTransformOf E Settings Index PointI).GetLocation) := by
  obtain ⟨-, -, -, -, -, -, -, -, -, -, hO, hT, -, -⟩ :=
    FProcessor.Prepared_spec E Settings Context Facade P h
  have hne : (Context.Probes (fun o => o.RequiresOctree)).isEmpty = false := by
    cases hc : Context.Probes (fun o => o.RequiresOctree) with
    | nil => exact absurd hc hs
    | cons a l => rfl
  rw [hne] at hO
  simp only [Bool.false_eq_true, if_false] at hO
  intro PointCopy Best Calls c hc
  rw [FProcessor.Collected_eq_Discovered] at hc
  unfold FProcessor.Discovered at hc
  rw [hO] at hc
  dsimp only at hc
  obtain ⟨Item, hIt, rfl⟩ := List.mem_map.1 hc
  have hItem := (List.mem_filter.1 (List.mem_filter.1 hIt).1).1
  obtain ⟨ip, hip, rfl⟩ := List.mem_map.1 hItem
  have hip2 := (List.mem_filter.1 hip).1
  have hN : Facade.InPoints[ip.1]? = some ip.2 := by
    obtain ⟨k, hk⟩ := List.mem_iff_getElem?.1 hip2
    rw [List.getElem?_enum] at hk
    cases hq : Facade.InPoints[k]? with
    | none => rw [hq] at hk; cases hk
    | some a =>
      rw [hq] at hk
      simp only [Option.map_some', Option.some.injEq] at hk
      rw [← hk]
      exact hq
  refine ⟨ip.2, hN, ?_, ?_, ?_, ?_⟩
  · simp only [FProcessor.MakeCandidate]
    rw [ReadTransform_of_getElem? E _ _ _ (hT hne Index PointI hI),
      ReadTransform_of_getElem? E _ _ _ (hT hne ip.1 ip.2 hN)]
  · simp only [FVector.sub, FVector.neg, FVector.mk.injEq]
    refine ⟨?_, ?_, ?_⟩ <;> ring
  · simp only [FProcessor.MakeCandidate]
    rw [ReadTransform_of_getElem? E _ _ _ (hT hne Index PointI hI),
      ReadTransform_of_getElem? E _ _ _ (hT hne ip.1 ip.2 hN)]
  · simp only [FProcessor.MakeCandidate]
    rw [ReadTransform_of_getElem? E _ _ _ (hT hne Index PointI hI),
      ReadTransform_of_getElem? E _ _ _ (hT hne ip.1 ip.2 hN)]
    simp only [FVector.DistSquared, FVector.DotProduct, FVector.sub]
    ring

theorem ConnectPoints_candidate_record_witness :
    ∃ P, FProcessor.Prepared (SceneEngine StableSort) ⟨false, false⟩ SceneContext
        SceneFacade = some P
      ∧ SceneContext.Probes (fun o => o.RequiresOctree) ≠ []
      ∧ SceneFacade.InPoints[0]? = some (ScenePoint 0 0 0)
      ∧ (P.Collected (SceneEngine StableSort) 0 (ScenePoint 0 0 0) [] []).length = 3
      ∧ ∀ c ∈ P.Collected (SceneEngine StableSort) 0 (ScenePoint 0 0 0) [] [],
          ∃ PointN, SceneFacade.InPoints[c.PointIndex]? = some PointN
            ∧ c.Direction = (SceneEngine StableSort).GetSafeNormal
                ((CachedTransformOf (SceneEngine StableSort) ⟨false, false⟩ 0
                    (ScenePoint 0 0 0)).GetLocation.sub
                  (CachedTransformOf (SceneEngine StableSort) ⟨false, false⟩ c.PointIndex
                    PointN).GetLocation) := by
  have h1 : (FProcessor.Prepared (SceneEngine StableSort) ⟨false, false⟩ SceneContext
      SceneFacade).isSome = true := by decide
  obtain ⟨P, hP⟩ := Option.isSome_iff_exists.1 h1
  have hs : SceneContext.Probes (fun o => o.RequiresOctree) ≠ [] :=
    fun h => absurd (congrArg List.length h) (by decide)
  have hD : (P.Collected (SceneEngine StableSort) 0 (ScenePoint 0 0 0) [] []).length = 3 := by
    have : (FProcessor.Prepared (SceneEngine StableSort) ⟨false, false⟩ SceneContext
      SceneFacade).map (fun P =>
        (P.Collected (SceneEngine StableSort) 0 (ScenePoint 0 0 0) [] []).length)
        = some 3 := by decide
    rw [hP] at this
    exact Option.some.inj this
  refine ⟨P, hP, hs, rfl, hD, fun c hc => ?_⟩
  obtain ⟨PointN, hN, hd, -⟩ := ConnectPoints_candidate_record (SceneEngine StableSort) _ _ _ P
    hP hs 0 (ScenePoint 0 0 0) rfl _ _ _ c hc
  exact ⟨PointN, hN, hd⟩

/-- C7, counterexample to the claim as stated.  In the scene, the records built for the source
at the origin hold, for the neighbours 1, 2 and 3 at `(2, 0, 0)`, `(0, 2, 0)` and `(1, 0, 0)`,
the directions `(-1, 0, 0)`, `(0, -1, 0)` and `(-1, 0, 0)`, where the normalisation of
`P - O` is `(1, 0, 0)`, `(0, 1, 0)` and `(1, 0, 0)`: each stored direction has a negative dot
product with `P - O`. -/
theorem ConnectPoints_candidate_direction_counterexample :
    (FProcessor.Prepared (SceneEngine StableSort) ⟨false, false⟩ SceneContext
        SceneFacade).map
      (fun P => ((P.ProcessSinglePoint (SceneEngine StableSort) 0 (ScenePoint 0 0 0)
          ⟨0, 2, 0⟩).2.filterMap FCall.Candidate).map
        (fun C => (C.PointIndex, C.Direction,
          (SceneEngine StableSort).GetSafeNormal
            ((SceneLocation C.PointIndex).sub (SceneLocation 0)),
          FVector.DotProduct C.Direction ((SceneLocation C.PointIndex).sub (SceneLocation 0)))))
      = some [(1, ⟨-100, 0, 0⟩, ⟨100, 0, 0⟩, -20000), (2, ⟨0, -100, 0⟩, ⟨0, 100, 0⟩, -20000),
          (3, ⟨-100, 0, 0⟩, ⟨100, 0, 0⟩, -10000)] := by
  decide

theorem FProbeProgram.Run_some (Index : Nat) (prog : FProbeProgram) (s : TSet FInt32Vector)
    (e : TSet uint64) :
    (prog.Run Index (some s) e).1.1.Elements
        = s.Elements ++ (prog.Run Index (some s) e).2.map (fun C => C.GH)
    ∧ ∀ k, k ∈ (prog.Run Index (some s) e).1.2.Elements ↔
        k ∈ e.Elements ∨ ∃ C ∈ (prog.Run Index (some s) e).2, k = H64U Index C.PointIndex := by
  induction prog generalizing s e with
  | Done => simp [FProbeProgram.Run]
  | Try C Next ih =>
    by_cases hC : s.Contains C.GH = true
    · have hr : TryConnect Index C (some s) e = ((s, e), false) := by
        simp [TryConnect, hC]
      simp only [FProbeProgram.Run, hr, Option.map_some', Bool.false_eq_true, if_false]
      exact ih false s e
    · have hr : TryConnect Index C (some s) e
          = ((s.Add C.GH, e.Add (H64U Index C.PointIndex)), true) := by
        simp [TryConnect, hC]
      have hnot : C.GH ∉ s.Elements := fun hin => hC ((TSet.Contains_iff _ _).2 hin)
      simp only [FProbeProgram.Run, hr, Option.map_some', if_true]
      obtain ⟨h1, h2⟩ := ih true (s.Add C.GH) (e.Add (H64U Index C.PointIndex))
      constructor
      · rw [h1]
        simp [TSet.Add, hnot]
      · intro k
        rw [h2 k, TSet.mem_Add]
        simp only [List.mem_cons, exists_eq_or_imp]
        constructor
        · rintro ((hk | hk) | hk)
          · exact Or.inl hk
          · exact Or.inr (Or.inl hk)
          · exact Or.inr (Or.inr hk)
        · rintro (hk | hk | hk)
          · exact Or.inl (Or.inl hk)
          · exact Or.inl (Or.inr hk)
          · exact Or.inr hk

theorem FProbeProgram.TryAll_Run_none (Index : Nat) (Cs : List FCandidate) (e : TSet uint64) :
    ((FProbeProgram.TryAll Cs).Run Index none e).2 = Cs := by
  induction Cs generalizing e with
  | nil => rfl
  | cons C Cs ih =>
    simp only [FProbeProgram.TryAll, FProbeProgram.Run, TryConnect, Option.map_none', if_true]
    rw [ih]

theorem FProbeProgram.RunAll_some (Index : Nat) (progs : List FProbeProgram)
    (s : TSet FInt32Vector) (e : TSet uint64) :
    ∃ t, (FProbeProgram.RunAll Index progs (some s) e).1.1 = some t
      ∧ t.Elements = s.Elements
          ++ (FProbeProgram.RunAll Index progs (some s) e).2.map (fun C => C.GH)
      ∧ ∀ k, k ∈ (FProbeProgram.RunAll Index progs (some s) e).1.2.Elements ↔
          k ∈ e.Elements
          ∨ ∃ C ∈ (FProbeProgram.RunAll Index progs (some s) e).2,
              k = H64U Index C.PointIndex := by
  induction progs generalizing s e with
  | nil => exact ⟨s, rfl, by simp [FProbeProgram.RunAll], by simp [FProbeProgram.RunAll]⟩
  | cons p ps ih =>
    obtain ⟨h1, h2⟩ := FProbeProgram.Run_some Index p s e
    obtain ⟨t, ht1, ht2, ht3⟩ := ih (p.Run Index (some s) e).1.1 (p.Run Index (some s) e).1.2
    refine ⟨t, by simpa [FProbeProgram.RunAll] using ht1, ?_, ?_⟩
    · simp only [FProbeProgram.RunAll, Option.map_some', List.map_append]
      rw [ht2, h1, List.append_assoc]
    · intro k
      simp only [FProbeProgram.RunAll, Option.map_some', List.mem_append]
      rw [ht3 k, h2 k]
      constructor
      · rintro ((hk | ⟨C, hC, rfl⟩) | ⟨C, hC, rfl⟩)
        · exact Or.inl hk
        · exact Or.inr ⟨C, Or.inl hC, rfl⟩
        · exact Or.inr ⟨C, Or.inr hC, rfl⟩
      · rintro (hk | ⟨C, hC | hC, rfl⟩)
        · exact Or.inl (Or.inl hk)
        · exact Or.inl (Or.inr ⟨C, hC, rfl⟩)
        · exact Or.inr ⟨C, hC, rfl⟩

theorem FCluster.mem_Links (C : FCluster) (Node : Nat) (l : FLink) (h : l ∈ C.Links Node) :
    ∃ i, i < C.Edges.length ∧ l.Edge = (i : Int) := by
  unfold FCluster.Links at h
  rw [List.mem_filterMap] at h
  obtain ⟨ie, hie, hl⟩ := h
  have hi : ie.1 < C.Edges.length := by
    have := List.mem_map_of_mem Prod.fst hie
    rw [List.enum_map_fst] at this
    exact List.mem_range.1 this
  refine ⟨ie.1, hi, ?_⟩
  split at hl
  · cases hl; rfl
  · split at hl
    · cases hl; rfl
    · cases hl

theorem FCluster.Links_of_edge (C : FCluster) (i : Nat) (e : Nat × Nat)
    (h : C.Edges[i]? = some e) : ∃ l ∈ C.Links e.1, l.Edge = (i : Int) := by
  refine ⟨⟨e.2, i⟩, ?_, rfl⟩
  unfold FCluster.Links
  rw [List.mem_filterMap]
  refine ⟨(i, e), ?_, by simp⟩
  rw [List.mem_iff_getElem?]
  exact ⟨i, by simp [List.getElem?_enum, h]⟩

theorem FNodeChain.Extend_spec (C : FCluster) (Breakpoints : Nat → Bool) (Seed : Nat)
    (Fuel : Nat) (Last : FLink) (Claimed : List Int) (Links : List FLink)
    (hnd : Claimed.Nodup) (hr : ∀ e ∈ Claimed, ∃ i, i < C.Edges.length ∧ e = (i : Int)) :
    ∃ L, (FNodeChain.Extend C Breakpoints Seed Fuel Last Claimed Links).1 = Links ++ L
      ∧ (FNodeChain.Extend C Breakpoints Seed Fuel Last Claimed Links).2.2
          = Claimed ++ (L.map (fun l => l.Edge)
            ++ (FNodeChain.Extend C Breakpoints Seed Fuel Last Claimed Links).2.1.toList)
      ∧ (FNodeChain.Extend C Breakpoints Seed Fuel Last Claimed Links).2.2.Nodup
      ∧ ∀ e ∈ (FNodeChain.Extend C Breakpoints Seed Fuel Last Claimed Links).2.2,
          ∃ i, i < C.Edges.length ∧ e = (i : Int) := by
  induction Fuel generalizing Last Claimed Links with
  | zero => exact ⟨[], by simp [FNodeChain.Extend], by simp [FNodeChain.Extend], hnd, hr⟩
  | succ Fuel ih =>
    unfold FNodeChain.Extend
    by_cases hcut : C.IsCut Breakpoints Last.Node = true
    · simp only [hcut, if_true]
      exact ⟨[], by simp, by simp, hnd, hr⟩
    · simp only [hcut, Bool.false_eq_true, if_false]
      cases hf : (C.Links Last.Node).find? (fun l => decide (l.Edge ≠ Last.Edge)) with
      | none => exact ⟨[], by simp, by simp, hnd, hr⟩
      | some Next =>
        have hmem : Next ∈ C.Links Last.Node := List.mem_of_find?_eq_some hf
        have hrange := FCluster.mem_Links C _ _ hmem
        dsimp only
        by_cases hcl : Next.Edge ∈ Claimed
        · simp only [hcl, if_true]
          exact ⟨[], by simp, by simp, hnd, hr⟩
        · have hnd2 : (Claimed ++ [Next.Edge]).Nodup := by
            rw [List.nodup_append]
            refine ⟨hnd, List.nodup_singleton _, ?_⟩
            intro a ha hb
            rw [List.mem_singleton] at hb
            exact hcl (hb ▸ ha)
          have hr2 : ∀ e ∈ Claimed ++ [Next.Edge], ∃ i, i < C.Edges.length ∧ e = (i : Int) := by
            intro e he
            rcases List.mem_append.1 he with he | he
            · exact hr e he
            · rw [List.mem_singleton.1 he]
              exact hrange
          simp only [hcl, if_false]
          by_cases hseed : Next.Node = Seed
          · simp only [hseed, if_true]
            exact ⟨[], by simp, by simp, hnd2, hr2⟩
          · simp only [hseed, if_false]
            obtain ⟨L, h1, h2, h3, h4⟩ := ih Next (Claimed ++ [Next.Edge]) (Links ++ [Next])
              hnd2 hr2
            refine ⟨Next :: L, by rw [h1]; simp, ?_, h3, h4⟩
            rw [h2]
            simp

theorem FNodeChain.BuildChain_spec (C : FCluster) (Breakpoints : Nat → Bool) (Seed : Nat)
    (First : FLink) (Claimed : List Int) (hF : First ∈ C.Links Seed)
    (hnew : First.Edge ∉ Claimed) (hnd : Claimed.Nodup)
    (hr : ∀ e ∈ Claimed, ∃ i, i < C.Edges.length ∧ e = (i : Int)) :
    (FNodeChain.BuildChain C Breakpoints Seed First Claimed).2
        = Claimed ++ (FNodeChain.BuildChain C Breakpoints Seed First Claimed).1.Edges
    ∧ (FNodeChain.BuildChain C Breakpoints Seed First Claimed).2.Nodup
    ∧ (∀ e ∈ (FNodeChain.BuildChain C Breakpoints Seed First Claimed).2,
        ∃ i, i < C.Edges.length ∧ e = (i : Int))
    ∧ First.Edge ∈ (FNodeChain.BuildChain C Breakpoints Seed First Claimed).2 := by
  have hnd2 : (Claimed ++ [First.Edge]).Nodup := by
    rw [List.nodup_append]
    refine ⟨hnd, List.nodup_singleton _, ?_⟩
    intro a ha hb
    rw [List.mem_singleton] at hb
    exact hnew (hb ▸ ha)
  have hr2 : ∀ e ∈ Claimed ++ [First.Edge], ∃ i, i < C.Edges.length ∧ e = (i : Int) := by
    intro e he
    rcases List.mem_append.1 he with he | he
    · exact hr e he
    · rw [List.mem_singleton.1 he]
      exact FCluster.mem_Links C _ _ hF
  unfold FNodeChain.BuildChain
  by_cases hs : First.Node = Seed
  · simp only [hs, if_true]
    exact ⟨by simp [FNodeChain.Edges], hnd2, hr2, by simp⟩
  · simp only [hs, if_false]
    obtain ⟨L, h1, h2, h3, h4⟩ := FNodeChain.Extend_spec C Breakpoints Seed C.Edges.length
      First (Claimed ++ [First.Edge]) [First] hnd2 hr2
    refine ⟨?_, h3, h4, ?_⟩
    · rw [h2]
      simp only [FNodeChain.Edges, h1]
      simp
    · rw [h2]
      simp

theorem FNodeChainBuilder.SeedAt_links (C : FCluster) (Breakpoints : Nat → Bool) (Node : Nat)
    (ls : List FLink) (B : FNodeChainBuilder) (hls : ∀ l ∈ ls, l ∈ C.Links Node)
    (hB : B.Inv C) :
    (ls.foldl
      (fun B First =>
        if First.Edge ∈ B.Claimed then B
        else
          ⟨B.Chains ++ [some (FNodeChain.BuildChain C Breakpoints Node First B.Claimed).1],
            (FNodeChain.BuildChain C Breakpoints Node First B.Claimed).2⟩) B).Inv C
    ∧ (∀ e ∈ B.Claimed, e ∈ (ls.foldl
      (fun B First =>
        if First.Edge ∈ B.Claimed then B
        else
          ⟨B.Chains ++ [some (FNodeChain.BuildChain C Breakpoints Node First B.Claimed).1],
            (FNodeChain.BuildChain C Breakpoints Node First B.Claimed).2⟩) B).Claimed)
    ∧ (∀ l ∈ ls, l.Edge ∈ (ls.foldl
      (fun B First =>
        if First.Edge ∈ B.Claimed then B
        else
          ⟨B.Chains ++ [some (FNodeChain.BuildChain C Breakpoints Node First B.Claimed).1],
            (FNodeChain.BuildChain C Breakpoints Node First B.Claimed).2⟩) B).Claimed) := by
  induction ls generalizing B with
  | nil => exact ⟨hB, fun e he => he, fun l hl => by cases hl⟩
  | cons First ls ih =>
    simp only [List.foldl_cons]
    have hls2 : ∀ l ∈ ls, l ∈ C.Links Node := fun l hl => hls l (List.mem_cons_of_mem _ hl)
    by_cases hcl : First.Edge ∈ B.Claimed
    · simp only [hcl, if_true]
      obtain ⟨h1, h2, h3⟩ := ih B hls2 hB
      refine ⟨h1, h2, fun l hl => ?_⟩
      rcases List.mem_cons.1 hl with rfl | hl
      · exact h2 _ hcl
      · exact h3 l hl
    · simp only [hcl, if_false]
      obtain ⟨b1, b2, b3, b4⟩ := hB
      obtain ⟨s1, s2, s3, s4⟩ := FNodeChain.BuildChain_spec C Breakpoints Node First B.Claimed
        (hls First (List.mem_cons_self _ _)) hcl b2 b3
      have hB2 : FNodeChainBuilder.Inv C
          ⟨B.Chains ++ [some (FNodeChain.BuildChain C Breakpoints Node First B.Claimed).1],
            (FNodeChain.BuildChain C Breakpoints Node First B.Claimed).2⟩ := by
        refine ⟨?_, s2, s3, ?_⟩
        · simp only [List.filterMap_append, List.map_append, List.flatten_append, b1, s1]
          simp
        · intro c hc
          rcases List.mem_append.1 hc with hc | hc
          · exact b4 c hc
          · rw [List.mem_singleton.1 hc]
            simp
      obtain ⟨h1, h2, h3⟩ := ih _ hls2 hB2
      refine ⟨h1, fun e he => h2 e ?_, fun l hl => ?_⟩
      · show e ∈ (FNodeChain.BuildChain C Breakpoints Node First B.Claimed).2
        rw [s1]
        exact List.mem_append_left _ he
      · rcases List.mem_cons.1 hl with rfl | hl
        · exact h2 _ s4
        · exact h3 l hl

theorem FNodeChainBuilder.SeedAt_nodes (C : FCluster) (Breakpoints : Nat → Bool)
    (ns : List Nat) (B : FNodeChainBuilder) (hB : B.Inv C) :
    (ns.foldl (FNodeChainBuilder.SeedAt C Breakpoints) B).Inv C
    ∧ (∀ e ∈ B.Claimed, e ∈ (ns.foldl (FNodeChainBuilder.SeedAt C Breakpoints) B).Claimed)
    ∧ (∀ n ∈ ns, ∀ l ∈ C.Links n,
        l.Edge ∈ (ns.foldl (FNodeChainBuilder.SeedAt C Breakpoints) B).Claimed) := by
  induction ns generalizing B with
  | nil => exact ⟨hB, fun e he => he, fun n hn => by cases hn⟩
  | cons n ns ih =>
    simp only [List.foldl_cons]
    obtain ⟨a1, a2, a3⟩ := FNodeChainBuilder.SeedAt_links C Breakpoints n (C.Links n) B
      (fun l hl => hl) hB
    obtain ⟨h1, h2, h3⟩ := ih (FNodeChainBuilder.SeedAt C Breakpoints B n) a1
    refine ⟨h1, fun e he => h2 e (a2 e he), fun m hm l hl => ?_⟩
    rcases List.mem_cons.1 hm with rfl | hm
    · exact h2 _ (a3 l hl)
    · exact h3 m hm l hl

theorem FNodeChainBuilder.Compile_spec (C : FCluster) (Breakpoints : Nat → Bool)
    (hV : C.Valid) :
    (∀ c ∈ (FNodeChainBuilder.Compile C Breakpoints).2, c ≠ none)
    ∧ ((((FNodeChainBuilder.Compile C Breakpoints).2.filterMap id).map
        FNodeChain.Edges).flatten).Perm ((List.range C.Edges.length).map Int.ofNat) := by
  unfold FNodeChainBuilder.Compile
  dsimp only
  have hInit : FNodeChainBuilder.Inv C
      ⟨((List.range C.NodePointIndex.length).filter (fun n => (C.Links n).isEmpty)).map
        (fun n => some (⟨⟨n, -1⟩, [], false, true, none⟩ : FNodeChain)), []⟩ := by
    refine ⟨?_, List.nodup_nil, (fun e he => nomatch he), ?_⟩
    · show ((List.filterMap id (List.map _ _)).map FNodeChain.Edges).flatten = []
      generalize (List.range C.NodePointIndex.length).filter (fun n => (C.Links n).isEmpty) = l
      induction l with
      | nil => rfl
      | cons a l ih =>
        simp only [List.map_cons, List.filterMap_cons, id, List.flatten_cons]
        rw [ih]
        rfl
    · intro c hc
      obtain ⟨_, _, rfl⟩ := List.mem_map.1 hc
      simp
  obtain ⟨⟨i1, i2, i3, i4⟩, -, hcov⟩ := FNodeChainBuilder.SeedAt_nodes C Breakpoints
    ((List.range C.NodePointIndex.length).filter (fun n => C.IsCut Breakpoints n)
      ++ (List.range C.NodePointIndex.length).filter (fun n => !C.IsCut Breakpoints n)) _ hInit
  refine ⟨i4, ?_⟩
  rw [i1]
  rw [List.perm_ext_iff_of_nodup i2
    ((List.nodup_range _).map (fun a b h => Int.ofNat.inj h))]
  intro e
  constructor
  · intro he
    obtain ⟨i, hi, rfl⟩ := i3 e he
    exact List.mem_map.2 ⟨i, List.mem_range.2 hi, rfl⟩
  · intro he
    obtain ⟨i, hi, rfl⟩ := List.mem_map.1 he
    rw [List.mem_range] at hi
    have hget : C.Edges[i]? = some C.Edges[i] := List.getElem?_eq_getElem hi
    obtain ⟨l, hl, hle⟩ := FCluster.Links_of_edge C i _ hget
    have hnode : (C.Edges[i]).1 < C.NodePointIndex.length :=
      (hV _ (List.getElem_mem hi)).1
    have hin : (C.Edges[i]).1 ∈ (List.range C.NodePointIndex.length).filter
          (fun n => C.IsCut Breakpoints n)
        ++ (List.range C.NodePointIndex.length).filter (fun n => !C.IsCut Breakpoints n) := by
      rw [List.mem_append, List.mem_filter, List.mem_filter, List.mem_range]
      cases C.IsCut Breakpoints (C.Edges[i]).1
      · exact Or.inr ⟨hnode, rfl⟩
      · exact Or.inl ⟨hnode, rfl⟩
    have := hcov _ hin l hl
    rw [hle] at this
    exact this

theorem claimed_length_le (C : FCluster) (Claimed : List Int) (hnd : Claimed.Nodup)
    (hr : ∀ e ∈ Claimed, ∃ i, i < C.Edges.length ∧ e = (i : Int)) :
    Claimed.length ≤ C.Edges.length := by
  have hsub : Claimed ⊆ (List.range C.Edges.length).map Int.ofNat := by
    intro e he
    obtain ⟨i, hi, rfl⟩ := hr e he
    exact List.mem_map.2 ⟨i, List.mem_range.2 hi, rfl⟩
  have := (List.subperm_of_subset hnd hsub).length_le
  simpa using this

theorem FNodeChain.Extend_fuel (C : FCluster) (Breakpoints : Nat → Bool) (Seed : Nat)
    (Fuel : Nat) (Last : FLink) (Claimed : List Int) (Links : List FLink)
    (hnd : Claimed.Nodup) (hr : ∀ e ∈ Claimed, ∃ i, i < C.Edges.length ∧ e = (i : Int))
    (hfuel : C.Edges.length < Fuel + Claimed.length) :
    FNodeChain.Extend C Breakpoints Seed (Fuel + 1) Last Claimed Links
      = FNodeChain.Extend C Breakpoints Seed Fuel Last Claimed Links := by
  induction Fuel generalizing Last Claimed Links with
  | zero =>
    have := claimed_length_le C Claimed hnd hr
    omega
  | succ Fuel ih =>
    rw [FNodeChain.Extend]
    conv_rhs => rw [FNodeChain.Extend]
    by_cases hcut : C.IsCut Breakpoints Last.Node = true
    · simp only [hcut, if_true]
    · simp only [hcut, Bool.false_eq_true, if_false]
      cases hf : (C.Links Last.Node).find? (fun l => decide (l.Edge ≠ Last.Edge)) with
      | none => rfl
      | some Next =>
        have hmem : Next ∈ C.Links Last.Node := List.mem_of_find?_eq_some hf
        have hrange := FCluster.mem_Links C _ _ hmem
        dsimp only
        by_cases hcl : Next.Edge ∈ Claimed
        · simp only [hcl, if_true]
        · simp only [hcl, if_false]
          by_cases hseed : Next.Node = Seed
          · simp only [hseed, if_true]
          · simp only [hseed, if_false]
            apply ih
            · rw [List.nodup_append]
              refine ⟨hnd, List.nodup_singleton _, ?_⟩
              intro a ha hb
              rw [List.mem_singleton] at hb
              exact hcl (hb ▸ ha)
            · intro e he
              rcases List.mem_append.1 he with he | he
              · exact hr e he
              · rw [List.mem_singleton.1 he]
                exact hrange
            · simp only [List.length_append, List.length_singleton]
              omega

/-- The fuel of `BuildChain` is never used up: a walk claims a new edge at every step, so more
fuel gives the same chain. -/
theorem FNodeChain.Extend_enough_fuel (C : FCluster) (Breakpoints : Nat → Bool) (Seed : Nat)
    (First : FLink) (Claimed : List Int) (hF : First ∈ C.Links Seed)
    (hnew : First.Edge ∉ Claimed) (hnd : Claimed.Nodup)
    (hr : ∀ e ∈ Claimed, ∃ i, i < C.Edges.length ∧ e = (i : Int)) (k : Nat) :
    FNodeChain.Extend C Breakpoints Seed (C.Edges.length + k) First (Claimed ++ [First.Edge])
        [First]
      = FNodeChain.Extend C Breakpoints Seed C.Edges.length First (Claimed ++ [First.Edge])
        [First] := by
  have hnd2 : (Claimed ++ [First.Edge]).Nodup := by
    rw [List.nodup_append]
    refine ⟨hnd, List.nodup_singleton _, ?_⟩
    intro a ha hb
    rw [List.mem_singleton] at hb
    exact hnew (hb ▸ ha)
  have hr2 : ∀ e ∈ Claimed ++ [First.Edge], ∃ i, i < C.Edges.length ∧ e = (i : Int) := by
    intro e he
    rcases List.mem_append.1 he with he | he
    · exact hr e he
    · rw [List.mem_singleton.1 he]
      exact FCluster.mem_Links C _ _ hF
  induction k with
  | zero => rfl
  | succ k ih =>
    rw [← ih, ← Nat.add_assoc]
    apply FNodeChain.Extend_fuel C Breakpoints Seed _ First _ _ hnd2 hr2
    simp only [List.length_append, List.length_singleton]
    omega

theorem flatten_nodup_unique {α β : Type} [DecidableEq β] (f : α → List β) (L : List α)
    (hnd : ((L.map f).flatten).Nodup) (x : β) (hx : x ∈ (L.map f).flatten) :
    (L.filter (fun c => decide (x ∈ f c))).length = 1 := by
  induction L with
  | nil => cases hx
  | cons c L ih =>
    simp only [List.map_cons, List.flatten_cons] at hnd hx
    rw [List.nodup_append] at hnd
    obtain ⟨-, hL, hdis⟩ := hnd
    by_cases hc : x ∈ f c
    · have hnot : x ∉ (L.map f).flatten := fun h => hdis hc h
      have hnil : L.filter (fun c => decide (x ∈ f c)) = [] := by
        rw [List.filter_eq_nil_iff]
        intro a ha hin
        apply hnot
        rw [List.mem_flatten]
        exact ⟨f a, List.mem_map_of_mem f ha, by simpa using hin⟩
      simp [List.filter_cons, hc, hnil]
    · have hx2 : x ∈ (L.map f).flatten := by
        rcases List.mem_append.1 hx with h | h
        · exact absurd h hc
        · exact h
      simp [List.filter_cons, hc, ih hL hx2]

/-- C9 (as amended). For every cluster whose edges join nodes of the cluster, when the
leaves-handling setting is not `Only`, so that `BuildChains` calls `Compile`: no entry of the
chain array is null, the edges of all the chains together are the edges of the cluster, each
once, and every edge of the cluster belongs to exactly one chain; `BuildChains` returns true
exactly when a chain was built. -/
theorem BreakClusters_chains_partition_edges (Settings : UPCGExBreakClustersToPathsSettings)
    (Cluster : FCluster) (VtxFilterCache : Nat → Bool) (hV : Cluster.Valid)
    (hL : Settings.LeavesHandling ≠ EPCGExBreakClusterLeavesHandling.Only) :
    (∀ c ∈ (BuildChains Settings Cluster VtxFilterCache).2, c ≠ none)
    ∧ ((((BuildChains Settings Cluster VtxFilterCache).2.filterMap id).map
        FNodeChain.Edges).flatten).Perm ((List.range Cluster.Edges.length).map Int.ofNat)
    ∧ (∀ i, i < Cluster.Edges.length →
        (((BuildChains Settings Cluster VtxFilterCache).2.filterMap id).filter
          (fun Chain => decide ((i : Int) ∈ Chain.Edges))).length = 1)
    ∧ (BuildChains Settings Cluster VtxFilterCache).1
        = !(BuildChains Settings Cluster VtxFilterCache).2.isEmpty := by
  have hB : BuildChains Settings Cluster VtxFilterCache
      = FNodeChainBuilder.Compile Cluster VtxFilterCache := by
    unfold BuildChains
    rw [if_neg hL]
  rw [hB]
  obtain ⟨h1, h2⟩ := FNodeChainBuilder.Compile_spec Cluster VtxFilterCache hV
  refine ⟨h1, h2, fun i hi => ?_, rfl⟩
  apply flatten_nodup_unique FNodeChain.Edges _
    (h2.nodup_iff.2 ((List.nodup_range _).map (fun a b h => Int.ofNat.inj h)))
  rw [h2.mem_iff]
  exact List.mem_map.2 ⟨i, List.mem_range.2 hi, rfl⟩

theorem BreakClusters_chains_partition_edges_witness :
    Cycle4.Valid
    ∧ (PathsSettings EPCGExBreakClusterLeavesHandling.Include).LeavesHandling
        ≠ EPCGExBreakClusterLeavesHandling.Only
    ∧ ((((BuildChains (PathsSettings EPCGExBreakClusterLeavesHandling.Include) Cycle4
          (fun _ => false)).2.filterMap id).map FNodeChain.Edges).flatten).Perm
        ((List.range Cycle4.Edges.length).map Int.ofNat) :=
  ⟨by decide, by decide,
    (BreakClusters_chains_partition_edges
      (PathsSettings EPCGExBreakClusterLeavesHandling.Include) Cycle4 (fun _ => false)
      (by decide) (by decide)).2.1⟩

/-- C9, counterexample to the claim as stated.  With the leaves-handling setting `Only`,
`BuildChains` calls `CompileLeavesOnly`; on the 4-cycle, which has no leaf, it returns false
and builds no chain, while `Compile` builds one closed chain through the four edges. -/
theorem BreakClusters_leaves_only_counterexample :
    Cycle4.Valid
    ∧ Cycle4.Edges.length = 4
    ∧ BuildChains (PathsSettings EPCGExBreakClusterLeavesHandling.Only) Cycle4 (fun _ => false)
        = (false, [])
    ∧ ((BuildChains (PathsSettings EPCGExBreakClusterLeavesHandling.Include) Cycle4
        (fun _ => false)).2.filterMap id).map FNodeChain.Edges = [[0, 1, 2, 3]] := by
  decide

theorem ProcessSingleRangeIteration_emitted (E : FPathsEngine)
    (Settings : UPCGExBreakClustersToPathsSettings) (Cluster : FCluster)
    (ProjectedPositions : Option (List FVector2D)) (Chain : FNodeChain) (Path : FPathOutput)
    (h : ProcessSingleRangeIteration E Settings Cluster ProjectedPositions (some Chain)
      = .Emitted Path) :
    (Path.Points = ChainPoints Cluster Chain ∨ Path.Points = (ChainPoints Cluster Chain).reverse)
    ∧ Path.Tags = (if !Chain.bIsClosedLoop then
          (if Settings.bTagIfOpenPath then [Settings.IsOpenPathTag] else [])
        else (if Settings.bTagIfClosedLoop then [Settings.IsClosedLoopTag] else [])) := by
  unfold ProcessSingleRangeIteration at h
  dsimp only at h
  split at h
  · cases h
  · split at h
    · cases h
    · split at h
      · cases h
      · split at h
        · cases h
        · split at h
          · cases h
          · simp only [FIterationResult.Emitted.injEq] at h
            subst h
            dsimp only
            exact ⟨(ite_eq_or_eq _ _ _).symm, rfl⟩

theorem ProcessSingleRangeIteration_emits (E : FPathsEngine)
    (Settings : UPCGExBreakClustersToPathsSettings) (Cluster : FCluster)
    (ProjectedPositions : Option (List FVector2D)) (Chain : FNodeChain)
    (h1 : ¬ (Settings.LeavesHandling = EPCGExBreakClusterLeavesHandling.Exclude
      ∧ Chain.bIsLeaf = true))
    (h2 : Settings.MinPointCount ≤ (Chain.Links.length : Int) + 1)
    (h3 : Settings.bOmitAbovePointCount = true →
      (Chain.Links.length : Int) + 1 ≤ Settings.MaxPointCount)
    (h4 : Chain.Links ≠ []) (h5 : E.PathCreated Chain = true) :
    ∃ Path, ProcessSingleRangeIteration E Settings Cluster ProjectedPositions (some Chain)
      = .Emitted Path := by
  unfold ProcessSingleRangeIteration
  dsimp only
  have c1 : (decide (Settings.LeavesHandling = EPCGExBreakClusterLeavesHandling.Exclude)
      && Chain.bIsLeaf) = false := by
    cases hl : Chain.bIsLeaf
    · simp
    · simp only [Bool.and_true, decide_eq_false_iff_not]
      exact fun h => h1 ⟨h, hl⟩
  have c2 : ¬ ((Chain.Links.length : Int) + 1 < Settings.MinPointCount) := not_lt.2 h2
  have c3 : (Settings.bOmitAbovePointCount
      && decide ((Chain.Links.length : Int) + 1 > Settings.MaxPointCount)) = false := by
    cases ho : Settings.bOmitAbovePointCount
    · simp
    · simp only [Bool.true_and, decide_eq_false_iff_not, gt_iff_lt, not_lt]
      exact h3 ho
  rw [c1]
  simp only [Bool.false_eq_true, if_false, c2, c3]
  cases hlast : Chain.Links.getLast? with
  | none => exact absurd (List.getLast?_eq_none_iff.1 hlast) h4
  | some Last =>
    simp only [h5, Bool.not_true, Bool.false_eq_true, if_false]
    exact ⟨_, rfl⟩

/-- C10.  A chain that `ProcessSingleRangeIteration` turns into a path gives a path of
`Links.Num() + 1` points: the point of the seed node followed by the point of the node of
each link, in link order, or that sequence reversed; and a chain with at least one link that
passes the leaf and size tests, and for which an output is created, is turned into a path.
For the path graph 0-1-2-3-4 without breakpoints, whenever the leaves-handling setting is not
`Only`, five points pass the size tests and outputs are created, the loop over the chains
leaves exactly one path, made of the points 0, 1, 2, 3, 4 in this order or reversed, whose
tags are the open-path tag if open paths are tagged and nothing otherwise. -/
theorem BreakClusters_path_points (E : FPathsEngine)
    (Settings : UPCGExBreakClustersToPathsSettings)
    (ProjectedPositions : Option (List FVector2D)) :
    (∀ (Cluster : FCluster) (Chain : FNodeChain) (Path : FPathOutput),
      ProcessSingleRangeIteration E Settings Cluster ProjectedPositions (some Chain)
        = .Emitted Path →
      Path.Points.length = Chain.Links.length + 1
      ∧ (Path.Points = Cluster.PointIndex Chain.Seed.Node
            :: Chain.Links.map (fun l => Cluster.PointIndex l.Node)
        ∨ Path.Points = (Cluster.PointIndex Chain.Seed.Node
            :: Chain.Links.map (fun l => Cluster.PointIndex l.Node)).reverse))
    ∧ (∀ (Cluster : FCluster) (Chain : FNodeChain),
      ¬ (Settings.LeavesHandling = EPCGExBreakClusterLeavesHandling.Exclude
        ∧ Chain.bIsLeaf = true) →
      Settings.MinPointCount ≤ (Chain.Links.length : Int) + 1 →
      (Settings.bOmitAbovePointCount = true →
        (Chain.Links.length : Int) + 1 ≤ Settings.MaxPointCount) →
      Chain.Links ≠ [] → E.PathCreated Chain = true →
      ∃ Path, ProcessSingleRangeIteration E Settings Cluster ProjectedPositions (some Chain)
        = .Emitted Path)
    ∧ (Settings.LeavesHandling ≠ EPCGExBreakClusterLeavesHandling.Only →
      Settings.MinPointCount ≤ 5 →
      (Settings.bOmitAbovePointCount = true → 5 ≤ Settings.MaxPointCount) →
      (∀ Chain, E.PathCreated Chain = true) →
      ∃ Path,
        EmittedPaths E Settings PathGraph5 ProjectedPositions
            (BuildChains Settings PathGraph5 (fun _ => false)).2 = [Path]
        ∧ (Path.Points = [0, 1, 2, 3, 4] ∨ Path.Points = [4, 3, 2, 1, 0])
        ∧ Path.Tags = if Settings.bTagIfOpenPath then [Settings.IsOpenPathTag] else []) := by
  refine ⟨?_, ?_, ?_⟩
  · intro Cluster Chain Path h
    have hp := (ProcessSingleRangeIteration_emitted E Settings Cluster ProjectedPositions Chain
      Path h).1
    unfold ChainPoints at hp
    refine ⟨?_, hp⟩
    rcases hp with hp | hp <;> rw [hp] <;> simp
  · intro Cluster Chain h1 h2 h3 h4 h5
    exact ProcessSingleRangeIteration_emits E Settings Cluster ProjectedPositions Chain h1 h2 h3
      h4 h5
  · intro hL hMin hMax hCreated
    have hB : (BuildChains Settings PathGraph5 (fun _ => false)).2
        = [some ⟨⟨0, 0⟩, [⟨1, 0⟩, ⟨2, 1⟩, ⟨3, 2⟩, ⟨4, 3⟩], false, false, none⟩] := by
      unfold BuildChains
      rw [if_neg hL]
      decide
    obtain ⟨Path, hPath⟩ := ProcessSingleRangeIteration_emits E Settings PathGraph5
      ProjectedPositions ⟨⟨0, 0⟩, [⟨1, 0⟩, ⟨2, 1⟩, ⟨3, 2⟩, ⟨4, 3⟩], false, false, none⟩
      (fun h => Bool.noConfusion h.2) (by simpa using hMin) (fun h => by simpa using hMax h)
      (by simp) (hCreated _)
    obtain ⟨hp, ht⟩ := ProcessSingleRangeIteration_emitted E Settings PathGraph5
      ProjectedPositions _ Path hPath
    refine ⟨Path, ?_, ?_, ?_⟩
    · rw [hB]
      simp [EmittedPaths, hPath]
    · rcases hp with hp | hp
      · exact Or.inl (hp.trans (by decide))
      · exact Or.inr (hp.trans (by decide))
    · rw [ht]
      rfl

theorem BreakClusters_path_points_witness :
    ∃ Path,
      EmittedPaths (PathsEngine false) (PathsSettings EPCGExBreakClusterLeavesHandling.Include)
          PathGraph5 none
          (BuildChains (PathsSettings EPCGExBreakClusterLeavesHandling.Include) PathGraph5
            (fun _ => false)).2 = [Path]
      ∧ (Path.Points = [0, 1, 2, 3, 4] ∨ Path.Points = [4, 3, 2, 1, 0])
      ∧ Path.Tags = ["OpenPath"] :=
  (BreakClusters_path_points (PathsEngine false)
    (PathsSettings EPCGExBreakClusterLeavesHandling.Include) none).2.2
    (by decide) (by decide) (by decide) (fun _ => rfl)

theorem FCluster.Links_edges_nodup (C : FCluster) (Node : Nat) :
    ((C.Links Node).map (fun l => l.Edge)).Nodup := by
  unfold FCluster.Links
  rw [List.map_filterMap]
  unfold List.Nodup
  rw [List.pairwise_filterMap]
  have hfst : (C.Edges.enum.map Prod.fst).Nodup := by
    rw [List.enum_map_fst]
    exact List.nodup_range _
  have hp : C.Edges.enum.Pairwise (fun a b => a.1 ≠ b.1) := by
    unfold List.Nodup at hfst
    rw [List.pairwise_map] at hfst
    exact hfst
  refine hp.imp ?_
  intro a b hab x hx y hy hxy
  apply hab
  have hxa : x = (a.1 : Int) := by
    split_ifs at hx <;> simp at hx <;> exact hx.symm
  have hyb : y = (b.1 : Int) := by
    split_ifs at hy <;> simp at hy <;> exact hy.symm
  rw [hxa, hyb] at hxy
  exact Int.ofNat.inj hxy

theorem FCluster.Links_reverse (C : FCluster) (Node : Nat) (l : FLink) (h : l ∈ C.Links Node) :
    ∃ r ∈ C.Links l.Node, r.Edge = l.Edge := by
  unfold FCluster.Links at h
  rw [List.mem_filterMap] at h
  obtain ⟨ie, hie, hl⟩ := h
  by_cases h1 : ie.2.1 = Node
  · rw [if_pos h1] at hl
    cases hl
    by_cases h2 : ie.2.1 = ie.2.2
    · refine ⟨⟨ie.2.2, ie.1⟩, ?_, rfl⟩
      unfold FCluster.Links
      rw [List.mem_filterMap]
      exact ⟨ie, hie, by simp [h2]⟩
    · refine ⟨⟨ie.2.1, ie.1⟩, ?_, rfl⟩
      unfold FCluster.Links
      rw [List.mem_filterMap]
      exact ⟨ie, hie, by simp [h2]⟩
  · rw [if_neg h1] at hl
    by_cases h3 : ie.2.2 = Node
    · rw [if_pos h3] at hl
      cases hl
      refine ⟨⟨ie.2.2, ie.1⟩, ?_, rfl⟩
      unfold FCluster.Links
      rw [List.mem_filterMap]
      exact ⟨ie, hie, by simp⟩
    · rw [if_neg h3] at hl
      cases hl

theorem FCluster.Links_node_lt (C : FCluster) (hV : C.Valid) (Node : Nat) (l : FLink)
    (h : l ∈ C.Links Node) : l.Node < C.NodePointIndex.length := by
  unfold FCluster.Links at h
  rw [List.mem_filterMap] at h
  obtain ⟨ie, hie, hl⟩ := h
  have hmem : ie.2 ∈ C.Edges := by
    have := List.mem_map_of_mem Prod.snd hie
    rw [List.enum_map_snd] at this
    exact this
  have hv := hV _ hmem
  split_ifs at hl <;> cases hl
  · exact hv.2
  · exact hv.1

theorem FCluster.Links_two (C : FCluster) (Node : Nat) (Last Next : FLink)
    (hdeg : (C.Links Node).length = 2)
    (hin : ∃ l ∈ C.Links Node, l.Edge = Last.Edge)
    (hf : (C.Links Node).find? (fun l => decide (l.Edge ≠ Last.Edge)) = some Next) :
    ∀ l ∈ C.Links Node, l.Edge = Last.Edge ∨ l.Edge = Next.Edge := by
  have hnd := FCluster.Links_edges_nodup C Node
  obtain ⟨a, b, hab⟩ := List.length_eq_two.1 hdeg
  rw [hab] at hin hf hnd ⊢
  simp only [List.map_cons, List.map_nil, List.nodup_cons, List.mem_singleton,
    List.not_mem_nil, not_false_eq_true, List.nodup_nil, and_true] at hnd
  obtain ⟨l0, hl0, hl0e⟩ := hin
  intro l hl
  simp only [List.mem_cons, List.mem_singleton, List.not_mem_nil, or_false] at hl hl0
  by_cases ha : a.Edge = Last.Edge
  · have hb : b.Edge ≠ Last.Edge := fun hb => hnd (ha.trans hb.symm)
    have : Next = b := by
      simpa [List.find?, ha, hb] using hf.symm
    rcases hl with rfl | rfl
    · exact Or.inl ha
    · exact Or.inr (by rw [this])
  · have : Next = a := by
      simpa [List.find?, ha] using hf.symm
    have hb : b.Edge = Last.Edge := by
      rcases hl0 with rfl | rfl
      · exact absurd hl0e ha
      · exact hl0e
    rcases hl with rfl | rfl
    · exact Or.inr (by rw [this])
    · exact Or.inl hb

theorem FCluster.IsCut_false (C : FCluster) (Breakpoints : Nat → Bool) (Node : Nat)
    (h : ¬ C.IsCut Breakpoints Node = true) : (C.Links Node).length = 2 := by
  unfold FCluster.IsCut at h
  by_contra hne
  exact h (by simp [hne])

theorem FNodeChain.Extend_stuck (C : FCluster) (Breakpoints : Nat → Bool) (Seed : Nat)
    (Fuel : Nat) (Last : FLink) (Claimed : List Int) (Links : List FLink)
    (h : ∀ l ∈ C.Links Last.Node, l.Edge ≠ Last.Edge → l.Edge ∈ Claimed) :
    (FNodeChain.Extend C Breakpoints Seed Fuel Last Claimed Links).2.1 = none := by
  cases Fuel with
  | zero => rfl
  | succ Fuel =>
    unfold FNodeChain.Extend
    by_cases hcut : C.IsCut Breakpoints Last.Node = true
    · simp only [hcut, if_true]
    · simp only [hcut, Bool.false_eq_true, if_false]
      cases hf : (C.Links Last.Node).find? (fun l => decide (l.Edge ≠ Last.Edge)) with
      | none => rfl
      | some Next =>
        have hmem : Next ∈ C.Links Last.Node := List.mem_of_find?_eq_some hf
        have hne : Next.Edge ≠ Last.Edge := by
          simpa using List.find?_some hf
        dsimp only
        rw [if_pos (h Next hmem hne)]

theorem FNodeChain.Extend_nodup (C : FCluster) (Breakpoints : Nat → Bool) (Seed : Nat)
    (Fuel : Nat) (Last : FLink) (Claimed : List Int) (Links : List FLink)
    (ha : Links.getLast? = some Last)
    (hb : Seed ∉ Links.map (fun l => l.Node))
    (hc : (Links.map (fun l => l.Node)).Nodup)
    (hd : ∀ m ∈ Links.dropLast, ∀ l ∈ C.Links m.Node, l.Edge ∈ Claimed)
    (he : ∃ l ∈ C.Links Last.Node, l.Edge = Last.Edge)
    (hf : Last.Edge ∈ Claimed)
    (hclosed : (FNodeChain.Extend C Breakpoints Seed Fuel Last Claimed Links).2.1.isSome = true) :
    Seed ∉ (FNodeChain.Extend C Breakpoints Seed Fuel Last Claimed Links).1.map (fun l => l.Node)
    ∧ ((FNodeChain.Extend C Breakpoints Seed Fuel Last Claimed Links).1.map
        (fun l => l.Node)).Nodup := by
  induction Fuel generalizing Last Claimed Links with
  | zero => exact ⟨hb, hc⟩
  | succ Fuel ih =>
    unfold FNodeChain.Extend at hclosed ⊢
    by_cases hcut : C.IsCut Breakpoints Last.Node = true
    · simp only [hcut, if_true]
      exact ⟨hb, hc⟩
    · simp only [hcut, Bool.false_eq_true, if_false] at hclosed ⊢
      cases hfind : (C.Links Last.Node).find? (fun l => decide (l.Edge ≠ Last.Edge)) with
      | none => exact ⟨hb, hc⟩
      | some Next =>
        rw [hfind] at hclosed
        have hmem : Next ∈ C.Links Last.Node := List.mem_of_find?_eq_some hfind
        have htwo := FCluster.Links_two C Last.Node Last Next
          (FCluster.IsCut_false C Breakpoints _ hcut) he hfind
        dsimp only at hclosed ⊢
        by_cases hcl : Next.Edge ∈ Claimed
        · simp only [hcl, if_true]
          exact ⟨hb, hc⟩
        · simp only [hcl, if_false] at hclosed ⊢
          by_cases hseed : Next.Node = Seed
          · simp only [hseed, if_true]
            exact ⟨hb, hc⟩
          · simp only [hseed, if_false] at hclosed ⊢
            have hLinks : Links.dropLast ++ [Last] = Links :=
              List.dropLast_append_getLast? Last (by rw [ha]; rfl)
            by_cases hself : Next.Node = Last.Node
            · have hstuck := FNodeChain.Extend_stuck C Breakpoints Seed Fuel Next
                (Claimed ++ [Next.Edge]) (Links ++ [Next]) (by
                  intro l hl hne
                  rw [hself] at hl
                  rcases htwo l hl with h | h
                  · rw [h]
                    exact List.mem_append_left _ hf
                  · exact absurd h hne)
              rw [hstuck] at hclosed
              cases hclosed
            · apply ih Next (Claimed ++ [Next.Edge]) (Links ++ [Next])
              · simp
              · rw [List.map_append, List.mem_append]
                rintro (h | h)
                · exact hb h
                · simp only [List.map_cons, List.map_nil, List.mem_singleton] at h
                  exact hseed h.symm
              · rw [List.map_append, List.nodup_append]
                refine ⟨hc, List.nodup_singleton _, ?_⟩
                intro n hn hn2
                simp only [List.map_cons, List.map_nil, List.mem_singleton] at hn2
                subst hn2
                obtain ⟨m, hm, hmn⟩ := List.mem_map.1 hn
                rw [← hLinks, List.mem_append, List.mem_singleton] at hm
                rcases hm with hm | hm
                · obtain ⟨r, hr, hre⟩ := FCluster.Links_reverse C _ Next hmem
                  rw [← hmn] at hr
                  exact hcl (hre ▸ hd m hm r hr)
                · rw [hm] at hmn
                  exact hself hmn.symm
              · intro m hm l hl
                rw [List.dropLast_concat] at hm
                rw [← hLinks, List.mem_append, List.mem_singleton] at hm
                rcases hm with hm | hm
                · exact List.mem_append_left _ (hd m hm l hl)
                · rw [hm] at hl
                  rcases htwo l hl with h | h
                  · rw [h]
                    exact List.mem_append_left _ hf
                  · rw [h]
                    simp
              · exact FCluster.Links_reverse C _ Next hmem
              · simp
              · exact hclosed

theorem FNodeChain.Extend_links_mem (C : FCluster) (Breakpoints : Nat → Bool) (Seed : Nat)
    (Fuel : Nat) (Last : FLink) (Claimed : List Int) (Links : List FLink) :
    ∀ l ∈ (FNodeChain.Extend C Breakpoints Seed Fuel Last Claimed Links).1,
      l ∈ Links ∨ ∃ n, l ∈ C.Links n := by
  induction Fuel generalizing Last Claimed Links with
  | zero => exact fun l hl => Or.inl hl
  | succ Fuel ih =>
    unfold FNodeChain.Extend
    by_cases hcut : C.IsCut Breakpoints Last.Node = true
    · simp only [hcut, if_true]
      exact fun l hl => Or.inl hl
    · simp only [hcut, Bool.false_eq_true, if_false]
      cases hfind : (C.Links Last.Node).find? (fun l => decide (l.Edge ≠ Last.Edge)) with
      | none => exact fun l hl => Or.inl hl
      | some Next =>
        have hmem : Next ∈ C.Links Last.Node := List.mem_of_find?_eq_some hfind
        dsimp only
        by_cases hcl : Next.Edge ∈ Claimed
        · simp only [hcl, if_true]
          exact fun l hl => Or.inl hl
        · simp only [hcl, if_false]
          by_cases hseed : Next.Node = Seed
          · simp only [hseed, if_true]
            exact fun l hl => Or.inl hl
          · simp only [hseed, if_false]
            intro l hl
            rcases ih Next (Claimed ++ [Next.Edge]) (Links ++ [Next]) l hl with h | h
            · rcases List.mem_append.1 h with h | h
              · exact Or.inl h
              · rw [List.mem_singleton.1 h]
                exact Or.inr ⟨_, hmem⟩
            · exact Or.inr h

theorem FNodeChain.BuildChain_closed (C : FCluster) (Breakpoints : Nat → Bool) (Seed : Nat)
    (First : FLink) (Claimed : List Int) (hF : First ∈ C.Links Seed)
    (hclosed : (FNodeChain.BuildChain C Breakpoints Seed First Claimed).1.bIsClosedLoop = true) :
    (FNodeChain.BuildChain C Breakpoints Seed First Claimed).1.Nodes.Nodup := by
  unfold FNodeChain.BuildChain at hclosed ⊢
  by_cases hs : First.Node = Seed
  · simp only [hs, if_true, FNodeChain.Nodes]
    simp
  · simp only [hs, if_false, FNodeChain.Nodes] at hclosed ⊢
    obtain ⟨h1, h2⟩ := FNodeChain.Extend_nodup C Breakpoints Seed C.Edges.length First
      (Claimed ++ [First.Edge]) [First] rfl (by simpa using fun h => hs h.symm) (by simp)
      (by simp) (FCluster.Links_reverse C _ First hF) (by simp) hclosed
    exact List.nodup_cons.2 ⟨h1, h2⟩

theorem FNodeChain.BuildChain_nodes_lt (C : FCluster) (hV : C.Valid)
    (Breakpoints : Nat → Bool) (Seed : Nat) (First : FLink) (Claimed : List Int)
    (hSeed : Seed < C.NodePointIndex.length) (hF : First ∈ C.Links Seed) :
    ∀ n ∈ (FNodeChain.BuildChain C Breakpoints Seed First Claimed).1.Nodes,
      n < C.NodePointIndex.length := by
  unfold FNodeChain.BuildChain
  by_cases hs : First.Node = Seed
  · simp only [hs, if_true, FNodeChain.Nodes]
    simpa using hSeed
  · simp only [hs, if_false, FNodeChain.Nodes]
    intro n hn
    rcases List.mem_cons.1 hn with rfl | hn
    · exact hSeed
    · obtain ⟨l, hl, rfl⟩ := List.mem_map.1 hn
      rcases FNodeChain.Extend_links_mem C Breakpoints Seed _ _ _ _ l hl with h | ⟨m, h⟩
      · rw [List.mem_singleton.1 h]
        exact FCluster.Links_node_lt C hV _ _ hF
      · exact FCluster.Links_node_lt C hV _ _ h

theorem FNodeChainBuilder.SeedAt_all (C : FCluster) (Breakpoints : Nat → Bool)
    (Q : FNodeChain → Prop) (ns : List Nat)
    (hQ : ∀ n ∈ ns, ∀ First ∈ C.Links n, ∀ Claimed,
      Q (FNodeChain.BuildChain C Breakpoints n First Claimed).1)
    (B : FNodeChainBuilder) (hB : ∀ Chain, some Chain ∈ B.Chains → Q Chain) :
    ∀ Chain, some Chain ∈ (ns.foldl (FNodeChainBuilder.SeedAt C Breakpoints) B).Chains →
      Q Chain := by
  induction ns generalizing B with
  | nil => exact hB
  | cons n ns ih =>
    rw [List.foldl_cons]
    apply ih (fun m hm => hQ m (List.mem_cons_of_mem _ hm))
    unfold FNodeChainBuilder.SeedAt
    have hn := hQ n (List.mem_cons_self _ _)
    generalize C.Links n = ls at hn
    induction ls generalizing B with
    | nil => exact hB
    | cons First ls ihl =>
      rw [List.foldl_cons]
      apply ihl
      · intro Chain hc
        split at hc
        · exact hB Chain hc
        · rcases List.mem_append.1 hc with hc | hc
          · exact hB Chain hc
          · rw [List.mem_singleton] at hc
            cases hc
            exact hn First (List.mem_cons_self _ _) _
      · exact fun F hF => hn F (List.mem_cons_of_mem _ hF)

theorem BuildChains_all (Settings : UPCGExBreakClustersToPathsSettings) (C : FCluster)
    (Breakpoints : Nat → Bool) (Q : FNodeChain → Prop)
    (hLeaf : ∀ n, n < C.NodePointIndex.length → Q ⟨⟨n, -1⟩, [], false, true, none⟩)
    (hQ : ∀ n, n < C.NodePointIndex.length → ∀ First ∈ C.Links n, ∀ Claimed,
      Q (FNodeChain.BuildChain C Breakpoints n First Claimed).1) :
    ∀ Chain, some Chain ∈ (BuildChains Settings C Breakpoints).2 → Q Chain := by
  have hC : ∀ Chain, some Chain ∈ (FNodeChainBuilder.Compile C Breakpoints).2 → Q Chain := by
    unfold FNodeChainBuilder.Compile
    dsimp only
    apply FNodeChainBuilder.SeedAt_all C Breakpoints Q
    · intro n hn
      apply hQ
      rcases List.mem_append.1 hn with h | h
      · exact List.mem_range.1 (List.mem_filter.1 h).1
      · exact List.mem_range.1 (List.mem_filter.1 h).1
    · intro Chain hc
      obtain ⟨n, hn, hc⟩ := List.mem_map.1 hc
      cases hc
      exact hLeaf n (List.mem_range.1 (List.mem_filter.1 hn).1)
  unfold BuildChains
  split
  · intro Chain hc
    unfold FNodeChainBuilder.CompileLeavesOnly at hc
    exact hC Chain (List.mem_filter.1 hc).1
  · exact hC

theorem FCluster.PointIndex_injOn (C : FCluster) (hnd : C.NodePointIndex.Nodup) (l : List Nat)
    (hl : ∀ n ∈ l, n < C.NodePointIndex.length) (hl2 : l.Nodup) :
    (l.map C.PointIndex).Nodup := by
  apply List.Nodup.map_on _ hl2
  intro x hx y hy hxy
  unfold FCluster.PointIndex at hxy
  have hx2 := hl x hx
  have hy2 := hl y hy
  rw [List.getD_eq_getElem _ _ hx2, List.getD_eq_getElem _ _ hy2] at hxy
  exact (List.Nodup.getElem_inj_iff hnd).1 hxy

/-- C11. A chain of the chain array that is flagged as a closed loop has no repeated node: the
seed node is not among the nodes of its links, so that the seed does not come a second time at
the end, and the nodes of the links are pairwise different; the chain therefore has
`Links.Num() + 1` different nodes, and the path `ProcessSingleRangeIteration` emits for it has
that many points, the points of these nodes in chain order or reversed, which are pairwise
different when the nodes of the cluster wrap different points.  For the 4-cycle without
breakpoints, whenever the leaves-handling setting is not `Only`, four points pass the size
tests and outputs are created, the loop over the chains leaves exactly one path, made of the
four points 0, 1, 2, 3 in this order or reversed, tagged as a closed loop if closed loops are
tagged. -/
theorem BreakClusters_closed_loop_nodes (E : FPathsEngine)
    (Settings : UPCGExBreakClustersToPathsSettings) (Cluster : FCluster)
    (VtxFilterCache : Nat → Bool) (ProjectedPositions : Option (List FVector2D)) :
    (∀ Chain, some Chain ∈ (BuildChains Settings Cluster VtxFilterCache).2 →
      Chain.bIsClosedLoop = true →
      Chain.Nodes.Nodup
      ∧ Chain.Seed.Node ∉ Chain.Links.map (fun l => l.Node)
      ∧ Chain.Nodes.toFinset.card = Chain.Links.length + 1
      ∧ ∀ Path,
          ProcessSingleRangeIteration E Settings Cluster ProjectedPositions (some Chain)
            = .Emitted Path →
          Path.Points.length = Chain.Nodes.toFinset.card
          ∧ (Path.Points = Chain.Nodes.map Cluster.PointIndex
            ∨ Path.Points = (Chain.Nodes.map Cluster.PointIndex).reverse)
          ∧ (Cluster.Valid → Cluster.NodePointIndex.Nodup → Path.Points.Nodup))
    ∧ (Settings.LeavesHandling ≠ EPCGExBreakClusterLeavesHandling.Only →
      Settings.MinPointCount ≤ 4 →
      (Settings.bOmitAbovePointCount = true → 4 ≤ Settings.MaxPointCount) →
      (∀ Chain, E.PathCreated Chain = true) →
      ∃ Path,
        EmittedPaths E Settings Cycle4 ProjectedPositions
            (BuildChains Settings Cycle4 (fun _ => false)).2 = [Path]
        ∧ (Path.Points = [0, 1, 2, 3] ∨ Path.Points = [3, 2, 1, 0])
        ∧ Path.Points.Nodup
        ∧ Path.Tags = if Settings.bTagIfClosedLoop then [Settings.IsClosedLoopTag] else []) := by
  refine ⟨?_, ?_⟩
  · intro Chain hChain hClosed
    have hnd : Chain.Nodes.Nodup :=
      BuildChains_all Settings Cluster VtxFilterCache
        (fun Chain => Chain.bIsClosedLoop = true → Chain.Nodes.Nodup)
        (fun n _ h => Bool.noConfusion h)
        (fun n _ First hF Claimed h =>
          FNodeChain.BuildChain_closed Cluster VtxFilterCache n First Claimed hF h)
        Chain hChain hClosed
    have hcard : Chain.Nodes.toFinset.card = Chain.Links.length + 1 := by
      rw [List.toFinset_card_of_nodup hnd]
      simp [FNodeChain.Nodes]
    refine ⟨hnd, (List.nodup_cons.1 hnd).1, hcard, ?_⟩
    intro Path hPath
    have hp := (ProcessSingleRangeIteration_emitted E Settings Cluster ProjectedPositions Chain
      Path hPath).1
    have hpts : ChainPoints Cluster Chain = Chain.Nodes.map Cluster.PointIndex := by
      simp [ChainPoints, FNodeChain.Nodes, List.map_map, Function.comp_def]
    rw [hpts] at hp
    refine ⟨?_, hp, ?_⟩
    · rw [hcard]
      rcases hp with hp | hp <;> rw [hp] <;> simp [FNodeChain.Nodes]
    · intro hV hN
      have hlt : ∀ n ∈ Chain.Nodes, n < Cluster.NodePointIndex.length :=
        BuildChains_all Settings Cluster VtxFilterCache
          (fun Chain => ∀ n ∈ Chain.Nodes, n < Cluster.NodePointIndex.length)
          (fun n hn m hm => by
            simp only [FNodeChain.Nodes, List.map_nil, List.mem_singleton] at hm
            rw [hm]
            exact hn)
          (fun n hn First hF Claimed =>
            FNodeChain.BuildChain_nodes_lt Cluster hV VtxFilterCache n First Claimed hn hF)
          Chain hChain
      have := FCluster.PointIndex_injOn Cluster hN Chain.Nodes hlt hnd
      rcases hp with hp | hp <;> rw [hp]
      · exact this
      · exact List.nodup_reverse.2 this
  · intro hL hMin hMax hCreated
    have hB : (BuildChains Settings Cycle4 (fun _ => false)).2
        = [some ⟨⟨0, 0⟩, [⟨1, 0⟩, ⟨2, 1⟩, ⟨3, 2⟩], true, false, some 3⟩] := by
      unfold BuildChains
      rw [if_neg hL]
      decide
    obtain ⟨Path, hPath⟩ := ProcessSingleRangeIteration_emits E Settings Cycle4
      ProjectedPositions ⟨⟨0, 0⟩, [⟨1, 0⟩, ⟨2, 1⟩, ⟨3, 2⟩], true, false, some 3⟩
      (fun h => Bool.noConfusion h.2) (by simpa using hMin) (fun h => by simpa using hMax h)
      (by simp) (hCreated _)
    obtain ⟨hp, ht⟩ := ProcessSingleRangeIteration_emitted E Settings Cycle4
      ProjectedPositions _ Path hPath
    have hp2 : Path.Points = [0, 1, 2, 3] ∨ Path.Points = [3, 2, 1, 0] := by
      rcases hp with hp | hp
      · exact Or.inl (hp.trans (by decide))
      · exact Or.inr (hp.trans (by decide))
    refine ⟨Path, ?_, hp2, ?_, ?_⟩
    · rw [hB]
      simp [EmittedPaths, hPath]
    · rcases hp2 with hp | hp <;> rw [hp] <;> decide
    · rw [ht]
      rfl

theorem BreakClusters_closed_loop_nodes_witness :
    some (⟨⟨0, 0⟩, [⟨1, 0⟩, ⟨2, 1⟩, ⟨3, 2⟩], true, false, some 3⟩ : FNodeChain)
      ∈ (BuildChains (PathsSettings EPCGExBreakClusterLeavesHandling.Include) Cycle4
          (fun _ => false)).2
    ∧ (⟨⟨0, 0⟩, [⟨1, 0⟩, ⟨2, 1⟩, ⟨3, 2⟩], true, false, some 3⟩ : FNodeChain).Nodes.Nodup
    ∧ ∃ Path,
        EmittedPaths (PathsEngine false) (PathsSettings EPCGExBreakClusterLeavesHandling.Include)
            Cycle4 none
            (BuildChains (PathsSettings EPCGExBreakClusterLeavesHandling.Include) Cycle4
              (fun _ => false)).2 = [Path]
        ∧ (Path.Points = [0, 1, 2, 3] ∨ Path.Points = [3, 2, 1, 0])
        ∧ Path.Points.Nodup
        ∧ Path.Tags = ["ClosedLoop"] :=
  ⟨by decide,
    ((BreakClusters_closed_loop_nodes (PathsEngine false)
      (PathsSettings EPCGExBreakClusterLeavesHandling.Include) Cycle4 (fun _ => false) none).1
      _ (by decide) rfl).1,
    (BreakClusters_closed_loop_nodes (PathsEngine false)
      (PathsSettings EPCGExBreakClusterLeavesHandling.Include) Cycle4 (fun _ => false) none).2
      (by decide) (by decide) (by decide) (fun _ => rfl)⟩

theorem H64A_H64 (A B : Nat) (hB : B < 2 ^ 32) : H64A (H64 A B) = A := by
  show (A * 2 ^ 32 + B) / 2 ^ 32 = A
  omega

theorem H64B_H64 (A B : Nat) (hB : B < 2 ^ 32) : H64B (H64 A B) = B := by
  show (A * 2 ^ 32 + B) % 2 ^ 32 = B
  omega

theorem H64U_comm (A B : Nat) : H64U A B = H64U B A := by
  unfold H64U
  rw [Nat.min_comm, Nat.max_comm]

/-- C12.  The key `H64U(a, b)` of the pair of point indices `a` and `b`, which is what the
per-scope sets of 64-bit keys hold, does not depend on the order of the two indices, equal or
not.  So a probe that connects `a` to `b` and a probe that connects `b` to `a` add the same
element to an edge set, and adding both leaves the set as adding one of them does.  For 32-bit
indices the key packs the smaller index and the larger one, and two pairs have the same key
only if they are the same pair, in the same or in the opposite order. -/
theorem ConnectPoints_edge_key_canonical (a b : Nat) :
    H64U a b = H64U b a
    ∧ (∀ (Edges : TSet uint64) (Ca Cb : FCandidate), Ca.PointIndex = a → Cb.PointIndex = b →
        (TryConnect a Cb none Edges).1.2 = (TryConnect b Ca none Edges).1.2
        ∧ (TryConnect b Ca none (TryConnect a Cb none Edges).1.2).1.2
            = (TryConnect a Cb none Edges).1.2
        ∧ H64U a b ∈ (TryConnect a Cb none Edges).1.2.Elements)
    ∧ (a < 2 ^ 32 → b < 2 ^ 32 →
        H64A (H64U a b) = min a b ∧ H64B (H64U a b) = max a b
        ∧ ∀ c d : Nat, c < 2 ^ 32 → d < 2 ^ 32 →
            (H64U a b = H64U c d ↔ (a = c ∧ b = d) ∨ (a = d ∧ b = c))) := by
  refine ⟨H64U_comm a b, ?_, ?_⟩
  · intro Edges Ca Cb ha hb
    simp only [TryConnect, ha, hb]
    refine ⟨by rw [H64U_comm], ?_, ?_⟩
    · rw [H64U_comm b a]
      exact TSet.Add_Add _ _
    · rw [TSet.mem_Add]
      exact Or.inr rfl
  · intro ha hb
    have hmax : max a b < 2 ^ 32 := by omega
    refine ⟨H64A_H64 _ _ hmax, H64B_H64 _ _ hmax, ?_⟩
    intro c d hc hd
    have hmax2 : max c d < 2 ^ 32 := by omega
    constructor
    · intro h
      have h1 := congrArg H64A h
      have h2 := congrArg H64B h
      unfold H64U at h1 h2
      rw [H64A_H64 _ _ hmax, H64A_H64 _ _ hmax2] at h1
      rw [H64B_H64 _ _ hmax, H64B_H64 _ _ hmax2] at h2
      have h3 : (min a b : Nat) = min c d := h1
      have h4 : (max a b : Nat) = max c d := h2
      omega
    · rintro (⟨rfl, rfl⟩ | ⟨rfl, rfl⟩)
      · rfl
      · exact H64U_comm _ _

theorem ConnectPoints_edge_key_canonical_witness :
    (3 : Nat) < 2 ^ 32 ∧ (1 : Nat) < 2 ^ 32
    ∧ H64U 3 1 = H64U 1 3
    ∧ H64A (H64U 3 1) = 1 ∧ H64B (H64U 3 1) = 3
    ∧ (TryConnect 1 ⟨3, ⟨0, 0, 0⟩, 0, ⟨0, 0, 0⟩⟩ none
        (TryConnect 3 ⟨1, ⟨0, 0, 0⟩, 0, ⟨0, 0, 0⟩⟩ none TSet.Empty).1.2).1.2
        = (TryConnect 3 ⟨1, ⟨0, 0, 0⟩, 0, ⟨0, 0, 0⟩⟩ none TSet.Empty).1.2 :=
  ⟨by decide, by decide, (ConnectPoints_edge_key_canonical 3 1).1,
    ((ConnectPoints_edge_key_canonical 3 1).2.2 (by decide) (by decide)).1,
    ((ConnectPoints_edge_key_canonical 3 1).2.2 (by decide) (by decide)).2.1,
    ((ConnectPoints_edge_key_canonical 3 1).2.1 TSet.Empty ⟨3, ⟨0, 0, 0⟩, 0, ⟨0, 0, 0⟩⟩
      ⟨1, ⟨0, 0, 0⟩, 0, ⟨0, 0, 0⟩⟩ rfl rfl).2.1⟩

theorem WriteEdgeProperties.FProcessor.Process_members (K : WriteEdgeProperties.FCollaborators)
    (Settings : UPCGExWriteEdgePropertiesSettings) (P : WriteEdgeProperties.FProcessor)
    (h : WriteEdgeProperties.FProcessor.Process K Settings = (true, P)) :
    P = ⟨decide (Settings.SolidificationAxis ≠ EPCGExMinimalAxis.None),
      Settings.bEndpointsBlending, Clamp Settings.EndpointsWeights 0 100,
      100 - Clamp Settings.EndpointsWeights 0 100, true⟩ := by
  unfold WriteEdgeProperties.FProcessor.Process at h
  dsimp only at h
  split_ifs at h
  all_goals first
    | exact Bool.noConfusion (Prod.mk.inj h).1
    | (rw [← (Prod.mk.inj h).2]; simp_all [WriteEdgeProperties.FProcessor.New])

/-- C13.  When `Process` has returned true, the metadata blender is set exactly when endpoint
blending is enabled.  Without it `ProcessSingleEdge` makes no call to a blender.  With it, for
every edge, `ProcessSingleEdge` makes exactly four calls, in this order, on the point that
stands for the edge in the edge output: `PrepareForBlending`, `Blend` with the start endpoint
of the sorted edge and the weight `wStart`, `Blend` with its end endpoint and the weight
`1 - wStart`, and `CompleteBlending` with the count 2 and the sum of the two weights, which
is 1.  The weight `wStart` is the solidification lerp of the edge clamped to [0, 1] when a
solidification axis is set, else the edge position lerp when the edge position is written,
else the endpoint weights clamped to [0, 1].  The double `1` is `100` hundredths. -/
theorem WriteEdgeProperties_blend_protocol (K : WriteEdgeProperties.FCollaborators)
    (Settings : UPCGExWriteEdgePropertiesSettings) (P : WriteEdgeProperties.FProcessor)
    (h : WriteEdgeProperties.FProcessor.Process K Settings = (true, P))
    (InEdge : WriteEdgeProperties.FEdge) :
    P.MetadataBlender = Settings.bEndpointsBlending
    ∧ (Settings.bEndpointsBlending = false → P.ProcessSingleEdge K Settings InEdge = [])
    ∧ (Settings.bEndpointsBlending = true →
        P.ProcessSingleEdge K Settings InEdge
          = [FBlendCall.PrepareForBlending (FPointRef.EdgeOut (K.SortEndpoints InEdge).PointIndex),
              FBlendCall.Blend (FPointRef.EdgeOut (K.SortEndpoints InEdge).PointIndex)
                (FPointRef.VtxIn (K.SortEndpoints InEdge).Start)
                (FPointRef.EdgeOut (K.SortEndpoints InEdge).PointIndex)
                (WriteEdgeProperties.BlendWeightStart K Settings (K.SortEndpoints InEdge)),
              FBlendCall.Blend (FPointRef.EdgeOut (K.SortEndpoints InEdge).PointIndex)
                (FPointRef.VtxIn (K.SortEndpoints InEdge).End)
                (FPointRef.EdgeOut (K.SortEndpoints InEdge).PointIndex)
                (100 - WriteEdgeProperties.BlendWeightStart K Settings (K.SortEndpoints InEdge)),
              FBlendCall.CompleteBlending (FPointRef.EdgeOut (K.SortEndpoints InEdge).PointIndex)
                2
                (WriteEdgeProperties.BlendWeightStart K Settings (K.SortEndpoints InEdge)
                  + (100 - WriteEdgeProperties.BlendWeightStart K Settings
                      (K.SortEndpoints InEdge)))]
        ∧ WriteEdgeProperties.BlendWeightStart K Settings (K.SortEndpoints InEdge)
            + (100 - WriteEdgeProperties.BlendWeightStart K Settings (K.SortEndpoints InEdge))
            = 100
        ∧ ((P.ProcessSingleEdge K Settings InEdge).filter FBlendCall.IsBlend).length = 2) := by
  have hP := WriteEdgeProperties.FProcessor.Process_members K Settings P h
  subst hP
  refine ⟨rfl, ?_, ?_⟩
  · intro hb
    simp [WriteEdgeProperties.FProcessor.ProcessSingleEdge, hb]
  · intro hb
    have hlist : (WriteEdgeProperties.FProcessor.ProcessSingleEdge K Settings
          ⟨decide (Settings.SolidificationAxis ≠ EPCGExMinimalAxis.None),
            Settings.bEndpointsBlending, Clamp Settings.EndpointsWeights 0 100,
            100 - Clamp Settings.EndpointsWeights 0 100, true⟩ InEdge)
        = WriteEdgeProperties.MetadataBlend (K.SortEndpoints InEdge)
            (WriteEdgeProperties.BlendWeightStart K Settings (K.SortEndpoints InEdge))
            (100 - WriteEdgeProperties.BlendWeightStart K Settings (K.SortEndpoints InEdge)) := by
      unfold WriteEdgeProperties.FProcessor.ProcessSingleEdge WriteEdgeProperties.BlendWeightStart
      dsimp only
      by_cases h1 : Settings.SolidificationAxis = EPCGExMinimalAxis.None
      · by_cases h2 : Settings.bWriteEdgePosition = true <;> simp [h1, h2, hb]
      · simp [h1, hb]
    rw [hlist]
    refine ⟨rfl, ?_, rfl⟩
    exact add_sub_cancel _ _

theorem WriteEdgeProperties_blend_protocol_witness :
    WriteEdgeProperties.FProcessor.Process SceneEdgeCollaborators
        (SceneEdgeSettings EPCGExMinimalAxis.None false)
      = (true, ⟨false, true, 30, 70, true⟩)
    ∧ (SceneEdgeSettings EPCGExMinimalAxis.None false).bEndpointsBlending = true
    ∧ WriteEdgeProperties.FProcessor.ProcessSingleEdge SceneEdgeCollaborators
        (SceneEdgeSettings EPCGExMinimalAxis.None false) ⟨false, true, 30, 70, true⟩ ⟨7, 4, 2⟩
      = [FBlendCall.PrepareForBlending (FPointRef.EdgeOut 2),
          FBlendCall.Blend (FPointRef.EdgeOut 2) (FPointRef.VtxIn 4) (FPointRef.EdgeOut 2) 30,
          FBlendCall.Blend (FPointRef.EdgeOut 2) (FPointRef.VtxIn 7) (FPointRef.EdgeOut 2) 70,
          FBlendCall.CompleteBlending (FPointRef.EdgeOut 2) 2 100] :=
  ⟨by decide, rfl,
    ((WriteEdgeProperties_blend_protocol SceneEdgeCollaborators
      (SceneEdgeSettings EPCGExMinimalAxis.None false) ⟨false, true, 30, 70, true⟩ (by decide)
      ⟨7, 4, 2⟩).2.2 rfl).1.trans (by decide)⟩

theorem StartBatchProcessingPoints_fold (l : List (Nat × Nat)) (Batch : List Nat) (Flag : Bool) :
    l.foldl
        (fun (s : List Nat × Bool) ie =>
          (if (FPCGExConnectPointsElement.ValidateEntry s.2 ie.2).1 then s.1 ++ [ie.1] else s.1,
            (FPCGExConnectPointsElement.ValidateEntry s.2 ie.2).2))
        (Batch, Flag)
      = (Batch ++ (l.filter (fun ie => decide (2 ≤ ie.2))).map Prod.fst,
          Flag || l.any (fun ie => decide (ie.2 < 2))) := by
  induction l generalizing Batch Flag with
  | nil => simp
  | cons ie l ih =>
    rw [List.foldl_cons, ih]
    unfold FPCGExConnectPointsElement.ValidateEntry
    by_cases h : ie.2 < 2
    · have h2 : ¬ 2 ≤ ie.2 := by omega
      simp [h, h2, List.filter_cons]
    · have h2 : 2 ≤ ie.2 := by omega
      simp [h, h2, List.filter_cons]

/-- C14.  The validator accepts a collection exactly when it has at least 2 points, and
raises the flag `bHasInvalidInputs` when it has fewer.  After the initial execution of
`ExecuteInternal` the batch holds every collection of at least 2 points, in input order,
whatever the other collections are; the flag is raised exactly when some collection has fewer
than 2 points; and the execution is cancelled exactly when the batch is empty, that is when no
collection has 2 points or more. -/
theorem ConnectPoints_input_validation (MainPoints : List Nat) :
    (∀ Flag EntryNum,
      (FPCGExConnectPointsElement.ValidateEntry Flag EntryNum).1 = decide (2 ≤ EntryNum)
      ∧ (FPCGExConnectPointsElement.ValidateEntry Flag EntryNum).2
          = (Flag || decide (EntryNum < 2)))
    ∧ (FPCGExConnectPointsElement.ExecuteInternal MainPoints).Batch
        = (MainPoints.enum.filter (fun ie => decide (2 ≤ ie.2))).map Prod.fst
    ∧ (∀ i, i ∈ (FPCGExConnectPointsElement.ExecuteInternal MainPoints).Batch
        ↔ ∃ EntryNum, MainPoints[i]? = some EntryNum ∧ 2 ≤ EntryNum)
    ∧ ((FPCGExConnectPointsElement.ExecuteInternal MainPoints).bHasInvalidInputs = true
        ↔ ∃ EntryNum ∈ MainPoints, EntryNum < 2)
    ∧ ((FPCGExConnectPointsElement.ExecuteInternal MainPoints).bCancelled = true
        ↔ (FPCGExConnectPointsElement.ExecuteInternal MainPoints).Batch = [])
    ∧ ((FPCGExConnectPointsElement.ExecuteInternal MainPoints).bCancelled = true
        ↔ ∀ EntryNum ∈ MainPoints, EntryNum < 2)
    ∧ (FPCGExConnectPointsElement.ExecuteInternal MainPoints).bRequiresWriteStep
        = !(FPCGExConnectPointsElement.ExecuteInternal MainPoints).bCancelled := by
  have hfold := StartBatchProcessingPoints_fold MainPoints.enum [] false
  have hB : (FPCGExConnectPointsElement.ExecuteInternal MainPoints).Batch
      = (MainPoints.enum.filter (fun ie => decide (2 ≤ ie.2))).map Prod.fst := by
    unfold FPCGExConnectPointsElement.ExecuteInternal StartBatchProcessingPoints
    dsimp only
    rw [hfold]
    split <;> simp
  have hF : (FPCGExConnectPointsElement.ExecuteInternal MainPoints).bHasInvalidInputs
      = MainPoints.enum.any (fun ie => decide (ie.2 < 2)) := by
    unfold FPCGExConnectPointsElement.ExecuteInternal StartBatchProcessingPoints
    dsimp only
    rw [hfold]
    split <;> simp
  have hC : (FPCGExConnectPointsElement.ExecuteInternal MainPoints).bCancelled
      = ((MainPoints.enum.filter (fun ie => decide (2 ≤ ie.2))).map Prod.fst).isEmpty := by
    unfold FPCGExConnectPointsElement.ExecuteInternal StartBatchProcessingPoints
    dsimp only
    rw [hfold]
    dsimp only
    generalize List.map Prod.fst (List.filter (fun ie => decide (2 ≤ ie.2)) MainPoints.enum) = L
    cases L <;> rfl
  have hW : (FPCGExConnectPointsElement.ExecuteInternal MainPoints).bRequiresWriteStep
      = !(FPCGExConnectPointsElement.ExecuteInternal MainPoints).bCancelled := by
    unfold FPCGExConnectPointsElement.ExecuteInternal
    dsimp only
    split <;> rfl
  have hmem : ∀ i, i ∈ (MainPoints.enum.filter (fun ie => decide (2 ≤ ie.2))).map Prod.fst
      ↔ ∃ EntryNum, MainPoints[i]? = some EntryNum ∧ 2 ≤ EntryNum := by
    intro i
    rw [List.mem_map]
    constructor
    · rintro ⟨ie, hie, rfl⟩
      rw [List.mem_filter] at hie
      exact ⟨ie.2, (List.mk_mem_enum_iff_getElem?.1 hie.1), by simpa using hie.2⟩
    · rintro ⟨n, hn, h2⟩
      exact ⟨(i, n), List.mem_filter.2 ⟨List.mk_mem_enum_iff_getElem?.2 hn, by simpa using h2⟩,
        rfl⟩
  have hall : ((MainPoints.enum.filter (fun ie => decide (2 ≤ ie.2))).map Prod.fst) = []
      ↔ ∀ EntryNum ∈ MainPoints, EntryNum < 2 := by
    constructor
    · intro h n hn
      obtain ⟨i, hi⟩ := List.mem_iff_getElem?.1 hn
      by_contra hlt
      have : i ∈ (MainPoints.enum.filter (fun ie => decide (2 ≤ ie.2))).map Prod.fst :=
        (hmem i).2 ⟨n, hi, by omega⟩
      rw [h] at this
      cases this
    · intro h
      rw [List.eq_nil_iff_forall_not_mem]
      intro i hi
      obtain ⟨n, hn, h2⟩ := (hmem i).1 hi
      have := h n (List.mem_iff_getElem?.2 ⟨i, hn⟩)
      omega
  refine ⟨?_, hB, ?_, ?_, ?_, ?_, hW⟩
  · intro Flag n
    unfold FPCGExConnectPointsElement.ValidateEntry
    by_cases h : n < 2
    · have h2 : ¬ 2 ≤ n := by omega
      simp [h, h2]
    · have h2 : 2 ≤ n := by omega
      simp [h, h2]
  · intro i
    rw [hB]
    exact hmem i
  · rw [hF, List.any_eq_true]
    constructor
    · rintro ⟨ie, hie, h⟩
      exact ⟨ie.2, List.mem_iff_getElem?.2 ⟨ie.1, List.mk_mem_enum_iff_getElem?.1 hie⟩,
        by simpa using h⟩
    · rintro ⟨n, hn, h⟩
      obtain ⟨i, hi⟩ := List.mem_iff_getElem?.1 hn
      exact ⟨(i, n), List.mk_mem_enum_iff_getElem?.2 hi, by simpa using h⟩
  · rw [hC, hB, List.isEmpty_iff]
  · rw [hC, List.isEmpty_iff]
    exact hall

theorem ConnectPoints_input_validation_witness :
    (FPCGExConnectPointsElement.ExecuteInternal [5, 1, 0, 2]).Batch = [0, 3]
    ∧ (FPCGExConnectPointsElement.ExecuteInternal [5, 1, 0, 2]).bHasInvalidInputs = true
    ∧ (FPCGExConnectPointsElement.ExecuteInternal [5, 1, 0, 2]).bCancelled = false
    ∧ (FPCGExConnectPointsElement.ExecuteInternal [1, 0]).bCancelled = true :=
  ⟨(ConnectPoints_input_validation [5, 1, 0, 2]).2.1.trans (by decide),
    (ConnectPoints_input_validation [5, 1, 0, 2]).2.2.2.1.2 ⟨1, by decide, by decide⟩,
    by decide,
    (ConnectPoints_input_validation [1, 0]).2.2.2.2.2.1.2 (by decide)⟩

/-- C15.  For a processor with a graph builder, `Write` makes either the single call that
clears the point output of the unit, or the two calls that write the points and stage the
edge outputs, in this order: the first when the builder's flag `bCompiledSuccessfully` is
false, and the second exactly when it is true.  So the point output is cleared exactly when
the graph did not compile, and the points are written and the edge outputs staged exactly
when it did. -/
theorem ConnectPoints_Write_follows_compilation (P : FProcessor) (GraphBuilder : FGraphBuilder)
    (h : P.GraphBuilder = some GraphBuilder) :
    ∃ Calls, P.Write = some Calls
      ∧ (GraphBuilder.bCompiledSuccessfully = false → Calls = [FWriteCall.ClearPointOutput])
      ∧ (GraphBuilder.bCompiledSuccessfully = true →
          Calls = [FWriteCall.WritePoints, FWriteCall.StageEdgesOutputs])
      ∧ (FWriteCall.ClearPointOutput ∈ Calls ↔ GraphBuilder.bCompiledSuccessfully = false)
      ∧ (FWriteCall.WritePoints ∈ Calls ↔ GraphBuilder.bCompiledSuccessfully = true)
      ∧ (FWriteCall.StageEdgesOutputs ∈ Calls ↔ GraphBuilder.bCompiledSuccessfully = true) := by
  unfold FProcessor.Write
  rw [h]
  dsimp only
  cases hb : GraphBuilder.bCompiledSuccessfully
  · exact ⟨[FWriteCall.ClearPointOutput], rfl, fun _ => rfl, fun h => Bool.noConfusion h,
      by decide, by decide, by decide⟩
  · exact ⟨[FWriteCall.WritePoints, FWriteCall.StageEdgesOutputs], rfl,
      fun h => Bool.noConfusion h, fun _ => rfl, by decide, by decide, by decide⟩

theorem ConnectPoints_Write_follows_compilation_witness :
    (FProcessor.Process ⟨false, false⟩ SceneContext SceneFacade).2.GraphBuilder
      = some ⟨FGraph.New, false⟩
    ∧ (FProcessor.Process ⟨false, false⟩ SceneContext SceneFacade).2.Write
      = some [FWriteCall.ClearPointOutput]
    ∧ ({ (FProcessor.Process ⟨false, false⟩ SceneContext SceneFacade).2 with
          GraphBuilder := some ⟨FGraph.New, true⟩ } : FProcessor).Write
      = some [FWriteCall.WritePoints, FWriteCall.StageEdgesOutputs] := by
  refine ⟨rfl, ?_, ?_⟩
  · obtain ⟨Calls, h1, h2, -⟩ := ConnectPoints_Write_follows_compilation
      (FProcessor.Process ⟨false, false⟩ SceneContext SceneFacade).2 ⟨FGraph.New, false⟩ rfl
    rw [h1, h2 rfl]
  · obtain ⟨Calls, h1, -, h3, -⟩ := ConnectPoints_Write_follows_compilation
      { (FProcessor.Process ⟨false, false⟩ SceneContext SceneFacade).2 with
        GraphBuilder := some ⟨FGraph.New, true⟩ } ⟨FGraph.New, true⟩ rfl
    rw [h1, h3 rfl]

theorem FProcessor.AddProbe_fold_flags (l : List FPCGExProbeOperation) (P : FProcessor) :
    (l.foldl FProcessor.AddProbe P).bOutputInitialized = P.bOutputInitialized
    ∧ (l.foldl FProcessor.AddProbe P).GraphBuilder = P.GraphBuilder
    ∧ (l.foldl FProcessor.AddProbe P).bPrepTaskStarted = P.bPrepTaskStarted := by
  induction l generalizing P with
  | nil => exact ⟨rfl, rfl, rfl⟩
  | cons o l ih =>
    rw [List.foldl_cons]
    obtain ⟨a, b, c⟩ := ih (P.AddProbe o)
    rw [a, b, c]
    unfold FProcessor.AddProbe
    split_ifs <;> exact ⟨rfl, rfl, rfl⟩

theorem filter_and_isEmpty {α : Type} (l : List α) (p q : α → Bool) :
    ((l.filter (fun o => p o && q o)).isEmpty && (l.filter (fun o => p o && !q o)).isEmpty)
      = (l.filter (fun o => p o && true)).isEmpty := by
  induction l with
  | nil => rfl
  | cons a l ih =>
    cases hp : p a <;> cases hq : q a <;> simp [List.filter_cons, hp, hq] <;> simpa using ih

theorem FProcessor.Process_flags (Settings : UPCGExConnectPointsSettings)
    (Context : FPCGExConnectPointsContext) (Facade : FPointDataFacade) :
    ((FProcessor.Process Settings Context Facade).1 = true ↔
      Facade.BaseProcess = true
      ∧ (Context.Probes (fun _ => true)).isEmpty = false
      ∧ Facade.InitializeOutput = true
      ∧ (∀ F, Context.GeneratorsFiltersFactories = some F → F.Init = true)
      ∧ (∀ F, Context.ConnectablesFiltersFactories = some F → F.Init = true)
      ∧ Facade.AsyncGroup = true)
    ∧ (FProcessor.Process Settings Context Facade).2.bPrepTaskStarted
        = (FProcessor.Process Settings Context Facade).1
    ∧ (FProcessor.Process Settings Context Facade).2.bOutputInitialized
        = (Facade.BaseProcess && !(Context.Probes (fun _ => true)).isEmpty
            && Facade.InitializeOutput)
    ∧ (FProcessor.Process Settings Context Facade).2.GraphBuilder.isSome
        = (Facade.BaseProcess && !(Context.Probes (fun _ => true)).isEmpty
            && Facade.InitializeOutput) := by
  obtain ⟨f1, f2, -⟩ := FProcessor.AddProbe_fold Context.ProbeFactories
    { FProcessor.New with
      CWCoincidenceTolerance := Context.CWCoincidenceTolerance
      bPreventCoincidence := Settings.bPreventCoincidence }
  obtain ⟨g1, g2, g3⟩ := FProcessor.AddProbe_fold_flags Context.ProbeFactories
    { FProcessor.New with
      CWCoincidenceTolerance := Context.CWCoincidenceTolerance
      bPreventCoincidence := Settings.bPreventCoincidence }
  have hE := filter_and_isEmpty Context.ProbeFactories (fun o => o.PrepareForPoints)
    (fun o => o.RequiresOctree)
  unfold FProcessor.Process
  dsimp only
  generalize List.foldl FProcessor.AddProbe _ Context.ProbeFactories = P2 at f1 f2 g1 g2 g3 ⊢
  simp only [FProcessor.New, List.nil_append] at f1 f2 g1 g2 g3
  rw [← f1, ← f2] at hE
  unfold FPCGExConnectPointsContext.Probes
  rw [← hE]
  generalize (P2.SearchProbes.isEmpty && P2.DirectProbes.isEmpty) = N
  cases hS : P2.SearchProbes.isEmpty <;> cases N <;> cases Facade.BaseProcess <;>
    cases Facade.InitializeOutput <;> cases Facade.AsyncGroup <;>
    rcases Context.GeneratorsFiltersFactories with _ | ⟨i1, t1⟩ <;>
    rcases Context.ConnectablesFiltersFactories with _ | ⟨i2, t2⟩ <;>
    first
      | (simp [g1, g2, g3, FProcessor.New]; done)
      | (cases i1 <;> simp [g1, g2, g3, FProcessor.New]; done)
      | (cases i2 <;> simp [g1, g2, g3, FProcessor.New]; done)
      | (cases i1 <;> cases i2 <;> simp [g1, g2, g3, FProcessor.New])

/-- C16 (as amended).  `Process` returns true exactly when the base class succeeds, a probe
passes preparation, the point output is initialised, each filter manager that is created
initialises, and the task group is created.  Whenever it returns false, the preparation
sub-loops have not been started.  When it returns false because the base class fails, because
no probe passes preparation or because the point output cannot be initialised, the point
output has not been initialised and no graph builder has been created.  When the base class
succeeds, a probe passes preparation and the point output is initialised, so that it returns
false because a filter manager fails to initialise or the task group cannot be created, the
point output has been initialised and the graph builder has been created before it
returns. -/
theorem ConnectPoints_Process_failure (Settings : UPCGExConnectPointsSettings)
    (Context : FPCGExConnectPointsContext) (Facade : FPointDataFacade)
    (h : (FProcessor.Process Settings Context Facade).1 = false) :
    (FProcessor.Process Settings Context Facade).2.bPrepTaskStarted = false
    ∧ (Facade.BaseProcess = false
      ∨ (Context.Probes (fun _ => true)).isEmpty = true
      ∨ Facade.InitializeOutput = false
      ∨ (∃ F, Context.GeneratorsFiltersFactories = some F ∧ F.Init = false)
      ∨ (∃ F, Context.ConnectablesFiltersFactories = some F ∧ F.Init = false)
      ∨ Facade.AsyncGroup = false)
    ∧ ((Facade.BaseProcess = false
        ∨ (Context.Probes (fun _ => true)).isEmpty = true
        ∨ Facade.InitializeOutput = false) →
      (FProcessor.Process Settings Context Facade).2.bOutputInitialized = false
      ∧ (FProcessor.Process Settings Context Facade).2.GraphBuilder.isNone = true)
    ∧ (Facade.BaseProcess = true → (Context.Probes (fun _ => true)).isEmpty = false →
      Facade.InitializeOutput = true →
      ((∃ F, Context.GeneratorsFiltersFactories = some F ∧ F.Init = false)
        ∨ (∃ F, Context.ConnectablesFiltersFactories = some F ∧ F.Init = false)
        ∨ Facade.AsyncGroup = false)
      ∧ (FProcessor.Process Settings Context Facade).2.bOutputInitialized = true
      ∧ (FProcessor.Process Settings Context Facade).2.GraphBuilder.isSome = true) := by
  obtain ⟨p1, p2, p3, p4⟩ := FProcessor.Process_flags Settings Context Facade
  have hcause : Facade.BaseProcess = false
      ∨ (Context.Probes (fun _ => true)).isEmpty = true
      ∨ Facade.InitializeOutput = false
      ∨ (∃ F, Context.GeneratorsFiltersFactories = some F ∧ F.Init = false)
      ∨ (∃ F, Context.ConnectablesFiltersFactories = some F ∧ F.Init = false)
      ∨ Facade.AsyncGroup = false := by
    by_contra hc
    simp only [not_or, not_exists, not_and, Bool.not_eq_false] at hc
    obtain ⟨c1, c2, c3, c4, c5, c6⟩ := hc
    have := p1.2 ⟨c1, by simpa using c2, c3, c4, c5, c6⟩
    rw [h] at this
    cases this
  refine ⟨by rw [p2, h], hcause, ?_, ?_⟩
  · intro hc
    rw [p3, Option.isNone_iff_eq_none, ← Option.not_isSome_iff_eq_none, p4]
    rcases hc with hc | hc | hc <;> simp [hc]
  · intro c1 c2 c3
    refine ⟨?_, by rw [p3, c1, c2, c3]; rfl, by rw [p4, c1, c2, c3]; rfl⟩
    rcases hcause with hc | hc | hc | hc
    · rw [c1] at hc
      cases hc
    · rw [c2] at hc
      cases hc
    · rw [c3] at hc
      cases hc
    · exact hc

theorem ConnectPoints_Process_failure_witness :
    (FProcessor.Process ⟨false, false⟩ ⟨[], none, none, ⟨1, 1, 1⟩⟩ SceneFacade).1 = false
    ∧ (FProcessor.Process ⟨false, false⟩ ⟨[], none, none, ⟨1, 1, 1⟩⟩ SceneFacade).2.bPrepTaskStarted
        = false
    ∧ (FProcessor.Process ⟨false, false⟩ ⟨[], none, none, ⟨1, 1, 1⟩⟩
        SceneFacade).2.bOutputInitialized = false
    ∧ (FProcessor.Process ⟨false, false⟩ ⟨[], none, none, ⟨1, 1, 1⟩⟩
        SceneFacade).2.GraphBuilder.isNone = true :=
  ⟨by decide,
    (ConnectPoints_Process_failure ⟨false, false⟩ ⟨[], none, none, ⟨1, 1, 1⟩⟩ SceneFacade
      (by decide)).1,
    ((ConnectPoints_Process_failure ⟨false, false⟩ ⟨[], none, none, ⟨1, 1, 1⟩⟩ SceneFacade
      (by decide)).2.2.1 (Or.inr (Or.inl (by decide)))).1,
    ((ConnectPoints_Process_failure ⟨false, false⟩ ⟨[], none, none, ⟨1, 1, 1⟩⟩ SceneFacade
      (by decide)).2.2.1 (Or.inr (Or.inl (by decide)))).2⟩

/-- C16, counterexample to the claim as stated.  In the scene, with a generator filter that
fails to initialise, `Process` returns false (lines 158-162) after the point output has been
initialised and the graph builder created (lines 150-151); the preparation sub-loops have not
been started. -/
theorem ConnectPoints_Process_filter_failure_counterexample :
    (SceneContextFilterFails.GeneratorsFiltersFactories.map (fun F => F.Init)) = some false
    ∧ (FProcessor.Process ⟨false, false⟩ SceneContextFilterFails SceneFacade).1 = false
    ∧ (FProcessor.Process ⟨false, false⟩ SceneContextFilterFails SceneFacade).2.bOutputInitialized
        = true
    ∧ (FProcessor.Process ⟨false, false⟩ SceneContextFilterFails
        SceneFacade).2.GraphBuilder.isSome = true
    ∧ (FProcessor.Process ⟨false, false⟩ SceneContextFilterFails SceneFacade).2.bPrepTaskStarted
        = false := by
  decide

theorem FProcessor.Process_lists (Settings : UPCGExConnectPointsSettings)
    (Context : FPCGExConnectPointsContext) (Facade : FPointDataFacade)
    (h : Facade.BaseProcess = true) :
    (FProcessor.Process Settings Context Facade).2.DirectProbes
        = Context.Probes (fun o => !o.RequiresOctree)
    ∧ (FProcessor.Process Settings Context Facade).2.SearchProbes
        = Context.Probes (fun o => o.RequiresOctree)
    ∧ (FProcessor.Process Settings Context Facade).2.ChainProbeOperations
        = Context.Probes (fun o => o.RequiresOctree && o.RequiresChainProcessing)
    ∧ (FProcessor.Process Settings Context Facade).2.SharedProbeOperations
        = Context.Probes (fun o => o.RequiresOctree && !o.RequiresChainProcessing) := by
  obtain ⟨f1, f2, f3, f4, -⟩ := FProcessor.AddProbe_fold Context.ProbeFactories
    { FProcessor.New with
      CWCoincidenceTolerance := Context.CWCoincidenceTolerance
      bPreventCoincidence := Settings.bPreventCoincidence }
  unfold FProcessor.Process
  dsimp only
  generalize List.foldl FProcessor.AddProbe _ Context.ProbeFactories = P2 at f1 f2 f3 f4 ⊢
  simp only [FProcessor.New, List.nil_append, ← Bool.and_assoc] at f1 f2 f3 f4
  unfold FPCGExConnectPointsContext.Probes
  simp only [← Bool.and_assoc]
  rw [← f1, ← f2, ← f3, ← f4, h]
  generalize (P2.SearchProbes.isEmpty && P2.DirectProbes.isEmpty) = N
  cases hS : P2.SearchProbes.isEmpty <;> cases N <;>
    cases Facade.InitializeOutput <;> cases Facade.AsyncGroup <;>
    rcases Context.GeneratorsFiltersFactories with _ | ⟨i1, t1⟩ <;>
    rcases Context.ConnectablesFiltersFactories with _ | ⟨i2, t2⟩ <;>
    first
      | (simp; done)
      | (cases i1 <;> simp; done)
      | (cases i2 <;> simp; done)
      | (cases i1 <;> cases i2 <;> simp)

theorem filter_and_perm {α : Type} (l : List α) (p q : α → Bool) :
    (l.filter p).Perm (l.filter (fun o => p o && q o) ++ l.filter (fun o => p o && !q o)) := by
  have h1 : l.filter (fun o => p o && q o) = (l.filter p).filter q := by
    rw [List.filter_filter]
    congr 1
    funext o
    exact Bool.and_comm _ _
  have h2 : l.filter (fun o => p o && !q o) = (l.filter p).filter (fun o => !q o) := by
    rw [List.filter_filter]
    congr 1
    funext o
    exact Bool.and_comm _ _
  rw [h1, h2]
  exact (List.filter_append_perm q (l.filter p)).symm

/-- C19.  When `Process` has run its probe loop, the three strategy lists hold the probes of
the context that pass `PrepareForPoints`, in the order of the context: the direct probes are
those that do not require the octree, the chained probes those that require the octree and
chain processing, the shared probes those that require the octree and no chain processing.
The search probes are those that require the octree, that is the chained and the shared
probes together; the three lists together hold every prepared probe once, and no probe whose
preparation fails.  The lists are the same when the loop over the points starts, and
processing a point leaves them as they are. -/
theorem ConnectPoints_probe_strategy_lists (E : FEngine)
    (Settings : UPCGExConnectPointsSettings) (Context : FPCGExConnectPointsContext)
    (Facade : FPointDataFacade) (h : Facade.BaseProcess = true) :
    (FProcessor.Process Settings Context Facade).2.DirectProbes
        = Context.ProbeFactories.filter (fun o => o.PrepareForPoints && !o.RequiresOctree)
    ∧ (FProcessor.Process Settings Context Facade).2.ChainProbeOperations
        = Context.ProbeFactories.filter
            (fun o => o.PrepareForPoints && (o.RequiresOctree && o.RequiresChainProcessing))
    ∧ (FProcessor.Process Settings Context Facade).2.SharedProbeOperations
        = Context.ProbeFactories.filter
            (fun o => o.PrepareForPoints && (o.RequiresOctree && !o.RequiresChainProcessing))
    ∧ (FProcessor.Process Settings Context Facade).2.SearchProbes
        = Context.ProbeFactories.filter (fun o => o.PrepareForPoints && o.RequiresOctree)
    ∧ (FProcessor.Process Settings Context Facade).2.SearchProbes.Perm
        ((FProcessor.Process Settings Context Facade).2.ChainProbeOperations
          ++ (FProcessor.Process Settings Context Facade).2.SharedProbeOperations)
    ∧ (Context.ProbeFactories.filter (fun o => o.PrepareForPoints)).Perm
        ((FProcessor.Process Settings Context Facade).2.DirectProbes
          ++ ((FProcessor.Process Settings Context Facade).2.ChainProbeOperations
            ++ (FProcessor.Process Settings Context Facade).2.SharedProbeOperations))
    ∧ (∀ o : FPCGExProbeOperation,
        ((o.PrepareForPoints && !o.RequiresOctree) = true ↔
          o.PrepareForPoints = true ∧ o.RequiresOctree = false)
        ∧ ((o.PrepareForPoints && (o.RequiresOctree && o.RequiresChainProcessing)) = true ↔
          o.PrepareForPoints = true ∧ o.RequiresOctree = true
            ∧ o.RequiresChainProcessing = true)
        ∧ ((o.PrepareForPoints && (o.RequiresOctree && !o.RequiresChainProcessing)) = true ↔
          o.PrepareForPoints = true ∧ o.RequiresOctree = true
            ∧ o.RequiresChainProcessing = false))
    ∧ (∀ P, FProcessor.Prepared E Settings Context Facade = some P →
        P.DirectProbes = (FProcessor.Process Settings Context Facade).2.DirectProbes
        ∧ P.ChainProbeOperations
            = (FProcessor.Process Settings Context Facade).2.ChainProbeOperations
        ∧ P.SharedProbeOperations
            = (FProcessor.Process Settings Context Facade).2.SharedProbeOperations
        ∧ P.SearchProbes = (FProcessor.Process Settings Context Facade).2.SearchProbes)
    ∧ (∀ (P : FProcessor) Index Point Scope,
        (P.ProcessSinglePoint E Index Point Scope).1.DirectProbes = P.DirectProbes
        ∧ (P.ProcessSinglePoint E Index Point Scope).1.ChainProbeOperations
            = P.ChainProbeOperations
        ∧ (P.ProcessSinglePoint E Index Point Scope).1.SharedProbeOperations
            = P.SharedProbeOperations
        ∧ (P.ProcessSinglePoint E Index Point Scope).1.SearchProbes = P.SearchProbes) := by
  obtain ⟨l1, l2, l3, l4⟩ := FProcessor.Process_lists Settings Context Facade h
  unfold FPCGExConnectPointsContext.Probes at l1 l2 l3 l4
  have hperm1 := filter_and_perm (Context.ProbeFactories.filter (fun o => o.PrepareForPoints))
    (fun o => o.RequiresOctree) (fun o => o.RequiresChainProcessing)
  have hperm2 := filter_and_perm Context.ProbeFactories (fun o => o.PrepareForPoints)
    (fun o => o.RequiresOctree)
  simp only [List.filter_filter] at hperm1
  have e1 : ∀ (q : FPCGExProbeOperation → Bool),
      Context.ProbeFactories.filter (fun o => o.PrepareForPoints && q o)
        = Context.ProbeFactories.filter (fun o => q o && o.PrepareForPoints) := by
    intro q
    congr 1
    funext o
    exact Bool.and_comm _ _
  refine ⟨l1, l3, l4, l2, ?_, ?_, ?_, ?_, ?_⟩
  · rw [l2, l3, l4, e1, e1 (fun o => o.RequiresOctree && o.RequiresChainProcessing),
      e1 (fun o => o.RequiresOctree && !o.RequiresChainProcessing)]
    exact hperm1
  · rw [l1, l3, l4]
    refine hperm2.trans ?_
    refine (List.perm_append_comm).trans ?_
    refine List.Perm.append_left _ ?_
    rw [e1, e1 (fun o => o.RequiresOctree && o.RequiresChainProcessing),
      e1 (fun o => o.RequiresOctree && !o.RequiresChainProcessing)]
    exact hperm1
  · intro o
    cases o.PrepareForPoints <;> cases o.RequiresOctree <;> cases o.RequiresChainProcessing <;>
      simp
  · intro P hP
    obtain ⟨s1, s2, s3, s4, -⟩ := FProcessor.Prepared_spec E Settings Context Facade P hP
    unfold FPCGExConnectPointsContext.Probes at s1 s2 s3 s4
    rw [l1, l2, l3, l4]
    exact ⟨s1, s3, s4, s2⟩
  · intro P Index Point Scope
    unfold FProcessor.ProcessSinglePoint
    split <;> exact ⟨rfl, rfl, rfl, rfl⟩

theorem ConnectPoints_probe_strategy_lists_witness :
    SceneFacade.BaseProcess = true
    ∧ (FProcessor.Process ⟨false, false⟩ SceneContext SceneFacade).2.DirectProbes.length = 1
    ∧ (FProcessor.Process ⟨false, false⟩ SceneContext
        SceneFacade).2.ChainProbeOperations.length = 1
    ∧ (FProcessor.Process ⟨false, false⟩ SceneContext
        SceneFacade).2.SharedProbeOperations.length = 1
    ∧ (FProcessor.Process ⟨false, false⟩ SceneContext SceneFacade).2.SearchProbes.length = 2 :=
  ⟨rfl,
    (congrArg List.length (ConnectPoints_probe_strategy_lists (SceneEngine StableSort)
      ⟨false, false⟩ SceneContext SceneFacade rfl).1).trans (by decide),
    (congrArg List.length (ConnectPoints_probe_strategy_lists (SceneEngine StableSort)
      ⟨false, false⟩ SceneContext SceneFacade rfl).2.1).trans (by decide),
    (congrArg List.length (ConnectPoints_probe_strategy_lists (SceneEngine StableSort)
      ⟨false, false⟩ SceneContext SceneFacade rfl).2.2.1).trans (by decide),
    (congrArg List.length (ConnectPoints_probe_strategy_lists (SceneEngine StableSort)
      ⟨false, false⟩ SceneContext SceneFacade rfl).2.2.2.1).trans (by decide)⟩

theorem TScopedSet.Get_Put_of_ne {α : Type} [DecidableEq α] (s : TScopedSet α)
    (Scope Other : FScope) (v : TSet α) (h : Other.LoopIndex ≠ Scope.LoopIndex) :
    (s.Put Scope v).Get Other = s.Get Other := by
  unfold TScopedSet.Put TScopedSet.Get
  simp only [List.getD_eq_getElem?_getD]
  rw [List.getElem?_set_ne (fun e => h e.symm)]

theorem FProcessor.ProcessSinglePoint_frame (E : FEngine) (P : FProcessor) (Index : Nat)
    (Point : FPCGPoint) (Scope : FScope) :
    (P.ProcessSinglePoint E Index Point Scope).1
        = { P with ScopedEdges := (P.ProcessSinglePoint E Index Point Scope).1.ScopedEdges }
    ∧ (∀ Other : FScope, Other.LoopIndex ≠ Scope.LoopIndex →
        (P.ProcessSinglePoint E Index Point Scope).1.ScopedEdges.Get Other
          = P.ScopedEdges.Get Other)
    ∧ (P.ProcessSinglePoint E Index Point Scope).1.ScopedEdges.Sets.length
        = P.ScopedEdges.Sets.length := by
  unfold FProcessor.ProcessSinglePoint
  split
  · exact ⟨rfl, fun _ _ => rfl, rfl⟩
  · refine ⟨rfl, fun Other h => ?_, ?_⟩
    · exact TScopedSet.Get_Put_of_ne _ _ _ _ h
    · simp [TScopedSet.Put]

/-- C20.  `PrepareLoopScopesForPoints` creates one edge set per scope of the loop, each of
them empty.  A call of `ProcessSinglePoint` with a scope changes nothing in the processor but
the edge set of that scope: the sets of the scopes of another loop index are as before, the
number of sets is as before, and the graph builder, with the graph it holds, is as before.
So after any sequence of calls of `ProcessSinglePoint`, the graph builder is the one the pass
started with, and the set of a scope is as it was before the pass unless a point was
processed with that scope. -/
theorem ConnectPoints_scoped_edges_frame (E : FEngine) (P : FProcessor) :
    (∀ Loops : List FScope,
      (P.PrepareLoopScopesForPoints Loops).ScopedEdges.Sets.length = Loops.length
      ∧ (∀ S ∈ (P.PrepareLoopScopesForPoints Loops).ScopedEdges.Sets, S = TSet.Empty)
      ∧ (P.PrepareLoopScopesForPoints Loops).GraphBuilder = P.GraphBuilder)
    ∧ (∀ Index Point Scope,
      (P.ProcessSinglePoint E Index Point Scope).1
          = { P with ScopedEdges := (P.ProcessSinglePoint E Index Point Scope).1.ScopedEdges }
      ∧ (P.ProcessSinglePoint E Index Point Scope).1.GraphBuilder = P.GraphBuilder
      ∧ (∀ Other : FScope, Other.LoopIndex ≠ Scope.LoopIndex →
          (P.ProcessSinglePoint E Index Point Scope).1.ScopedEdges.Get Other
            = P.ScopedEdges.Get Other)
      ∧ (P.ProcessSinglePoint E Index Point Scope).1.ScopedEdges.Sets.length
          = P.ScopedEdges.Sets.length)
    ∧ (∀ Steps : List (Nat × FPCGPoint × FScope),
      (P.ProcessPoints E Steps).GraphBuilder = P.GraphBuilder
      ∧ (P.ProcessPoints E Steps).ScopedEdges.Sets.length = P.ScopedEdges.Sets.length
      ∧ (∀ Other : FScope, (∀ Step ∈ Steps, Other.LoopIndex ≠ Step.2.2.LoopIndex) →
          (P.ProcessPoints E Steps).ScopedEdges.Get Other = P.ScopedEdges.Get Other)) := by
  refine ⟨?_, ?_, ?_⟩
  · intro Loops
    refine ⟨by simp [FProcessor.PrepareLoopScopesForPoints, TScopedSet.Make], ?_, rfl⟩
    intro S hS
    simp only [FProcessor.PrepareLoopScopesForPoints, TScopedSet.Make, List.mem_map] at hS
    obtain ⟨_, _, rfl⟩ := hS
    rfl
  · intro Index Point Scope
    obtain ⟨h1, h2, h3⟩ := FProcessor.ProcessSinglePoint_frame E P Index Point Scope
    refine ⟨h1, ?_, h2, h3⟩
    rw [h1]
  · intro Steps
    unfold FProcessor.ProcessPoints
    induction Steps generalizing P with
    | nil => exact ⟨rfl, rfl, fun _ _ => rfl⟩
    | cons Step Steps ih =>
      rw [List.foldl_cons]
      obtain ⟨a, b, c⟩ := ih (P.ProcessSinglePoint E Step.1 Step.2.1 Step.2.2).1
      obtain ⟨h1, h2, h3⟩ := FProcessor.ProcessSinglePoint_frame E P Step.1 Step.2.1 Step.2.2
      refine ⟨?_, ?_, ?_⟩
      · rw [a, h1]
      · rw [b, h3]
      · intro Other hO
        rw [c Other (fun S hS => hO S (List.mem_cons_of_mem _ hS))]
        exact h2 Other (hO Step (List.mem_cons_self _ _))

theorem ConnectPoints_scoped_edges_frame_witness :
    ∃ P, FProcessor.Prepared (SceneEngine StableSort) ⟨false, false⟩ SceneContext
        SceneFacade = some P
      ∧ P.ScopedEdges.Sets.length = 2
      ∧ ((P.ProcessSinglePoint (SceneEngine StableSort) 0 (ScenePoint 0 0 0)
          ⟨0, 2, 0⟩).1.ScopedEdges.Get ⟨0, 2, 0⟩).Elements = [3, 1, 2]
      ∧ (P.ProcessSinglePoint (SceneEngine StableSort) 0 (ScenePoint 0 0 0)
          ⟨0, 2, 0⟩).1.ScopedEdges.Get ⟨2, 2, 1⟩ = P.ScopedEdges.Get ⟨2, 2, 1⟩
      ∧ (P.ProcessSinglePoint (SceneEngine StableSort) 0 (ScenePoint 0 0 0)
          ⟨0, 2, 0⟩).1.GraphBuilder = P.GraphBuilder := by
  have h1 : (FProcessor.Prepared (SceneEngine StableSort) ⟨false, false⟩ SceneContext
      SceneFacade).isSome = true := by decide
  obtain ⟨P, hP⟩ := Option.isSome_iff_exists.1 h1
  have h2 : (FProcessor.Prepared (SceneEngine StableSort) ⟨false, false⟩ SceneContext
      SceneFacade).map (fun P => (P.ScopedEdges.Sets.length,
        ((P.ProcessSinglePoint (SceneEngine StableSort) 0 (ScenePoint 0 0 0)
          ⟨0, 2, 0⟩).1.ScopedEdges.Get ⟨0, 2, 0⟩).Elements)) = some (2, [3, 1, 2]) := by
    decide
  rw [hP] at h2
  have h3 := Prod.mk.inj (Option.some.inj h2)
  have t := (ConnectPoints_scoped_edges_frame (SceneEngine StableSort) P).2.1 0
    (ScenePoint 0 0 0) ⟨0, 2, 0⟩
  exact ⟨P, hP, h3.1, h3.2, t.2.2.1 ⟨2, 2, 1⟩ (by decide), t.2.1⟩

/-- C17 (as amended).  When the base class succeeds, the point output is initialised, the
local max distance is enabled and its attribute is missing, `Process` logs the error
`LocalMaxDistance missing` and returns false.  The loop over the points is not started, no
entry of `SampleState` is assigned and no output value is made, so no point of the unit is
sampled.  The point output of the unit, however, has been initialised already (line 112) and
the output buffers have been created (line 120). -/
theorem SampleNearestSurface_missing_local_max_distance
    (Settings : UPCGExSampleNearestSurfaceSettings)
    (Context : FPCGExSampleNearestSurfaceContext)
    (Facade : SampleNearestSurface.FPointDataFacade)
    (hB : Facade.BaseProcess = true) (hI : Facade.InitializeOutput = true)
    (hU : Settings.bUseLocalMaxDistance = true) (hM : Facade.LocalMaxDistance = none) :
    (SampleNearestSurface.FProcessor.Process Settings Context Facade).1 = false
    ∧ (SampleNearestSurface.FProcessor.Process Settings Context Facade).2.Errors
        = ["LocalMaxDistance missing"]
    ∧ (SampleNearestSurface.FProcessor.Process Settings Context Facade).2.bPointLoopStarted
        = false
    ∧ (SampleNearestSurface.FProcessor.Process Settings Context Facade).2.SampleState
        = List.replicate Facade.GetNum none
    ∧ (SampleNearestSurface.FProcessor.Process Settings Context Facade).2.Outputs = []
    ∧ (SampleNearestSurface.FProcessor.Process Settings Context Facade).2.bAnySuccess = false
    ∧ (SampleNearestSurface.FProcessor.Process Settings Context Facade).2.bOutputInitialized
        = true
    ∧ (SampleNearestSurface.FProcessor.Process Settings Context Facade).2.Writers
        = Facade.Writers := by
  unfold SampleNearestSurface.FProcessor.Process
  rw [hB, hI, hU, hM]
  exact ⟨rfl, rfl, rfl, rfl, rfl, rfl, rfl, rfl⟩

theorem SampleNearestSurface_missing_local_max_distance_witness :
    SceneSamplingFacade.LocalMaxDistance.isNone = true
    ∧ (SampleNearestSurface.FProcessor.Process (SceneSamplingSettings 300 true)
        SceneSamplingContext SceneSamplingFacade).1 = false
    ∧ (SampleNearestSurface.FProcessor.Process (SceneSamplingSettings 300 true)
        SceneSamplingContext SceneSamplingFacade).2.bPointLoopStarted = false
    ∧ (SampleNearestSurface.FProcessor.Process (SceneSamplingSettings 300 true)
        SceneSamplingContext SceneSamplingFacade).2.SampleState = [none, none, none, none]
    ∧ (SampleNearestSurface.FProcessor.Process (SceneSamplingSettings 300 true)
        SceneSamplingContext SceneSamplingFacade).2.Outputs = [] :=
  ⟨rfl,
    (SampleNearestSurface_missing_local_max_distance (SceneSamplingSettings 300 true)
      SceneSamplingContext SceneSamplingFacade rfl rfl rfl rfl).1,
    (SampleNearestSurface_missing_local_max_distance (SceneSamplingSettings 300 true)
      SceneSamplingContext SceneSamplingFacade rfl rfl rfl rfl).2.2.1,
    (SampleNearestSurface_missing_local_max_distance (SceneSamplingSettings 300 true)
      SceneSamplingContext SceneSamplingFacade rfl rfl rfl rfl).2.2.2.1,
    (SampleNearestSurface_missing_local_max_distance (SceneSamplingSettings 300 true)
      SceneSamplingContext SceneSamplingFacade rfl rfl rfl rfl).2.2.2.2.1⟩

/-- C17, counterexample to the claim as stated.  In the scene, with the local max distance
enabled and its attribute missing, `Process` returns false with the error logged, and the point
output of the unit is initialised and its eight output buffers created when it returns. -/
theorem SampleNearestSurface_output_initialized_counterexample :
    (SceneSamplingSettings 300 true).bUseLocalMaxDistance = true
    ∧ SceneSamplingFacade.LocalMaxDistance.isNone = true
    ∧ (SampleNearestSurface.FProcessor.Process (SceneSamplingSettings 300 true)
        SceneSamplingContext SceneSamplingFacade).1 = false
    ∧ (SampleNearestSurface.FProcessor.Process (SceneSamplingSettings 300 true)
        SceneSamplingContext SceneSamplingFacade).2.Errors = ["LocalMaxDistance missing"]
    ∧ (SampleNearestSurface.FProcessor.Process (SceneSamplingSettings 300 true)
        SceneSamplingContext SceneSamplingFacade).2.bOutputInitialized = true
    ∧ (SampleNearestSurface.FProcessor.Process (SceneSamplingSettings 300 true)
        SceneSamplingContext SceneSamplingFacade).2.Writers
        = ⟨true, true, true, true, true, true, true, true⟩ := by
  decide

theorem SampleNearestSurface.FProcessor.ProcessSinglePoint_eq (W : FWorld)
    (Settings : UPCGExSampleNearestSurfaceSettings)
    (Context : FPCGExSampleNearestSurfaceContext)
    (Facade : SampleNearestSurface.FPointDataFacade) (P : SampleNearestSurface.FProcessor)
    (Index : Nat) (Point : FPCGPoint) (Scope : FScope)
    (hF : Facade.PointFilterCache Index = true) :
    (P.SurfaceFound W Settings Context Facade Index = false →
      P.ProcessSinglePoint W Settings Context Facade Index Point Scope
        = P.SamplingFailed Index Point (P.MaxDistance Settings Index))
    ∧ (P.SurfaceFound W Settings Context Facade Index = true →
      ∃ New MaxDistanceValue,
        P.ProcessSinglePoint W Settings Context Facade Index Point Scope
          = { P with
              Outputs := P.Outputs ++ New ++ [FSampleOutput.Success Index true]
              SampleState := P.SampleState.set Index (some true)
              MaxDistanceValue := MaxDistanceValue
              bAnySuccess := true }) := by
  unfold SampleNearestSurface.FProcessor.ProcessSinglePoint
    SampleNearestSurface.FProcessor.SurfaceFound
  rw [hF]
  simp only [Bool.not_true, Bool.false_eq_true, if_false]
  cases hO : SampleNearestSurface.OutOverlaps W Settings Context
      (Facade.GetInPoint Index).Transform.GetLocation (P.MaxDistance Settings Index) with
  | none => exact ⟨fun _ => rfl, fun h => Bool.noConfusion h⟩
  | some OutOverlaps =>
    dsimp only
    unfold SampleNearestSurface.FProcessor.ProcessOverlapResults
    dsimp only
    constructor
    · intro h
      rw [h]
      rfl
    · intro h
      rw [h]
      simp only [if_true]
      rw [show ∀ (A B C D : List FSampleOutput) (a b c d e : FSampleOutput),
        A ++ B ++ C ++ D ++ [a, b, c, d, e] = A ++ (B ++ C ++ D ++ [a, b, c, d]) ++ [e] from by
          intros; simp]
      exact ⟨_, _, rfl⟩

theorem SampleNearestSurface.ScanOverlap_fold_bSuccess (W : FWorld)
    (Context : FPCGExSampleNearestSurfaceContext) (Origin : FVector)
    (l : List FOverlapResult) (S : FOverlapScan) :
    (l.foldl (SampleNearestSurface.ScanOverlap W Context Origin) S).bSuccess
      = (S.bSuccess || l.any (fun Overlap =>
          (!Context.bUseInclude || (Context.IncludedActors.lookup Overlap.Actor).isSome)
          && decide (0 ≤ (W.GetClosestPointOnCollision Overlap.Component Origin).1)
          && decide ((W.GetClosestPointOnCollision Overlap.Component Origin).1 < S.MinDist)))
    ∧ (S.bSuccess = true →
        (l.foldl (SampleNearestSurface.ScanOverlap W Context Origin) S).bSuccess = true) := by
  induction l generalizing S with
  | nil => simp
  | cons o l ih =>
    have hmono : ∀ S : FOverlapScan, S.bSuccess = true →
        (l.foldl (SampleNearestSurface.ScanOverlap W Context Origin) S).bSuccess = true :=
      fun S => (ih S).2
    rw [List.foldl_cons, List.any_cons]
    by_cases h1 : (Context.bUseInclude
        && !(Context.IncludedActors.lookup o.Actor).isSome) = true
    · have hS : SampleNearestSurface.ScanOverlap W Context Origin S o = S := by
        unfold SampleNearestSurface.ScanOverlap
        rw [if_pos h1]
      rw [hS]
      refine ⟨?_, hmono S⟩
      rw [(ih S).1]
      have : (!Context.bUseInclude || (Context.IncludedActors.lookup o.Actor).isSome) = false := by
        revert h1
        cases Context.bUseInclude <;> cases (Context.IncludedActors.lookup o.Actor).isSome <;>
          simp
      rw [this]
      simp
    · have h1' : (!Context.bUseInclude || (Context.IncludedActors.lookup o.Actor).isSome)
          = true := by
        revert h1
        cases Context.bUseInclude <;> cases (Context.IncludedActors.lookup o.Actor).isSome <;>
          simp
      by_cases h2 : (W.GetClosestPointOnCollision o.Component Origin).1 < 0
      · have hS : SampleNearestSurface.ScanOverlap W Context Origin S o = S := by
          unfold SampleNearestSurface.ScanOverlap
          rw [if_neg h1]
          dsimp only
          rw [if_pos h2]
        rw [hS]
        refine ⟨?_, hmono S⟩
        rw [(ih S).1]
        have : decide (0 ≤ (W.GetClosestPointOnCollision o.Component Origin).1) = false :=
          decide_eq_false (not_le.2 h2)
        rw [this]
        simp
      · by_cases h3 : (W.GetClosestPointOnCollision o.Component Origin).1 < S.MinDist
        · have hS : (SampleNearestSurface.ScanOverlap W Context Origin S o).bSuccess = true := by
            unfold SampleNearestSurface.ScanOverlap
            rw [if_neg h1]
            dsimp only
            rw [if_neg h2, if_pos h3]
          refine ⟨?_, fun _ => hmono _ hS⟩
          rw [hmono _ hS, h1', decide_eq_true (not_lt.1 h2), decide_eq_true h3]
          simp
        · have hS : SampleNearestSurface.ScanOverlap W Context Origin S o = S := by
            unfold SampleNearestSurface.ScanOverlap
            rw [if_neg h1]
            dsimp only
            rw [if_neg h2, if_neg h3]
          rw [hS]
          refine ⟨?_, hmono S⟩
          rw [(ih S).1, decide_eq_false h3]
          simp

theorem SampleNearestSurface.ScanOverlaps_bSuccess (W : FWorld)
    (Context : FPCGExSampleNearestSurfaceContext) (Origin : FVector)
    (OutOverlaps : List FOverlapResult) :
    (SampleNearestSurface.ScanOverlaps W Context Origin OutOverlaps).bSuccess = true
      ↔ ∃ Overlap ∈ OutOverlaps, SampleNearestSurface.Eligible W Context Origin Overlap = true := by
  unfold SampleNearestSurface.ScanOverlaps
  rw [(SampleNearestSurface.ScanOverlap_fold_bSuccess W Context Origin OutOverlaps _).1]
  simp only [Bool.false_or, List.any_eq_true]
  rfl

/-- C18.  For a point that passes the point filter, `ProcessSinglePoint` logs no error and
assigns `SampleState[Index]`: true when the sampling finds a surface, false otherwise.  When
it finds none, nothing else changes in the processor but the outputs, to which are added, in
this order, the location of the point as `Location`, the opposite of the up vector as
`Normal`, the up vector as `LookAt` and the max distance of the point as `Distance`.  When it
finds one, the output `Success` is set and `bAnySuccess` raised.  The array `SampleState` has
one entry per point when `Process` returns true, and `ProcessSinglePoint` keeps its size.  The
sampling finds a surface exactly when the overlap query hands over an overlap whose actor is
included, when an include list is used, and whose closest point is at a distance that is not
negative and is less than `MAX_FLT`. -/
theorem SampleNearestSurface_failed_sample_is_recorded (W : FWorld)
    (Settings : UPCGExSampleNearestSurfaceSettings)
    (Context : FPCGExSampleNearestSurfaceContext)
    (Facade : SampleNearestSurface.FPointDataFacade) (P : SampleNearestSurface.FProcessor)
    (Index : Nat) (Point : FPCGPoint) (Scope : FScope)
    (hF : Facade.PointFilterCache Index = true) :
    (P.ProcessSinglePoint W Settings Context Facade Index Point Scope).Errors = P.Errors
    ∧ (P.ProcessSinglePoint W Settings Context Facade Index Point Scope).SampleState
        = P.SampleState.set Index (some (P.SurfaceFound W Settings Context Facade Index))
    ∧ (Index < P.SampleState.length →
        (P.ProcessSinglePoint W Settings Context Facade Index Point Scope).SampleState[Index]?
          = some (some (P.SurfaceFound W Settings Context Facade Index)))
    ∧ (P.SurfaceFound W Settings Context Facade Index = false →
        P.ProcessSinglePoint W Settings Context Facade Index Point Scope
          = { P with
              SampleState := P.SampleState.set Index (some false)
              Outputs := P.Outputs ++
                [FSampleOutput.Location Index Point.Transform.GetLocation,
                  FSampleOutput.Normal Index ⟨0, 0, -100⟩,
                  FSampleOutput.LookAt Index ⟨0, 0, 100⟩,
                  FSampleOutput.Distance Index (P.MaxDistance Settings Index)] })
    ∧ (P.SurfaceFound W Settings Context Facade Index = true →
        FSampleOutput.Success Index true
          ∈ (P.ProcessSinglePoint W Settings Context Facade Index Point Scope).Outputs
        ∧ (P.ProcessSinglePoint W Settings Context Facade Index Point Scope).bAnySuccess = true)
    ∧ (P.MaxDistance Settings Index
        = match P.MaxDistanceGetter with
          | some Getter => Getter Index
          | none => Settings.MaxDistance)
    ∧ (∀ P0, SampleNearestSurface.FProcessor.Process Settings Context Facade = (true, P0) →
        P0.SampleState.length = Facade.GetNum)
    ∧ (P.ProcessSinglePoint W Settings Context Facade Index Point Scope).SampleState.length
        = P.SampleState.length
    ∧ (P.SurfaceFound W Settings Context Facade Index = true ↔
        ∃ OutOverlaps,
          SampleNearestSurface.OutOverlaps W Settings Context
              (Facade.GetInPoint Index).Transform.GetLocation (P.MaxDistance Settings Index)
            = some OutOverlaps
          ∧ ∃ Overlap ∈ OutOverlaps,
              SampleNearestSurface.Eligible W Context
                (Facade.GetInPoint Index).Transform.GetLocation Overlap = true) := by
  obtain ⟨hfail, hok⟩ := SampleNearestSurface.FProcessor.ProcessSinglePoint_eq W Settings
    Context Facade P Index Point Scope hF
  have hstate : (P.ProcessSinglePoint W Settings Context Facade Index Point Scope).SampleState
      = P.SampleState.set Index (some (P.SurfaceFound W Settings Context Facade Index)) := by
    cases hS : P.SurfaceFound W Settings Context Facade Index
    · rw [hfail hS]
      rfl
    · obtain ⟨New, M, h⟩ := hok hS
      rw [h]
  refine ⟨?_, hstate, ?_, ?_, ?_, rfl, ?_, ?_, ?_⟩
  · cases hS : P.SurfaceFound W Settings Context Facade Index
    · rw [hfail hS]
      rfl
    · obtain ⟨New, M, h⟩ := hok hS
      rw [h]
  · intro hlt
    rw [hstate]
    simp [hlt]
  · intro hS
    rw [hfail hS]
    rfl
  · intro hS
    obtain ⟨New, M, h⟩ := hok hS
    rw [h]
    exact ⟨by simp, rfl⟩
  · intro P0 h0
    unfold SampleNearestSurface.FProcessor.Process at h0
    dsimp only at h0
    split_ifs at h0
    all_goals first
      | exact Bool.noConfusion (Prod.mk.inj h0).1
      | (rw [← (Prod.mk.inj h0).2]; simp)
      | (split at h0
         · exact Bool.noConfusion (Prod.mk.inj h0).1
         · rw [← (Prod.mk.inj h0).2]
           simp)
  · rw [hstate, List.length_set]
  · unfold SampleNearestSurface.FProcessor.SurfaceFound
    cases hO : SampleNearestSurface.OutOverlaps W Settings Context
        (Facade.GetInPoint Index).Transform.GetLocation (P.MaxDistance Settings Index) with
    | none => simp
    | some OutOverlaps =>
      dsimp only
      rw [SampleNearestSurface.ScanOverlaps_bSuccess]
      simp

theorem SampleNearestSurface_failed_sample_is_recorded_witness :
    SceneSamplingFacade.PointFilterCache 1 = true
    ∧ ((SampleNearestSurface.FProcessor.Process (SceneSamplingSettings 200 false)
          SceneSamplingContext SceneSamplingFacade).2.ProcessSinglePoint SceneWorld
          (SceneSamplingSettings 200 false) SceneSamplingContext SceneSamplingFacade 1
          (ScenePoint 200 0 0) ⟨0, 2, 0⟩).SampleState = [none, some false, none, none]
    ∧ ((SampleNearestSurface.FProcessor.Process (SceneSamplingSettings 200 false)
          SceneSamplingContext SceneSamplingFacade).2.ProcessSinglePoint SceneWorld
          (SceneSamplingSettings 200 false) SceneSamplingContext SceneSamplingFacade 1
          (ScenePoint 200 0 0) ⟨0, 2, 0⟩).Outputs
        = [FSampleOutput.Location 1 ⟨200, 0, 0⟩, FSampleOutput.Normal 1 ⟨0, 0, -100⟩,
            FSampleOutput.LookAt 1 ⟨0, 0, 100⟩, FSampleOutput.Distance 1 200]
    ∧ ((SampleNearestSurface.FProcessor.Process (SceneSamplingSettings 300 false)
          SceneSamplingContext SceneSamplingFacade).2.ProcessSinglePoint SceneWorld
          (SceneSamplingSettings 300 false) SceneSamplingContext SceneSamplingFacade 1
          (ScenePoint 200 0 0) ⟨0, 2, 0⟩).SampleState = [none, some true, none, none] :=
  ⟨rfl,
    (SampleNearestSurface_failed_sample_is_recorded SceneWorld (SceneSamplingSettings 200 false)
      SceneSamplingContext SceneSamplingFacade _ 1 (ScenePoint 200 0 0) ⟨0, 2, 0⟩ rfl).2.1.trans
      (by decide),
    (congrArg SampleNearestSurface.FProcessor.Outputs
      ((SampleNearestSurface_failed_sample_is_recorded SceneWorld
        (SceneSamplingSettings 200 false) SceneSamplingContext SceneSamplingFacade _ 1
        (ScenePoint 200 0 0) ⟨0, 2, 0⟩ rfl).2.2.2.1 (by decide))).trans (by decide),
    (SampleNearestSurface_failed_sample_is_recorded SceneWorld (SceneSamplingSettings 300 false)
      SceneSamplingContext SceneSamplingFacade _ 1 (ScenePoint 200 0 0) ⟨0, 2, 0⟩ rfl).2.1.trans
      (by decide)⟩

theorem FProcessor.ProcessPoints_frame (E : FEngine) (Steps : List (Nat × FPCGPoint × FScope))
    (P : FProcessor) :
    P.ProcessPoints E Steps = { P with ScopedEdges := (P.ProcessPoints E Steps).ScopedEdges } := by
  unfold FProcessor.ProcessPoints
  induction Steps generalizing P with
  | nil => rfl
  | cons Step Steps ih =>
    rw [List.foldl_cons, ih, (FProcessor.ProcessSinglePoint_frame E P Step.1 Step.2.1 Step.2.2).1]

/-- C21.  When `Process` has returned true: at its return the octree, if there is one, holds no
element and no generator or connectable flag is assigned; the preparation sub-loops leave the
octree as it is and assign both flags of every point of `[0, NumPoints)`;
`OnPreparationComplete`, which runs on that state, leaves an octree exactly when there was
one and puts into it the points whose connectable flag is true, in index order; the state the
point loop starts from is the one it leaves, with the scoped edge sets created; and neither a
call of `ProcessSinglePoint` nor a pass of such calls changes the octree. -/
theorem ConnectPoints_octree_built_before_probing (E : FEngine)
    (Settings : UPCGExConnectPointsSettings) (Context : FPCGExConnectPointsContext)
    (Facade : FPointDataFacade)
    (h : (FProcessor.Process Settings Context Facade).1 = true) :
    (∀ O, (FProcessor.Process Settings Context Facade).2.Octree = some O → O.Elements = [])
    ∧ (∀ i, i < Facade.InPoints.length →
        (FProcessor.Process Settings Context Facade).2.CanGenerate[i]? = some none
        ∧ (FProcessor.Process Settings Context Facade).2.AcceptConnections[i]? = some none)
    ∧ ((FProcessor.Process Settings Context Facade).2.RunPrepTask
          Facade.PointsBatchChunkSize).Octree
        = (FProcessor.Process Settings Context Facade).2.Octree
    ∧ (∀ i, i < Facade.InPoints.length →
        ((FProcessor.Process Settings Context Facade).2.RunPrepTask
            Facade.PointsBatchChunkSize).CanGenerate[i]? = some (some (Context.IsGenerator i))
        ∧ ((FProcessor.Process Settings Context Facade).2.RunPrepTask
            Facade.PointsBatchChunkSize).AcceptConnections[i]?
          = some (some (Context.IsConnectable i)))
    ∧ ((((FProcessor.Process Settings Context Facade).2.RunPrepTask
          Facade.PointsBatchChunkSize).OnPreparationComplete E).Octree.isSome
        = (FProcessor.Process Settings Context Facade).2.Octree.isSome)
    ∧ (∀ O, (((FProcessor.Process Settings Context Facade).2.RunPrepTask
          Facade.PointsBatchChunkSize).OnPreparationComplete E).Octree = some O →
        O.Elements.map (fun Item => Item.Index)
          = (List.range Facade.InPoints.length).filter (fun i => Context.IsConnectable i))
    ∧ (∃ Loops, FProcessor.Prepared E Settings Context Facade
        = some ((((FProcessor.Process Settings Context Facade).2.RunPrepTask
          Facade.PointsBatchChunkSize).OnPreparationComplete E).PrepareLoopScopesForPoints
            Loops))
    ∧ (∀ Loops Steps,
        (((((FProcessor.Process Settings Context Facade).2.RunPrepTask
          Facade.PointsBatchChunkSize).OnPreparationComplete E).PrepareLoopScopesForPoints
            Loops).ProcessPoints E Steps).Octree
        = (((FProcessor.Process Settings Context Facade).2.RunPrepTask
          Facade.PointsBatchChunkSize).OnPreparationComplete E).Octree)
    ∧ (∀ (Q : FProcessor) Index Point Scope,
        (Q.ProcessSinglePoint E Index Point Scope).1.Octree = Q.Octree) := by
  have hPrep : FProcessor.Prepared E Settings Context Facade
      = some ((((FProcessor.Process Settings Context Facade).2.RunPrepTask
          Facade.PointsBatchChunkSize).OnPreparationComplete E).PrepareLoopScopesForPoints
            (SubLoopScopes (((FProcessor.Process Settings Context Facade).2.RunPrepTask
              Facade.PointsBatchChunkSize).OnPreparationComplete E).InPoints.length
              Facade.PointsBatchChunkSize)) := by
    unfold FProcessor.Prepared
    simp [h]
  obtain ⟨-, -, -, -, -, -, -, -, -, -, hO, -, -, -⟩ :=
    FProcessor.Prepared_spec E Settings Context Facade _ hPrep
  have hProc := FProcessor.Process_true Settings Context Facade h
  generalize (FProcessor.Process Settings Context Facade).2 = Q at hProc hO hPrep ⊢
  generalize List.foldl FProcessor.AddProbe _ Context.ProbeFactories = P2 at hProc
  have hframe : ∀ (Q : FProcessor) Index Point Scope,
      (Q.ProcessSinglePoint E Index Point Scope).1.Octree = Q.Octree := by
    intro Q Index Point Scope
    rw [(FProcessor.ProcessSinglePoint_frame E Q Index Point Scope).1]
  have hRun : (Q.RunPrepTask Facade.PointsBatchChunkSize).Octree = Q.Octree := by
    rw [FProcessor.RunPrepTask_eq]
  have hQO : Q.Octree
      = if (Context.Probes (fun o => o.RequiresOctree)).isEmpty then none else some ⟨[]⟩ := by
    rw [hProc]
  have hQI : Q.InPoints = Facade.InPoints := by rw [hProc]
  have hP3 : ((Q.RunPrepTask Facade.PointsBatchChunkSize).OnPreparationComplete
      E).PrepareLoopScopesForPoints
        (SubLoopScopes ((Q.RunPrepTask Facade.PointsBatchChunkSize).OnPreparationComplete
          E).InPoints.length Facade.PointsBatchChunkSize)
      = { (Q.RunPrepTask Facade.PointsBatchChunkSize).OnPreparationComplete E with
          ScopedEdges := TScopedSet.Make (SubLoopScopes ((Q.RunPrepTask
            Facade.PointsBatchChunkSize).OnPreparationComplete E).InPoints.length
            Facade.PointsBatchChunkSize) } := rfl
  rw [hP3] at hO
  dsimp only at hO
  refine ⟨?_, ?_, hRun, ?_, ?_, ?_, ⟨_, hPrep⟩, ?_, hframe⟩
  · intro O hOc
    rw [hQO] at hOc
    split at hOc
    · simp at hOc
    · rw [← Option.some.inj hOc]
  · intro i hi
    rw [hProc]
    simp [hi]
  · intro i hi
    rw [FProcessor.RunPrepTask_eq, hProc]
    dsimp only
    constructor
    · rw [foldl_set_getElem?]
      simp [SubLoopScopes_cover _ _ _ hi, hi, FPCGExConnectPointsContext.IsGenerator]
    · rw [foldl_set_getElem?]
      simp [SubLoopScopes_cover _ _ _ hi, hi, FPCGExConnectPointsContext.IsConnectable]
  · rw [hO, hQO]
    split <;> rfl
  · intro O hOc
    rw [hO] at hOc
    split at hOc
    · simp at hOc
    · rw [← Option.some.inj hOc, List.map_map, ← enum_filter_fst_map]
      rfl
  · intro Loops Steps
    rw [FProcessor.ProcessPoints_frame]
    rfl

theorem ConnectPoints_octree_built_before_probing_witness :
    (FProcessor.Process ⟨false, false⟩ SceneContextFiltered SceneFacade).1 = true
    ∧ (FProcessor.Process ⟨false, false⟩ SceneContextFiltered SceneFacade).2.Octree = some ⟨[]⟩
    ∧ (∀ O, ((((FProcessor.Process ⟨false, false⟩ SceneContextFiltered SceneFacade).2.RunPrepTask
          SceneFacade.PointsBatchChunkSize).OnPreparationComplete
            (SceneEngine StableSort)).Octree = some O →
        O.Elements.map (fun Item => Item.Index) = [0, 1, 2]))
    ∧ (∀ Steps,
        (((((FProcessor.Process ⟨false, false⟩ SceneContextFiltered SceneFacade).2.RunPrepTask
          SceneFacade.PointsBatchChunkSize).OnPreparationComplete
            (SceneEngine StableSort)).PrepareLoopScopesForPoints
              [⟨0, 2, 0⟩, ⟨2, 2, 1⟩]).ProcessPoints (SceneEngine StableSort) Steps).Octree
        = (((FProcessor.Process ⟨false, false⟩ SceneContextFiltered SceneFacade).2.RunPrepTask
          SceneFacade.PointsBatchChunkSize).OnPreparationComplete
            (SceneEngine StableSort)).Octree) := by
  have h := ConnectPoints_octree_built_before_probing (SceneEngine StableSort) ⟨false, false⟩
    SceneContextFiltered SceneFacade (by decide)
  exact ⟨by decide, by decide, fun O hO => (h.2.2.2.2.2.1 O hO).trans (by decide),
    fun Steps => h.2.2.2.2.2.2.2.1 _ Steps⟩

theorem FProcessor.AddProbe_fold_radius (l : List FPCGExProbeOperation) (P : FProcessor) :
    (l.foldl FProcessor.AddProbe P).bUseVariableRadius
        = (P.bUseVariableRadius
            || (l.filter (fun o => o.PrepareForPoints && o.RequiresOctree)).any
                (fun o => !o.SearchRadiusIsConstant))
    ∧ (l.foldl FProcessor.AddProbe P).SharedSearchRadius
        = (l.filter (fun o => o.PrepareForPoints && o.RequiresOctree)).foldl
            (fun M o => max M o.SearchRadiusConstant) P.SharedSearchRadius := by
  induction l generalizing P with
  | nil => simp
  | cons o l ih =>
    simp only [List.foldl_cons]
    obtain ⟨h1, h2⟩ := ih (P.AddProbe o)
    rw [h1, h2]
    unfold FProcessor.AddProbe
    cases hp : o.PrepareForPoints <;> cases ho : o.RequiresOctree <;>
      cases hc : o.RequiresChainProcessing <;> cases hk : o.SearchRadiusIsConstant <;>
      simp [List.filter_cons, hp, ho, hc, hk]

theorem foldl_max_ge {α : Type} (f : α → Int) (l : List α) (M : Int) :
    M ≤ l.foldl (fun M o => max M (f o)) M
    ∧ ∀ o ∈ l, f o ≤ l.foldl (fun M o => max M (f o)) M := by
  induction l generalizing M with
  | nil => simp
  | cons a l ih =>
    simp only [List.foldl_cons, List.mem_cons]
    refine ⟨le_trans (le_max_left _ _) (ih _).1, ?_⟩
    rintro o (rfl | ho)
    · exact le_trans (le_max_right _ _) (ih _).1
    · exact (ih _).2 o ho

theorem foldl_max_mem {α : Type} (f : α → Int) (l : List α) (M : Int) :
    l.foldl (fun M o => max M (f o)) M = M
    ∨ ∃ o ∈ l, l.foldl (fun M o => max M (f o)) M = f o := by
  induction l generalizing M with
  | nil => simp
  | cons a l ih =>
    simp only [List.foldl_cons, List.mem_cons]
    rcases ih (max M (f a)) with h | ⟨o, ho, h⟩
    · rcases max_choice M (f a) with hm | hm
      · left
        rw [h, hm]
      · right
        exact ⟨a, Or.inl rfl, by rw [h, hm]⟩
    · right
      exact ⟨o, Or.inr ho, h⟩

theorem foldl_max_attained {α : Type} (f : α → Int) (l : List α) (hne : l ≠ [])
    (hpos : ∀ o ∈ l, 0 ≤ f o) :
    ∃ o ∈ l, l.foldl (fun M o => max M (f o)) 0 = f o := by
  rcases foldl_max_mem f l 0 with h | h
  · cases l with
    | nil => exact absurd rfl hne
    | cons a l =>
      refine ⟨a, List.mem_cons_self _ _, ?_⟩
      have h1 := (foldl_max_ge f (a :: l) 0).2 a (List.mem_cons_self _ _)
      rw [h] at h1 ⊢
      exact le_antisymm (hpos a (List.mem_cons_self _ _)) h1
  · exact h

theorem FProcessor.Prepared_radius (E : FEngine) (Settings : UPCGExConnectPointsSettings)
    (Context : FPCGExConnectPointsContext) (Facade : FPointDataFacade) (P : FProcessor)
    (h : FProcessor.Prepared E Settings Context Facade = some P) :
    P.bUseVariableRadius
        = (Context.Probes (fun o => o.RequiresOctree)).any (fun o => !o.SearchRadiusIsConstant)
    ∧ P.SharedSearchRadius
        = (Context.Probes (fun o => o.RequiresOctree)).foldl
            (fun M o => max M o.SearchRadiusConstant) 0 := by
  unfold FProcessor.Prepared at h
  dsimp only at h
  split at h
  swap
  · simp at h
  rename_i hR
  have hP := (Option.some.inj h).symm
  clear h
  have hProc := FProcessor.Process_true Settings Context Facade hR
  obtain ⟨f1, f2⟩ := FProcessor.AddProbe_fold_radius Context.ProbeFactories
    { FProcessor.New with
      CWCoincidenceTolerance := Context.CWCoincidenceTolerance
      bPreventCoincidence := Settings.bPreventCoincidence }
  generalize List.foldl FProcessor.AddProbe _ Context.ProbeFactories = P2 at hProc f1 f2
  simp only [FProcessor.New, Bool.false_or] at f1 f2
  generalize (FProcessor.Process Settings Context Facade).2 = Q at hProc hP
  subst hProc
  rw [FProcessor.RunPrepTask_eq, FProcessor.OnPreparationComplete_eq] at hP
  swap
  · simp
  subst hP
  exact ⟨f1, f2⟩

theorem filter_IsFind_EraseSets (l : List FCall) :
    (l.map FCall.EraseSets).filter FCall.IsFind = l.filter FCall.IsFind := by
  induction l with
  | nil => rfl
  | cons c l ih =>
    rw [List.map_cons, List.filter_cons, List.filter_cons, ih, FCall.IsFind_EraseSets]
    cases c <;> rfl

/-- C28.  In the processor as the point loop finds it, for a generator point `Index` and at
least one search probe: `ProcessSinglePoint` queries the octree exactly once, with the box
centred on the cached location of the point whose half-extent is `MaxRadius` on each axis, and
the candidates it collects are made from the elements that query finds; every octree query in
its log uses that half-extent.  Here `bUseVariableRadius` says that some search probe has a radius that is not constant and
`SharedSearchRadius` is the largest of 0 and the constant radii of the search probes; when
every search probe has a constant radius, `MaxRadius` is `SharedSearchRadius`, it is at least
the constant radius of every search probe, and it is the constant radius of one of them when
there is a search probe and no constant is negative; when some search probe has a variable
radius, `MaxRadius` is the largest of 0 and the values `GetSearchRadius(Index)` of all search
probes, it is at least each of these values, and it is one of them when none is negative.  So
when a probe with a constant radius answers `GetSearchRadius` with that constant, `MaxRadius`
is at least `GetSearchRadius(Index)` of every search probe. -/
theorem ConnectPoints_query_box_covers_search_radii (E : FEngine)
    (Settings : UPCGExConnectPointsSettings) (Context : FPCGExConnectPointsContext)
    (Facade : FPointDataFacade) (P : FProcessor)
    (h : FProcessor.Prepared E Settings Context Facade = some P) (Index : Nat)
    (hgen : ReadFlag E P.CanGenerate Index = true)
    (hsearch : Context.Probes (fun o => o.RequiresOctree) ≠ []) :
    P.SearchProbes = Context.Probes (fun o => o.RequiresOctree)
    ∧ P.bUseVariableRadius = P.SearchProbes.any (fun Op => !Op.SearchRadiusIsConstant)
    ∧ P.SharedSearchRadius
        = P.SearchProbes.foldl (fun M Op => max M Op.SearchRadiusConstant) 0
    ∧ (∀ Point Scope,
        (P.ProcessSinglePoint E Index Point Scope).2.filter FCall.IsFind
          = [FCall.FindElementsWithBoundsTest
              ⟨(ReadTransform E P.CachedTransforms Index).GetLocation,
                FVector.Splat (P.MaxRadius Index)⟩])
    ∧ (∀ PointCopy Best Calls,
        P.Collected E Index PointCopy Best Calls
          = (((match P.Octree with
              | some O => O.FindElementsWithBoundsTest
                  ⟨(ReadTransform E P.CachedTransforms Index).GetLocation,
                    FVector.Splat (P.MaxRadius Index)⟩
              | none => []).filter (fun Item : FIndexedItem =>
                decide (Item.Index ≠ Index))).map
              (fun Item : FIndexedItem => P.MakeCandidate E
                (ReadTransform E P.CachedTransforms Index).GetLocation Item.Index)))
    ∧ (∀ Point Scope Box,
        FCall.FindElementsWithBoundsTest Box ∈ (P.ProcessSinglePoint E Index Point Scope).2 →
          Box.Extent = FVector.Splat (P.MaxRadius Index))
    ∧ ((∀ Op ∈ P.SearchProbes, Op.SearchRadiusIsConstant = true) →
        P.MaxRadius Index
            = P.SearchProbes.foldl (fun M Op => max M Op.SearchRadiusConstant) 0
        ∧ (∀ Op ∈ P.SearchProbes, Op.SearchRadiusConstant ≤ P.MaxRadius Index)
        ∧ (P.SearchProbes ≠ [] → (∀ Op ∈ P.SearchProbes, 0 ≤ Op.SearchRadiusConstant) →
            ∃ Op ∈ P.SearchProbes, P.MaxRadius Index = Op.SearchRadiusConstant))
    ∧ ((∃ Op ∈ P.SearchProbes, Op.SearchRadiusIsConstant = false) →
        P.MaxRadius Index
            = P.SearchProbes.foldl (fun M Op => max M (Op.GetSearchRadius Index)) 0
        ∧ (∀ Op ∈ P.SearchProbes, Op.GetSearchRadius Index ≤ P.MaxRadius Index)
        ∧ ((∀ Op ∈ P.SearchProbes, 0 ≤ Op.GetSearchRadius Index) →
            ∃ Op ∈ P.SearchProbes, P.MaxRadius Index = Op.GetSearchRadius Index))
    ∧ ((∀ Op ∈ P.SearchProbes, Op.SearchRadiusIsConstant = true →
          Op.GetSearchRadius Index = Op.SearchRadiusConstant) →
        ∀ Op ∈ P.SearchProbes, Op.GetSearchRadius Index ≤ P.MaxRadius Index) := by
  obtain ⟨-, hS, -⟩ := FProcessor.Prepared_spec E Settings Context Facade P h
  obtain ⟨hV, hR⟩ := FProcessor.Prepared_radius E Settings Context Facade P h
  rw [← hS] at hV hR
  have hconst : (∀ Op ∈ P.SearchProbes, Op.SearchRadiusIsConstant = true) →
      P.MaxRadius Index
        = P.SearchProbes.foldl (fun M Op => max M Op.SearchRadiusConstant) 0 := by
    intro hc
    have hf : P.bUseVariableRadius = false := by
      rw [hV, List.any_eq_false]
      intro Op hOp
      simp [hc Op hOp]
    unfold FProcessor.MaxRadius
    rw [hf, hR]
    rfl
  have hvar : (∃ Op ∈ P.SearchProbes, Op.SearchRadiusIsConstant = false) →
      P.MaxRadius Index
        = P.SearchProbes.foldl (fun M Op => max M (Op.GetSearchRadius Index)) 0 := by
    rintro ⟨Op, hOp, hk⟩
    have hf : P.bUseVariableRadius = true := by
      rw [hV, List.any_eq_true]
      exact ⟨Op, hOp, by simp [hk]⟩
    unfold FProcessor.MaxRadius
    rw [hf]
    rfl
  have hSne : P.SearchProbes.isEmpty = false := by
    rw [hS]
    cases hc : Context.Probes (fun o => o.RequiresOctree) with
    | nil => exact absurd hc hsearch
    | cons a l => rfl
  refine ⟨hS, hV, hR, ?_, ?_, ?_, ?_, ?_, ?_⟩
  · intro Point Scope
    obtain ⟨R, hRes, hExt⟩ :=
      FProcessor.ProcessSinglePoint_generator E P Index Point Scope hgen
    have hcalls := hExt.1
    simp only [List.map_nil, List.nil_append] at hcalls
    rw [hRes]
    show List.filter FCall.IsFind R.Calls = _
    rw [← filter_IsFind_EraseSets, hcalls, FProcessor.ExpectedCalls_filter_find, hSne]
    rfl
  · intro PointCopy Best Calls
    rw [FProcessor.Collected_eq_Discovered]
    rfl
  · intro Point Scope Box hBox
    by_cases hgen : ReadFlag E P.CanGenerate Index = true
    · obtain ⟨R, hRes, hExt⟩ :=
        FProcessor.ProcessSinglePoint_generator E P Index Point Scope hgen
      rw [hRes] at hBox
      have hcalls := hExt.1
      simp only [List.map_nil, List.nil_append] at hcalls
      have hin : FCall.FindElementsWithBoundsTest Box
          ∈ (P.ExpectedCalls E Index Point).filter FCall.IsFind := by
        rw [List.mem_filter, ← hcalls]
        exact ⟨List.mem_map.2 ⟨_, hBox, rfl⟩, rfl⟩
      rw [FProcessor.ExpectedCalls_filter_find] at hin
      split at hin
      · cases hin
      · rw [List.mem_singleton] at hin
        injection hin with hin
        rw [hin]
    · unfold FProcessor.ProcessSinglePoint at hBox
      simp [hgen] at hBox
  · intro hc
    refine ⟨hconst hc, ?_, ?_⟩
    · intro Op hOp
      rw [hconst hc]
      exact (foldl_max_ge (fun Op : FPCGExProbeOperation => Op.SearchRadiusConstant)
        P.SearchProbes 0).2 Op hOp
    · intro hne hpos
      rw [hconst hc]
      exact foldl_max_attained (fun Op : FPCGExProbeOperation => Op.SearchRadiusConstant)
        P.SearchProbes hne hpos
  · intro hv
    refine ⟨hvar hv, ?_, ?_⟩
    · intro Op hOp
      rw [hvar hv]
      exact (foldl_max_ge (fun Op : FPCGExProbeOperation => Op.GetSearchRadius Index)
        P.SearchProbes 0).2 Op hOp
    · intro hpos
      rw [hvar hv]
      obtain ⟨Op, hOp, -⟩ := hv
      exact foldl_max_attained (fun Op : FPCGExProbeOperation => Op.GetSearchRadius Index)
        P.SearchProbes (List.ne_nil_of_mem hOp) hpos
  · intro hret Op hOp
    by_cases hc : ∀ Op ∈ P.SearchProbes, Op.SearchRadiusIsConstant = true
    · rw [hret Op hOp (hc Op hOp), hconst hc]
      exact (foldl_max_ge (fun Op : FPCGExProbeOperation => Op.SearchRadiusConstant)
        P.SearchProbes 0).2 Op hOp
    · have hv : ∃ Op ∈ P.SearchProbes, Op.SearchRadiusIsConstant = false := by
        by_contra hn
        apply hc
        intro Op hOp
        cases hk : Op.SearchRadiusIsConstant
        · exact absurd ⟨Op, hOp, hk⟩ hn
        · rfl
      rw [hvar hv]
      exact (foldl_max_ge (fun Op : FPCGExProbeOperation => Op.GetSearchRadius Index)
        P.SearchProbes 0).2 Op hOp

theorem ConnectPoints_query_box_covers_search_radii_witness :
    ∃ P, FProcessor.Prepared (SceneEngine StableSort) ⟨false, false⟩ SceneContextVariable
        SceneFacade = some P
      ∧ P.SearchProbes = [SceneSharedProbe, SceneVariableProbe]
      ∧ P.bUseVariableRadius = true
      ∧ P.MaxRadius 3 = 400
      ∧ P.MaxRadius 0 = 300
      ∧ (∀ Op ∈ P.SearchProbes, Op.GetSearchRadius 3 ≤ P.MaxRadius 3)
      ∧ ReadFlag (SceneEngine StableSort) P.CanGenerate 3 = true
      ∧ SceneContextVariable.Probes (fun o => o.RequiresOctree) ≠ []
      ∧ (P.ProcessSinglePoint (SceneEngine StableSort) 3 (ScenePoint 100 0 0)
            ⟨2, 2, 1⟩).2.filter FCall.IsFind
          = [FCall.FindElementsWithBoundsTest ⟨⟨100, 0, 0⟩, ⟨400, 400, 400⟩⟩]
      ∧ (P.Collected (SceneEngine StableSort) 3 (ScenePoint 100 0 0) [] []).map
            (fun C => C.PointIndex) = [0, 1, 2]
      ∧ (∀ Point Scope Box,
          FCall.FindElementsWithBoundsTest Box
              ∈ (P.ProcessSinglePoint (SceneEngine StableSort) 3 Point Scope).2 →
            Box.Extent = ⟨400, 400, 400⟩) := by
  have h1 : (FProcessor.Prepared (SceneEngine StableSort) ⟨false, false⟩ SceneContextVariable
      SceneFacade).isSome = true := by decide
  obtain ⟨P, hP⟩ := Option.isSome_iff_exists.1 h1
  have hM3 : (FProcessor.Prepared (SceneEngine StableSort) ⟨false, false⟩ SceneContextVariable
      SceneFacade).map (fun P => P.MaxRadius 3) = some 400 := by decide
  have hM0 : (FProcessor.Prepared (SceneEngine StableSort) ⟨false, false⟩ SceneContextVariable
      SceneFacade).map (fun P => P.MaxRadius 0) = some 300 := by decide
  rw [hP] at hM3 hM0
  have hM3 : P.MaxRadius 3 = 400 := Option.some.inj hM3
  have hM0 : P.MaxRadius 0 = 300 := Option.some.inj hM0
  have hg : ReadFlag (SceneEngine StableSort) P.CanGenerate 3 = true :=
    FProcessor.Prepared_CanGenerate _ _ _ _ P hP 3 (by decide)
  have hne : SceneContextVariable.Probes (fun o => o.RequiresOctree) ≠ [] :=
    fun h => absurd (congrArg List.length h) (by decide)
  have hO : (FProcessor.Prepared (SceneEngine StableSort) ⟨false, false⟩ SceneContextVariable
      SceneFacade).map (fun P =>
        ((ReadTransform (SceneEngine StableSort) P.CachedTransforms 3).GetLocation,
          (P.Collected (SceneEngine StableSort) 3 (ScenePoint 100 0 0) [] []).map
            (fun C => C.PointIndex)))
      = some (⟨100, 0, 0⟩, [0, 1, 2]) := by decide
  rw [hP] at hO
  have hO1 : (ReadTransform (SceneEngine StableSort) P.CachedTransforms 3).GetLocation
      = ⟨100, 0, 0⟩ := congrArg Prod.fst (Option.some.inj hO)
  have hO2 : (P.Collected (SceneEngine StableSort) 3 (ScenePoint 100 0 0) [] []).map
      (fun C => C.PointIndex) = [0, 1, 2] := congrArg Prod.snd (Option.some.inj hO)
  obtain ⟨hS, hV, -, hFind, -, hBox, -, hvar, -⟩ :=
    ConnectPoints_query_box_covers_search_radii (SceneEngine StableSort) ⟨false, false⟩
      SceneContextVariable SceneFacade P hP 3 hg hne
  have hS2 : P.SearchProbes = [SceneSharedProbe, SceneVariableProbe] := by rw [hS]; rfl
  refine ⟨P, hP, hS2, ?_, hM3, hM0, ?_, hg, hne, ?_, hO2, ?_⟩
  · rw [hV, hS2]
    rfl
  · exact (hvar ⟨SceneVariableProbe, by rw [hS2]; simp, rfl⟩).2.1
  · rw [hFind, hO1, hM3]
    rfl
  · intro Point Scope Box hB
    rw [hBox Point Scope Box hB, hM3]
    rfl

theorem FProcessor.Prepared_CachedTransforms_direct (E : FEngine)
    (Settings : UPCGExConnectPointsSettings) (Context : FPCGExConnectPointsContext)
    (Facade : FPointDataFacade) (P : FProcessor)
    (h : FProcessor.Prepared E Settings Context Facade = some P)
    (hdirect : Context.Probes (fun o => o.RequiresOctree) = []) :
    P.CachedTransforms = List.replicate Facade.InPoints.length none := by
  unfold FProcessor.Prepared at h
  dsimp only at h
  split at h
  swap
  · simp at h
  rename_i hR
  have hP := (Option.some.inj h).symm
  clear h
  have hProc := FProcessor.Process_true Settings Context Facade hR
  have f2 := (FProcessor.AddProbe_fold Context.ProbeFactories
    { FProcessor.New with
      CWCoincidenceTolerance := Context.CWCoincidenceTolerance
      bPreventCoincidence := Settings.bPreventCoincidence }).2.1
  generalize List.foldl FProcessor.AddProbe _ Context.ProbeFactories = P2 at hProc f2
  simp only [FProcessor.New, List.nil_append] at f2
  generalize (FProcessor.Process Settings Context Facade).2 = Q at hProc hP
  subst hProc
  rw [FProcessor.RunPrepTask_eq, FProcessor.OnPreparationComplete_eq] at hP
  swap
  · simp
  subst hP
  simp only [FPCGExConnectPointsContext.Probes] at hdirect
  simp [FProcessor.PrepareLoopScopesForPoints, f2, hdirect]

/-- C25.  With projection enabled and no search probe (direct probes only), in the processor
as the point loop finds it no entry of `CachedTransforms` has been assigned:
`OnPreparationComplete` assigns the entries only when there is a search probe.  Yet for a
generator point `ProcessSinglePoint` copies `CachedTransforms[Index]` into the point it hands
to every direct probe, so each direct probe is called with a point whose transform is what
the read of an unassigned entry yields, not the projected transform of the point. -/
theorem ConnectPoints_projection_reads_unassigned_transform (E : FEngine)
    (Settings : UPCGExConnectPointsSettings) (Context : FPCGExConnectPointsContext)
    (Facade : FPointDataFacade) (P : FProcessor)
    (h : FProcessor.Prepared E Settings Context Facade = some P)
    (hproj : Settings.bProjectPoints = true)
    (hdirect : Context.Probes (fun o => o.RequiresOctree) = []) :
    P.DirectProbes ≠ []
    ∧ (∀ i, i < Facade.InPoints.length → P.CachedTransforms[i]? = some none)
    ∧ (∀ Index Point, P.PointCopy E Index Point
        = { Point with Transform := E.UninitializedTransform })
    ∧ (∀ Index Point Scope, ReadFlag E P.CanGenerate Index = true →
        (P.ProcessSinglePoint E Index Point Scope).2.map FCall.EraseSets
          = P.DirectProbes.enum.map (fun x => FCall.ProcessNode x.1 Index
              { Point with Transform := E.UninitializedTransform } none none)) := by
  obtain ⟨hD, hS, hC, -, -, -, hU, -⟩ := FProcessor.Prepared_spec E Settings Context Facade P h
  have hCT := FProcessor.Prepared_CachedTransforms_direct E Settings Context Facade P h hdirect
  rw [hproj] at hU
  rw [hdirect] at hS
  have hC2 : P.ChainProbeOperations = [] := by
    rw [hC]
    simp only [FPCGExConnectPointsContext.Probes] at hdirect ⊢
    rw [List.filter_eq_nil_iff] at hdirect ⊢
    intro o ho hc
    apply hdirect o ho
    simp only [Bool.and_eq_true] at hc ⊢
    exact ⟨hc.1, hc.2.1⟩
  have hPC : ∀ Index Point, P.PointCopy E Index Point
      = { Point with Transform := E.UninitializedTransform } := by
    intro Index Point
    unfold FProcessor.PointCopy ReadTransform
    rw [hU, hCT]
    by_cases hi : Index < Facade.InPoints.length
    · simp [hi]
    · rw [List.getElem?_eq_none (by simpa using hi)]
      rfl
  refine ⟨?_, ?_, hPC, ?_⟩
  · intro hnil
    have hR : (FProcessor.Process Settings Context Facade).1 = true := by
      have := FProcessor.Prepared_isSome_iff E Settings Context Facade
      rw [h] at this
      exact this.symm
    have hne := ((FProcessor.Process_flags Settings Context Facade).1.1 hR).2.1
    rw [hD] at hnil
    simp only [FPCGExConnectPointsContext.Probes] at hdirect hnil hne
    rw [List.filter_eq_nil_iff] at hdirect hnil
    cases hl : List.filter (fun o => o.PrepareForPoints && true) Context.ProbeFactories with
    | nil => rw [hl] at hne; exact absurd hne (by decide)
    | cons o l =>
      have ho : o ∈ List.filter (fun o => o.PrepareForPoints && true) Context.ProbeFactories := by
        rw [hl]
        exact List.mem_cons_self _ _
      rw [List.mem_filter] at ho
      have h1 := hdirect o ho.1
      have h2 := hnil o ho.1
      revert h1 h2
      have h3 := ho.2
      revert h3
      cases o.PrepareForPoints <;> cases o.RequiresOctree <;> simp
  · intro i hi
    rw [hCT]
    simp [hi]
  · intro Index Point Scope hgen
    obtain ⟨R, hRes, hExt⟩ :=
      FProcessor.ProcessSinglePoint_generator E P Index Point Scope hgen
    rw [hRes]
    have hcalls := hExt.1
    simp only [List.map_nil, List.nil_append] at hcalls
    rw [hcalls]
    unfold FProcessor.ExpectedCalls
    simp [hS, hC2, hPC]

theorem ConnectPoints_projection_reads_unassigned_transform_witness :
    ∃ P, FProcessor.Prepared (SceneEngine StableSort) ⟨false, true⟩ SceneContextDirect
        SceneFacade = some P
      ∧ SceneContextDirect.Probes (fun o => o.RequiresOctree) = []
      ∧ (∀ i, i < 4 → P.CachedTransforms[i]? = some none)
      ∧ ReadFlag (SceneEngine StableSort) P.CanGenerate 1 = true
      ∧ (P.ProcessSinglePoint (SceneEngine StableSort) 1 (ScenePoint 200 0 0)
            ⟨0, 2, 0⟩).2.map FCall.EraseSets
          = [FCall.ProcessNode 0 1
              { ScenePoint 200 0 0 with
                Transform := (SceneEngine StableSort).UninitializedTransform } none none]
      ∧ (SceneEngine StableSort).ProjectFlat (ScenePoint 200 0 0).Transform 1
          ≠ (SceneEngine StableSort).UninitializedTransform := by
  have h1 : (FProcessor.Prepared (SceneEngine StableSort) ⟨false, true⟩ SceneContextDirect
      SceneFacade).isSome = true := by decide
  obtain ⟨P, hP⟩ := Option.isSome_iff_exists.1 h1
  have hG : (FProcessor.Prepared (SceneEngine StableSort) ⟨false, true⟩ SceneContextDirect
      SceneFacade).map (fun P => ReadFlag (SceneEngine StableSort) P.CanGenerate 1)
      = some true := by decide
  rw [hP] at hG
  have hG : ReadFlag (SceneEngine StableSort) P.CanGenerate 1 = true := Option.some.inj hG
  have hD := (FProcessor.Prepared_spec _ _ _ _ P hP).1
  obtain ⟨-, hC, -, hCalls⟩ :=
    ConnectPoints_projection_reads_unassigned_transform (SceneEngine StableSort) ⟨false, true⟩
      SceneContextDirect SceneFacade P hP rfl rfl
  refine ⟨P, hP, rfl, hC, hG, ?_, by decide⟩
  rw [hCalls 1 _ _ hG, hD]
  rfl

theorem ProcessSingleRangeIteration_of_guards (E : FPathsEngine)
    (Settings : UPCGExBreakClustersToPathsSettings) (Cluster : FCluster)
    (ProjectedPositions : Option (List FVector2D)) (Chain : FNodeChain)
    (h1 : ¬ (Settings.LeavesHandling = EPCGExBreakClusterLeavesHandling.Exclude
      ∧ Chain.bIsLeaf = true))
    (h2 : Settings.MinPointCount ≤ (Chain.Links.length : Int) + 1)
    (h3 : Settings.bOmitAbovePointCount = true →
      (Chain.Links.length : Int) + 1 ≤ Settings.MaxPointCount) :
    ProcessSingleRangeIteration E Settings Cluster ProjectedPositions (some Chain)
      = match Chain.Links.getLast? with
        | none => .Undefined
        | some Last =>
          if !E.PathCreated Chain then .Skipped
          else
            .Emitted
              ⟨if (match ProjectedPositions with
                  | some PP =>
                    if !Settings.bWindOnlyClosedLoops || Chain.bIsClosedLoop then
                      if !E.IsWinded Settings.Winding (decide (E.SignedArea2
                        ((ChainPoints Cluster Chain).map (fun PtIndex => PP.getD PtIndex ⟨0, 0⟩))
                          < 0))
                      then true
                      else E.SortExtrapolation Chain.Seed.Edge Chain.Seed.Node Last.Node
                    else E.SortExtrapolation Chain.Seed.Edge Chain.Seed.Node Last.Node
                  | none => E.SortExtrapolation Chain.Seed.Edge Chain.Seed.Node Last.Node)
                then (ChainPoints Cluster Chain).reverse else ChainPoints Cluster Chain,
                if !Chain.bIsClosedLoop then
                  (if Settings.bTagIfOpenPath then [Settings.IsOpenPathTag] else [])
                else (if Settings.bTagIfClosedLoop then [Settings.IsClosedLoopTag] else [])⟩ := by
  unfold ProcessSingleRangeIteration
  dsimp only
  have c1 : (decide (Settings.LeavesHandling = EPCGExBreakClusterLeavesHandling.Exclude)
      && Chain.bIsLeaf) = false := by
    cases hl : Chain.bIsLeaf
    · simp
    · simp only [Bool.and_true, decide_eq_false_iff_not]
      exact fun h => h1 ⟨h, hl⟩
  have c2 : ¬ ((Chain.Links.length : Int) + 1 < Settings.MinPointCount) := not_lt.2 h2
  have c3 : (Settings.bOmitAbovePointCount
      && decide ((Chain.Links.length : Int) + 1 > Settings.MaxPointCount)) = false := by
    cases ho : Settings.bOmitAbovePointCount
    · simp
    · simp only [Bool.true_and, decide_eq_false_iff_not, gt_iff_lt, not_lt]
      exact h3 ho
  rw [c1]
  simp only [Bool.false_eq_true, if_false, c2, c3]

theorem ProcessSingleRangeIteration_of_not_guards (E : FPathsEngine)
    (Settings : UPCGExBreakClustersToPathsSettings) (Cluster : FCluster)
    (ProjectedPositions : Option (List FVector2D)) (Chain : FNodeChain)
    (h : ¬ (¬ (Settings.LeavesHandling = EPCGExBreakClusterLeavesHandling.Exclude
        ∧ Chain.bIsLeaf = true)
      ∧ Settings.MinPointCount ≤ (Chain.Links.length : Int) + 1
      ∧ (Settings.bOmitAbovePointCount = true →
        (Chain.Links.length : Int) + 1 ≤ Settings.MaxPointCount))) :
    ProcessSingleRangeIteration E Settings Cluster ProjectedPositions (some Chain)
      = .Skipped := by
  unfold ProcessSingleRangeIteration
  dsimp only
  by_cases c1 : (decide (Settings.LeavesHandling = EPCGExBreakClusterLeavesHandling.Exclude)
      && Chain.bIsLeaf) = true
  · rw [if_pos c1]
  · rw [if_neg c1]
    by_cases c2 : (Chain.Links.length : Int) + 1 < Settings.MinPointCount
    · rw [if_pos c2]
    · rw [if_neg c2]
      by_cases c3 : (Settings.bOmitAbovePointCount
          && decide ((Chain.Links.length : Int) + 1 > Settings.MaxPointCount)) = true
      · rw [if_pos c3]
      · exfalso
        apply h
        refine ⟨?_, not_lt.1 c2, ?_⟩
        · rintro ⟨a, b⟩
          apply c1
          simp [a, b]
        · intro ho
          rw [ho] at c3
          simpa using c3

/-- C29.  For a non-null chain with at least one link, of size `n = Links.Num() + 1`,
`ProcessSingleRangeIteration` leaves a path exactly when the chain is not a leaf excluded by
the Exclude leaves setting, `n >= MinPointCount`, `n <= MaxPointCount` when omit-above is
enabled, and the output collection creates an output for it.  The tags of a path that is
left: for a chain that is no closed loop, the open-path tag if tagging open paths is enabled
and nothing else; for a closed loop, the closed-loop tag if tagging closed loops is enabled
and nothing else; so at most one tag is added, and when the two tag names differ the
open-path tag is present only on a chain that is no closed loop, the closed-loop tag only on
a closed loop, and never both. -/
theorem BreakClusters_path_emission (E : FPathsEngine)
    (Settings : UPCGExBreakClustersToPathsSettings) (Cluster : FCluster)
    (ProjectedPositions : Option (List FVector2D)) (Chain : FNodeChain)
    (hL : Chain.Links ≠ []) :
    ((∃ Path, ProcessSingleRangeIteration E Settings Cluster ProjectedPositions (some Chain)
        = .Emitted Path) ↔
      (¬ (Settings.LeavesHandling = EPCGExBreakClusterLeavesHandling.Exclude
          ∧ Chain.bIsLeaf = true)
        ∧ Settings.MinPointCount ≤ (Chain.Links.length : Int) + 1
        ∧ (Settings.bOmitAbovePointCount = true →
          (Chain.Links.length : Int) + 1 ≤ Settings.MaxPointCount)
        ∧ E.PathCreated Chain = true))
    ∧ (∀ Path, ProcessSingleRangeIteration E Settings Cluster ProjectedPositions (some Chain)
        = .Emitted Path →
      (Chain.bIsClosedLoop = false →
        Path.Tags = if Settings.bTagIfOpenPath then [Settings.IsOpenPathTag] else [])
      ∧ (Chain.bIsClosedLoop = true →
        Path.Tags = if Settings.bTagIfClosedLoop then [Settings.IsClosedLoopTag] else [])
      ∧ Path.Tags.length ≤ 1
      ∧ (Settings.IsOpenPathTag ≠ Settings.IsClosedLoopTag →
        (Settings.IsOpenPathTag ∈ Path.Tags → Chain.bIsClosedLoop = false)
        ∧ (Settings.IsClosedLoopTag ∈ Path.Tags → Chain.bIsClosedLoop = true)
        ∧ ¬ (Settings.IsOpenPathTag ∈ Path.Tags ∧ Settings.IsClosedLoopTag ∈ Path.Tags))) := by
  constructor
  · constructor
    · rintro ⟨Path, hP⟩
      by_cases hg : (¬ (Settings.LeavesHandling = EPCGExBreakClusterLeavesHandling.Exclude
            ∧ Chain.bIsLeaf = true)
          ∧ Settings.MinPointCount ≤ (Chain.Links.length : Int) + 1
          ∧ (Settings.bOmitAbovePointCount = true →
            (Chain.Links.length : Int) + 1 ≤ Settings.MaxPointCount))
      · refine ⟨hg.1, hg.2.1, hg.2.2, ?_⟩
        rw [ProcessSingleRangeIteration_of_guards E Settings Cluster ProjectedPositions Chain
          hg.1 hg.2.1 hg.2.2] at hP
        cases hlast : Chain.Links.getLast? with
        | none => exact absurd (List.getLast?_eq_none_iff.1 hlast) hL
        | some Last =>
          rw [hlast] at hP
          dsimp only at hP
          cases hc : E.PathCreated Chain
          · rw [hc] at hP
            cases hP
          · rfl
      · rw [ProcessSingleRangeIteration_of_not_guards E Settings Cluster ProjectedPositions
          Chain hg] at hP
        cases hP
    · rintro ⟨h1, h2, h3, h5⟩
      exact ProcessSingleRangeIteration_emits E Settings Cluster ProjectedPositions Chain
        h1 h2 h3 hL h5
  · intro Path hP
    have hT := (ProcessSingleRangeIteration_emitted E Settings Cluster ProjectedPositions Chain
      Path hP).2
    rw [hT]
    cases hc : Chain.bIsClosedLoop <;> cases ho : Settings.bTagIfOpenPath <;>
      cases hk : Settings.bTagIfClosedLoop <;> simp
    all_goals exact fun h1 h2 => h1 h2.symm

theorem BreakClusters_path_emission_witness :
    (⟨⟨0, 0⟩, [⟨1, 0⟩, ⟨2, 1⟩, ⟨3, 2⟩, ⟨4, 3⟩], false, false, none⟩ : FNodeChain).Links ≠ []
    ∧ some (⟨⟨0, 0⟩, [⟨1, 0⟩, ⟨2, 1⟩, ⟨3, 2⟩, ⟨4, 3⟩], false, false, none⟩ : FNodeChain)
        ∈ (BuildChains (PathsSettings EPCGExBreakClusterLeavesHandling.Include) PathGraph5
            (fun _ => false)).2
    ∧ (∃ Path, ProcessSingleRangeIteration (PathsEngine false)
          (PathsSettings EPCGExBreakClusterLeavesHandling.Include) PathGraph5 none
          (some ⟨⟨0, 0⟩, [⟨1, 0⟩, ⟨2, 1⟩, ⟨3, 2⟩, ⟨4, 3⟩], false, false, none⟩)
        = .Emitted Path)
    ∧ (∀ Path, ProcessSingleRangeIteration (PathsEngine false)
          (PathsSettings EPCGExBreakClusterLeavesHandling.Include) PathGraph5 none
          (some ⟨⟨0, 0⟩, [⟨1, 0⟩, ⟨2, 1⟩, ⟨3, 2⟩, ⟨4, 3⟩], false, false, none⟩)
        = .Emitted Path → Path.Tags = ["OpenPath"]) := by
  have h := BreakClusters_path_emission (PathsEngine false)
    (PathsSettings EPCGExBreakClusterLeavesHandling.Include) PathGraph5 none
    ⟨⟨0, 0⟩, [⟨1, 0⟩, ⟨2, 1⟩, ⟨3, 2⟩, ⟨4, 3⟩], false, false, none⟩ (by decide)
  exact ⟨by decide, by decide, h.1.2 ⟨by decide, by decide, by decide, rfl⟩,
    fun Path hP => (h.2 Path hP).1 rfl⟩

/-- C29, counterexample.  On the path graph 0-1-2-3-4 the chain of the chain array has five
points, is no leaf, and passes the size tests of settings that keep every chain of two points
or more; when the output collection creates no output for it, `ProcessSingleRangeIteration`
returns without leaving a path. -/
theorem BreakClusters_path_not_created_counterexample :
    some (⟨⟨0, 0⟩, [⟨1, 0⟩, ⟨2, 1⟩, ⟨3, 2⟩, ⟨4, 3⟩], false, false, none⟩ : FNodeChain)
        ∈ (BuildChains (PathsSettings EPCGExBreakClusterLeavesHandling.Include) PathGraph5
            (fun _ => false)).2
    ∧ ¬ ((PathsSettings EPCGExBreakClusterLeavesHandling.Include).LeavesHandling
          = EPCGExBreakClusterLeavesHandling.Exclude
        ∧ (⟨⟨0, 0⟩, [⟨1, 0⟩, ⟨2, 1⟩, ⟨3, 2⟩, ⟨4, 3⟩], false, false, none⟩ :
            FNodeChain).bIsLeaf = true)
    ∧ (PathsSettings EPCGExBreakClusterLeavesHandling.Include).MinPointCount
        ≤ ((⟨⟨0, 0⟩, [⟨1, 0⟩, ⟨2, 1⟩, ⟨3, 2⟩, ⟨4, 3⟩], false, false, none⟩ :
            FNodeChain).Links.length : Int) + 1
    ∧ (PathsSettings EPCGExBreakClusterLeavesHandling.Include).bOmitAbovePointCount = false
    ∧ ProcessSingleRangeIteration NoOutputEngine
        (PathsSettings EPCGExBreakClusterLeavesHandling.Include) PathGraph5 none
        (some ⟨⟨0, 0⟩, [⟨1, 0⟩, ⟨2, 1⟩, ⟨3, 2⟩, ⟨4, 3⟩], false, false, none⟩)
      = .Skipped := by
  decide
/-- C26.  When a winding is enforced on a chain (projected positions are present and either
winding is not restricted to closed loops or the chain is a closed loop) and the chain is
turned into a path, the points of the path are those of the chain in reverse order exactly
when the extrapolated sort of the direction settings returns true or the unreversed sequence
fails the winding test, and in chain order otherwise.  So when the sort returns true, a
sequence that passes the winding test is reversed all the same. -/
theorem BreakClusters_winding_reversal (E : FPathsEngine)
    (Settings : UPCGExBreakClustersToPathsSettings) (Cluster : FCluster)
    (PP : List FVector2D) (Chain : FNodeChain) (Path : FPathOutput)
    (hw : (!Settings.bWindOnlyClosedLoops || Chain.bIsClosedLoop) = true)
    (h : ProcessSingleRangeIteration E Settings Cluster (some PP) (some Chain)
      = .Emitted Path) :
    ∃ Last, Chain.Links.getLast? = some Last
      ∧ Path.Points
        = if (E.SortExtrapolation Chain.Seed.Edge Chain.Seed.Node Last.Node
            || !E.IsWinded Settings.Winding (decide (E.SignedArea2
                ((ChainPoints Cluster Chain).map (fun PtIndex => PP.getD PtIndex ⟨0, 0⟩)) < 0)))
          then (ChainPoints Cluster Chain).reverse else ChainPoints Cluster Chain := by
  by_cases hg : (¬ (Settings.LeavesHandling = EPCGExBreakClusterLeavesHandling.Exclude
        ∧ Chain.bIsLeaf = true)
      ∧ Settings.MinPointCount ≤ (Chain.Links.length : Int) + 1
      ∧ (Settings.bOmitAbovePointCount = true →
        (Chain.Links.length : Int) + 1 ≤ Settings.MaxPointCount))
  · rw [ProcessSingleRangeIteration_of_guards E Settings Cluster (some PP) Chain
      hg.1 hg.2.1 hg.2.2] at h
    cases hlast : Chain.Links.getLast? with
    | none =>
      rw [hlast] at h
      cases h
    | some Last =>
      rw [hlast] at h
      dsimp only at h
      cases hc : E.PathCreated Chain
      · rw [hc] at h
        cases h
      · rw [hc, hw] at h
        simp only [Bool.not_true, Bool.false_eq_true, if_false, if_true,
          FIterationResult.Emitted.injEq] at h
        subst h
        refine ⟨Last, rfl, ?_⟩
        dsimp only
        cases E.SortExtrapolation Chain.Seed.Edge Chain.Seed.Node Last.Node <;>
          cases E.IsWinded Settings.Winding (decide (E.SignedArea2
            ((ChainPoints Cluster Chain).map (fun PtIndex => PP.getD PtIndex ⟨0, 0⟩)) < 0)) <;>
          simp
  · rw [ProcessSingleRangeIteration_of_not_guards E Settings Cluster (some PP) Chain hg] at h
    cases h

theorem BreakClusters_winding_reversal_witness :
    some (⟨⟨0, 0⟩, [⟨1, 0⟩, ⟨2, 1⟩, ⟨3, 2⟩], true, false, some 3⟩ : FNodeChain)
        ∈ (BuildChains (WindingSettings EPCGExWindingMutation.CounterClockwise) Cycle4
            (fun _ => false)).2
    ∧ ProcessSingleRangeIteration (WindingEngine true)
        (WindingSettings EPCGExWindingMutation.CounterClockwise) Cycle4 (some SquarePositions)
        (some ⟨⟨0, 0⟩, [⟨1, 0⟩, ⟨2, 1⟩, ⟨3, 2⟩], true, false, some 3⟩)
      = .Emitted ⟨[3, 2, 1, 0], ["ClosedLoop"]⟩
    ∧ (WindingEngine true).IsWinded EPCGExWindingMutation.CounterClockwise
        (decide ((WindingEngine true).SignedArea2
          (([0, 1, 2, 3] : List Nat).map (fun PtIndex => SquarePositions.getD PtIndex ⟨0, 0⟩))
            < 0)) = true
    ∧ (WindingEngine true).IsWinded EPCGExWindingMutation.CounterClockwise
        (decide ((WindingEngine true).SignedArea2
          (([3, 2, 1, 0] : List Nat).map (fun PtIndex => SquarePositions.getD PtIndex ⟨0, 0⟩))
            < 0)) = false
    ∧ ∃ Last, (⟨⟨0, 0⟩, [⟨1, 0⟩, ⟨2, 1⟩, ⟨3, 2⟩], true, false, some 3⟩ :
          FNodeChain).Links.getLast? = some Last
        ∧ ([3, 2, 1, 0] : List Nat)
          = if ((WindingEngine true).SortExtrapolation 0 0 Last.Node
              || !(WindingEngine true).IsWinded EPCGExWindingMutation.CounterClockwise
                (decide ((WindingEngine true).SignedArea2
                  ((ChainPoints Cycle4
                    ⟨⟨0, 0⟩, [⟨1, 0⟩, ⟨2, 1⟩, ⟨3, 2⟩], true, false, some 3⟩).map
                    (fun PtIndex => SquarePositions.getD PtIndex ⟨0, 0⟩)) < 0)))
            then (ChainPoints Cycle4
              ⟨⟨0, 0⟩, [⟨1, 0⟩, ⟨2, 1⟩, ⟨3, 2⟩], true, false, some 3⟩).reverse
            else ChainPoints Cycle4 ⟨⟨0, 0⟩, [⟨1, 0⟩, ⟨2, 1⟩, ⟨3, 2⟩], true, false, some 3⟩ :=
  ⟨by decide, by decide, by decide, by decide,
    BreakClusters_winding_reversal (WindingEngine true)
      (WindingSettings EPCGExWindingMutation.CounterClockwise) Cycle4 SquarePositions
      ⟨⟨0, 0⟩, [⟨1, 0⟩, ⟨2, 1⟩, ⟨3, 2⟩], true, false, some 3⟩ ⟨[3, 2, 1, 0], ["ClosedLoop"]⟩
      (by decide) (by decide)⟩

theorem ProcessSingleRangeIteration_undefined_iff (E : FPathsEngine)
    (Settings : UPCGExBreakClustersToPathsSettings) (Cluster : FCluster)
    (ProjectedPositions : Option (List FVector2D)) (Chain : FNodeChain) :
    ProcessSingleRangeIteration E Settings Cluster ProjectedPositions (some Chain) = .Undefined
      ↔ (Chain.Links = []
        ∧ ¬ (Settings.LeavesHandling = EPCGExBreakClusterLeavesHandling.Exclude
          ∧ Chain.bIsLeaf = true)
        ∧ Settings.MinPointCount ≤ 1
        ∧ (Settings.bOmitAbovePointCount = true → 1 ≤ Settings.MaxPointCount)) := by
  by_cases hg : (¬ (Settings.LeavesHandling = EPCGExBreakClusterLeavesHandling.Exclude
        ∧ Chain.bIsLeaf = true)
      ∧ Settings.MinPointCount ≤ (Chain.Links.length : Int) + 1
      ∧ (Settings.bOmitAbovePointCount = true →
        (Chain.Links.length : Int) + 1 ≤ Settings.MaxPointCount))
  · rw [ProcessSingleRangeIteration_of_guards E Settings Cluster ProjectedPositions Chain
      hg.1 hg.2.1 hg.2.2]
    cases hl : Chain.Links with
    | nil =>
      rw [hl] at hg
      simpa using hg
    | cons a l =>
      obtain ⟨Last, hLast⟩ : ∃ Last, (a :: l).getLast? = some Last :=
        ⟨(a :: l).getLast (by simp), List.getLast?_eq_getLast _ _⟩
      rw [hLast]
      dsimp only
      constructor
      · intro h
        split at h <;> cases h
      · rintro ⟨h, -⟩
        cases h
  · rw [ProcessSingleRangeIteration_of_not_guards E Settings Cluster ProjectedPositions
      Chain hg]
    constructor
    · intro h
      cases h
    · rintro ⟨hl, h1, h2, h3⟩
      exfalso
      apply hg
      rw [hl]
      exact ⟨h1, by simpa using h2, by simpa using h3⟩

/-- C27.  `ProcessSingleRangeIteration` evaluates `Chain->Links.Last()` on an empty link list
exactly when the chain has no link, is not a leaf excluded by the Exclude leaves setting,
`MinPointCount` is at most 1, and `MaxPointCount` is at least 1 when omit-above is enabled.
The chain builder produces such a chain: on the cluster with the edge 0-1 and the isolated
node 2 the chain array holds the degenerate leaf chain of node 2, and with leaves included or
alone and `MinPointCount = 1` the iteration on it evaluates `Links.Last()` on the empty list;
with leaves excluded, or `MinPointCount = 2`, it returns before. -/
theorem BreakClusters_last_link_of_degenerate_chain :
    (∀ (E : FPathsEngine) (Settings : UPCGExBreakClustersToPathsSettings) (Cluster : FCluster)
        (ProjectedPositions : Option (List FVector2D)) (Chain : FNodeChain),
      ProcessSingleRangeIteration E Settings Cluster ProjectedPositions (some Chain)
          = .Undefined
        ↔ (Chain.Links = []
          ∧ ¬ (Settings.LeavesHandling = EPCGExBreakClusterLeavesHandling.Exclude
            ∧ Chain.bIsLeaf = true)
          ∧ Settings.MinPointCount ≤ 1
          ∧ (Settings.bOmitAbovePointCount = true → 1 ≤ Settings.MaxPointCount)))
    ∧ some (⟨⟨2, -1⟩, [], false, true, none⟩ : FNodeChain)
        ∈ (BuildChains (SinglePointSettings EPCGExBreakClusterLeavesHandling.Include)
            IsolatedNodeCluster (fun _ => false)).2
    ∧ some (⟨⟨2, -1⟩, [], false, true, none⟩ : FNodeChain)
        ∈ (BuildChains (SinglePointSettings EPCGExBreakClusterLeavesHandling.Only)
            IsolatedNodeCluster (fun _ => false)).2
    ∧ ProcessSingleRangeIteration (PathsEngine false)
        (SinglePointSettings EPCGExBreakClusterLeavesHandling.Include) IsolatedNodeCluster none
        (some ⟨⟨2, -1⟩, [], false, true, none⟩) = .Undefined
    ∧ ProcessSingleRangeIteration (PathsEngine false)
        (SinglePointSettings EPCGExBreakClusterLeavesHandling.Only) IsolatedNodeCluster none
        (some ⟨⟨2, -1⟩, [], false, true, none⟩) = .Undefined
    ∧ ProcessSingleRangeIteration (PathsEngine false)
        (SinglePointSettings EPCGExBreakClusterLeavesHandling.Exclude) IsolatedNodeCluster none
        (some ⟨⟨2, -1⟩, [], false, true, none⟩) = .Skipped
    ∧ ProcessSingleRangeIteration (PathsEngine false)
        (PathsSettings EPCGExBreakClusterLeavesHandling.Include) IsolatedNodeCluster none
        (some ⟨⟨2, -1⟩, [], false, true, none⟩) = .Skipped :=
  ⟨ProcessSingleRangeIteration_undefined_iff, by decide, by decide, by decide, by decide,
    by decide, by decide⟩

theorem SampleNearestSurface.ScanOverlaps_first_min (W : FWorld)
    (Context : FPCGExSampleNearestSurfaceContext) (Origin : FVector)
    (OutOverlaps : List FOverlapResult) :
    ((∀ o ∈ OutOverlaps, SampleNearestSurface.Eligible W Context Origin o = false)
      ∧ SampleNearestSurface.ScanOverlaps W Context Origin OutOverlaps
        = ⟨MAX_FLT, none, W.UninitializedVector, false, none⟩)
    ∨ ∃ Before Hit After, OutOverlaps = Before ++ Hit :: After
      ∧ SampleNearestSurface.Eligible W Context Origin Hit = true
      ∧ (∀ o ∈ Before, SampleNearestSurface.Eligible W Context Origin o = true →
          (W.GetClosestPointOnCollision Hit.Component Origin).1
            < (W.GetClosestPointOnCollision o.Component Origin).1)
      ∧ (∀ o ∈ After, SampleNearestSurface.Eligible W Context Origin o = true →
          (W.GetClosestPointOnCollision Hit.Component Origin).1
            ≤ (W.GetClosestPointOnCollision o.Component Origin).1)
      ∧ SampleNearestSurface.ScanOverlaps W Context Origin OutOverlaps
        = SampleNearestSurface.KeptHit W Context Origin Hit := by
  unfold SampleNearestSurface.ScanOverlaps
  induction OutOverlaps using List.reverseRecOn with
  | nil =>
    left
    exact ⟨fun o ho => absurd ho (List.not_mem_nil o), rfl⟩
  | append_singleton l o ih =>
    rw [List.foldl_append, List.foldl_cons, List.foldl_nil]
    generalize hS : List.foldl (SampleNearestSurface.ScanOverlap W Context Origin)
      ⟨MAX_FLT, none, W.UninitializedVector, false, none⟩ l = S at ih
    by_cases h1 : (Context.bUseInclude
        && !(Context.IncludedActors.lookup o.Actor).isSome) = true
    · have hE : SampleNearestSurface.Eligible W Context Origin o = false := by
        unfold SampleNearestSurface.Eligible
        simp only [Bool.and_eq_true, Bool.not_eq_true'] at h1
        simp [h1.1, h1.2]
      have hStep : SampleNearestSurface.ScanOverlap W Context Origin S o = S := by
        unfold SampleNearestSurface.ScanOverlap
        rw [if_pos h1]
      rw [hStep]
      rcases ih with ⟨hno, hinit⟩ | ⟨Before, Hit, After, hl, hHit, hB, hA, hK⟩
      · left
        refine ⟨?_, hinit⟩
        intro x hx
        rcases List.mem_append.1 hx with hx | hx
        · exact hno x hx
        · rw [List.mem_singleton.1 hx]
          exact hE
      · right
        refine ⟨Before, Hit, After ++ [o], by rw [hl]; simp, hHit, hB, ?_, hK⟩
        intro x hx hxe
        rcases List.mem_append.1 hx with hx | hx
        · exact hA x hx hxe
        · rw [List.mem_singleton.1 hx, hE] at hxe
          cases hxe
    · have h1' : (!Context.bUseInclude || (Context.IncludedActors.lookup o.Actor).isSome)
          = true := by
        revert h1
        cases Context.bUseInclude <;> cases (Context.IncludedActors.lookup o.Actor).isSome <;>
          simp
      by_cases h2 : (W.GetClosestPointOnCollision o.Component Origin).1 < 0
      · have hE : SampleNearestSurface.Eligible W Context Origin o = false := by
          unfold SampleNearestSurface.Eligible
          rw [decide_eq_false (not_le.2 h2)]
          simp
        have hStep : SampleNearestSurface.ScanOverlap W Context Origin S o = S := by
          unfold SampleNearestSurface.ScanOverlap
          rw [if_neg h1]
          dsimp only
          rw [if_pos h2]
        rw [hStep]
        rcases ih with ⟨hno, hinit⟩ | ⟨Before, Hit, After, hl, hHit, hB, hA, hK⟩
        · left
          refine ⟨?_, hinit⟩
          intro x hx
          rcases List.mem_append.1 hx with hx | hx
          · exact hno x hx
          · rw [List.mem_singleton.1 hx]
            exact hE
        · right
          refine ⟨Before, Hit, After ++ [o], by rw [hl]; simp, hHit, hB, ?_, hK⟩
          intro x hx hxe
          rcases List.mem_append.1 hx with hx | hx
          · exact hA x hx hxe
          · rw [List.mem_singleton.1 hx, hE] at hxe
            cases hxe
      · by_cases h3 : (W.GetClosestPointOnCollision o.Component Origin).1 < S.MinDist
        · have hStep : SampleNearestSurface.ScanOverlap W Context Origin S o
              = SampleNearestSurface.KeptHit W Context Origin o := by
            unfold SampleNearestSurface.ScanOverlap SampleNearestSurface.KeptHit
            rw [if_neg h1]
            dsimp only
            rw [if_neg h2, if_pos h3]
          rw [hStep]
          right
          rcases ih with ⟨hno, hinit⟩ | ⟨Before, Hit, After, hl, hHit, hB, hA, hK⟩
          · refine ⟨l, o, [], rfl, ?_, ?_, ?_, rfl⟩
            · rw [hinit] at h3
              unfold SampleNearestSurface.Eligible
              rw [h1', decide_eq_true (not_lt.1 h2), decide_eq_true h3]
              rfl
            · intro x hx hxe
              rw [hno x hx] at hxe
              cases hxe
            · intro x hx
              exact absurd hx (List.not_mem_nil x)
          · have hM : S.MinDist = (W.GetClosestPointOnCollision Hit.Component Origin).1 := by
              rw [hK]
              rfl
            rw [hM] at h3
            have hHitlt : (W.GetClosestPointOnCollision Hit.Component Origin).1 < MAX_FLT := by
              unfold SampleNearestSurface.Eligible at hHit
              simp only [Bool.and_eq_true, decide_eq_true_eq] at hHit
              exact hHit.2
            refine ⟨l, o, [], rfl, ?_, ?_, ?_, rfl⟩
            · unfold SampleNearestSurface.Eligible
              rw [h1', decide_eq_true (not_lt.1 h2), decide_eq_true (lt_trans h3 hHitlt)]
              rfl
            · intro x hx hxe
              rw [hl] at hx
              rcases List.mem_append.1 hx with hx | hx
              · exact lt_trans h3 (hB x hx hxe)
              · rcases List.mem_cons.1 hx with hx | hx
                · rw [hx]
                  exact h3
                · exact lt_of_lt_of_le h3 (hA x hx hxe)
            · intro x hx
              exact absurd hx (List.not_mem_nil x)
        · have hStep : SampleNearestSurface.ScanOverlap W Context Origin S o = S := by
            unfold SampleNearestSurface.ScanOverlap
            rw [if_neg h1]
            dsimp only
            rw [if_neg h2, if_neg h3]
          rw [hStep]
          rcases ih with ⟨hno, hinit⟩ | ⟨Before, Hit, After, hl, hHit, hB, hA, hK⟩
          · left
            refine ⟨?_, hinit⟩
            intro x hx
            rcases List.mem_append.1 hx with hx | hx
            · exact hno x hx
            · rw [List.mem_singleton.1 hx]
              rw [hinit] at h3
              unfold SampleNearestSurface.Eligible
              rw [decide_eq_false h3]
              simp
          · right
            refine ⟨Before, Hit, After ++ [o], by rw [hl]; simp, hHit, hB, ?_, hK⟩
            intro x hx hxe
            rcases List.mem_append.1 hx with hx | hx
            · exact hA x hx hxe
            · rw [List.mem_singleton.1 hx]
              have hM : S.MinDist = (W.GetClosestPointOnCollision Hit.Component Origin).1 := by
                rw [hK]
                rfl
              rw [hM] at h3
              exact not_lt.1 h3

/-- C22.  `ProcessOverlapResults` assigns `SampleState[Index]` the success flag its loop
leaves, and the loop leaves it set exactly when some overlap is eligible: its actor is in the
include list when an include list is used, and the distance `d` to its closest point
satisfies `0 <= d < MAX_FLT`.  When there is an eligible overlap, the list of overlaps splits
around an eligible overlap `Hit` such that every eligible overlap before it is strictly
farther and every eligible overlap after it is at least as far; the loop leaves the distance,
the closest point and the component of `Hit`; the distance written to the output and merged
into the scoped maximum is the distance of `Hit`; and the location written to the output is
the closest point of `Hit`, unless complex tracing is enabled and the line trace against the
component of `Hit` through that point hits, in which case it is the location of that hit. -/
theorem SampleNearestSurface_nearest_overlap (W : FWorld)
    (Context : FPCGExSampleNearestSurfaceContext) (P : SampleNearestSurface.FProcessor)
    (Index : Nat) (Point : FPCGPoint) (Scope : FScope) (MaxDistance : double) (Origin : FVector)
    (OutOverlaps : List FOverlapResult) :
    (P.ProcessOverlapResults W Context Index Point Scope MaxDistance Origin
        OutOverlaps).SampleState
      = P.SampleState.set Index
          (some (SampleNearestSurface.ScanOverlaps W Context Origin OutOverlaps).bSuccess)
    ∧ ((SampleNearestSurface.ScanOverlaps W Context Origin OutOverlaps).bSuccess = true
      ↔ ∃ o ∈ OutOverlaps, SampleNearestSurface.Eligible W Context Origin o = true)
    ∧ ((∃ o ∈ OutOverlaps, SampleNearestSurface.Eligible W Context Origin o = true) →
      ∃ Before Hit After, OutOverlaps = Before ++ Hit :: After
        ∧ SampleNearestSurface.Eligible W Context Origin Hit = true
        ∧ (∀ o ∈ Before, SampleNearestSurface.Eligible W Context Origin o = true →
            (W.GetClosestPointOnCollision Hit.Component Origin).1
              < (W.GetClosestPointOnCollision o.Component Origin).1)
        ∧ (∀ o ∈ After, SampleNearestSurface.Eligible W Context Origin o = true →
            (W.GetClosestPointOnCollision Hit.Component Origin).1
              ≤ (W.GetClosestPointOnCollision o.Component Origin).1)
        ∧ SampleNearestSurface.ScanOverlaps W Context Origin OutOverlaps
          = SampleNearestSurface.KeptHit W Context Origin Hit
        ∧ (P.ProcessOverlapResults W Context Index Point Scope MaxDistance Origin
            OutOverlaps).MaxDistanceValue
          = P.MaxDistanceValue.Set Scope (max (P.MaxDistanceValue.Get Scope)
              (W.GetClosestPointOnCollision Hit.Component Origin).1)
        ∧ ∃ Before_outputs Normal bIsInside,
          (P.ProcessOverlapResults W Context Index Point Scope MaxDistance Origin
              OutOverlaps).Outputs
            = P.Outputs ++ Before_outputs ++
              [FSampleOutput.Location Index
                  (if Context.bTraceComplex then
                    match W.LineTraceComponent Hit.Component
                      ((W.GetClosestPointOnCollision Hit.Component Origin).2.sub
                        (W.GetSafeNormal
                          ((W.GetClosestPointOnCollision Hit.Component Origin).2.sub Origin)))
                      ((W.GetClosestPointOnCollision Hit.Component Origin).2.add
                        (W.GetSafeNormal
                          ((W.GetClosestPointOnCollision Hit.Component Origin).2.sub Origin)))
                      P.Writers.PhysMatWriter with
                    | some HitResult => HitResult.Location
                    | none => (W.GetClosestPointOnCollision Hit.Component Origin).2
                  else (W.GetClosestPointOnCollision Hit.Component Origin).2),
                FSampleOutput.Normal Index Normal,
                FSampleOutput.IsInside Index bIsInside,
                FSampleOutput.Distance Index
                  (W.GetClosestPointOnCollision Hit.Component Origin).1,
                FSampleOutput.Success Index true]) := by
  refine ⟨?_, SampleNearestSurface.ScanOverlaps_bSuccess W Context Origin OutOverlaps, ?_⟩
  · unfold SampleNearestSurface.FProcessor.ProcessOverlapResults
    dsimp only
    cases hS : (SampleNearestSurface.ScanOverlaps W Context Origin OutOverlaps).bSuccess
    · rfl
    · rfl
  · rintro ⟨o, ho, hoe⟩
    rcases SampleNearestSurface.ScanOverlaps_first_min W Context Origin OutOverlaps with
      ⟨hno, -⟩ | ⟨Before, Hit, After, hl, hHit, hB, hA, hK⟩
    · rw [hno o ho] at hoe
      cases hoe
    · refine ⟨Before, Hit, After, hl, hHit, hB, hA, hK, ?_, ?_⟩
      · unfold SampleNearestSurface.FProcessor.ProcessOverlapResults
        dsimp only
        rw [hK]
        rfl
      · have hLoc : (P.TraceHit W Context Index
            (SampleNearestSurface.KeptHit W Context Origin Hit)
            (W.GetSafeNormal
              ((W.GetClosestPointOnCollision Hit.Component Origin).2.sub Origin))).1.2.1
            = (if Context.bTraceComplex then
                match W.LineTraceComponent Hit.Component
                  ((W.GetClosestPointOnCollision Hit.Component Origin).2.sub
                    (W.GetSafeNormal
                      ((W.GetClosestPointOnCollision Hit.Component Origin).2.sub Origin)))
                  ((W.GetClosestPointOnCollision Hit.Component Origin).2.add
                    (W.GetSafeNormal
                      ((W.GetClosestPointOnCollision Hit.Component Origin).2.sub Origin)))
                  P.Writers.PhysMatWriter with
                | some HitResult => HitResult.Location
                | none => (W.GetClosestPointOnCollision Hit.Component Origin).2
              else (W.GetClosestPointOnCollision Hit.Component Origin).2) := by
          unfold SampleNearestSurface.FProcessor.TraceHit SampleNearestSurface.KeptHit
          dsimp only
          cases Context.bTraceComplex
          · rfl
          · simp only [if_true]
            cases W.LineTraceComponent Hit.Component
              ((W.GetClosestPointOnCollision Hit.Component Origin).2.sub
                (W.GetSafeNormal
                  ((W.GetClosestPointOnCollision Hit.Component Origin).2.sub Origin)))
              ((W.GetClosestPointOnCollision Hit.Component Origin).2.add
                (W.GetSafeNormal
                  ((W.GetClosestPointOnCollision Hit.Component Origin).2.sub Origin)))
              P.Writers.PhysMatWriter <;> rfl
        unfold SampleNearestSurface.FProcessor.ProcessOverlapResults
        dsimp only
        rw [hK]
        have hb : (SampleNearestSurface.KeptHit W Context Origin Hit).bSuccess = true := rfl
        have hd : (SampleNearestSurface.KeptHit W Context Origin Hit).MinDist
            = (W.GetClosestPointOnCollision Hit.Component Origin).1 := rfl
        have hh : (SampleNearestSurface.KeptHit W Context Origin Hit).HitLocation
            = (W.GetClosestPointOnCollision Hit.Component Origin).2 := rfl
        rw [hb, hd, hh]
        simp only [if_true]
        rw [hLoc, show ∀ (A B C D E : List FSampleOutput),
          A ++ B ++ C ++ D ++ E = A ++ (B ++ C ++ D) ++ E from by intros; simp]
        exact ⟨_, _, _, rfl⟩

theorem SampleNearestSurface.FProcessor.ProcessSinglePoint_SampleState (W : FWorld)
    (Settings : UPCGExSampleNearestSurfaceSettings)
    (Context : FPCGExSampleNearestSurfaceContext)
    (Facade : SampleNearestSurface.FPointDataFacade) (P : SampleNearestSurface.FProcessor)
    (Index : Nat) (Point : FPCGPoint) (Scope : FScope) :
    (Facade.PointFilterCache Index = false → Settings.bProcessFilteredOutAsFails = false →
      P.ProcessSinglePoint W Settings Context Facade Index Point Scope = P)
    ∧ ((Facade.PointFilterCache Index = true ∨ Settings.bProcessFilteredOutAsFails = true) →
      ∃ b, (P.ProcessSinglePoint W Settings Context Facade Index Point Scope).SampleState
        = P.SampleState.set Index (some b)) := by
  unfold SampleNearestSurface.FProcessor.ProcessSinglePoint
  dsimp only
  cases hF : Facade.PointFilterCache Index
  · cases hS : Settings.bProcessFilteredOutAsFails
    · refine ⟨fun _ _ => rfl, ?_⟩
      rintro (h | h) <;> cases h
    · refine ⟨fun _ h => Bool.noConfusion h, fun _ => ⟨false, rfl⟩⟩
  · refine ⟨fun h => Bool.noConfusion h, fun _ => ?_⟩
    simp only [Bool.not_true, Bool.false_eq_true, if_false]
    cases SampleNearestSurface.OutOverlaps W Settings Context
        (Facade.GetInPoint Index).Transform.GetLocation (P.MaxDistance Settings Index) with
    | none => exact ⟨false, rfl⟩
    | some OutOverlaps =>
      dsimp only
      unfold SampleNearestSurface.FProcessor.ProcessOverlapResults
      dsimp only
      cases (SampleNearestSurface.ScanOverlaps W Context
        (Facade.GetInPoint Index).Transform.GetLocation OutOverlaps).bSuccess
      · exact ⟨false, rfl⟩
      · exact ⟨true, rfl⟩

theorem SampleNearestSurface.FProcessor.ProcessPoints_SampleState (W : FWorld)
    (Settings : UPCGExSampleNearestSurfaceSettings)
    (Context : FPCGExSampleNearestSurfaceContext)
    (Facade : SampleNearestSurface.FPointDataFacade) (Index : Nat)
    (Steps : List (Nat × FScope)) (P : SampleNearestSurface.FProcessor) :
    (P.ProcessPoints W Settings Context Facade Steps).SampleState.length = P.SampleState.length
    ∧ (Facade.PointFilterCache Index = false → Settings.bProcessFilteredOutAsFails = false →
      (P.ProcessPoints W Settings Context Facade Steps).SampleState[Index]?
        = P.SampleState[Index]?)
    ∧ ((Facade.PointFilterCache Index = true ∨ Settings.bProcessFilteredOutAsFails = true) →
      Index < P.SampleState.length →
      ((∃ b, P.SampleState[Index]? = some (some b)) ∨ Index ∈ Steps.map Prod.fst) →
      ∃ b, (P.ProcessPoints W Settings Context Facade Steps).SampleState[Index]?
        = some (some b)) := by
  unfold SampleNearestSurface.FProcessor.ProcessPoints
  induction Steps generalizing P with
  | nil =>
    refine ⟨rfl, fun _ _ => rfl, ?_⟩
    rintro - - (h | h)
    · exact h
    · simp at h
  | cons Step Steps ih =>
    simp only [List.foldl_cons]
    obtain ⟨ih1, ih2, ih3⟩ := ih (P.ProcessSinglePoint W Settings Context Facade Step.1
      (Facade.GetInPoint Step.1) Step.2)
    have hstep : (P.ProcessSinglePoint W Settings Context Facade Step.1
          (Facade.GetInPoint Step.1) Step.2).SampleState = P.SampleState
        ∨ ∃ b, (P.ProcessSinglePoint W Settings Context Facade Step.1
          (Facade.GetInPoint Step.1) Step.2).SampleState
            = P.SampleState.set Step.1 (some b) := by
      obtain ⟨s1, s2⟩ := SampleNearestSurface.FProcessor.ProcessSinglePoint_SampleState W
        Settings Context Facade P Step.1 (Facade.GetInPoint Step.1) Step.2
      cases hF : Facade.PointFilterCache Step.1
      · cases hS : Settings.bProcessFilteredOutAsFails
        · left
          rw [s1 hF hS]
        · right
          exact s2 (Or.inr hS)
      · right
        exact s2 (Or.inl hF)
    have hlen : (P.ProcessSinglePoint W Settings Context Facade Step.1
        (Facade.GetInPoint Step.1) Step.2).SampleState.length = P.SampleState.length := by
      rcases hstep with h | ⟨b, h⟩
      · rw [h]
      · rw [h, List.length_set]
    refine ⟨ih1.trans hlen, ?_, ?_⟩
    · intro hF hS
      rw [ih2 hF hS]
      rcases hstep with h | ⟨b, h⟩
      · rw [h]
      · by_cases hj : Step.1 = Index
        · rw [hj] at h ⊢
          rw [(SampleNearestSurface.FProcessor.ProcessSinglePoint_SampleState W
            Settings Context Facade P Index (Facade.GetInPoint Index) Step.2).1 hF hS]
        · rw [h, List.getElem?_set_ne hj]
    · intro hA hi hor
      apply ih3 hA (by rw [hlen]; exact hi)
      by_cases hj : Step.1 = Index
      · left
        obtain ⟨b, hb⟩ := (SampleNearestSurface.FProcessor.ProcessSinglePoint_SampleState W
          Settings Context Facade P Step.1 (Facade.GetInPoint Step.1) Step.2).2
          (by rw [hj]; exact hA)
        refine ⟨b, ?_⟩
        rw [hb, hj, List.getElem?_set_self hi]
      · rcases hor with ⟨b, hb⟩ | hmem
        · left
          refine ⟨b, ?_⟩
          rcases hstep with h | ⟨c, h⟩
          · rw [h]
            exact hb
          · rw [h, List.getElem?_set_ne hj]
            exact hb
        · right
          simp only [List.map_cons, List.mem_cons] at hmem
          rcases hmem with hmem | hmem
          · exact absurd hmem.symm hj
          · exact hmem

theorem PointLoopSteps_fst (Loops : List FScope) :
    (PointLoopSteps Loops).map Prod.fst
      = (Loops.map (fun s => List.range' s.Start s.Count)).flatten := by
  unfold PointLoopSteps
  induction Loops with
  | nil => rfl
  | cons s l ih =>
    simp only [List.map_cons, List.flatten_cons, List.map_append, ih, List.map_map]
    congr 1
    simp [Function.comp_def]

/-- C23.  When `Process` has returned true and the loop over the points has run, for a point
of `[0, NumPoints)`: if the point passes the point filters, or filtered out points are
processed as fails, `SampleState[Index]` has been assigned; if the point does not pass the
filters and filtered out points are not processed as fails, `ProcessSinglePoint` returned
without assigning `SampleState[Index]`, the entry is as `Process` left it, that is not
assigned, and `Write` hands an array with that entry to `PruneFailedSamples`. -/
theorem SampleNearestSurface_sample_state_assignment (W : FWorld)
    (Settings : UPCGExSampleNearestSurfaceSettings)
    (Context : FPCGExSampleNearestSurfaceContext)
    (Facade : SampleNearestSurface.FPointDataFacade) (ChunkSize : Nat)
    (P : SampleNearestSurface.FProcessor)
    (h : SampleNearestSurface.FProcessor.Sampled W Settings Context Facade ChunkSize = some P)
    (Index : Nat) (hi : Index < Facade.GetNum) :
    P.SampleState.length = Facade.GetNum
    ∧ ((Facade.PointFilterCache Index = true ∨ Settings.bProcessFilteredOutAsFails = true) →
      ∃ b, P.SampleState[Index]? = some (some b))
    ∧ (Facade.PointFilterCache Index = false → Settings.bProcessFilteredOutAsFails = false →
      P.SampleState[Index]? = some none ∧ P.Write = none) := by
  unfold SampleNearestSurface.FProcessor.Sampled at h
  dsimp only at h
  split at h
  swap
  · cases h
  rename_i hR
  have hP := (Option.some.inj h).symm
  clear h
  have hState : (SampleNearestSurface.FProcessor.Process Settings Context Facade).2.SampleState
      = List.replicate Facade.GetNum none := by
    revert hR
    unfold SampleNearestSurface.FProcessor.Process
    cases Facade.BaseProcess <;> cases Facade.InitializeOutput <;>
      cases Settings.bUseLocalMaxDistance <;> cases Facade.LocalMaxDistance <;> simp
  generalize (SampleNearestSurface.FProcessor.Process Settings Context Facade).2 = Q
    at hState hP
  unfold SampleNearestSurface.FProcessor.RunPointLoop at hP
  obtain ⟨l1, l2, l3⟩ := SampleNearestSurface.FProcessor.ProcessPoints_SampleState W Settings
    Context Facade Index (PointLoopSteps (SubLoopScopes Facade.GetNum ChunkSize))
    (Q.PrepareLoopScopesForPoints (SubLoopScopes Facade.GetNum ChunkSize))
  rw [← hP] at l1 l2 l3
  have hQ : (Q.PrepareLoopScopesForPoints (SubLoopScopes Facade.GetNum ChunkSize)).SampleState
      = List.replicate Facade.GetNum none := hState
  rw [hQ] at l1 l2 l3
  refine ⟨by simpa using l1, ?_, ?_⟩
  · intro hA
    apply l3 hA (by simpa using hi)
    right
    rw [PointLoopSteps_fst]
    exact SubLoopScopes_cover _ _ _ hi
  · intro hF hS
    have hnone : P.SampleState[Index]? = some none := by
      rw [l2 hF hS]
      simp [hi]
    refine ⟨hnone, ?_⟩
    unfold SampleNearestSurface.FProcessor.Write
    rw [if_neg]
    intro hall
    rw [List.all_eq_true] at hall
    have hmem : (none : Option Bool) ∈ P.SampleState := List.mem_iff_getElem?.2 ⟨Index, hnone⟩
    exact Bool.noConfusion (hall none hmem)

theorem SampleNearestSurface_sample_state_assignment_witness :
    ∃ P, SampleNearestSurface.FProcessor.Sampled SceneWorld (SceneSamplingSettings 300 false)
        SceneSamplingContext SceneSamplingFacadeFiltered 2 = some P
      ∧ 1 < SceneSamplingFacadeFiltered.GetNum
      ∧ SceneSamplingFacadeFiltered.PointFilterCache 1 = false
      ∧ (SceneSamplingSettings 300 false).bProcessFilteredOutAsFails = false
      ∧ (SceneSamplingSettings 300 false).bPruneFailedSamples = true
      ∧ P.SampleState = [some true, none, some true, some true]
      ∧ P.SampleState[1]? = some none
      ∧ P.Write = none := by
  have h1 : (SampleNearestSurface.FProcessor.Sampled SceneWorld (SceneSamplingSettings 300 false)
      SceneSamplingContext SceneSamplingFacadeFiltered 2).isSome = true := by decide
  obtain ⟨P, hP⟩ := Option.isSome_iff_exists.1 h1
  have hS : (SampleNearestSurface.FProcessor.Sampled SceneWorld (SceneSamplingSettings 300 false)
      SceneSamplingContext SceneSamplingFacadeFiltered 2).map (fun P => P.SampleState)
      = some [some true, none, some true, some true] := by decide
  rw [hP] at hS
  have h := (SampleNearestSurface_sample_state_assignment SceneWorld
    (SceneSamplingSettings 300 false) SceneSamplingContext SceneSamplingFacadeFiltered 2 P hP 1
    (by decide)).2.2 rfl rfl
  exact ⟨P, hP, by decide, rfl, rfl, rfl, Option.some.inj hS, h.1, h.2⟩

theorem SampleNearestSurface.FProcessor.ProcessSinglePoint_no_success (W : FWorld)
    (Settings : UPCGExSampleNearestSurfaceSettings)
    (Context : FPCGExSampleNearestSurfaceContext)
    (Facade : SampleNearestSurface.FPointDataFacade) (P : SampleNearestSurface.FProcessor)
    (Index : Nat) (Point : FPCGPoint) (Scope : FScope) :
    (P.ProcessSinglePoint W Settings Context Facade Index Point Scope).Writers = P.Writers
    ∧ ((P.ProcessSinglePoint W Settings Context Facade Index Point Scope).bAnySuccess = false →
      P.bAnySuccess = false
      ∧ (P.ProcessSinglePoint W Settings Context Facade Index Point Scope).MaxDistanceValue
        = P.MaxDistanceValue) := by
  unfold SampleNearestSurface.FProcessor.ProcessSinglePoint
  dsimp only
  cases Facade.PointFilterCache Index
  · cases Settings.bProcessFilteredOutAsFails
    · exact ⟨rfl, fun h => ⟨h, rfl⟩⟩
    · exact ⟨rfl, fun h => ⟨h, rfl⟩⟩
  · simp only [Bool.not_true, Bool.false_eq_true, if_false]
    cases SampleNearestSurface.OutOverlaps W Settings Context
        (Facade.GetInPoint Index).Transform.GetLocation (P.MaxDistance Settings Index) with
    | none => exact ⟨rfl, fun h => ⟨h, rfl⟩⟩
    | some OutOverlaps =>
      dsimp only
      unfold SampleNearestSurface.FProcessor.ProcessOverlapResults
      dsimp only
      cases (SampleNearestSurface.ScanOverlaps W Context
        (Facade.GetInPoint Index).Transform.GetLocation OutOverlaps).bSuccess
      · exact ⟨rfl, fun h => ⟨h, rfl⟩⟩
      · exact ⟨rfl, fun h => Bool.noConfusion h⟩

theorem SampleNearestSurface.FProcessor.ProcessPoints_no_success (W : FWorld)
    (Settings : UPCGExSampleNearestSurfaceSettings)
    (Context : FPCGExSampleNearestSurfaceContext)
    (Facade : SampleNearestSurface.FPointDataFacade)
    (Steps : List (Nat × FScope)) (P : SampleNearestSurface.FProcessor) :
    (P.ProcessPoints W Settings Context Facade Steps).Writers = P.Writers
    ∧ ((P.ProcessPoints W Settings Context Facade Steps).bAnySuccess = false →
      P.bAnySuccess = false
      ∧ (P.ProcessPoints W Settings Context Facade Steps).MaxDistanceValue
        = P.MaxDistanceValue) := by
  unfold SampleNearestSurface.FProcessor.ProcessPoints
  induction Steps generalizing P with
  | nil => exact ⟨rfl, fun h => ⟨h, rfl⟩⟩
  | cons Step Steps ih =>
    simp only [List.foldl_cons]
    obtain ⟨ih1, ih2⟩ := ih (P.ProcessSinglePoint W Settings Context Facade Step.1
      (Facade.GetInPoint Step.1) Step.2)
    obtain ⟨s1, s2⟩ := SampleNearestSurface.FProcessor.ProcessSinglePoint_no_success W
      Settings Context Facade P Step.1 (Facade.GetInPoint Step.1) Step.2
    refine ⟨ih1.trans s1, fun h => ?_⟩
    obtain ⟨h1, h2⟩ := ih2 h
    obtain ⟨h3, h4⟩ := s2 h1
    exact ⟨h3, h2.trans h4⟩

theorem TScopedNumericValue.Max_Make (Loops : List FScope) :
    (TScopedNumericValue.Make Loops 0).Max = 0 := by
  unfold TScopedNumericValue.Max TScopedNumericValue.Make
  dsimp only
  have : ∀ (l : List FScope) (M : Int), M = 0 →
      (l.map (fun _ => (0 : Int))).foldl max M = 0 := by
    intro l
    induction l with
    | nil => exact fun M h => h
    | cons a l ih =>
      intro M h
      rw [List.map_cons, List.foldl_cons]
      exact ih _ (by rw [h]; rfl)
  apply this
  cases Loops <;> rfl

theorem SampleNearestSurface.FProcessor.SampledDistance_congr (W : FWorld)
    (Settings : UPCGExSampleNearestSurfaceSettings)
    (Context : FPCGExSampleNearestSurfaceContext)
    (Facade : SampleNearestSurface.FPointDataFacade) (P Q : SampleNearestSurface.FProcessor)
    (h : Q.MaxDistanceGetter = P.MaxDistanceGetter) (Index : Nat) :
    Q.SampledDistance W Settings Context Facade Index
      = P.SampledDistance W Settings Context Facade Index := by
  unfold SampleNearestSurface.FProcessor.SampledDistance
    SampleNearestSurface.FProcessor.MaxDistance
  rw [h]

theorem SampleNearestSurface.FProcessor.SampledDistance_nonneg (W : FWorld)
    (Settings : UPCGExSampleNearestSurfaceSettings)
    (Context : FPCGExSampleNearestSurfaceContext)
    (Facade : SampleNearestSurface.FPointDataFacade) (P : SampleNearestSurface.FProcessor)
    (Index : Nat) (d : Int)
    (h : P.SampledDistance W Settings Context Facade Index = some d) : 0 ≤ d := by
  unfold SampleNearestSurface.FProcessor.SampledDistance at h
  split at h
  · cases h
  · split at h
    · rename_i OutOverlaps hO
      split at h
      · rename_i hS
        rcases SampleNearestSurface.ScanOverlaps_first_min W Context
          (Facade.GetInPoint Index).Transform.GetLocation OutOverlaps with
          ⟨-, hinit⟩ | ⟨Before, Hit, After, -, hHit, -, -, hK⟩
        · rw [hinit] at hS
          cases hS
        · rw [hK] at h
          unfold SampleNearestSurface.Eligible at hHit
          simp only [Bool.and_eq_true, decide_eq_true_eq] at hHit
          rw [← Option.some.inj h]
          exact hHit.1.2
      · cases h
    · cases h

theorem SampleNearestSurface.FProcessor.ProcessSinglePoint_MaxDistanceValue (W : FWorld)
    (Settings : UPCGExSampleNearestSurfaceSettings)
    (Context : FPCGExSampleNearestSurfaceContext)
    (Facade : SampleNearestSurface.FPointDataFacade) (P : SampleNearestSurface.FProcessor)
    (Index : Nat) (Point : FPCGPoint) (Scope : FScope) :
    (P.ProcessSinglePoint W Settings Context Facade Index Point Scope).MaxDistanceGetter
      = P.MaxDistanceGetter
    ∧ (P.ProcessSinglePoint W Settings Context Facade Index Point Scope).MaxDistanceValue
      = match P.SampledDistance W Settings Context Facade Index with
        | some d => P.MaxDistanceValue.Set Scope (max (P.MaxDistanceValue.Get Scope) d)
        | none => P.MaxDistanceValue := by
  unfold SampleNearestSurface.FProcessor.ProcessSinglePoint
    SampleNearestSurface.FProcessor.SampledDistance
  dsimp only
  cases Facade.PointFilterCache Index
  · cases Settings.bProcessFilteredOutAsFails
    · exact ⟨rfl, rfl⟩
    · exact ⟨rfl, rfl⟩
  · simp only [Bool.not_true, Bool.false_eq_true, if_false]
    cases SampleNearestSurface.OutOverlaps W Settings Context
        (Facade.GetInPoint Index).Transform.GetLocation (P.MaxDistance Settings Index) with
    | none => exact ⟨rfl, rfl⟩
    | some OutOverlaps =>
      dsimp only
      unfold SampleNearestSurface.FProcessor.ProcessOverlapResults
      dsimp only
      cases (SampleNearestSurface.ScanOverlaps W Context
        (Facade.GetInPoint Index).Transform.GetLocation OutOverlaps).bSuccess
      · exact ⟨rfl, rfl⟩
      · exact ⟨rfl, rfl⟩

theorem foldl_max_head_ge (l : List Int) (M : Int) :
    M ≤ l.foldl max M ∧ ∀ x ∈ l, x ≤ l.foldl max M := by
  have h := foldl_max_ge (fun x : Int => x) l M
  exact h

theorem foldl_max_head_mem (l : List Int) (M : Int) :
    l.foldl max M = M ∨ l.foldl max M ∈ l := by
  rcases foldl_max_mem (fun x : Int => x) l M with h | ⟨o, ho, h⟩
  · exact Or.inl h
  · right
    have h2 : l.foldl max M = o := h
    rw [h2]
    exact ho

theorem TScopedNumericValue.Max_ge (V : TScopedNumericValue) :
    ∀ x ∈ V.Values, x ≤ V.Max :=
  (foldl_max_head_ge V.Values (V.Values.headD 0)).2

theorem TScopedNumericValue.Max_mem (V : TScopedNumericValue) (h : V.Values ≠ []) :
    V.Max ∈ V.Values := by
  unfold TScopedNumericValue.Max
  rcases foldl_max_head_mem V.Values (V.Values.headD 0) with h1 | h1
  · rw [h1]
    cases hv : V.Values with
    | nil => exact absurd hv h
    | cons a l => exact List.mem_cons_self _ _
  · exact h1

theorem TScopedNumericValue.Max_Set (V : TScopedNumericValue) (Scope : FScope) (d : Int)
    (h : Scope.LoopIndex < V.Values.length) :
    (V.Set Scope (max (V.Get Scope) d)).Max = max V.Max d := by
  have hne : V.Values ≠ [] := by
    intro hv
    rw [hv] at h
    exact absurd h (Nat.not_lt_zero _)
  have hget : V.Get Scope = V.Values[Scope.LoopIndex] := by
    unfold TScopedNumericValue.Get
    rw [List.getD_eq_getElem?_getD, List.getElem?_eq_getElem h]
    rfl
  have hne2 : (V.Set Scope (max (V.Get Scope) d)).Values ≠ [] := by
    unfold TScopedNumericValue.Set
    intro hv
    have := congrArg List.length hv
    simp only [List.length_set, List.length_nil] at this
    omega
  apply le_antisymm
  · have hm : (V.Set Scope (max (V.Get Scope) d)).Max
        ∈ V.Values.set Scope.LoopIndex (max (V.Get Scope) d) :=
      TScopedNumericValue.Max_mem _ hne2
    rcases List.mem_or_eq_of_mem_set hm with hm | hm
    · exact le_trans (TScopedNumericValue.Max_ge V _ hm) (le_max_left _ _)
    · rw [hm]
      apply max_le_max _ (le_refl d)
      rw [hget]
      exact TScopedNumericValue.Max_ge V _ (List.getElem_mem _)
  · have hnew : max (V.Get Scope) d ≤ (V.Set Scope (max (V.Get Scope) d)).Max := by
      apply TScopedNumericValue.Max_ge
      show max (V.Get Scope) d ∈ V.Values.set Scope.LoopIndex (max (V.Get Scope) d)
      exact List.mem_iff_getElem.2 ⟨Scope.LoopIndex, by rw [List.length_set]; exact h,
        by rw [List.getElem_set_self]⟩
    apply max_le
    · obtain ⟨j, hj, hjv⟩ := List.mem_iff_getElem.1 (TScopedNumericValue.Max_mem V hne)
      by_cases hji : j = Scope.LoopIndex
      · subst hji
        rw [← hjv, ← hget]
        exact le_trans (le_max_left _ _) hnew
      · rw [← hjv]
        apply TScopedNumericValue.Max_ge
        show V.Values[j] ∈ V.Values.set Scope.LoopIndex (max (V.Get Scope) d)
        exact List.mem_iff_getElem.2 ⟨j, by rw [List.length_set]; exact hj,
          by rw [List.getElem_set_ne (Ne.symm hji)]⟩
    · exact le_trans (le_max_right _ _) hnew
theorem SampleNearestSurface.FProcessor.ProcessPoints_MaxDistanceValue (W : FWorld)
    (Settings : UPCGExSampleNearestSurfaceSettings)
    (Context : FPCGExSampleNearestSurfaceContext)
    (Facade : SampleNearestSurface.FPointDataFacade)
    (Steps : List (Nat × FScope)) (P : SampleNearestSurface.FProcessor)
    (hv : ∀ Step ∈ Steps, Step.2.LoopIndex < P.MaxDistanceValue.Values.length) :
    (P.ProcessPoints W Settings Context Facade Steps).MaxDistanceGetter = P.MaxDistanceGetter
    ∧ (P.ProcessPoints W Settings Context Facade Steps).MaxDistanceValue.Max
      = (Steps.filterMap (fun Step => P.SampledDistance W Settings Context Facade Step.1)).foldl
          max P.MaxDistanceValue.Max := by
  unfold SampleNearestSurface.FProcessor.ProcessPoints
  induction Steps generalizing P with
  | nil => exact ⟨rfl, rfl⟩
  | cons Step Steps ih =>
    simp only [List.foldl_cons]
    obtain ⟨s1, s2⟩ := SampleNearestSurface.FProcessor.ProcessSinglePoint_MaxDistanceValue W
      Settings Context Facade P Step.1 (Facade.GetInPoint Step.1) Step.2
    have hlen : (P.ProcessSinglePoint W Settings Context Facade Step.1
        (Facade.GetInPoint Step.1) Step.2).MaxDistanceValue.Values.length
        = P.MaxDistanceValue.Values.length := by
      rw [s2]
      cases P.SampledDistance W Settings Context Facade Step.1 with
      | none => rfl
      | some d => exact List.length_set _ _ _
    obtain ⟨ih1, ih2⟩ := ih (P.ProcessSinglePoint W Settings Context Facade Step.1
      (Facade.GetInPoint Step.1) Step.2)
      (fun S hS => by rw [hlen]; exact hv S (List.mem_cons_of_mem _ hS))
    refine ⟨ih1.trans s1, ?_⟩
    rw [ih2]
    have hcongr : (fun S : Nat × FScope =>
          (P.ProcessSinglePoint W Settings Context Facade Step.1
            (Facade.GetInPoint Step.1) Step.2).SampledDistance W Settings Context Facade S.1)
        = (fun S : Nat × FScope => P.SampledDistance W Settings Context Facade S.1) := by
      funext S
      exact SampleNearestSurface.FProcessor.SampledDistance_congr W Settings Context Facade
        P _ s1 S.1
    rw [hcongr, s2, List.filterMap_cons]
    cases hd : P.SampledDistance W Settings Context Facade Step.1 with
    | none => rfl
    | some d =>
      dsimp only
      rw [List.foldl_cons,
        TScopedNumericValue.Max_Set _ _ _ (hv Step (List.mem_cons_self _ _))]

theorem SubLoopScopes_LoopIndex (Count ChunkSize : Nat) :
    ∀ s ∈ SubLoopScopes Count ChunkSize, s.LoopIndex < (SubLoopScopes Count ChunkSize).length := by
  intro s hs
  unfold SubLoopScopes at hs ⊢
  rw [List.length_map, List.length_range]
  obtain ⟨i, hi, rfl⟩ := List.mem_map.1 hs
  exact List.mem_range.1 hi

theorem PointLoopSteps_mem (Loops : List FScope) :
    ∀ Step ∈ PointLoopSteps Loops, Step.2 ∈ Loops := by
  intro Step hS
  unfold PointLoopSteps at hS
  simp only [List.mem_flatten, List.mem_map] at hS
  obtain ⟨l, ⟨s, hs, rfl⟩, hl⟩ := hS
  obtain ⟨i, -, rfl⟩ := List.mem_map.1 hl
  exact hs

theorem SampleNearestSurface.FProcessor.Sampled_Max (W : FWorld)
    (Settings : UPCGExSampleNearestSurfaceSettings)
    (Context : FPCGExSampleNearestSurfaceContext)
    (Facade : SampleNearestSurface.FPointDataFacade) (ChunkSize : Nat)
    (P : SampleNearestSurface.FProcessor)
    (h : SampleNearestSurface.FProcessor.Sampled W Settings Context Facade ChunkSize = some P) :
    P.MaxDistanceValue.Max
      = ((PointLoopSteps (SubLoopScopes Facade.GetNum ChunkSize)).filterMap
          (fun Step => P.SampledDistance W Settings Context Facade Step.1)).foldl max 0 := by
  unfold SampleNearestSurface.FProcessor.Sampled at h
  dsimp only at h
  split at h
  swap
  · cases h
  have hP := (Option.some.inj h).symm
  clear h
  generalize (SampleNearestSurface.FProcessor.Process Settings Context Facade).2 = Q at hP
  unfold SampleNearestSurface.FProcessor.RunPointLoop at hP
  obtain ⟨l1, l2⟩ := SampleNearestSurface.FProcessor.ProcessPoints_MaxDistanceValue W Settings
    Context Facade (PointLoopSteps (SubLoopScopes Facade.GetNum ChunkSize))
    (Q.PrepareLoopScopesForPoints (SubLoopScopes Facade.GetNum ChunkSize))
    (fun Step hS => by
      show Step.2.LoopIndex
        < (TScopedNumericValue.Make (SubLoopScopes Facade.GetNum ChunkSize) 0).Values.length
      unfold TScopedNumericValue.Make
      rw [List.length_map]
      exact SubLoopScopes_LoopIndex _ _ _ (PointLoopSteps_mem _ Step hS))
  rw [← hP] at l1 l2
  rw [l2]
  have hM : (Q.PrepareLoopScopesForPoints
      (SubLoopScopes Facade.GetNum ChunkSize)).MaxDistanceValue.Max = 0 :=
    TScopedNumericValue.Max_Make _
  rw [hM]
  congr 2
  funext Step
  exact (SampleNearestSurface.FProcessor.SampledDistance_congr W Settings Context Facade
    _ P l1 Step.1).symm

/-- C24.  When `Process` has returned true and the loop over the points has run, with
normalized distance output enabled and a distance buffer: `OnPointsProcessingComplete` starts
the loop over the range with `MaxSampledDistance` set to the largest of the scoped values;
`ProcessSingleRangeIteration` divides by zero exactly when that value is 0; and when no point
was sampled successfully every scoped value is the 0 it started from, so the divisor is 0 and
every iteration of the loop divides by zero.  The divisor is not negative; it is at least the
distance of every successful sample, each of which is not negative; it is 0 or the distance of
a successful sample; and when it is not 0 the distance of a successful sample divided by it
lies between 0 and 1. -/
theorem SampleNearestSurface_normalization_divisor (W : FWorld)
    (Settings : UPCGExSampleNearestSurfaceSettings)
    (Context : FPCGExSampleNearestSurfaceContext)
    (Facade : SampleNearestSurface.FPointDataFacade) (ChunkSize : Nat)
    (P : SampleNearestSurface.FProcessor)
    (h : SampleNearestSurface.FProcessor.Sampled W Settings Context Facade ChunkSize = some P)
    (hN : Settings.bOutputNormalizedDistance = true)
    (hW : Facade.Writers.DistanceWriter = true) :
    (P.OnPointsProcessingComplete Settings).1 = true
    ∧ (P.OnPointsProcessingComplete Settings).2.MaxSampledDistance = P.MaxDistanceValue.Max
    ∧ (∀ D, (P.OnPointsProcessingComplete Settings).2.ProcessSingleRangeIteration Settings D
        = none ↔ P.MaxDistanceValue.Max = 0)
    ∧ (P.bAnySuccess = false →
      P.MaxDistanceValue = TScopedNumericValue.Make (SubLoopScopes Facade.GetNum ChunkSize) 0
      ∧ P.MaxDistanceValue.Max = 0
      ∧ ∀ D, (P.OnPointsProcessingComplete Settings).2.ProcessSingleRangeIteration Settings D
        = none)
    ∧ 0 ≤ P.MaxDistanceValue.Max
    ∧ (∀ Index, Index < Facade.GetNum → ∀ d : Int,
      P.SampledDistance W Settings Context Facade Index = some d →
        0 ≤ d ∧ d ≤ P.MaxDistanceValue.Max)
    ∧ (P.MaxDistanceValue.Max = 0
      ∨ ∃ Index, P.SampledDistance W Settings Context Facade Index
          = some P.MaxDistanceValue.Max)
    ∧ (P.MaxDistanceValue.Max ≠ 0 → ∀ Index, Index < Facade.GetNum → ∀ d : Int,
      P.SampledDistance W Settings Context Facade Index = some d →
        0 ≤ d * 100 / P.MaxDistanceValue.Max ∧ d * 100 / P.MaxDistanceValue.Max ≤ 100) := by
  have hMax := SampleNearestSurface.FProcessor.Sampled_Max W Settings Context Facade ChunkSize
    P h
  have hnn : 0 ≤ P.MaxDistanceValue.Max := by
    rw [hMax]
    exact (foldl_max_head_ge _ 0).1
  have hge : ∀ Index, Index < Facade.GetNum → ∀ d : Int,
      P.SampledDistance W Settings Context Facade Index = some d →
        0 ≤ d ∧ d ≤ P.MaxDistanceValue.Max := by
    intro Index hi d hd
    refine ⟨SampleNearestSurface.FProcessor.SampledDistance_nonneg W Settings Context Facade
      P Index d hd, ?_⟩
    have hmem : Index ∈ (PointLoopSteps (SubLoopScopes Facade.GetNum ChunkSize)).map
        Prod.fst := by
      rw [PointLoopSteps_fst]
      exact SubLoopScopes_cover _ _ _ hi
    obtain ⟨Step, hS, hSi⟩ := List.mem_map.1 hmem
    rw [hMax]
    apply (foldl_max_head_ge _ 0).2
    exact List.mem_filterMap.2 ⟨Step, hS, by rw [hSi]; exact hd⟩
  have hatt : P.MaxDistanceValue.Max = 0
      ∨ ∃ Index, P.SampledDistance W Settings Context Facade Index
          = some P.MaxDistanceValue.Max := by
    rcases foldl_max_head_mem ((PointLoopSteps (SubLoopScopes Facade.GetNum
      ChunkSize)).filterMap
        (fun Step => P.SampledDistance W Settings Context Facade Step.1)) 0 with h0 | hm
    · left
      rw [hMax]
      exact h0
    · right
      rw [← hMax] at hm
      obtain ⟨Step, -, hS⟩ := List.mem_filterMap.1 hm
      exact ⟨Step.1, hS⟩
  have hnorm : P.MaxDistanceValue.Max ≠ 0 → ∀ Index, Index < Facade.GetNum → ∀ d : Int,
      P.SampledDistance W Settings Context Facade Index = some d →
        0 ≤ d * 100 / P.MaxDistanceValue.Max ∧ d * 100 / P.MaxDistanceValue.Max ≤ 100 := by
    intro hne Index hi d hd
    obtain ⟨h0, h1⟩ := hge Index hi d hd
    have hpos : 0 < P.MaxDistanceValue.Max := lt_of_le_of_ne hnn (Ne.symm hne)
    generalize P.MaxDistanceValue.Max = M at h1 hpos
    constructor
    · exact Int.ediv_nonneg (mul_nonneg h0 (by decide)) (le_of_lt hpos)
    · apply Int.ediv_le_of_le_mul hpos
      have : d * 100 ≤ M * 100 := Int.mul_le_mul_of_nonneg_right h1 (by decide)
      rw [mul_comm 100 M]
      exact this
  unfold SampleNearestSurface.FProcessor.Sampled at h
  dsimp only at h
  split at h
  swap
  · cases h
  rename_i hR
  have hP := (Option.some.inj h).symm
  clear h
  have hWr : (SampleNearestSurface.FProcessor.Process Settings Context Facade).2.Writers
      = Facade.Writers := by
    revert hR
    unfold SampleNearestSurface.FProcessor.Process
    cases Facade.BaseProcess <;> cases Facade.InitializeOutput <;>
      cases Settings.bUseLocalMaxDistance <;> cases Facade.LocalMaxDistance <;> simp
  generalize (SampleNearestSurface.FProcessor.Process Settings Context Facade).2 = Q at hWr hP
  unfold SampleNearestSurface.FProcessor.RunPointLoop at hP
  obtain ⟨l1, l2⟩ := SampleNearestSurface.FProcessor.ProcessPoints_no_success W Settings
    Context Facade (PointLoopSteps (SubLoopScopes Facade.GetNum ChunkSize))
    (Q.PrepareLoopScopesForPoints (SubLoopScopes Facade.GetNum ChunkSize))
  rw [← hP] at l1 l2
  have hPW : P.Writers.DistanceWriter = true := by
    rw [l1]
    show Q.Writers.DistanceWriter = true
    rw [hWr]
    exact hW
  have hO : P.OnPointsProcessingComplete Settings
      = (true, { P with MaxSampledDistance := P.MaxDistanceValue.Max }) := by
    unfold SampleNearestSurface.FProcessor.OnPointsProcessingComplete
    rw [hN, hPW]
    rfl
  have hiff : ∀ D, (P.OnPointsProcessingComplete Settings).2.ProcessSingleRangeIteration
      Settings D = none ↔ P.MaxDistanceValue.Max = 0 := by
    intro D
    rw [hO]
    unfold SampleNearestSurface.FProcessor.ProcessSingleRangeIteration
    dsimp only
    by_cases hz : P.MaxDistanceValue.Max = 0
    · simp [hz]
    · simp [hz]
  refine ⟨by rw [hO], by rw [hO], hiff, ?_, hnn, hge, hatt, hnorm⟩
  intro hA
  have hM : P.MaxDistanceValue
      = TScopedNumericValue.Make (SubLoopScopes Facade.GetNum ChunkSize) 0 := (l2 hA).2
  have hZ : P.MaxDistanceValue.Max = 0 := by
    rw [hM]
    exact TScopedNumericValue.Max_Make _
  exact ⟨hM, hZ, fun D => (hiff D).2 hZ⟩

theorem SampleNearestSurface_normalization_divisor_witness :
    (∃ P, SampleNearestSurface.FProcessor.Sampled SceneWorld (SceneSamplingSettings 200 false)
        SceneSamplingContext SceneSamplingFacade 2 = some P
      ∧ (SceneSamplingSettings 200 false).bOutputNormalizedDistance = true
      ∧ SceneSamplingFacade.Writers.DistanceWriter = true
      ∧ P.bAnySuccess = false
      ∧ (P.OnPointsProcessingComplete (SceneSamplingSettings 200 false)).1 = true
      ∧ (P.OnPointsProcessingComplete (SceneSamplingSettings 200 false)).2.MaxSampledDistance
          = 0
      ∧ ∀ D, (P.OnPointsProcessingComplete
          (SceneSamplingSettings 200 false)).2.ProcessSingleRangeIteration
            (SceneSamplingSettings 200 false) D = none)
    ∧ (SampleNearestSurface.FProcessor.Sampled SceneWorldInside
        (SceneSamplingSettings 300 false) SceneSamplingContext SceneSamplingFacade 2).map
        (fun P => (P.SampleState, P.MaxDistanceValue,
          (P.OnPointsProcessingComplete (SceneSamplingSettings 300 false)).1,
          (P.OnPointsProcessingComplete (SceneSamplingSettings 300 false)).2.MaxSampledDistance,
          (P.OnPointsProcessingComplete
            (SceneSamplingSettings 300 false)).2.ProcessSingleRangeIteration
              (SceneSamplingSettings 300 false)
              (SampleNearestSurface.DistanceValue P.Outputs 0 0)))
      = some ([some true, some true, some true, some true], ⟨[0, 0]⟩, true, 0, none) := by
  have h1 : (SampleNearestSurface.FProcessor.Sampled SceneWorld (SceneSamplingSettings 200 false)
      SceneSamplingContext SceneSamplingFacade 2).isSome = true := by decide
  obtain ⟨P, hP⟩ := Option.isSome_iff_exists.1 h1
  have hA : (SampleNearestSurface.FProcessor.Sampled SceneWorld (SceneSamplingSettings 200 false)
      SceneSamplingContext SceneSamplingFacade 2).map (fun P => P.bAnySuccess)
      = some false := by decide
  rw [hP] at hA
  have hA : P.bAnySuccess = false := Option.some.inj hA
  obtain ⟨t1, t2, -, t4, -⟩ := SampleNearestSurface_normalization_divisor SceneWorld
    (SceneSamplingSettings 200 false) SceneSamplingContext SceneSamplingFacade 2 P hP rfl rfl
  exact ⟨⟨P, hP, rfl, rfl, hA, t1, t2.trans (t4 hA).2.1, (t4 hA).2.2⟩, by decide⟩

theorem FProbeProgram.Run_edges (Index : Nat) (prog : FProbeProgram)
    (c : Option (TSet FInt32Vector)) (e : TSet uint64) :
    ∀ k, k ∈ (prog.Run Index c e).1.2.Elements ↔
      k ∈ e.Elements ∨ ∃ C ∈ (prog.Run Index c e).2, k = H64U Index C.PointIndex := by
  cases c with
  | some s => exact (FProbeProgram.Run_some Index prog s e).2
  | none =>
    induction prog generalizing e with
    | Done => simp [FProbeProgram.Run]
    | Try C Next ih =>
      intro k
      simp only [FProbeProgram.Run, TryConnect, Option.map_none', if_true]
      rw [ih true (e.Add (H64U Index C.PointIndex)) k, TSet.mem_Add]
      simp only [List.mem_cons, exists_eq_or_imp]
      constructor
      · rintro ((hk | hk) | hk)
        · exact Or.inl hk
        · exact Or.inr (Or.inl hk)
        · exact Or.inr (Or.inr hk)
      · rintro (hk | hk | hk)
        · exact Or.inl (Or.inl hk)
        · exact Or.inl (Or.inr hk)
        · exact Or.inr hk

theorem FProbeProgram.Run_within (Index : Nat) (Cs : List FCandidate) (prog : FProbeProgram)
    (h : prog.Within Cs) (c : Option (TSet FInt32Vector)) (e : TSet uint64) :
    ∀ C ∈ (prog.Run Index c e).2, C ∈ Cs := by
  induction prog generalizing c e with
  | Done => simp [FProbeProgram.Run]
  | Try C Next ih =>
    intro D hD
    simp only [FProbeProgram.Run] at hD
    obtain ⟨h1, h2⟩ := h
    split at hD
    · rcases List.mem_cons.1 hD with hD | hD
      · rw [hD]
        exact h1
      · exact ih _ (h2 _) _ _ D hD
    · exact ih _ (h2 _) _ _ D hD

theorem ProbeAdds_refl (Index : Nat) (c : Option (TSet FInt32Vector)) (e : TSet uint64) :
    ProbeAdds Index c e c e [] :=
  ⟨rfl, fun s hs => ⟨s, hs, by simp⟩, fun k => by simp⟩

theorem ProbeAdds_trans {Index : Nat} {c1 c2 c3 : Option (TSet FInt32Vector)}
    {e1 e2 e3 : TSet uint64} {A B : List FCandidate}
    (h1 : ProbeAdds Index c1 e1 c2 e2 A) (h2 : ProbeAdds Index c2 e2 c3 e3 B) :
    ProbeAdds Index c1 e1 c3 e3 (A ++ B) := by
  obtain ⟨a1, a2, a3⟩ := h1
  obtain ⟨b1, b2, b3⟩ := h2
  refine ⟨b1.trans a1, ?_, ?_⟩
  · intro s hs
    obtain ⟨t, ht, hte⟩ := a2 s hs
    obtain ⟨u, hu, hue⟩ := b2 t ht
    exact ⟨u, hu, by rw [hue, hte, List.map_append, List.append_assoc]⟩
  · intro k
    rw [b3 k, a3 k]
    simp only [List.mem_append]
    constructor
    · rintro ((hk | ⟨C, hC, rfl⟩) | ⟨C, hC, rfl⟩)
      · exact Or.inl hk
      · exact Or.inr ⟨C, Or.inl hC, rfl⟩
      · exact Or.inr ⟨C, Or.inr hC, rfl⟩
    · rintro (hk | ⟨C, hC | hC, rfl⟩)
      · exact Or.inl (Or.inl hk)
      · exact Or.inl (Or.inr ⟨C, hC, rfl⟩)
      · exact Or.inr ⟨C, hC, rfl⟩

theorem ProbeAdds_run (Index : Nat) (prog : FProbeProgram) (c : Option (TSet FInt32Vector))
    (e : TSet uint64) :
    ProbeAdds Index c e (c.map (fun _ => (prog.Run Index c e).1.1)) (prog.Run Index c e).1.2
      (prog.Run Index c e).2 := by
  refine ⟨by cases c <;> rfl, ?_, FProbeProgram.Run_edges Index prog c e⟩
  intro s hs
  subst hs
  exact ⟨_, rfl, (FProbeProgram.Run_some Index prog s e).1⟩

theorem ProbeAdds_fold {χ : Type} (Index : Nat) (q : FCandidate → Prop) (l : List χ)
    (mk : χ → Option (TSet FInt32Vector) → Option (TSet FInt32Vector) → FCall)
    (eff : χ → Option (TSet FInt32Vector) → TSet uint64 → FProbeEffect)
    (h : ∀ x ∈ l, ∃ prog : FProbeProgram,
      (∀ c e, ∀ C ∈ (prog.Run Index c e).2, q C)
      ∧ ∀ c e, eff x c e = (prog.Run Index c e).1) (S : FProbeState) :
    ∃ Added, (∀ C ∈ Added, q C)
      ∧ ProbeAdds Index S.Coincidence S.UniqueEdges
        (l.foldl (fun S x => S.Apply (mk x) (eff x S.Coincidence S.UniqueEdges)) S).Coincidence
        (l.foldl (fun S x => S.Apply (mk x) (eff x S.Coincidence S.UniqueEdges)) S).UniqueEdges
        Added := by
  induction l generalizing S with
  | nil => exact ⟨[], fun C hC => absurd hC (List.not_mem_nil C), ProbeAdds_refl _ _ _⟩
  | cons x l ih =>
    simp only [List.foldl_cons]
    obtain ⟨prog, hq, hp⟩ := h x (List.mem_cons_self _ _)
    obtain ⟨B, hB, hAB⟩ := ih (fun y hy => h y (List.mem_cons_of_mem _ hy))
      (S.Apply (mk x) (eff x S.Coincidence S.UniqueEdges))
    refine ⟨(prog.Run Index S.Coincidence S.UniqueEdges).2 ++ B, ?_, ?_⟩
    · intro C hC
      rcases List.mem_append.1 hC with hC | hC
      · exact hq _ _ C hC
      · exact hB C hC
    · have hstep : ProbeAdds Index S.Coincidence S.UniqueEdges
          (S.Apply (mk x) (eff x S.Coincidence S.UniqueEdges)).Coincidence
          (S.Apply (mk x) (eff x S.Coincidence S.UniqueEdges)).UniqueEdges
          (prog.Run Index S.Coincidence S.UniqueEdges).2 := by
        rw [hp]
        exact ProbeAdds_run Index prog S.Coincidence S.UniqueEdges
      exact ProbeAdds_trans hstep hAB

theorem enum_snd_mem {α : Type} (l : List α) (x : Nat × α) (h : x ∈ l.enum) : x.2 ∈ l := by
  have := List.mem_map_of_mem Prod.snd h
  rw [List.enum_map_snd] at this
  exact this

theorem FProcessor.RunSharedProbes_Adds (P : FProcessor) (Index : Nat) (PointCopy : FPCGPoint)
    (Candidates : List FCandidate) (S : FProbeState)
    (h : ∀ Op ∈ P.SharedProbeOperations, Op.FollowsProtocol) :
    ∃ Added, (∀ C ∈ Added, C ∈ Candidates)
      ∧ ProbeAdds Index S.Coincidence S.UniqueEdges
        (P.RunSharedProbes Index PointCopy Candidates S).Coincidence
        (P.RunSharedProbes Index PointCopy Candidates S).UniqueEdges Added := by
  unfold FProcessor.RunSharedProbes
  apply ProbeAdds_fold Index (fun C => C ∈ Candidates) P.SharedProbeOperations.enum
    (fun x => FCall.ProcessCandidates x.1 Index PointCopy Candidates)
    (fun x c e => x.2.ProcessCandidates Index PointCopy Candidates c P.CWCoincidenceTolerance e)
  intro x hx
  obtain ⟨prog, hw, hp⟩ := (h x.2 (enum_snd_mem _ x hx)).2.1 Index PointCopy Candidates
    P.CWCoincidenceTolerance
  exact ⟨prog, fun c e => FProbeProgram.Run_within Index Candidates prog hw c e, hp⟩

theorem FProcessor.SearchPass_Adds (E : FEngine) (P : FProcessor) (Index : Nat)
    (PointCopy : FPCGPoint) (BestCandidates : List FBestCandidate) (S0 : FProbeState)
    (hc : ∀ Op ∈ P.ChainProbeOperations, Op.FollowsProtocol)
    (hs : ∀ Op ∈ P.SharedProbeOperations, Op.FollowsProtocol) :
    ∃ Added, (∀ C ∈ Added, C ∈ P.Discovered E Index ∨ C ∈ P.SharedCandidates E Index)
      ∧ ProbeAdds Index S0.Coincidence S0.UniqueEdges
        (P.SearchPass E Index PointCopy BestCandidates S0).Coincidence
        (P.SearchPass E Index PointCopy BestCandidates S0).UniqueEdges Added := by
  unfold FProcessor.SearchPass
  dsimp only
  obtain ⟨hC, -⟩ := FProcessor.ProcessPoint_fold E P Index PointCopy
    (ReadTransform E P.CachedTransforms Index).GetLocation
    (match P.Octree with
      | some O => O.FindElementsWithBoundsTest
          ⟨(ReadTransform E P.CachedTransforms Index).GetLocation,
            FVector.Splat (P.MaxRadius Index)⟩
      | none => [])
    ⟨[], BestCandidates, S0.Calls ++ [FCall.FindElementsWithBoundsTest
      ⟨(ReadTransform E P.CachedTransforms Index).GetLocation,
        FVector.Splat (P.MaxRadius Index)⟩]⟩
  simp only [List.nil_append] at hC
  have hD : (List.filter (fun Item => decide (Item.Index ≠ Index))
      (match P.Octree with
        | some O => O.FindElementsWithBoundsTest
            ⟨(ReadTransform E P.CachedTransforms Index).GetLocation,
              FVector.Splat (P.MaxRadius Index)⟩
        | none => [])).map
      (fun Item => P.MakeCandidate E (ReadTransform E P.CachedTransforms Index).GetLocation
        Item.Index) = P.Discovered E Index := rfl
  rw [hD] at hC
  generalize List.foldl _ _ _ = Q at hC
  rw [hC]
  generalize hS1 : (⟨S0.Coincidence, S0.UniqueEdges, Q.Calls⟩ : FProbeState) = S1
  have h01 : S1.Coincidence = S0.Coincidence ∧ S1.UniqueEdges = S0.UniqueEdges := by
    rw [← hS1]
    exact ⟨rfl, rfl⟩
  have e2 : ∃ A, (∀ C ∈ A, C ∈ P.Discovered E Index)
      ∧ ProbeAdds Index S1.Coincidence S1.UniqueEdges
        (if P.NumChainedOps > 0 then
          P.ChainProbeOperations.enum.foldl
            (fun S x =>
              S.Apply (FCall.ProcessBestCandidate x.1 Index PointCopy (P.Discovered E Index))
                (x.2.ProcessBestCandidate Index PointCopy
                  (Q.BestCandidates.getD x.1 FBestCandidate.Default) (P.Discovered E Index)
                  S.Coincidence P.CWCoincidenceTolerance S.UniqueEdges))
            S1
        else S1).Coincidence
        (if P.NumChainedOps > 0 then
          P.ChainProbeOperations.enum.foldl
            (fun S x =>
              S.Apply (FCall.ProcessBestCandidate x.1 Index PointCopy (P.Discovered E Index))
                (x.2.ProcessBestCandidate Index PointCopy
                  (Q.BestCandidates.getD x.1 FBestCandidate.Default) (P.Discovered E Index)
                  S.Coincidence P.CWCoincidenceTolerance S.UniqueEdges))
            S1
        else S1).UniqueEdges A := by
    by_cases hN : P.NumChainedOps > 0
    · rw [if_pos hN]
      apply ProbeAdds_fold Index (fun C => C ∈ P.Discovered E Index)
        P.ChainProbeOperations.enum
        (fun x => FCall.ProcessBestCandidate x.1 Index PointCopy (P.Discovered E Index))
        (fun x c e => x.2.ProcessBestCandidate Index PointCopy
          (Q.BestCandidates.getD x.1 FBestCandidate.Default) (P.Discovered E Index) c
          P.CWCoincidenceTolerance e)
      intro x hx
      obtain ⟨prog, hw, hp⟩ := (hc x.2 (enum_snd_mem _ x hx)).1 Index PointCopy
        (Q.BestCandidates.getD x.1 FBestCandidate.Default) (P.Discovered E Index)
        P.CWCoincidenceTolerance
      exact ⟨prog, fun c e => FProbeProgram.Run_within Index _ prog hw c e, hp⟩
    · rw [if_neg hN]
      exact ⟨[], fun C hC => absurd hC (List.not_mem_nil C), ProbeAdds_refl _ _ _⟩
  generalize (if P.NumChainedOps > 0 then _ else S1) = S2 at e2 ⊢
  obtain ⟨A, hA, hAdds⟩ := e2
  rw [h01.1, h01.2] at hAdds
  by_cases hE : (P.Discovered E Index).isEmpty = true
  · simp only [hE, Bool.not_true, Bool.false_eq_true, if_false]
    obtain ⟨B, hB, hBAdds⟩ := FProcessor.RunSharedProbes_Adds P Index PointCopy
      (P.Discovered E Index) S2 hs
    exact ⟨A ++ B, fun C hC => Or.inl ((List.mem_append.1 hC).elim (hA C) (hB C)),
      ProbeAdds_trans hAdds hBAdds⟩
  · simp only [hE, Bool.not_false, if_true]
    obtain ⟨B, hB, hBAdds⟩ := FProcessor.RunSharedProbes_Adds P Index PointCopy
      (E.AlgoSort ByDistance (P.Discovered E Index))
      { S2 with Calls := S2.Calls ++ [FCall.AlgoSort (P.Discovered E Index)] } hs
    refine ⟨A ++ B, ?_, ProbeAdds_trans hAdds hBAdds⟩
    intro C hC
    rcases List.mem_append.1 hC with hC | hC
    · exact Or.inl (hA C hC)
    · right
      unfold FProcessor.SharedCandidates
      simp only [hE, Bool.false_eq_true, if_false]
      exact hB C hC
theorem FProcessor.ProcessSinglePoint_Adds (E : FEngine) (P : FProcessor) (Index : Nat)
    (Point : FPCGPoint) (Scope : FScope) (hgen : ReadFlag E P.CanGenerate Index = true)
    (hc : ∀ Op ∈ P.ChainProbeOperations, Op.FollowsProtocol)
    (hs : ∀ Op ∈ P.SharedProbeOperations, Op.FollowsProtocol)
    (hd : ∀ Op ∈ P.DirectProbes, Op.FollowsProtocol) :
    ∃ Searched Direct Left U,
      (P.ProcessSinglePoint E Index Point Scope).1
        = { P with ScopedEdges := P.ScopedEdges.Put Scope U }
      ∧ (∀ C ∈ Searched, C ∈ P.Discovered E Index ∨ C ∈ P.SharedCandidates E Index)
      ∧ (P.SearchProbes.isEmpty = true → Searched = [])
      ∧ (P.DirectProbes = [] → Direct = [])
      ∧ ProbeAdds Index (if P.bPreventCoincidence then some TSet.Empty else none)
          (P.ScopedEdges.Get Scope) Left U (Searched ++ Direct) := by
  unfold FProcessor.ProcessSinglePoint
  simp only [hgen, Bool.not_true, Bool.false_eq_true, if_false]
  generalize hS0 : (⟨if P.bPreventCoincidence then some TSet.Empty else none,
    P.ScopedEdges.Get Scope,
    if P.NumChainedOps > 0 then
      P.ChainProbeOperations.enum.map
        (fun x => FCall.PrepareBestCandidate x.1 Index (P.PointCopy E Index Point))
    else []⟩ : FProbeState) = S0
  have h0 : S0.Coincidence = (if P.bPreventCoincidence then some TSet.Empty else none)
      ∧ S0.UniqueEdges = P.ScopedEdges.Get Scope := by
    rw [← hS0]
    exact ⟨rfl, rfl⟩
  have e1 : ∃ A, (∀ C ∈ A, C ∈ P.Discovered E Index ∨ C ∈ P.SharedCandidates E Index)
      ∧ (P.SearchProbes.isEmpty = true → A = [])
      ∧ ProbeAdds Index S0.Coincidence S0.UniqueEdges
        (if (!P.SearchProbes.isEmpty) = true then
          P.SearchPass E Index (P.PointCopy E Index Point)
            (if P.NumChainedOps > 0 then
              P.ChainProbeOperations.enum.map (fun x =>
                x.2.PrepareBestCandidate Index (P.PointCopy E Index Point)
                  FBestCandidate.Default)
            else []) S0
        else S0).Coincidence
        (if (!P.SearchProbes.isEmpty) = true then
          P.SearchPass E Index (P.PointCopy E Index Point)
            (if P.NumChainedOps > 0 then
              P.ChainProbeOperations.enum.map (fun x =>
                x.2.PrepareBestCandidate Index (P.PointCopy E Index Point)
                  FBestCandidate.Default)
            else []) S0
        else S0).UniqueEdges A := by
    cases hEmp : P.SearchProbes.isEmpty
    · simp only [Bool.not_false, if_true]
      obtain ⟨A, hA, hAdds⟩ := FProcessor.SearchPass_Adds E P Index (P.PointCopy E Index Point)
        (if P.NumChainedOps > 0 then
          P.ChainProbeOperations.enum.map (fun x =>
            x.2.PrepareBestCandidate Index (P.PointCopy E Index Point) FBestCandidate.Default)
        else []) S0 hc hs
      exact ⟨A, hA, fun h => Bool.noConfusion h, hAdds⟩
    · simp only [Bool.not_true, Bool.false_eq_true, if_false]
      exact ⟨[], fun C hC => absurd hC (List.not_mem_nil C), fun _ => rfl,
        ProbeAdds_refl _ _ _⟩
  generalize (if (!P.SearchProbes.isEmpty) = true then _ else S0) = S1 at e1 ⊢
  obtain ⟨A, hA, hAnil, hAdds⟩ := e1
  rw [h0.1, h0.2] at hAdds
  have e2 : ∃ B, (P.DirectProbes = [] → B = [])
      ∧ ProbeAdds Index S1.Coincidence S1.UniqueEdges
        (P.DirectProbes.enum.foldl
          (fun S x => S.Apply (FCall.ProcessNode x.1 Index (P.PointCopy E Index Point))
            (x.2.ProcessNode Index (P.PointCopy E Index Point) S.Coincidence
              P.CWCoincidenceTolerance S.UniqueEdges P.AcceptConnections)) S1).Coincidence
        (P.DirectProbes.enum.foldl
          (fun S x => S.Apply (FCall.ProcessNode x.1 Index (P.PointCopy E Index Point))
            (x.2.ProcessNode Index (P.PointCopy E Index Point) S.Coincidence
              P.CWCoincidenceTolerance S.UniqueEdges P.AcceptConnections)) S1).UniqueEdges
        B := by
    by_cases hnil : P.DirectProbes = []
    · rw [hnil]
      exact ⟨[], fun _ => rfl, ProbeAdds_refl _ _ _⟩
    · obtain ⟨B, -, hB⟩ := ProbeAdds_fold Index (fun _ => True) P.DirectProbes.enum
        (fun x => FCall.ProcessNode x.1 Index (P.PointCopy E Index Point))
        (fun x c e => x.2.ProcessNode Index (P.PointCopy E Index Point) c
          P.CWCoincidenceTolerance e P.AcceptConnections)
        (by
          intro x hx
          obtain ⟨prog, hp⟩ := (hd x.2 (enum_snd_mem _ x hx)).2.2 Index
            (P.PointCopy E Index Point) P.CWCoincidenceTolerance P.AcceptConnections
          exact ⟨prog, fun _ _ _ _ => trivial, hp⟩) S1
      exact ⟨B, fun h => absurd h hnil, hB⟩
  obtain ⟨B, hBnil, hBAdds⟩ := e2
  exact ⟨A, B, _, _, rfl, hA, hAnil, hBnil, ProbeAdds_trans hAdds hBAdds⟩

theorem filterMap_Sets_length (l : List FCall) :
    (l.filterMap FCall.Sets).length
      = (l.map FCall.EraseSets).countP (fun c => (FCall.Sets c).isSome) := by
  induction l with
  | nil => rfl
  | cons c l ih =>
    rw [List.map_cons, List.countP_cons, ← ih]
    cases c <;> simp [FCall.Sets, FCall.EraseSets, List.filterMap_cons]

theorem countP_eq_zero_of {α : Type} (p : α → Bool) (l : List α) (h : ∀ a ∈ l, p a = false) :
    l.countP p = 0 := by
  rw [List.countP_eq_zero]
  intro a ha
  rw [h a ha]
  exact Bool.false_ne_true

theorem countP_eq_length_of {α : Type} (p : α → Bool) (l : List α) (h : ∀ a ∈ l, p a = true) :
    l.countP p = l.length :=
  List.countP_eq_length.2 h

theorem FProcessor.ExpectedCalls_countP_sets (E : FEngine) (P : FProcessor) (Index : Nat)
    (Point : FPCGPoint) :
    (P.ExpectedCalls E Index Point).countP (fun c => (FCall.Sets c).isSome)
      = (if P.SearchProbes.isEmpty then 0
          else P.ChainProbeOperations.length + P.SharedProbeOperations.length)
        + P.DirectProbes.length := by
  unfold FProcessor.ExpectedCalls
  simp only [List.countP_append]
  rw [countP_eq_zero_of _ (P.ChainProbeOperations.enum.map _),
    countP_eq_length_of _ (P.DirectProbes.enum.map _)]
  · rw [List.length_map, List.enum_length, Nat.zero_add]
    congr 1
    by_cases hS : P.SearchProbes.isEmpty = true
    · simp [hS]
    · simp only [hS, Bool.false_eq_true, if_false, List.countP_append]
      rw [countP_eq_zero_of _ (P.ChainedCalls _ _ _),
        countP_eq_length_of _ (P.ChainProbeOperations.enum.map _),
        countP_eq_zero_of _ (if (P.Discovered E Index).isEmpty then [] else _),
        countP_eq_length_of _ (P.SharedProbeOperations.enum.map _)]
      · simp [FCall.Sets]
      · intro a ha
        obtain ⟨_, _, rfl⟩ := List.mem_map.1 ha
        rfl
      · intro a ha
        split at ha
        · cases ha
        · rw [List.mem_singleton.1 ha]; rfl
      · intro a ha
        obtain ⟨_, _, rfl⟩ := List.mem_map.1 ha
        rfl
      · intro a ha
        rw [(FProcessor.ChainedCalls_plain P _ 0 _).2 a ha]
        rfl
  · intro a ha
    obtain ⟨_, _, rfl⟩ := List.mem_map.1 ha
    rfl
  · intro a ha
    obtain ⟨_, _, rfl⟩ := List.mem_map.1 ha
    rfl

theorem FProbeProgram.TryAll_Within (l Cs : List FCandidate) (h : ∀ C ∈ l, C ∈ Cs) :
    (FProbeProgram.TryAll l).Within Cs := by
  induction l with
  | nil => exact trivial
  | cons C l ih =>
    exact ⟨h C (List.mem_cons_self _ _), fun _ => ih (fun D hD => h D (List.mem_cons_of_mem _ hD))⟩

theorem SceneSharedProbe_FollowsProtocol : SceneSharedProbe.FollowsProtocol := by
  refine ⟨?_, ?_, ?_⟩
  · intro Index PointCopy Best Cands Tol
    exact ⟨.Done, trivial, fun c e => rfl⟩
  · intro Index PointCopy Cands Tol
    exact ⟨FProbeProgram.TryAll Cands, FProbeProgram.TryAll_Within _ _ (fun _ h => h),
      fun c e => rfl⟩
  · intro Index PointCopy Tol Accept
    exact ⟨.Done, fun c e => rfl⟩

theorem SceneChainedProbe_FollowsProtocol : SceneChainedProbe.FollowsProtocol := by
  refine ⟨?_, ?_, ?_⟩
  · intro Index PointCopy Best Cands Tol
    cases hC : Cands[Best.BestIndex.toNat]? with
    | none =>
      refine ⟨.Done, trivial, fun c e => ?_⟩
      show (match Cands[Best.BestIndex.toNat]? with
        | some C => if Best.BestIndex < 0 then (c.getD TSet.Empty, e)
          else (TryConnect Index C c e).1
        | none => (c.getD TSet.Empty, e)) = _
      rw [hC]
      rfl
    | some C =>
      by_cases hneg : Best.BestIndex < 0
      · refine ⟨.Done, trivial, fun c e => ?_⟩
        show (match Cands[Best.BestIndex.toNat]? with
          | some C => if Best.BestIndex < 0 then (c.getD TSet.Empty, e)
            else (TryConnect Index C c e).1
          | none => (c.getD TSet.Empty, e)) = _
        rw [hC]
        simp only [hneg, if_true]
        rfl
      · refine ⟨.Try C (fun _ => .Done),
          ⟨List.mem_iff_getElem?.2 ⟨_, hC⟩, fun _ => trivial⟩, fun c e => ?_⟩
        show (match Cands[Best.BestIndex.toNat]? with
          | some C => if Best.BestIndex < 0 then (c.getD TSet.Empty, e)
            else (TryConnect Index C c e).1
          | none => (c.getD TSet.Empty, e)) = _
        rw [hC]
        simp only [hneg, if_false]
        cases c <;> rfl
  · intro Index PointCopy Cands Tol
    exact ⟨.Done, trivial, fun c e => rfl⟩
  · intro Index PointCopy Tol Accept
    exact ⟨.Done, fun c e => rfl⟩

theorem H64U_inj_right (a b c : Nat) (ha : a < 2 ^ 32) (hb : b < 2 ^ 32) (hc : c < 2 ^ 32)
    (h : H64U a b = H64U a c) : b = c := by
  have hmax : max a b < 2 ^ 32 := by omega
  have hmax2 : max a c < 2 ^ 32 := by omega
  have h1 := congrArg H64A h
  have h2 := congrArg H64B h
  unfold H64U at h1 h2
  rw [H64A_H64 _ _ hmax, H64A_H64 _ _ hmax2] at h1
  rw [H64B_H64 _ _ hmax, H64B_H64 _ _ hmax2] at h2
  have h3 : (min a b : Nat) = min a c := h1
  have h4 : (max a b : Nat) = max a c := h2
  omega

theorem TScopedSet.Get_Put_self {α : Type} [DecidableEq α] (s : TScopedSet α) (Scope : FScope)
    (v : TSet α) (h : Scope.LoopIndex < s.Sets.length) : (s.Put Scope v).Get Scope = v := by
  unfold TScopedSet.Get TScopedSet.Put
  rw [List.getD_eq_getElem?_getD, List.getElem?_set_self h]
  rfl

/-- C8.  For a generator point, `ProcessSinglePoint` hands every probe call the same rejection
set: with coincidence prevention enabled the first probe called is handed the empty set, every
later one the set as the call before it left it, and no call is handed a null pointer; with
prevention disabled every probe call is handed a null pointer.  These calls are one per chained
and shared probe when there are search probes, and one per direct probe.  The bucket of a
collected candidate is the quantized direction when prevention is enabled and the zero vector
when it is disabled.  When the probes follow the coincidence protocol, the edge set
`ProcessSinglePoint` stores for the scope holds what the set of the scope held before and the
edges towards the candidates whose edge a probe added, and nothing else; the search probes add
no candidate but those they are handed; and with prevention enabled no two of the candidates
whose edge was added have the same bucket, whichever probes added them.  So with prevention
enabled and search probes only, two different collected candidates of equal bucket do not both
get an edge: of the keys of their edges, at most one is new in the set of the scope.  For
probes that share
a rejection set that starts empty the same holds of the runs of their programs; handed no
rejection set, a probe that tries two candidates adds both, whatever their buckets, and handed
the empty set it adds only the first of two candidates of equal bucket. -/
theorem ConnectPoints_coincidence_prevention (E : FEngine) (P : FProcessor) (Index : Nat)
    (Point : FPCGPoint) (Scope : FScope) (hgen : ReadFlag E P.CanGenerate Index = true) :
    Threaded (if P.bPreventCoincidence then some TSet.Empty else none)
        ((P.ProcessSinglePoint E Index Point Scope).2.filterMap FCall.Sets)
    ∧ (∀ c ∈ (P.ProcessSinglePoint E Index Point Scope).2.filterMap FCall.Sets,
        c.1.isSome = P.bPreventCoincidence)
    ∧ ((P.ProcessSinglePoint E Index Point Scope).2.filterMap FCall.Sets).length
        = (if P.SearchProbes.isEmpty then 0
            else P.ChainProbeOperations.length + P.SharedProbeOperations.length)
          + P.DirectProbes.length
    ∧ (∀ PointCopy Best Calls, ∀ c ∈ P.Collected E Index PointCopy Best Calls,
        c.GH = if P.bPreventCoincidence then E.I323 c.Direction P.CWCoincidenceTolerance
          else FInt32Vector.ZeroValue)
    ∧ (∀ c ∈ P.Discovered E Index,
        c.GH = if P.bPreventCoincidence then E.I323 c.Direction P.CWCoincidenceTolerance
          else FInt32Vector.ZeroValue)
    ∧ ((∀ Op ∈ P.ChainProbeOperations ++ P.SharedProbeOperations ++ P.DirectProbes,
          Op.FollowsProtocol) →
        ∃ Searched Direct U,
          (P.ProcessSinglePoint E Index Point Scope).1
            = { P with ScopedEdges := P.ScopedEdges.Put Scope U }
          ∧ (∀ C ∈ Searched, C ∈ P.Discovered E Index ∨ C ∈ P.SharedCandidates E Index)
          ∧ (P.SearchProbes.isEmpty = true → Searched = [])
          ∧ (P.DirectProbes = [] → Direct = [])
          ∧ (∀ k, k ∈ U.Elements ↔
              k ∈ (P.ScopedEdges.Get Scope).Elements
              ∨ ∃ C ∈ Searched ++ Direct, k = H64U Index C.PointIndex)
          ∧ (P.bPreventCoincidence = true →
              ((Searched ++ Direct).map (fun C => C.GH)).Nodup)
          ∧ (P.bPreventCoincidence = true →
              ∀ C1 ∈ Searched ++ Direct, ∀ C2 ∈ Searched ++ Direct, C1.GH = C2.GH → C1 = C2)
          ∧ (Scope.LoopIndex < P.ScopedEdges.Sets.length →
              (P.ProcessSinglePoint E Index Point Scope).1.ScopedEdges.Get Scope = U))
    ∧ ((∀ Op ∈ P.ChainProbeOperations ++ P.SharedProbeOperations ++ P.DirectProbes,
          Op.FollowsProtocol) →
        P.bPreventCoincidence = true → P.DirectProbes = [] →
        Scope.LoopIndex < P.ScopedEdges.Sets.length →
        (∀ C ∈ P.SharedCandidates E Index, C ∈ P.Discovered E Index) →
        (∀ C ∈ P.Discovered E Index, ∀ D ∈ P.Discovered E Index,
          C.PointIndex = D.PointIndex → C = D) →
        Index < 2 ^ 32 → (∀ C ∈ P.Discovered E Index, C.PointIndex < 2 ^ 32) →
        ∀ C1 ∈ P.Discovered E Index, ∀ C2 ∈ P.Discovered E Index, C1 ≠ C2 → C1.GH = C2.GH →
          H64U Index C1.PointIndex ∉ (P.ScopedEdges.Get Scope).Elements →
          H64U Index C2.PointIndex ∉ (P.ScopedEdges.Get Scope).Elements →
          ¬ (H64U Index C1.PointIndex
                ∈ ((P.ProcessSinglePoint E Index Point Scope).1.ScopedEdges.Get Scope).Elements
              ∧ H64U Index C2.PointIndex
                ∈ ((P.ProcessSinglePoint E Index Point Scope).1.ScopedEdges.Get Scope).Elements))
    ∧ (∀ (Source : Nat) (progs : List FProbeProgram) (e : TSet uint64),
        ((FProbeProgram.RunAll Source progs (some TSet.Empty) e).2.map (fun C => C.GH)).Nodup
        ∧ (∀ k, k ∈ (FProbeProgram.RunAll Source progs (some TSet.Empty) e).1.2.Elements ↔
            k ∈ e.Elements
            ∨ ∃ C ∈ (FProbeProgram.RunAll Source progs (some TSet.Empty) e).2,
                k = H64U Source C.PointIndex))
    ∧ (∀ (Source : Nat) (C1 C2 : FCandidate) (e : TSet uint64),
        ((FProbeProgram.TryAll [C1, C2]).Run Source none e).2 = [C1, C2]
        ∧ (C1.GH = C2.GH →
            ((FProbeProgram.TryAll [C1, C2]).Run Source (some TSet.Empty) e).2 = [C1])) := by
  obtain ⟨R, hR, hCalls, -, T, hT1, hT2, hT3, -⟩ :=
    FProcessor.ProcessSinglePoint_generator E P Index Point Scope hgen
  simp only [List.filterMap_nil, List.nil_append] at hT1
  simp only [List.map_nil, List.nil_append] at hCalls
  have hDisc : ∀ c ∈ P.Discovered E Index,
      c.GH = if P.bPreventCoincidence then E.I323 c.Direction P.CWCoincidenceTolerance
        else FInt32Vector.ZeroValue := by
    intro c hc
    unfold FProcessor.Discovered at hc
    obtain ⟨Item, -, rfl⟩ := List.mem_map.1 hc
    rfl
  have hBlock : (∀ Op ∈ P.ChainProbeOperations ++ P.SharedProbeOperations ++ P.DirectProbes,
        Op.FollowsProtocol) →
      ∃ Searched Direct U,
        (P.ProcessSinglePoint E Index Point Scope).1
          = { P with ScopedEdges := P.ScopedEdges.Put Scope U }
        ∧ (∀ C ∈ Searched, C ∈ P.Discovered E Index ∨ C ∈ P.SharedCandidates E Index)
        ∧ (P.SearchProbes.isEmpty = true → Searched = [])
        ∧ (P.DirectProbes = [] → Direct = [])
        ∧ (∀ k, k ∈ U.Elements ↔
            k ∈ (P.ScopedEdges.Get Scope).Elements
            ∨ ∃ C ∈ Searched ++ Direct, k = H64U Index C.PointIndex)
        ∧ (P.bPreventCoincidence = true →
            ((Searched ++ Direct).map (fun C => C.GH)).Nodup)
        ∧ (P.bPreventCoincidence = true →
            ∀ C1 ∈ Searched ++ Direct, ∀ C2 ∈ Searched ++ Direct, C1.GH = C2.GH → C1 = C2)
        ∧ (Scope.LoopIndex < P.ScopedEdges.Sets.length →
            (P.ProcessSinglePoint E Index Point Scope).1.ScopedEdges.Get Scope = U) := by
    intro hprot
    obtain ⟨Searched, Direct, Left, U, hU, hS, hSn, hDn, hA1, hA2, hA3⟩ :=
      FProcessor.ProcessSinglePoint_Adds E P Index Point Scope hgen
        (fun Op hOp => hprot Op (List.mem_append_left _ (List.mem_append_left _ hOp)))
        (fun Op hOp => hprot Op (List.mem_append_left _ (List.mem_append_right _ hOp)))
        (fun Op hOp => hprot Op (List.mem_append_right _ hOp))
    have hNd : P.bPreventCoincidence = true →
        ((Searched ++ Direct).map (fun C => C.GH)).Nodup := by
      intro hb
      rw [hb] at hA2
      obtain ⟨t, -, ht⟩ := hA2 TSet.Empty rfl
      have := t.nodup
      rw [ht] at this
      simpa [TSet.Empty] using this
    refine ⟨Searched, Direct, U, hU, hS, hSn, hDn, hA3, hNd,
      fun hb C1 h1 C2 h2 hEq => List.inj_on_of_nodup_map (hNd hb) h1 h2 hEq, ?_⟩
    intro hlen
    rw [hU]
    exact TScopedSet.Get_Put_self _ _ _ hlen
  refine ⟨?_, ?_, ?_, ?_, hDisc, hBlock, ?_, ?_, ?_⟩
  · rw [hR]
    show Threaded _ (List.filterMap FCall.Sets R.Calls)
    rw [hT1]
    exact hT2
  · rw [hR]
    show ∀ c ∈ List.filterMap FCall.Sets R.Calls, _
    rw [hT1]
    intro c hc
    rw [hT3 c hc]
    cases P.bPreventCoincidence <;> rfl
  · rw [hR]
    show (List.filterMap FCall.Sets R.Calls).length = _
    rw [filterMap_Sets_length, hCalls, FProcessor.ExpectedCalls_countP_sets]
  · intro PointCopy Best Calls c hc
    rw [FProcessor.Collected_eq_Discovered] at hc
    exact hDisc c hc
  · intro hprot hb hdir hlen hsort huniq hI hbound C1 hC1 C2 hC2 hne hEq hn1 hn2 hboth
    obtain ⟨Searched, Direct, U, -, hS, -, hDn, hIff, -, hInj, hGet⟩ := hBlock hprot
    rw [hGet hlen] at hboth
    have hDnil := hDn hdir
    rw [hDnil, List.append_nil] at hIff hInj
    have hin : ∀ C ∈ P.Discovered E Index,
        H64U Index C.PointIndex ∉ (P.ScopedEdges.Get Scope).Elements →
        H64U Index C.PointIndex ∈ U.Elements → C ∈ Searched := by
      intro C hC hn hk
      rcases (hIff _).1 hk with hk | ⟨D, hD, hkD⟩
      · exact absurd hk hn
      · have hDd : D ∈ P.Discovered E Index := by
          rcases hS D hD with h | h
          · exact h
          · exact hsort D h
        have hpi : C.PointIndex = D.PointIndex :=
          H64U_inj_right Index _ _ hI (hbound C hC) (hbound D hDd) hkD
        rw [huniq C hC D hDd hpi]
        exact hD
    exact hne (hInj hb C1 (hin C1 hC1 hn1 hboth.1) C2 (hin C2 hC2 hn2 hboth.2) hEq)
  · intro Source progs e
    obtain ⟨t, ht1, ht2, ht3⟩ := FProbeProgram.RunAll_some Source progs TSet.Empty e
    refine ⟨?_, ht3⟩
    have := t.nodup
    rw [ht2] at this
    simpa [TSet.Empty] using this
  · intro Source C1 C2 e
    refine ⟨FProbeProgram.TryAll_Run_none Source [C1, C2] e, fun hEq => ?_⟩
    simp [FProbeProgram.TryAll, FProbeProgram.Run, TryConnect, TSet.Contains, TSet.Empty,
      TSet.Add, hEq]

theorem ConnectPoints_coincidence_prevention_witness :
    (∃ P, FProcessor.Prepared (SceneEngine StableSort) ⟨true, false⟩ SceneContextSearch
        SceneFacade = some P
      ∧ ReadFlag (SceneEngine StableSort) P.CanGenerate 0 = true
      ∧ P.bPreventCoincidence = true
      ∧ (∀ Op ∈ P.ChainProbeOperations ++ P.SharedProbeOperations ++ P.DirectProbes,
          Op.FollowsProtocol)
      ∧ ((P.ProcessSinglePoint (SceneEngine StableSort) 0 (ScenePoint 0 0 0)
            ⟨0, 2, 0⟩).2.filterMap FCall.Sets).length = 2
      ∧ Threaded (some TSet.Empty)
          ((P.ProcessSinglePoint (SceneEngine StableSort) 0 (ScenePoint 0 0 0)
            ⟨0, 2, 0⟩).2.filterMap FCall.Sets)
      ∧ (P.Discovered (SceneEngine StableSort) 0).map (fun C => (C.PointIndex, C.GH))
          = [(1, ⟨-100, 0, 0⟩), (2, ⟨0, -100, 0⟩), (3, ⟨-100, 0, 0⟩)]
      ∧ ((P.ProcessSinglePoint (SceneEngine StableSort) 0 (ScenePoint 0 0 0)
            ⟨0, 2, 0⟩).1.ScopedEdges.Get ⟨0, 2, 0⟩).Elements = [H64U 0 3, H64U 0 2]
      ∧ ¬ (H64U 0 1
            ∈ ((P.ProcessSinglePoint (SceneEngine StableSort) 0 (ScenePoint 0 0 0)
              ⟨0, 2, 0⟩).1.ScopedEdges.Get ⟨0, 2, 0⟩).Elements
          ∧ H64U 0 3
            ∈ ((P.ProcessSinglePoint (SceneEngine StableSort) 0 (ScenePoint 0 0 0)
              ⟨0, 2, 0⟩).1.ScopedEdges.Get ⟨0, 2, 0⟩).Elements)
      ∧ ∃ (Searched Direct : List FCandidate) (U : TSet uint64),
          (P.ProcessSinglePoint (SceneEngine StableSort) 0 (ScenePoint 0 0 0) ⟨0, 2, 0⟩).1
            = { P with ScopedEdges := P.ScopedEdges.Put ⟨0, 2, 0⟩ U }
          ∧ Direct = []
          ∧ (∀ k, k ∈ U.Elements ↔
              k ∈ (P.ScopedEdges.Get ⟨0, 2, 0⟩).Elements
              ∨ ∃ C ∈ Searched ++ Direct, k = H64U 0 C.PointIndex)
          ∧ ((Searched ++ Direct).map (fun C => C.GH)).Nodup)
    ∧ (FProcessor.Prepared (SceneEngine StableSort) ⟨false, false⟩ SceneContextSearch
        SceneFacade).map
        (fun P =>
          (((P.ProcessSinglePoint (SceneEngine StableSort) 0 (ScenePoint 0 0 0)
              ⟨0, 2, 0⟩).1.ScopedEdges.Get ⟨0, 2, 0⟩).Elements,
            (P.Discovered (SceneEngine StableSort) 0).map (fun C => (C.PointIndex, C.GH)),
            ((P.ProcessSinglePoint (SceneEngine StableSort) 0 (ScenePoint 0 0 0)
              ⟨0, 2, 0⟩).2.filterMap FCall.Sets).map (fun c => c.1.isSome)))
      = some ([H64U 0 3, H64U 0 1, H64U 0 2],
          [(1, FInt32Vector.ZeroValue), (2, FInt32Vector.ZeroValue),
            (3, FInt32Vector.ZeroValue)],
          [false, false]) := by
  have h1 : (FProcessor.Prepared (SceneEngine StableSort) ⟨true, false⟩ SceneContextSearch
      SceneFacade).isSome = true := by decide
  obtain ⟨P, hP⟩ := Option.isSome_iff_exists.1 h1
  have hg : ReadFlag (SceneEngine StableSort) P.CanGenerate 0 = true :=
    FProcessor.Prepared_CanGenerate _ _ _ _ P hP 0 (by decide)
  obtain ⟨hD, hS, hC, hSh, hb, -⟩ := FProcessor.Prepared_spec _ _ _ _ P hP
  have hC2 : P.ChainProbeOperations = [SceneChainedProbe] := by rw [hC]; rfl
  have hSh2 : P.SharedProbeOperations = [SceneSharedProbe] := by rw [hSh]; rfl
  have hD2 : P.DirectProbes = [] := by rw [hD]; rfl
  have hS2 : P.SearchProbes.isEmpty = false := by rw [hS]; rfl
  have hprot : ∀ Op ∈ P.ChainProbeOperations ++ P.SharedProbeOperations ++ P.DirectProbes,
      Op.FollowsProtocol := by
    intro Op hOp
    rw [hC2, hSh2, hD2] at hOp
    simp only [List.append_nil, List.singleton_append, List.mem_cons, List.mem_singleton,
      List.not_mem_nil, or_false] at hOp
    rcases hOp with rfl | rfl
    · exact SceneChainedProbe_FollowsProtocol
    · exact SceneSharedProbe_FollowsProtocol
  have hDisc : (FProcessor.Prepared (SceneEngine StableSort) ⟨true, false⟩ SceneContextSearch
      SceneFacade).map (fun P =>
        (P.Discovered (SceneEngine StableSort) 0).map (fun C => (C.PointIndex, C.GH)))
      = some [(1, ⟨-100, 0, 0⟩), (2, ⟨0, -100, 0⟩), (3, ⟨-100, 0, 0⟩)] := by decide
  have hEdges : (FProcessor.Prepared (SceneEngine StableSort) ⟨true, false⟩ SceneContextSearch
      SceneFacade).map (fun P =>
        ((P.ProcessSinglePoint (SceneEngine StableSort) 0 (ScenePoint 0 0 0)
          ⟨0, 2, 0⟩).1.ScopedEdges.Get ⟨0, 2, 0⟩).Elements)
      = some [H64U 0 3, H64U 0 2] := by decide
  rw [hP] at hDisc hEdges
  have hFull : (FProcessor.Prepared (SceneEngine StableSort) ⟨true, false⟩ SceneContextSearch
      SceneFacade).map (fun P =>
        (P.Discovered (SceneEngine StableSort) 0, P.SharedCandidates (SceneEngine StableSort) 0,
          (P.ScopedEdges.Get ⟨0, 2, 0⟩).Elements, P.ScopedEdges.Sets.length))
      = some ([⟨1, ⟨-100, 0, 0⟩, 40000, ⟨-100, 0, 0⟩⟩, ⟨2, ⟨0, -100, 0⟩, 40000, ⟨0, -100, 0⟩⟩,
            ⟨3, ⟨-100, 0, 0⟩, 10000, ⟨-100, 0, 0⟩⟩],
          [⟨3, ⟨-100, 0, 0⟩, 10000, ⟨-100, 0, 0⟩⟩, ⟨1, ⟨-100, 0, 0⟩, 40000, ⟨-100, 0, 0⟩⟩,
            ⟨2, ⟨0, -100, 0⟩, 40000, ⟨0, -100, 0⟩⟩],
          [], 2) := by decide
  rw [hP] at hFull
  have hFull := Option.some.inj hFull
  have hDl := congrArg Prod.fst hFull
  have hSl := congrArg (fun x => x.2.1) hFull
  have hEl := congrArg (fun x => x.2.2.1) hFull
  have hLl := congrArg (fun x => x.2.2.2) hFull
  dsimp only at hDl hSl hEl hLl
  obtain ⟨t1, -, t3, -, -, t6, t7, -⟩ := ConnectPoints_coincidence_prevention
    (SceneEngine StableSort) P 0 (ScenePoint 0 0 0) ⟨0, 2, 0⟩ hg
  rw [hb] at t1
  obtain ⟨Searched, Direct, U, hU, -, -, hDn, hIff, hNd, -⟩ := t6 hprot
  have hNot := t7 hprot hb hD2 (by rw [hLl]; decide)
    (by rw [hDl, hSl]; decide) (by rw [hDl]; decide) (by norm_num)
    (by
      rw [hDl]
      intro C hC
      simp only [List.mem_cons, List.mem_singleton, List.not_mem_nil, or_false] at hC
      rcases hC with rfl | rfl | rfl <;> norm_num)
    ⟨1, ⟨-100, 0, 0⟩, 40000, ⟨-100, 0, 0⟩⟩ (by rw [hDl]; decide)
    ⟨3, ⟨-100, 0, 0⟩, 10000, ⟨-100, 0, 0⟩⟩ (by rw [hDl]; decide) (by decide) rfl
    (by rw [hEl]; exact List.not_mem_nil _) (by rw [hEl]; exact List.not_mem_nil _)
  refine ⟨⟨P, hP, hg, hb, hprot, ?_, t1, Option.some.inj hDisc, Option.some.inj hEdges, hNot,
    Searched, Direct, U, hU, hDn hD2, hIff, hNd hb⟩, by decide⟩
  rw [t3, hS2, hC2, hSh2, hD2]
  rfl

end PCGEx
